import Mathlib

/-! # Dokan kernel driver, `sys/create.c`: create dispatch and FCB cache

A shallow embedding of the functions of `sys/create.c`.

* Wide characters (`WCHAR`) are natural numbers; `0` is the terminator and
  `92` is the path separator.
* A `WCHAR *` argument is the list of wide characters found at the pointer;
  a C string is the part of it before the first `0`.
* `NTSTATUS` values are their 32-bit patterns.
* Calls into the Windows kernel (pool allocation, share access, oplocks) are
  not part of the repository: their results are read from an oracle argument
  and the calls with side effects are appended to a trace.
-/

namespace Dokan

/-! ## Status codes and constants of the Windows headers -/

abbrev NTSTATUS := Nat

abbrev STATUS_SUCCESS : NTSTATUS := 0x00000000
abbrev STATUS_PENDING : NTSTATUS := 0x00000103
abbrev STATUS_OPLOCK_BREAK_IN_PROGRESS : NTSTATUS := 0x00000108
abbrev STATUS_INVALID_PARAMETER : NTSTATUS := 0xC000000D
abbrev STATUS_NO_SUCH_DEVICE : NTSTATUS := 0xC000000E
abbrev STATUS_NO_SUCH_FILE : NTSTATUS := 0xC000000F
abbrev STATUS_ACCESS_DENIED : NTSTATUS := 0xC0000022
abbrev STATUS_OBJECT_NAME_COLLISION : NTSTATUS := 0xC0000035
abbrev STATUS_SHARING_VIOLATION : NTSTATUS := 0xC0000043
abbrev STATUS_DELETE_PENDING : NTSTATUS := 0xC0000056
abbrev STATUS_INSUFFICIENT_RESOURCES : NTSTATUS := 0xC000009A
abbrev STATUS_MEDIA_WRITE_PROTECTED : NTSTATUS := 0xC00000A2
abbrev STATUS_NOT_A_DIRECTORY : NTSTATUS := 0xC0000103

/-- The macro `NT_SUCCESS`: the status, read as a signed 32-bit value, is not negative. -/
def NT_SUCCESS (s : NTSTATUS) : Bool := decide (s % 2 ^ 32 < 2 ^ 31)

/-- The wide character `L'\\'`. -/
abbrev BACKSLASH : Nat := 92

/-- The wide character `L':'`. -/
abbrev COLON : Nat := 58

/-- The conversion `(LONG)x` of an unsigned value: two's complement on 32 bits. -/
def toLONG (x : Nat) : Int :=
  if x % 2 ^ 32 < 2 ^ 31 then ((x % 2 ^ 32 : Nat) : Int) else ((x % 2 ^ 32 : Nat) : Int) - 2 ^ 32

/-- The conversion `(ULONG)x`. -/
def toULONG (x : Nat) : Nat := x % 2 ^ 32

/-- The conversion `(USHORT)x`. -/
def toUSHORT (x : Nat) : Nat := x % 2 ^ 16

/-! ## C strings -/

/-- The C string at a `WCHAR *`: the characters before the first terminator. -/
def cstr (p : List Nat) : List Nat := p.takeWhile (fun c => c != 0)

/-- The library function `wcslen`. -/
def wcslen (p : List Nat) : Nat := (cstr p).length

/-! ## `DokanGetParentDir` -/

/-- Reads `buf[i]`; `none` when the index is outside the buffer. -/
def bufRead (buf : List Nat) (i : Int) : Option Nat :=
  if 0 ≤ i ∧ i < buf.length then buf[i.toNat]? else none

/-- Executes `buf[i] = v`; `none` when the index is outside the buffer. -/
def bufWrite (buf : List Nat) (i : Int) (v : Nat) : Option (List Nat) :=
  if 0 ≤ i ∧ i < buf.length then some (buf.set i.toNat v) else none

/-- The library function `RtlStringCchCopyW (dest, cchDest, src)` on a destination
buffer: at most `cchDest - 1` characters of the source string are copied and a
terminator is written after them; nothing is written when `cchDest` is `0`. -/
def RtlStringCchCopyW (dest : List Nat) (cchDest : Nat) (src : List Nat) : Option (List Nat) :=
  if cchDest = 0 then some dest
  else
    let body := (cstr src).take (cchDest - 1)
    if body.length + 1 ≤ dest.length then
      some (body ++ 0 :: dest.drop (body.length + 1))
    else none

/-- The loop `for (i = len - 1; i >= 0; i--)` of `DokanGetParentDir`, entered with
`i = k - 1`. It returns the buffer and the value of `i` when the loop is left:
the index of the separator that was overwritten, or `-1`. -/
def parentScan (trailingSlash : Bool) (len : Int) : Nat → List Nat → Option (List Nat × Int)
  | 0, buf => some (buf, -1)
  | k + 1, buf =>
    match bufRead buf (k : Int) with
    | none => none
    | some c =>
      if c = BACKSLASH then
        if (k : Int) = len - 1 ∧ trailingSlash = true then
          parentScan trailingSlash len k buf
        else
          match bufWrite buf (k : Int) 0 with
          | none => none
          | some buf1 => some (buf1, (k : Int))
      else parentScan trailingSlash len k buf

/-- What `DokanGetParentDir` hands back: the status and the two out parameters
(`parentDir = none` is the null pointer). -/
structure ParentDirResult where
  status : NTSTATUS
  parentDir : Option (List Nat)
  parentDirLength : Nat
  deriving DecidableEq, Repr

/-- The part of `DokanGetParentDir` after the loop: the root fix-up, the length and
the trailing separator. -/
def parentFinish (trailingSlash : Bool) (buf : List Nat) (i : Int) : Option ParentDirResult :=
  let fix : Option (List Nat × Int) :=
    if i ≤ 0 then
      match bufWrite buf 0 BACKSLASH with
      | none => none
      | some b1 =>
        match bufWrite b1 1 0 with
        | none => none
        | some b2 => some (b2, 1)
    else some (buf, i)
  match fix with
  | none => none
  | some (buf1, i1) =>
    let parentDirLength := toULONG (i1.toNat * 2)
    if trailingSlash = true ∧ 1 < i1 then
      match bufWrite buf1 i1 BACKSLASH with
      | none => none
      | some b3 =>
        match bufWrite b3 (i1 + 1) 0 with
        | none => none
        | some b4 => some ⟨STATUS_SUCCESS, some b4, toULONG (parentDirLength + 2)⟩
    else some ⟨STATUS_SUCCESS, some buf1, parentDirLength⟩

/-- The function `DokanGetParentDir (fileName, parentDir, parentDirLength)`.
`allocOk` tells whether `DokanAllocZero` returns a buffer. The result is `none`
when the function would read or write outside a buffer, or when `len + 1`
overflows the type `LONG`. -/
def DokanGetParentDir (fileName : List Nat) (allocOk : Bool) : Option ParentDirResult :=
  let len : Int := toLONG (wcslen fileName)
  if len < 1 then some ⟨STATUS_INVALID_PARAMETER, none, 0⟩
  else if cstr fileName = [BACKSLASH] then some ⟨STATUS_ACCESS_DENIED, none, 0⟩
  else
    match bufRead fileName (len - 1) with
    | none => none
    | some last =>
      let trailingSlash : Bool := decide (last = BACKSLASH)
      if 2 ^ 31 ≤ len + 1 then none
      else if allocOk = false then some ⟨STATUS_INSUFFICIENT_RESOURCES, none, 0⟩
      else
        let buf0 : List Nat := List.replicate (len + 1).toNat 0
        match RtlStringCchCopyW buf0 len.toNat fileName with
        | none => none
        | some buf1 =>
          match parentScan trailingSlash len len.toNat buf1 with
          | none => none
          | some (buf2, i) => parentFinish trailingSlash buf2 i


/-! ## `DokanStringChar` -/

/-- The loop of `DokanStringChar`, entered at index `i` with `n` characters left:
the index of the first occurrence of `Char`, or `-1`. -/
def DokanStringCharFrom (String : List Nat) (Char : Nat) (i : Nat) : Nat → Int
  | 0 => -1
  | n + 1 =>
    if String.getD i 0 = Char then (i : Int)
    else DokanStringCharFrom String Char (i + 1) n

/-- The function `DokanStringChar (String, Length, Char)`, `Length` in bytes. -/
def DokanStringChar (String : List Nat) (Length : Nat) (Char : Nat) : Int :=
  DokanStringCharFrom String Char 0 (Length / 2)

/-! ## The driver's objects -/

/-- The identity tags of `FSD_IDENTIFIER_TYPE` (declared in `dokan.h`); `ZEROED` is
the tag of memory that was zero-filled and not yet tagged. -/
inductive FSD_IDENTIFIER_TYPE where
  | ZEROED
  | DGL
  | DCB
  | VCB
  | FCB
  | CCB
  | FREED_FCB
  deriving DecidableEq, Repr

/-- The flag bits of an FCB or a CCB that `create.c` reads or writes
(`DOKAN_FILE_DIRECTORY`, `DOKAN_FILE_OPENED`, `DOKAN_DELETE_ON_CLOSE`,
`DOKAN_RETRY_CREATE`, declared in `dokan.h` and `public.h`); `Others` holds the
remaining bits. -/
structure DokanFlags where
  FILE_DIRECTORY : Bool := false
  FILE_OPENED : Bool := false
  DELETE_ON_CLOSE : Bool := false
  RETRY_CREATE : Bool := false
  Others : Nat := 0
  deriving DecidableEq, Repr

/-- A counted string `UNICODE_STRING`: `Length` and `MaximumLength` are `USHORT`
byte counts, `Buffer` is the memory at the pointer (`none` for `NULL`). -/
structure UNICODE_STRING where
  Length : Nat := 0
  MaximumLength : Nat := 0
  Buffer : Option (List Nat) := none
  deriving DecidableEq, Repr

/-- The characters a counted string denotes: the first `Length / 2` of the buffer. -/
def UNICODE_STRING.chars (s : UNICODE_STRING) : List Nat :=
  (s.Buffer.getD []).take (s.Length / 2)

/-- The kernel function `RtlEqualUnicodeString`: same length and same characters,
after `upcase` when the comparison ignores case. -/
def RtlEqualUnicodeString (upcase : Nat → Nat) (s1 s2 : UNICODE_STRING)
    (CaseInSensitive : Bool) : Bool :=
  decide (s1.Length = s2.Length) &&
    (if CaseInSensitive then decide (s1.chars.map upcase = s2.chars.map upcase)
     else decide (s1.chars = s2.chars))

/-- The enumeration `FAST_IO_POSSIBLE`. -/
inductive FAST_IO_POSSIBLE where
  | FastIoIsNotPossible
  | FastIoIsPossible
  | FastIoIsQuestionable
  deriving DecidableEq, Repr

/-- The fields of `DokanFCB` used by `create.c`. `NextCCB` lists the addresses of the
CCBs linked to the block; `OplockInitialized` and `HasResource` record
`FsRtlInitializeOplock` and the allocated `ERESOURCE`. `Identifier.Size`, which
`create.c` writes and never reads, is left out, as are the locks. -/
structure DokanFCB where
  IdentifierType : FSD_IDENTIFIER_TYPE := FSD_IDENTIFIER_TYPE.ZEROED
  FileName : UNICODE_STRING := {}
  FileCount : Int := 0
  Flags : DokanFlags := {}
  NextCCB : List Nat := []
  IsKeepalive : Bool := false
  BlockUserModeDispatch : Bool := false
  ValidDataLength : Int := 0
  AllocationSize : Int := 0
  FileSize : Int := 0
  IsFastIoPossible : FAST_IO_POSSIBLE := FAST_IO_POSSIBLE.FastIoIsNotPossible
  HasResource : Bool := false
  OplockInitialized : Bool := false
  deriving DecidableEq, Repr

instance : Inhabited DokanFCB := ⟨{}⟩

/-- The fields of `DokanCCB` used by `create.c`. `Linked` tells whether the entry
`NextCCB` of the CCB is linked into a list (`IsListEmpty` is false). -/
structure DokanCCB where
  IdentifierType : FSD_IDENTIFIER_TYPE := FSD_IDENTIFIER_TYPE.ZEROED
  Fcb : Option Nat := none
  Flags : DokanFlags := {}
  Linked : Bool := false
  AtomicOplockRequestPending : Bool := false
  HasSearchPattern : Bool := false
  UserContext : Nat := 0
  MountId : Nat := 0
  ProcessId : Nat := 0
  Freed : Bool := false
  deriving DecidableEq, Repr

instance : Inhabited DokanCCB := ⟨{}⟩

/-- The fields of `DokanVCB`, of its `DokanDCB` and of its device object used by
`create.c`. `NextFCB` is the cache: the addresses of the linked FCBs, head first.
`ReadOnly` is the macro `IS_DEVICE_READ_ONLY` on the device object.
`FcbGarbageCollectionEnabled` and `FcbGarbageList` are the state of the deferred
collection: whether it is enabled, and the blocks parked for deletion. -/
structure DokanVCB where
  IdentifierType : FSD_IDENTIFIER_TYPE := FSD_IDENTIFIER_TYPE.VCB
  NextFCB : List Nat := []
  FcbAllocated : Int := 0
  FcbFreed : Int := 0
  CcbAllocated : Int := 0
  CcbFreed : Int := 0
  FcbAllocations : Nat := 0
  FcbDeletions : Nat := 0
  HasEventWait : Bool := true
  UnmountPending : Bool := false
  ReadOnly : Bool := false
  UseAltStream : Bool := false
  IsNetworkFileSystem : Bool := false
  MountId : Nat := 0
  FcbGarbageCollectionEnabled : Bool := false
  FcbGarbageList : List Nat := []
  deriving DecidableEq, Repr

/-- What the file object's `FsContext` points to. -/
inductive FsContextRef where
  | FcbHeader (fcb : Nat)
  | VolumeFileHeader
  deriving DecidableEq, Repr

/-- The calls with side effects into the kernel and into other files of the driver. -/
inductive Event where
  | LogError (status : NTSTATUS)
  | LogInfo
  | OplockBreakH (fcb : Nat)
  | CheckOplock (fcb : Nat)
  | CheckOplockKey (fcb : Nat)
  | OplockFsctrl (fcb : Nat) (count : Int)
  | BackOutAtomicOplock (fcb : Nat)
  | IoSetShareAccess (fcb : Nat) (DesiredAccess ShareAccess : Nat)
  | IoUpdateShareAccess (fcb : Nat)
  | IoRemoveShareAccess (fcb : Nat)
  | SeDeassignSecurity
  | AllocateEventContext (length : Nat)
  | RegisterPendingIrp
  | FreeEventContext
  | NotifyReportChange (fcb : Nat) (directory : Bool)
  | CompleteIrpRequest (status : NTSTATUS) (info : Nat)
  deriving DecidableEq, Repr

/-- The file object of the related open, as `DokanDispatchCreate` reads it. -/
structure RELATED_FILE_OBJECT where
  FsContext2 : Option Nat := none
  Vpb : Nat := 0
  deriving DecidableEq, Repr

/-- The fields of `FILE_OBJECT` used by `create.c`. -/
structure FILE_OBJECT where
  FileName : UNICODE_STRING := {}
  RelatedFileObject : Option RELATED_FILE_OBJECT := none
  FsContext : Option FsContextRef := none
  FsContext2 : Option Nat := none
  SectionObjectPointer : Option FsContextRef := none
  PrivateCacheMap : Option Nat := none
  Vpb : Nat := 0
  deriving DecidableEq, Repr

/-- The memory of the volume: whether the device has an extension, the VCB, the FCB and
CCB blocks by address (an address is an index; a freed block stays readable), the file
object of the request (`none` when the stack location carries none), the `Vpb` of the
disk device, and the trace of the calls made. -/
structure World where
  hasVcb : Bool := true
  vcb : DokanVCB := {}
  fcbs : List DokanFCB := []
  ccbs : List DokanCCB := []
  fileObject : Option FILE_OBJECT := none
  deviceVpb : Nat := 0
  trace : List Event := []
  deriving DecidableEq, Repr

/-- The block at an FCB address. -/
def World.fcb (w : World) (a : Nat) : DokanFCB := w.fcbs.getD a default

/-- The block at a CCB address. -/
def World.ccb (w : World) (a : Nat) : DokanCCB := w.ccbs.getD a default

/-- Stores an FCB at an address. -/
def World.setFcb (w : World) (a : Nat) (f : DokanFCB) : World :=
  { w with fcbs := w.fcbs.set a f }

/-- Stores a CCB at an address. -/
def World.setCcb (w : World) (a : Nat) (c : DokanCCB) : World :=
  { w with ccbs := w.ccbs.set a c }

/-- Appends a call to the trace. -/
def World.emit (w : World) (e : Event) : World :=
  { w with trace := w.trace ++ [e] }

/-- What is fixed for a volume and not declared in `create.c`: the upcase table of
the kernel, the two reserved file names (`DOKAN_KEEPALIVE_FILE_NAME` and
`DOKAN_NOTIFICATION_FILE_NAME` of `public.h`), and the layout of `EVENT_CONTEXT`
(`public.h`): the pointer size, `sizeof (EVENT_CONTEXT)`, and the offsets in it of
`Operation.Create` and of `Operation.Create.SecurityContext.AccessState`. -/
structure Env where
  upcase : Nat → Nat
  keepAliveFileName : UNICODE_STRING
  notificationFileName : UNICODE_STRING
  sizeofPVOID : Nat := 8
  sizeofEventContext : Nat := 0
  offsetCreate : Nat := 0
  offsetAccessState : Nat := 0

/-! ## The FCB cache -/

/-- The function `DokanDeleteFcb (Vcb, Fcb)`. -/
def DokanDeleteFcb (w : World) (Fcb : Nat) : World :=
  let f := w.fcb Fcb
  let f1 : DokanFCB :=
    { f with
      NextCCB := []
      FileName := { Length := 0, MaximumLength := 0, Buffer := none }
      OplockInitialized := false
      IdentifierType := FSD_IDENTIFIER_TYPE.FREED_FCB
      HasResource := false }
  let w1 := w.setFcb Fcb f1
  { w1 with
    vcb :=
      { w1.vcb with
        FcbDeletions := w1.vcb.FcbDeletions + 1
        NextFCB := w1.vcb.NextFCB.erase Fcb
        FcbFreed := w1.vcb.FcbFreed + 1 } }

/-- Modelled from the spec: `DokanScheduleFcbForGarbageCollection (Vcb, Fcb)`, which is
not in `create.c`. When deferred collection is enabled the block is parked in the
pending-deletion set and the call reports true; when it is disabled the call does
nothing and reports false. -/
def DokanScheduleFcbForGarbageCollection (w : World) (Fcb : Nat) : World × Bool :=
  if w.vcb.FcbGarbageCollectionEnabled then
    if Fcb ∈ w.vcb.FcbGarbageList then (w, true)
    else ({ w with vcb := { w.vcb with FcbGarbageList := w.vcb.FcbGarbageList ++ [Fcb] } }, true)
  else (w, false)

/-- Modelled from the spec: `DokanCancelFcbGarbageCollection (Fcb)`, which is not in
`create.c`: any pending deferred deletion of the block is cancelled. -/
def DokanCancelFcbGarbageCollection (w : World) (Fcb : Nat) : World :=
  { w with vcb := { w.vcb with FcbGarbageList := w.vcb.FcbGarbageList.filter (fun b => b != Fcb) } }

/-- Modelled from the spec: `DokanForceFcbGarbageCollection (Vcb)`, which is not in
`create.c`: a collection pass under allocation pressure. It is a no-op reporting false
when collection is disabled or nothing is parked; otherwise every parked block is
deleted and the call reports true. -/
def DokanForceFcbGarbageCollection (w : World) : World × Bool :=
  if w.vcb.FcbGarbageCollectionEnabled = true ∧ w.vcb.FcbGarbageList ≠ [] then
    let w1 := w.vcb.FcbGarbageList.foldl DokanDeleteFcb w
    ({ w1 with vcb := { w1.vcb with FcbGarbageList := [] } }, true)
  else (w, false)

/-- The results of the pool allocations of one call of `DokanAllocateFCB`: the first
and the second `ExAllocateFromLookasideListEx` on the FCB list, and the one on the
`ERESOURCE` list. -/
structure PoolOracle where
  fcbFirst : Bool := true
  fcbRetry : Bool := true
  resource : Bool := true
  deriving DecidableEq, Repr

/-- The function `DokanAllocateFCB (Vcb, FileName, FileNameLength)`. The new block gets
the first unused address. -/
def DokanAllocateFCB (o : PoolOracle) (w : World) (FileName : List Nat) (FileNameLength : Nat) :
    World × Option Nat :=
  let first : World × Bool :=
    if o.fcbFirst then (w, true)
    else
      let r := DokanForceFcbGarbageCollection w
      if r.2 then (r.1, o.fcbRetry) else (r.1, false)
  let w1 := first.1
  if first.2 = false then (w1, none)
  else if o.resource = false then (w1, none)
  else
    let fcb : DokanFCB :=
      { IdentifierType := FSD_IDENTIFIER_TYPE.FCB
        HasResource := true
        ValidDataLength := 0x7fffffffffffffff
        AllocationSize := 4096
        FileSize := 4096
        IsFastIoPossible := FAST_IO_POSSIBLE.FastIoIsNotPossible
        OplockInitialized := true
        FileName :=
          { Buffer := some FileName
            Length := toUSHORT FileNameLength
            MaximumLength := toUSHORT FileNameLength }
        NextCCB := [] }
    let a := w1.fcbs.length
    ({ w1 with
        fcbs := w1.fcbs ++ [fcb]
        vcb :=
          { w1.vcb with
            NextFCB := w1.vcb.NextFCB ++ [a]
            FcbAllocated := w1.vcb.FcbAllocated + 1
            FcbAllocations := w1.vcb.FcbAllocations + 1 } }, some a)

/-- The test of the search loop of `DokanGetFCB` on one cached block. -/
def fcbMatches (env : Env) (fcb : DokanFCB) (FileName : List Nat) (FileNameLength : Nat)
    (CaseSensitive : Bool) : Bool :=
  let fn : UNICODE_STRING :=
    { Length := toUSHORT FileNameLength
      MaximumLength := toUSHORT (toUSHORT FileNameLength + 2)
      Buffer := some FileName }
  decide (fcb.FileName.Length = FileNameLength) &&
    RtlEqualUnicodeString env.upcase fn fcb.FileName (!CaseSensitive)

/-- The search loop of `DokanGetFCB` over the cache list: the first block that
matches, or `none` (the loop leaves `fcb = NULL`). -/
def findFCB (env : Env) (w : World) (FileName : List Nat) (FileNameLength : Nat)
    (CaseSensitive : Bool) : List Nat → Option Nat
  | [] => none
  | a :: rest =>
    if fcbMatches env (w.fcb a) FileName FileNameLength CaseSensitive then some a
    else findFCB env w FileName FileNameLength CaseSensitive rest

/-- The statement `InterlockedIncrement (&fcb->FileCount)`. `FileCount` is a `LONG`; the
model counts in the integers, which is the count of the code as long as the count
stays below `2^31 - 1`, where the `LONG` wraps. -/
def incFileCount (w : World) (a : Nat) : World :=
  w.setFcb a { w.fcb a with FileCount := (w.fcb a).FileCount + 1 }

/-- The function `DokanGetFCB (Vcb, FileName, FileNameLength, CaseSensitive)`: the
memory afterwards and the returned block (`none` for `NULL`). -/
def DokanGetFCB (env : Env) (o : PoolOracle) (w : World) (FileName : List Nat)
    (FileNameLength : Nat) (CaseSensitive : Bool) : World × Option Nat :=
  match findFCB env w FileName FileNameLength CaseSensitive w.vcb.NextFCB with
  | none =>
    match DokanAllocateFCB o w FileName FileNameLength with
    | (w1, none) => (w1, none)
    | (w1, some a) =>
      let f := w1.fcb a
      let f1 : DokanFCB :=
        if RtlEqualUnicodeString env.upcase f.FileName env.keepAliveFileName false then
          { f with IsKeepalive := true, BlockUserModeDispatch := true }
        else f
      let f2 : DokanFCB :=
        if RtlEqualUnicodeString env.upcase f1.FileName env.notificationFileName false then
          { f1 with BlockUserModeDispatch := true }
        else f1
      (incFileCount (w1.setFcb a f2) a, some a)
  | some a =>
    (incFileCount (DokanCancelFcbGarbageCollection w a) a, some a)

/-- Modelled from the spec: `DokanLogError`, which is not in `create.c`. An identity
mismatch produces an error with a captured diagnostic and nothing is dereferenced
further; the status is the one the call site passes. -/
def DokanLogError (w : World) (status : NTSTATUS) : World × NTSTATUS :=
  (w.emit (Event.LogError status), status)

/-- The function `DokanFreeFCB (Vcb, Fcb)`. -/
def DokanFreeFCB (w : World) (Fcb : Nat) : World × NTSTATUS :=
  if w.vcb.IdentifierType ≠ FSD_IDENTIFIER_TYPE.VCB then
    DokanLogError w STATUS_INVALID_PARAMETER
  else if (w.fcb Fcb).IdentifierType ≠ FSD_IDENTIFIER_TYPE.FCB then
    DokanLogError w STATUS_INVALID_PARAMETER
  else
    let w1 := w.setFcb Fcb { w.fcb Fcb with FileCount := (w.fcb Fcb).FileCount - 1 }
    if (w1.fcb Fcb).FileCount = 0 then
      let r := DokanScheduleFcbForGarbageCollection w1 Fcb
      if r.2 = false then (DokanDeleteFcb r.1 Fcb, STATUS_SUCCESS)
      else (r.1, STATUS_SUCCESS)
    else (w1, STATUS_SUCCESS)

/-! ## CCBs -/

/-- The function `DokanAllocateCCB (Dcb, Fcb)`; `allocOk` tells whether the lookaside
list returns a block. The new block gets the first unused address. -/
def DokanAllocateCCB (allocOk : Bool) (w : World) (Fcb : Nat) : World × Option Nat :=
  if allocOk = false then (w, none)
  else
    let a := w.ccbs.length
    let ccb : DokanCCB :=
      { IdentifierType := FSD_IDENTIFIER_TYPE.CCB
        Fcb := some Fcb
        Linked := true
        MountId := w.vcb.MountId }
    let w1 : World := { w with ccbs := w.ccbs ++ [ccb] }
    let w2 := w1.setFcb Fcb { w1.fcb Fcb with NextCCB := (w1.fcb Fcb).NextCCB ++ [a] }
    ({ w2 with vcb := { w2.vcb with CcbAllocated := w2.vcb.CcbAllocated + 1 } }, some a)

/-- The function `DokanMaybeBackOutAtomicOplockRequest (Ccb, Irp)`. -/
def DokanMaybeBackOutAtomicOplockRequest (w : World) (Ccb : Nat) : World :=
  if (w.ccb Ccb).AtomicOplockRequestPending then
    let w1 := w.emit (Event.BackOutAtomicOplock ((w.ccb Ccb).Fcb.getD 0))
    w1.setCcb Ccb { w1.ccb Ccb with AtomicOplockRequestPending := false }
  else w

/-- The function `DokanFreeCCB (ccb)`. -/
def DokanFreeCCB (w : World) (ccb : Nat) : World × NTSTATUS :=
  match (w.ccb ccb).Fcb with
  | none => (w, STATUS_SUCCESS)
  | some fcb =>
    if (w.ccb ccb).Linked = false then (w, STATUS_SUCCESS)
    else
      let w1 := w.setFcb fcb { w.fcb fcb with NextCCB := (w.fcb fcb).NextCCB.erase ccb }
      let w2 := w1.setCcb ccb
        { w1.ccb ccb with Linked := false, HasSearchPattern := false, Freed := true }
      ({ w2 with vcb := { w2.vcb with CcbFreed := w2.vcb.CcbFreed + 1 } }, STATUS_SUCCESS)

/-! ## Constants of the create request -/

abbrev FILE_SUPERSEDE : Nat := 0
abbrev FILE_OPEN : Nat := 1
abbrev FILE_CREATE : Nat := 2
abbrev FILE_OPEN_IF : Nat := 3
abbrev FILE_OVERWRITE : Nat := 4
abbrev FILE_OVERWRITE_IF : Nat := 5

abbrev FILE_SUPERSEDED : Nat := 0
abbrev FILE_OPENED : Nat := 1
abbrev FILE_CREATED : Nat := 2
abbrev FILE_OVERWRITTEN : Nat := 3
abbrev FILE_EXISTS : Nat := 4
abbrev FILE_DOES_NOT_EXIST : Nat := 5

abbrev FILE_DIRECTORY_FILE : Nat := 0x00000001
abbrev FILE_COMPLETE_IF_OPLOCKED : Nat := 0x00000100
abbrev FILE_DELETE_ON_CLOSE : Nat := 0x00001000
abbrev FILE_OPEN_FOR_BACKUP_INTENT : Nat := 0x00004000
abbrev FILE_OPEN_REQUIRING_OPLOCK : Nat := 0x00010000

abbrev FILE_ATTRIBUTE_TEMPORARY : Nat := 0x00000100

abbrev SL_FORCE_ACCESS_CHECK : Nat := 0x01
abbrev SL_OPEN_PAGING_FILE : Nat := 0x02
abbrev SL_OPEN_TARGET_DIRECTORY : Nat := 0x04
abbrev SL_CASE_SENSITIVE : Nat := 0x80

abbrev FILE_SHARE_READ : Nat := 0x1
abbrev FILE_SHARE_WRITE : Nat := 0x2
abbrev FILE_SHARE_DELETE : Nat := 0x4

abbrev FILE_READ_DATA : Nat := 0x0001
abbrev FILE_WRITE_DATA : Nat := 0x0002
abbrev FILE_APPEND_DATA : Nat := 0x0004
abbrev FILE_EXECUTE : Nat := 0x0020
abbrev DELETE : Nat := 0x00010000
abbrev MAXIMUM_ALLOWED : Nat := 0x02000000

/-- The macro `FlagOn`. -/
def FlagOn (x f : Nat) : Bool := (x &&& f) != 0

/-- The creation disposition of an options word: `(Options >> 24) & 0xff`. -/
def dispositionOf (Options : Nat) : Nat := (Options >>> 24) &&& 0x000000ff

/-! ## `DokanCheckShareAccess` -/

/-- The function `DokanCheckShareAccess (FileObject, FcbOrDcb, DesiredAccess,
ShareAccess)`. `userWritableReferences` is the result of
`MmDoesFileHaveUserWritableReferences` and `ioCheck` the result of `IoCheckShareAccess`
(called with `Update = FALSE`). -/
def DokanCheckShareAccess (FcbOrDcb : DokanFCB) (DesiredAccess ShareAccess : Nat)
    (userWritableReferences : Bool) (ioCheck : NTSTATUS) : NTSTATUS :=
  if FcbOrDcb.IdentifierType = FSD_IDENTIFIER_TYPE.FCB ∧ FlagOn ShareAccess FILE_SHARE_DELETE = false
      ∧ FcbOrDcb.Flags.DELETE_ON_CLOSE = true then
    STATUS_DELETE_PENDING
  else if FcbOrDcb.IdentifierType = FSD_IDENTIFIER_TYPE.FCB
      ∧ FlagOn ShareAccess FILE_SHARE_WRITE = false
      ∧ FlagOn DesiredAccess
          (FILE_EXECUTE ||| FILE_READ_DATA ||| FILE_WRITE_DATA ||| FILE_APPEND_DATA ||| DELETE
            ||| MAXIMUM_ALLOWED) = true
      ∧ userWritableReferences = true then
    STATUS_SHARING_VIOLATION
  else ioCheck

/-! ## The create request and the event context -/

/-- A counted string whose buffer is kept as bytes (the object name and the object
type name of the access state). -/
structure BYTE_STRING where
  Length : Nat := 0
  Buffer : List Nat := []
  deriving DecidableEq, Repr

/-- The fields of `ACCESS_STATE` read by `DokanDispatchCreate`; `SecurityDescriptor`
tells whether the pointer is not null. -/
structure ACCESS_STATE where
  SecurityEvaluated : Bool := false
  GenerateAudit : Bool := false
  GenerateOnClose : Bool := false
  AuditPrivileges : Bool := false
  Flags : Nat := 0
  RemainingDesiredAccess : Nat := 0
  PreviouslyGrantedAccess : Nat := 0
  OriginalDesiredAccess : Nat := 0
  SecurityDescriptor : Bool := false
  ObjectName : BYTE_STRING := {}
  ObjectTypeName : BYTE_STRING := {}
  deriving DecidableEq, Repr

/-- The stack location of the create request: `irpSp->Flags` and
`irpSp->Parameters.Create`, with the desired access and the access state of its
security context (`none` for a null `AccessState`). -/
structure IO_STACK_LOCATION where
  Flags : Nat := 0
  Options : Nat := 0
  FileAttributes : Nat := 0
  ShareAccess : Nat := 0
  DesiredAccess : Nat := 0
  AccessState : Option ACCESS_STATE := none
  deriving DecidableEq, Repr

/-- The event context of a create: the fields of the header that `DokanDispatchCreate`
writes, and `tail`, the bytes of the buffer after the pointer-aligned header. -/
structure EVENT_CONTEXT where
  Length : Nat := 0
  Context : Nat := 0
  FileFlags : DokanFlags := {}
  SecurityEvaluated : Bool := false
  GenerateAudit : Bool := false
  GenerateOnClose : Bool := false
  AuditPrivileges : Bool := false
  AccessFlags : Nat := 0
  RemainingDesiredAccess : Nat := 0
  PreviouslyGrantedAccess : Nat := 0
  OriginalDesiredAccess : Nat := 0
  SecurityDescriptorOffset : Nat := 0
  UnicodeStringObjectNameOffset : Nat := 0
  UnicodeStringObjectTypeOffset : Nat := 0
  DesiredAccess : Nat := 0
  FileAttributes : Nat := 0
  CreateOptions : Nat := 0
  ShareAccess : Nat := 0
  FileNameLength : Nat := 0
  FileNameOffset : Nat := 0
  tail : List Nat := []
  deriving DecidableEq, Repr

/-- Modelled from the spec: the macro `PointerAlignSize` of `dokan.h`. Every sub-record
of the envelope is pointer-aligned: a size is rounded up to a multiple of the pointer
size. -/
def PointerAlignSize (env : Env) (sizeInBytes : Nat) : Nat :=
  (sizeInBytes + env.sizeofPVOID - 1) / env.sizeofPVOID * env.sizeofPVOID

/-- Modelled from the spec: `sizeof (DOKAN_UNICODE_STRING_INTERMEDIATE)` (`public.h`). A
name record is a 16-bit length, a 16-bit maximum length and an inline buffer declared
with one wide character. -/
abbrev sizeofIntermediate : Nat := 6

/-- Modelled from the spec: the offset of the inline buffer in a name record, after
the two 16-bit lengths. -/
abbrev intermediateBuffer : Nat := 4

/-- The two bytes of a 16-bit value, low byte first. -/
def u16le (n : Nat) : List Nat := [n % 256, n / 256 % 256]

/-- The bytes of a run of wide characters. -/
def wcharBytes : List Nat → List Nat
  | [] => []
  | c :: rest => c % 256 :: c / 256 % 256 :: wcharBytes rest

/-- A store of `bytes` at the byte offset `off` from the start of the event context;
`none` when the store does not lie within the bytes after the aligned header. -/
def ecStore (env : Env) (ec : EVENT_CONTEXT) (off : Nat) (bytes : List Nat) :
    Option EVENT_CONTEXT :=
  let base := PointerAlignSize env env.sizeofEventContext
  if base ≤ off ∧ off + bytes.length ≤ base + ec.tail.length then
    some { ec with
      tail := ec.tail.take (off - base) ++ bytes ++ ec.tail.drop (off - base + bytes.length) }
  else none

/-- A load of `n` bytes at the byte offset `off` from the start of the event
context, for a reader of the flat buffer; `none` outside the bytes after the aligned
header. -/
def ecLoad (env : Env) (ec : EVENT_CONTEXT) (off n : Nat) : Option (List Nat) :=
  let base := PointerAlignSize env env.sizeofEventContext
  if base ≤ off ∧ off + n ≤ base + ec.tail.length then
    some ((ec.tail.drop (off - base)).take n)
  else none

/-- The bitwise or of two flag words. -/
def DokanFlags.or (a b : DokanFlags) : DokanFlags :=
  { FILE_DIRECTORY := a.FILE_DIRECTORY || b.FILE_DIRECTORY
    FILE_OPENED := a.FILE_OPENED || b.FILE_OPENED
    DELETE_ON_CLOSE := a.DELETE_ON_CLOSE || b.DELETE_ON_CLOSE
    RETRY_CREATE := a.RETRY_CREATE || b.RETRY_CREATE
    Others := a.Others ||| b.Others }

/-- The results of the calls that `DokanDispatchCreate` makes outside `create.c`:
the pool allocations, `SeAssignSecurity` (the new descriptor, or `none` on failure),
`AllocateEventContext`, `StartsWith` on the system volume name, the share-access and
oplock functions of the kernel, and `DokanRegisterPendingIrp`. -/
structure CreateOracle where
  relatedNameAlloc : Bool := true
  relatedBufferAlloc : Bool := true
  fileNameAlloc : Bool := true
  parentDirAlloc : Bool := true
  pool : PoolOracle := {}
  ccbAlloc : Bool := true
  seAssignSecurity : Option (List Nat) := none
  eventContextAlloc : Bool := true
  startsWithSystemVolumeInformation : Bool := false
  userWritableReferences : Bool := false
  ioCheckShareAccess1 : NTSTATUS := STATUS_SUCCESS
  ioCheckShareAccess2 : NTSTATUS := STATUS_SUCCESS
  oplockBreakH : NTSTATUS := STATUS_SUCCESS
  checkOplock : NTSTATUS := STATUS_SUCCESS
  checkOplockEx : NTSTATUS := STATUS_SUCCESS
  oplockFsctrl : NTSTATUS := STATUS_SUCCESS
  registerPendingIrp : NTSTATUS := STATUS_PENDING
  deriving DecidableEq, Repr

/-- The local variables of `DokanDispatchCreate` that outlive a `__leave`, with the
memory `w`. `fileObject` tells whether the local pointer of that name is set; `fault`
records an access through a null pointer or outside a buffer. -/
structure CreateFrame where
  w : World := {}
  status : NTSTATUS := STATUS_INVALID_PARAMETER
  info : Nat := 0
  fileObject : Bool := false
  fcb : Option Nat := none
  ccb : Option Nat := none
  eventContext : Option EVENT_CONTEXT := none
  EventContextConsumed : Bool := false
  UnwindShareAccess : Bool := false
  fcbLocked : Bool := false
  fileName : Option (List Nat) := none
  fileNameLength : Nat := 0
  parentDir : Option (List Nat) := none
  parentDirLength : Nat := 0
  relatedFileName : Option UNICODE_STRING := none
  needBackSlashAfterRelatedFile : Bool := false
  alternateDataStreamOfRootDir : Bool := false
  disposition : Nat := 0
  allocateCcb : Bool := true
  fault : Bool := false
  deriving DecidableEq, Repr

/-! ## `DokanDispatchCreate`

The `__try` block is cut into consecutive steps. A step takes the frame on arrival and
returns the frame with a flag: `true` when the step executed `__leave`, `false` when
control falls through to the next step. `DokanDispatchCreateTry` is the whole block and
`createFinally` the `__finally` block. -/

/-- The character `Buffer[i]` of a counted string. -/
def UNICODE_STRING.cell (s : UNICODE_STRING) (i : Nat) : Nat := (s.Buffer.getD []).getD i 0

/-- A copy of wide characters into a buffer at the character index `off` (`RtlCopyMemory`
on a `PWCHAR`); `none` when the copy does not fit. -/
def cellsStore (buf : List Nat) (off : Nat) (cells : List Nat) : Option (List Nat) :=
  if off + cells.length ≤ buf.length then
    some (buf.take off ++ cells ++ buf.drop (off + cells.length))
  else none

/-- The function `SetFileObjectForVCB`. -/
def SetFileObjectForVCB (FileObject : FILE_OBJECT) : FILE_OBJECT :=
  { FileObject with
    SectionObjectPointer := some FsContextRef.VolumeFileHeader
    FsContext := some FsContextRef.VolumeFileHeader }

/-- The function `IsDokanProcessFiles`. -/
def IsDokanProcessFiles (env : Env) (FileName : UNICODE_STRING) : Bool :=
  decide (FileName.Length > 0) &&
    (RtlEqualUnicodeString env.upcase FileName env.keepAliveFileName false ||
      RtlEqualUnicodeString env.upcase FileName env.notificationFileName false)

/-- Runs the next step unless the block was left. -/
def andThen (r : CreateFrame × Bool) (step : CreateFrame → CreateFrame × Bool) :
    CreateFrame × Bool :=
  if r.2 = true then r else step r.1

/-- Lines 549 to 621: the file object, the disposition, the volume and the worker. -/
def createEntry (env : Env) (o : CreateOracle) (irpSp : IO_STACK_LOCATION) (w : World) :
    CreateFrame × Bool :=
  let fr0 : CreateFrame := { w := w }
  match w.fileObject with
  | none => ({ fr0 with status := STATUS_INVALID_PARAMETER }, true)
  | some fo =>
    let fr1 : CreateFrame :=
      { fr0 with fileObject := true, disposition := dispositionOf irpSp.Options }
    if w.hasVcb = false then ({ fr1 with status := STATUS_SUCCESS }, true)
    else if w.vcb.IdentifierType ≠ FSD_IDENTIFIER_TYPE.VCB then
      ({ fr1 with status := STATUS_SUCCESS }, true)
    else if w.vcb.UnmountPending = true then ({ fr1 with status := STATUS_NO_SUCH_DEVICE }, true)
    else
      let fo1 : FILE_OBJECT :=
        if w.vcb.IsNetworkFileSystem = false then
          match fo.RelatedFileObject with
          | some rfo => { fo with Vpb := rfo.Vpb }
          | none => { fo with Vpb := w.deviceVpb }
        else fo
      let fr2 : CreateFrame := { fr1 with w := { w with fileObject := some fo1 } }
      if w.vcb.HasEventWait = false then
        if IsDokanProcessFiles env fo1.FileName = true then (fr2, false)
        else if fo1.FileName.Length > 0 ∧ o.startsWithSystemVolumeInformation = true then
          ({ fr2 with status := STATUS_NO_SUCH_FILE }, true)
        else ({ fr2 with w := fr2.w.emit Event.LogInfo, status := STATUS_SUCCESS }, true)
      else (fr2, false)

/-- Lines 637 to 646: one of two leading separators of the request name is removed. -/
def stripLeadingSeparator (FileName : UNICODE_STRING) : UNICODE_STRING :=
  if FileName.Length > 2 ∧ FileName.cell 1 = BACKSLASH ∧ FileName.cell 0 = BACKSLASH then
    { FileName with
      Length := FileName.Length - 2
      Buffer := FileName.Buffer.map (fun b =>
        ((b.drop 1).take ((FileName.Length - 2) / 2)) ++ b.drop ((FileName.Length - 2) / 2)) }
  else FileName

/-- The library function `RtlUnicodeStringCopy` into a destination of the given
maximum length. -/
def RtlUnicodeStringCopy (MaximumLength : Nat) (src : UNICODE_STRING) : UNICODE_STRING :=
  { Length := min src.Length MaximumLength
    MaximumLength := MaximumLength
    Buffer := some (src.chars.take (min src.Length MaximumLength / 2)) }

/-- Lines 637 to 681: the leading separators and the cached name of the related file
object. -/
def createNormalize (o : CreateOracle) (fr : CreateFrame) : CreateFrame × Bool :=
  let fo : FILE_OBJECT := fr.w.fileObject.getD {}
  let fo1 : FILE_OBJECT := { fo with FileName := stripLeadingSeparator fo.FileName }
  let fr1 : CreateFrame := { fr with w := { fr.w with fileObject := some fo1 } }
  let relatedFcb : Option Nat :=
    match fo1.RelatedFileObject with
    | some rfo =>
      match rfo.FsContext2 with
      | some relatedCcb => (fr1.w.ccb relatedCcb).Fcb
      | none => none
    | none => none
  match relatedFcb with
  | some rf =>
    if (fr1.w.fcb rf).FileName.Length > 0 ∧ (fr1.w.fcb rf).FileName.Buffer ≠ none then
      if o.relatedNameAlloc = false then
        ({ fr1 with status := STATUS_INSUFFICIENT_RESOURCES }, true)
      else if o.relatedBufferAlloc = false then
        ({ fr1 with status := STATUS_INSUFFICIENT_RESOURCES }, true)
      else
        ({ fr1 with
            relatedFileName :=
              some (RtlUnicodeStringCopy (fr1.w.fcb rf).FileName.MaximumLength
                (fr1.w.fcb rf).FileName) }, false)
    else (fr1, false)
  | none => (fr1, false)

/-- Lines 697 to 702: the trailing separator of the request name. -/
def trimTrailingSeparator (FileName : UNICODE_STRING) : UNICODE_STRING :=
  if FileName.Length > 2 ∧ FileName.cell (FileName.Length / 2 - 1) = BACKSLASH then
    { FileName with Length := FileName.Length - 2 }
  else FileName

/-- Lines 683 to 739: the open of the volume itself, the trailing separator, the
length of the path, the test of the relative name and the test of stream names. -/
def createResolve (irpSp : IO_STACK_LOCATION) (fr : CreateFrame) : CreateFrame × Bool :=
  let fo : FILE_OBJECT := fr.w.fileObject.getD {}
  if fr.relatedFileName = none ∧ fo.FileName.Length = 0 then
    if FlagOn irpSp.Options FILE_DIRECTORY_FILE = true then
      ({ fr with status := STATUS_NOT_A_DIRECTORY }, true)
    else
      ({ fr with
          w := { fr.w with fileObject := some (SetFileObjectForVCB fo) }
          info := FILE_OPENED
          status := STATUS_SUCCESS }, true)
  else
    let name : UNICODE_STRING := trimTrailingSeparator fo.FileName
    let fr1 : CreateFrame :=
      { fr with
        w := { fr.w with fileObject := some { fo with FileName := name } }
        fileNameLength := name.Length }
    let fr2 : CreateFrame × Bool :=
      match fr1.relatedFileName with
      | some rel =>
        let fr1a : CreateFrame := { fr1 with fileNameLength := fr1.fileNameLength + rel.Length }
        if name.Length > 0 ∧ name.cell 0 = BACKSLASH then
          ({ fr1a with status := STATUS_INVALID_PARAMETER }, true)
        else
          let fr1b : CreateFrame :=
            if rel.Length > 0 ∧ name.Length > 0 ∧ rel.cell (rel.Length / 2 - 1) ≠ BACKSLASH
                ∧ name.cell 0 ≠ COLON then
              { fr1a with
                needBackSlashAfterRelatedFile := true
                fileNameLength := fr1a.fileNameLength + 2 }
            else fr1a
          let fr1c : CreateFrame :=
            if rel.Length / 2 = 1 ∧ name.Length > 0 ∧ rel.cell 0 = BACKSLASH
                ∧ name.cell 0 = COLON then
              { fr1b with alternateDataStreamOfRootDir := true }
            else fr1b
          (fr1c, false)
      | none => (fr1, false)
    if fr2.2 = true then fr2
    else if fr2.1.w.vcb.UseAltStream = false
        ∧ DokanStringChar (name.Buffer.getD []) name.Length COLON ≠ -1 then
      ({ fr2.1 with status := STATUS_INVALID_PARAMETER, info := 0 }, true)
    else (fr2.1, false)

/-- Lines 750 to 768: the contents of the path buffer, from the zero-filled buffer
`buf`; `none` when a copy does not fit. -/
def buildFileName (buf : List Nat) (relatedFileName : Option UNICODE_STRING)
    (alternateDataStreamOfRootDir needBackSlashAfterRelatedFile : Bool)
    (FileName : UNICODE_STRING) : Option (List Nat) :=
  match relatedFileName with
  | some rel =>
    if alternateDataStreamOfRootDir = false then
      match cellsStore buf 0 rel.chars with
      | none => none
      | some b1 =>
        let b2 : Option (List Nat) :=
          if needBackSlashAfterRelatedFile = true then
            cellsStore b1 (rel.Length / 2) [BACKSLASH]
          else some b1
        match b2 with
        | none => none
        | some b3 =>
          cellsStore b3
            (rel.Length / 2 + (if needBackSlashAfterRelatedFile = true then 1 else 0))
            FileName.chars
    else cellsStore buf 0 FileName.chars
  | none => cellsStore buf 0 FileName.chars

/-- Lines 741 to 768: the allocation and the contents of the path buffer. -/
def createBuildName (o : CreateOracle) (fr : CreateFrame) : CreateFrame × Bool :=
  if o.fileNameAlloc = false then ({ fr with status := STATUS_INSUFFICIENT_RESOURCES }, true)
  else
    match buildFileName (List.replicate ((fr.fileNameLength + 2) / 2) 0) fr.relatedFileName
        fr.alternateDataStreamOfRootDir fr.needBackSlashAfterRelatedFile
        (fr.w.fileObject.getD {}).FileName with
    | none => ({ fr with fault := true }, true)
    | some fileName => ({ fr with fileName := some fileName }, false)

/-- Lines 772 to 776: the test that fails a write request on a read-only device. -/
def readOnlyRejects (ReadOnly : Bool) (disposition Options : Nat) : Bool :=
  ReadOnly &&
    (decide (disposition = FILE_SUPERSEDE) || decide (disposition = FILE_CREATE)
      || decide (disposition = FILE_OVERWRITE) || decide (disposition = FILE_OVERWRITE_IF)
      || FlagOn Options FILE_DELETE_ON_CLOSE)

/-- Lines 770 to 782: a write request on a read-only device fails. -/
def createReadOnly (irpSp : IO_STACK_LOCATION) (fr : CreateFrame) : CreateFrame × Bool :=
  if readOnlyRejects fr.w.vcb.ReadOnly fr.disposition irpSp.Options = true then
    ({ fr with status := STATUS_MEDIA_WRITE_PROTECTED }, true)
  else (fr, false)

/-- Lines 825 to 829: a create of a file that is already open. -/
def createCollision (FileCount : Int) (disposition : Nat) : Bool :=
  decide (FileCount > 1 ∧ disposition = FILE_CREATE)

/-- Lines 813 to 830: the tests on the block that `DokanGetFCB` returned. -/
def createAcquired (fr : CreateFrame) (g : World × Option Nat) : CreateFrame × Bool :=
  match g.2 with
  | none => ({ fr with w := g.1, fcb := none, status := STATUS_INSUFFICIENT_RESOURCES }, true)
  | some fcb =>
    let w3 : World :=
      if (g.1.fcb fcb).BlockUserModeDispatch = true then g.1.emit Event.LogInfo else g.1
    let fr3 : CreateFrame := { fr with w := w3, fcb := some fcb }
    if createCollision (fr3.w.fcb fcb).FileCount fr3.disposition = true then
      ({ fr3 with status := STATUS_OBJECT_NAME_COLLISION }, true)
    else (fr3, false)

/-- Lines 784 to 830: the retry test and the acquisition of the FCB. -/
def createAcquire (env : Env) (o : CreateOracle) (irpSp : IO_STACK_LOCATION)
    (fr : CreateFrame) : CreateFrame × Bool :=
  let FsContext2 : Option Nat := fr.w.fileObject.bind (fun fo => fo.FsContext2)
  let retry : Bool :=
    match FsContext2 with
    | some c =>
      decide ((fr.w.ccb c).IdentifierType = FSD_IDENTIFIER_TYPE.CCB)
        && (fr.w.ccb c).Flags.RETRY_CREATE
    | none => false
  let fr1 : CreateFrame :=
    match FsContext2 with
    | some c =>
      if retry = true then
        { fr with
          ccb := some c
          w := fr.w.setCcb c
            { fr.w.ccb c with Flags := { (fr.w.ccb c).Flags with RETRY_CREATE := false } }
          fcb := (fr.w.ccb c).Fcb
          allocateCcb := false
          fileName := none }
      else { fr with ccb := some c }
    | none => fr
  if retry = true then (fr1, false)
  else
    let CaseSensitive := FlagOn irpSp.Flags SL_CASE_SENSITIVE
    if FlagOn irpSp.Flags SL_OPEN_TARGET_DIRECTORY = true then
      match DokanGetParentDir (fr1.fileName.getD []) o.parentDirAlloc with
      | none => ({ fr1 with fault := true }, true)
      | some r =>
        let fr2 : CreateFrame :=
          { fr1 with
            status := r.status
            parentDir := r.parentDir
            parentDirLength := r.parentDirLength }
        if r.status ≠ STATUS_SUCCESS then ({ fr2 with fileName := none }, true)
        else
          createAcquired fr2
            (DokanGetFCB env o.pool fr2.w (r.parentDir.getD []) r.parentDirLength CaseSensitive)
    else
      createAcquired fr1
        (DokanGetFCB env o.pool fr1.w (fr1.fileName.getD []) fr1.fileNameLength CaseSensitive)

/-- Lines 832 to 879: the directory and temporary test, the paging file test, the
allocation of the CCB and the contexts of the file object. -/
def createInstance (o : CreateOracle) (irpSp : IO_STACK_LOCATION) (fr : CreateFrame) :
    CreateFrame × Bool :=
  if FlagOn irpSp.Options FILE_DIRECTORY_FILE = true
      ∧ FlagOn irpSp.FileAttributes FILE_ATTRIBUTE_TEMPORARY = true
      ∧ (FILE_CREATE = fr.disposition ∨ FILE_OPEN_IF = fr.disposition) then
    ({ fr with status := STATUS_INVALID_PARAMETER }, true)
  else
    match fr.fcb with
    | none => ({ fr with fcbLocked := true, fault := true }, true)
    | some fcb =>
      let fr1 : CreateFrame := { fr with fcbLocked := true }
      if FlagOn irpSp.Flags SL_OPEN_PAGING_FILE = true then
        ({ fr1 with status := STATUS_ACCESS_DENIED }, true)
      else
        let fr2 : CreateFrame :=
          if fr1.allocateCcb = true then
            { fr1 with
              w := (DokanAllocateCCB o.ccbAlloc fr1.w fcb).1
              ccb := (DokanAllocateCCB o.ccbAlloc fr1.w fcb).2 }
          else fr1
        match fr2.ccb with
        | none => ({ fr2 with status := STATUS_INSUFFICIENT_RESOURCES }, true)
        | some ccb =>
          let w3 : World :=
            { fr2.w with
              fileObject := fr2.w.fileObject.map (fun fo =>
                { fo with
                  FsContext := some (FsContextRef.FcbHeader fcb)
                  FsContext2 := some ccb
                  PrivateCacheMap := none
                  SectionObjectPointer := some (FsContextRef.FcbHeader fcb) }) }
          let w4 : World := if (w3.fcb fcb).IsKeepalive = true then w3.emit Event.LogInfo else w3
          let fr4 : CreateFrame := { fr2 with w := w4 }
          if (fr4.w.fcb fcb).BlockUserModeDispatch = true then
            ({ fr4 with info := FILE_OPENED, status := STATUS_SUCCESS }, true)
          else (fr4, false)

/-- The aligned size of a name record for a name of `Length` bytes (lines 908 to 932):
the record header, the name and a terminator when the name is not empty, the record
header alone otherwise. -/
def alignedNameSize (env : Env) (Length : Nat) : Nat :=
  if Length > 0 then PointerAlignSize env (sizeofIntermediate + Length + 2)
  else PointerAlignSize env sizeofIntermediate

/-- The stores of one name record at the byte offset `off` (lines 1043 to 1064):
`Length`, `MaximumLength`, then the name bytes and a terminator, or a terminator
alone for an empty name. -/
def storeNameRecord (env : Env) (ec : EVENT_CONTEXT) (off : Nat) (name : BYTE_STRING)
    (alignedSize : Nat) : Option EVENT_CONTEXT :=
  match ecStore env ec off (u16le name.Length) with
  | none => none
  | some ec1 =>
    match ecStore env ec1 (off + 2) (u16le (toUSHORT alignedSize)) with
    | none => none
    | some ec2 =>
      if name.Length > 0 then
        match ecStore env ec2 (off + intermediateBuffer) (name.Buffer.take name.Length) with
        | none => none
        | some ec3 => ecStore env ec3 (off + intermediateBuffer + name.Length) [0, 0]
      else ecStore env ec2 (off + intermediateBuffer) [0, 0]

/-- The options word written into the event context (lines 1012 to 1021): on a
read-only device `FILE_OPEN` is substituted for `FILE_OPEN_IF`. -/
def envelopeCreateOptions (ReadOnly : Bool) (Options : Nat) : Nat :=
  if ReadOnly = true ∧ dispositionOf Options = FILE_OPEN_IF then
    Options &&& ((FILE_OPEN <<< 24) ||| 0x00FFFFFF)
  else Options

/-- The descriptor that `SeAssignSecurity` hands out (lines 884 to 906): `none` when
it is not called or fails. -/
def assignedSecurityDescriptor (o : CreateOracle) (irpSp : IO_STACK_LOCATION) :
    Option (List Nat) :=
  match irpSp.AccessState with
  | some a => if a.SecurityDescriptor = true then o.seAssignSecurity else none
  | none => none

/-- The aligned size of the descriptor (lines 901 and 902), `0` without one. -/
def securityDescriptorSizeOf (env : Env) (sd : Option (List Nat)) : Nat :=
  match sd with
  | some d => PointerAlignSize env d.length
  | none => 0

/-- The aligned size of the object name record (lines 530, 531 and 908 to 916). -/
def objectNameSizeOf (env : Env) (irpSp : IO_STACK_LOCATION) : Nat :=
  match irpSp.AccessState with
  | some a => alignedNameSize env a.ObjectName.Length
  | none => PointerAlignSize env sizeofIntermediate

/-- The aligned size of the object type record (lines 532, 533 and 921 to 929). -/
def objectTypeNameSizeOf (env : Env) (irpSp : IO_STACK_LOCATION) : Nat :=
  match irpSp.AccessState with
  | some a => alignedNameSize env a.ObjectTypeName.Length
  | none => PointerAlignSize env sizeofIntermediate

/-- The length of the event context (lines 935 to 939). -/
def eventLengthOf (env : Env) (irpSp : IO_STACK_LOCATION) (sd : Option (List Nat))
    (nameLength : Nat) : Nat :=
  PointerAlignSize env env.sizeofEventContext + securityDescriptorSizeOf env sd
    + objectNameSizeOf env irpSp + objectTypeNameSizeOf env irpSp + nameLength + 2

/-- The event context after lines 949 to 1030: the tail is zero-filled and the header
fields are written. -/
def envelopeHeader (env : Env) (irpSp : IO_STACK_LOCATION) (ReadOnly : Bool)
    (sd : Option (List Nat)) (nameLength : Nat) : EVENT_CONTEXT :=
  let alignedEventContextSize := PointerAlignSize env env.sizeofEventContext
  let ec0 : EVENT_CONTEXT :=
    { Length := eventLengthOf env irpSp sd nameLength
      tail := List.replicate (eventLengthOf env irpSp sd nameLength - alignedEventContextSize) 0 }
  let ec1 : EVENT_CONTEXT :=
    match irpSp.AccessState with
    | some a =>
      { ec0 with
        SecurityEvaluated := a.SecurityEvaluated
        GenerateAudit := a.GenerateAudit
        GenerateOnClose := a.GenerateOnClose
        AuditPrivileges := a.AuditPrivileges
        AccessFlags := a.Flags
        RemainingDesiredAccess := a.RemainingDesiredAccess
        PreviouslyGrantedAccess := a.PreviouslyGrantedAccess
        OriginalDesiredAccess := a.OriginalDesiredAccess
        SecurityDescriptorOffset :=
          if securityDescriptorSizeOf env sd > 0 then
            alignedEventContextSize - env.offsetAccessState
          else ec0.SecurityDescriptorOffset
        UnicodeStringObjectNameOffset :=
          alignedEventContextSize + securityDescriptorSizeOf env sd - env.offsetAccessState
        UnicodeStringObjectTypeOffset :=
          alignedEventContextSize + securityDescriptorSizeOf env sd - env.offsetAccessState
            + objectNameSizeOf env irpSp }
    | none => ec0
  { ec1 with
    DesiredAccess := irpSp.DesiredAccess
    FileAttributes := irpSp.FileAttributes
    CreateOptions := envelopeCreateOptions ReadOnly irpSp.Options
    ShareAccess := irpSp.ShareAccess
    FileNameLength := nameLength
    FileNameOffset :=
      alignedEventContextSize + securityDescriptorSizeOf env sd + objectNameSizeOf env irpSp
        + objectTypeNameSizeOf env irpSp - env.offsetCreate }

/-- Lines 1032 to 1039: the copy of the descriptor, right after the aligned header. -/
def storeDescriptor (env : Env) (sd : Option (List Nat)) (ec : EVENT_CONTEXT) :
    Option EVENT_CONTEXT :=
  match sd with
  | some d => ecStore env ec (PointerAlignSize env env.sizeofEventContext) d
  | none => some ec

/-- Lines 1041 to 1087: the object name record, at the offset recorded in the header,
and the object type record after it; nothing without an access state. -/
def storeNames (env : Env) (irpSp : IO_STACK_LOCATION) (ec : EVENT_CONTEXT) :
    Option EVENT_CONTEXT :=
  match irpSp.AccessState with
  | some a =>
    match storeNameRecord env ec (env.offsetAccessState + ec.UnicodeStringObjectNameOffset)
        a.ObjectName (objectNameSizeOf env irpSp) with
    | none => none
    | some e4 =>
      storeNameRecord env e4
        (env.offsetAccessState + ec.UnicodeStringObjectNameOffset + objectNameSizeOf env irpSp)
        a.ObjectTypeName (objectTypeNameSizeOf env irpSp)
  | none => some ec

/-- Lines 1089 to 1101: the context, the flags, and the copy of the path with its
terminator at the offset recorded in the header. -/
def storePath (env : Env) (fcbFlags : DokanFlags) (nameBuffer : List Nat) (nameLength : Nat)
    (ec : EVENT_CONTEXT) : Option EVENT_CONTEXT :=
  match ecStore env { ec with Context := 0, FileFlags := ec.FileFlags.or fcbFlags }
      (env.offsetCreate + ec.FileNameOffset) ((wcharBytes nameBuffer).take nameLength) with
  | none => none
  | some e6 => ecStore env e6 (env.offsetCreate + ec.FileNameOffset + nameLength) [0, 0]

/-- The contents of the event context (lines 949 to 1101): the header fields, the
descriptor, the two name records and the path. `none` when a store does not lie
within the bytes after the header. -/
def buildEventContext (env : Env) (irpSp : IO_STACK_LOCATION) (ReadOnly : Bool)
    (newFileSecurityDescriptor : Option (List Nat)) (fcbFlags : DokanFlags)
    (nameBuffer : List Nat) (nameLength : Nat) : Option EVENT_CONTEXT :=
  match storeDescriptor env newFileSecurityDescriptor
      (envelopeHeader env irpSp ReadOnly newFileSecurityDescriptor nameLength) with
  | none => none
  | some e3 =>
    match storeNames env irpSp e3 with
    | none => none
    | some e4 => storePath env fcbFlags nameBuffer nameLength e4

/-- Lines 882 to 1101: the sizes, the allocation of the event context and its
contents. -/
def createEnvelope (env : Env) (o : CreateOracle) (irpSp : IO_STACK_LOCATION)
    (fr : CreateFrame) : CreateFrame × Bool :=
  match fr.fcb with
  | none => ({ fr with fault := true }, true)
  | some fcb =>
    let newFileSecurityDescriptor := assignedSecurityDescriptor o irpSp
    let nameLength : Nat :=
      if fr.parentDir.isSome then fr.fileNameLength else (fr.w.fcb fcb).FileName.Length
    let nameBuffer : List Nat :=
      if fr.parentDir.isSome then fr.fileName.getD []
      else (fr.w.fcb fcb).FileName.Buffer.getD []
    let eventLength : Nat := eventLengthOf env irpSp newFileSecurityDescriptor nameLength
    let w1 : World := fr.w.emit (Event.AllocateEventContext eventLength)
    if o.eventContextAlloc = false then
      ({ fr with w := w1, status := STATUS_INSUFFICIENT_RESOURCES }, true)
    else
      let w2 : World :=
        match newFileSecurityDescriptor with
        | some _ => w1.emit Event.SeDeassignSecurity
        | none => w1
      match buildEventContext env irpSp fr.w.vcb.ReadOnly newFileSecurityDescriptor
          (fr.w.fcb fcb).Flags nameBuffer nameLength with
      | none =>
        ({ fr with w := w2, eventContext := some { Length := eventLength }, fault := true },
          true)
      | some ec => ({ fr with w := w2, eventContext := some ec }, false)

/-- Lines 1115 to 1252: the share access check, with the oplock break on a sharing
violation. -/
def createShare (o : CreateOracle) (irpSp : IO_STACK_LOCATION) (fr : CreateFrame) :
    CreateFrame × Bool :=
  match fr.fcb, fr.eventContext with
  | some fcb, some ec =>
    if (fr.w.fcb fcb).FileCount > 1 then
      let status := DokanCheckShareAccess (fr.w.fcb fcb) ec.DesiredAccess ec.ShareAccess
        o.userWritableReferences o.ioCheckShareAccess1
      let fr1 : CreateFrame := { fr with status := status }
      if NT_SUCCESS status = false then
        if status = STATUS_SHARING_VIOLATION
            ∧ FlagOn irpSp.Options FILE_COMPLETE_IF_OPLOCKED = false then
          let fr2 : CreateFrame := { fr1 with w := fr1.w.emit (Event.OplockBreakH fcb) }
          if o.oplockBreakH = STATUS_PENDING then ({ fr2 with status := STATUS_PENDING }, true)
          else if NT_SUCCESS o.oplockBreakH = false then
            ({ fr2 with status := o.oplockBreakH }, true)
          else
            let status2 := DokanCheckShareAccess (fr2.w.fcb fcb) ec.DesiredAccess
              ec.ShareAccess o.userWritableReferences o.ioCheckShareAccess2
            let fr3 : CreateFrame := { fr2 with status := status2 }
            if status2 ≠ STATUS_SUCCESS then (fr3, true)
            else ({ fr3 with w := fr3.w.emit (Event.IoUpdateShareAccess fcb) }, false)
        else (fr1, true)
      else ({ fr1 with w := fr1.w.emit (Event.IoUpdateShareAccess fcb) }, false)
    else
      ({ fr with
          w := fr.w.emit (Event.IoSetShareAccess fcb ec.DesiredAccess ec.ShareAccess) }, false)
  | _, _ => ({ fr with fault := true }, true)

/-- Lines 1254 to 1330: the oplock checks after the share access was recorded. -/
def createOplock (o : CreateOracle) (irpSp : IO_STACK_LOCATION) (fr : CreateFrame) :
    CreateFrame × Bool :=
  match fr.fcb, fr.ccb with
  | some fcb, some ccb =>
    let fr1 : CreateFrame := { fr with UnwindShareAccess := true }
    let fr2 : CreateFrame :=
      if (fr1.w.fcb fcb).FileCount > 1 then
        { fr1 with w := fr1.w.emit (Event.CheckOplock fcb), status := o.checkOplock }
      else fr1
    if (fr1.w.fcb fcb).FileCount > 1 ∧ fr2.status = STATUS_PENDING then (fr2, true)
    else
      let fr3 : CreateFrame :=
        { fr2 with w := fr2.w.emit (Event.CheckOplockKey fcb), status := o.checkOplockEx }
      if NT_SUCCESS fr3.status = false then (fr3, true)
      else if FlagOn irpSp.Options FILE_OPEN_REQUIRING_OPLOCK = true then
        let fr4 : CreateFrame :=
          if fr3.status = STATUS_SUCCESS then
            { fr3 with
              w := fr3.w.emit (Event.OplockFsctrl fcb (fr3.w.fcb fcb).FileCount)
              status := o.oplockFsctrl }
          else fr3
        if fr4.status ≠ STATUS_SUCCESS ∧ fr4.status ≠ STATUS_OPLOCK_BREAK_IN_PROGRESS then
          (fr4, true)
        else if fr4.status = STATUS_SUCCESS then
          ({ fr4 with
              w := fr4.w.setCcb ccb { fr4.w.ccb ccb with AtomicOplockRequestPending := true } },
            false)
        else (fr4, false)
      else (fr3, false)
  | _, _ => ({ fr with fault := true }, true)

/-- Lines 1332 to 1335: the request is registered as pending. -/
def createRegister (o : CreateOracle) (fr : CreateFrame) : CreateFrame × Bool :=
  ({ fr with
      w := fr.w.emit Event.RegisterPendingIrp
      status := o.registerPendingIrp
      EventContextConsumed := true }, false)

/-- The run of the `__try` block up to line 741, where the path buffer is allocated. -/
def createUpToBuildName (env : Env) (o : CreateOracle) (irpSp : IO_STACK_LOCATION)
    (w : World) : CreateFrame × Bool :=
  andThen (andThen (createEntry env o irpSp w) (createNormalize o)) (createResolve irpSp)

/-- The run of the `__try` block up to line 770, the read-only test. -/
def createUpToReadOnly (env : Env) (o : CreateOracle) (irpSp : IO_STACK_LOCATION)
    (w : World) : CreateFrame × Bool :=
  andThen (createUpToBuildName env o irpSp w) (createBuildName o)

/-- The run of the `__try` block up to line 784, the acquisition of the FCB. -/
def createUpToAcquire (env : Env) (o : CreateOracle) (irpSp : IO_STACK_LOCATION)
    (w : World) : CreateFrame × Bool :=
  andThen (createUpToReadOnly env o irpSp w) (createReadOnly irpSp)

/-- The run of the `__try` block up to line 832, after the FCB was acquired. -/
def createUpToInstance (env : Env) (o : CreateOracle) (irpSp : IO_STACK_LOCATION)
    (w : World) : CreateFrame × Bool :=
  andThen (createUpToAcquire env o irpSp w) (createAcquire env o irpSp)

/-- The run of the `__try` block up to line 882, where the event context is built. -/
def createUpToEnvelope (env : Env) (o : CreateOracle) (irpSp : IO_STACK_LOCATION)
    (w : World) : CreateFrame × Bool :=
  andThen (createUpToInstance env o irpSp w) (createInstance o irpSp)

/-- The run of the `__try` block up to line 1115, the share access check. -/
def createUpToShare (env : Env) (o : CreateOracle) (irpSp : IO_STACK_LOCATION)
    (w : World) : CreateFrame × Bool :=
  andThen (createUpToEnvelope env o irpSp w) (createEnvelope env o irpSp)

/-- The `__try` block of `DokanDispatchCreate`, lines 546 to 1336: the frame with
which the `__finally` block is entered. -/
def DokanDispatchCreateTry (env : Env) (o : CreateOracle) (irpSp : IO_STACK_LOCATION)
    (w : World) : CreateFrame :=
  (andThen (andThen (andThen (createUpToShare env o irpSp w) (createShare o irpSp))
    (createOplock o irpSp)) (createRegister o)).1

/-- The `__finally` block of `DokanDispatchCreate`, lines 1336 to 1400. -/
def createFinally (fr : CreateFrame) : CreateFrame :=
  if NT_SUCCESS fr.status = false then
    let w1 : World :=
      match fr.ccb with
      | some c => DokanMaybeBackOutAtomicOplockRequest fr.w c
      | none => fr.w
    let w2 : World :=
      if fr.UnwindShareAccess = true then w1.emit (Event.IoRemoveShareAccess (fr.fcb.getD 0))
      else w1
    let w3 : World :=
      if fr.EventContextConsumed = false ∧ fr.eventContext.isSome = true then
        w2.emit Event.FreeEventContext
      else w2
    let w4 : World :=
      match fr.ccb with
      | some c => (DokanFreeCCB w3 c).1
      | none => w3
    let w5 : World :=
      match fr.fcb with
      | some f => (DokanFreeFCB w4 f).1
      | none => w4
    match fr.fileObject, w5.fileObject with
    | true, some fo =>
      { fr with
        w := ({ w5 with fileObject := some { fo with FsContext := none, FsContext2 := none } }
          : World).emit (Event.CompleteIrpRequest fr.status fr.info) }
    | _, _ =>
      { fr with
        w := w5.emit (Event.CompleteIrpRequest fr.status fr.info)
        fault := true }
  else { fr with w := fr.w.emit (Event.CompleteIrpRequest fr.status fr.info) }

/-- The function `DokanDispatchCreate (DeviceObject, Irp)`: the frame when the function
returns; the value returned is its `status`. -/
def DokanDispatchCreate (env : Env) (o : CreateOracle) (irpSp : IO_STACK_LOCATION)
    (w : World) : CreateFrame :=
  createFinally (DokanDispatchCreateTry env o irpSp w)

/-! ## `DokanCompleteCreate` -/

/-- The fields of `EVENT_INFORMATION` read by `DokanCompleteCreate`: the status of the
worker, its context token, the outcome `Operation.Create.Information`, and whether
`Operation.Create.Flags` carries `DOKAN_FILE_DIRECTORY`. -/
structure EVENT_INFORMATION where
  Status : NTSTATUS := STATUS_SUCCESS
  Context : Nat := 0
  Information : Nat := 0
  IsDirectory : Bool := false
  deriving DecidableEq, Repr

/-- What `DokanCompleteCreate` leaves: the memory, the status and the information
handed to `DokanCompleteIrpRequest`, and whether a null pointer was dereferenced. -/
structure CompleteResult where
  w : World := {}
  status : NTSTATUS := STATUS_SUCCESS
  info : Nat := 0
  fault : Bool := false
  deriving DecidableEq, Repr

/-- The status of `DokanCompleteCreate` after the test of lines 1465 to 1476. -/
def completeStatus (ReadOnly : Bool) (Options : Nat) (EventInfo : EVENT_INFORMATION) :
    NTSTATUS :=
  if EventInfo.Information = FILE_DOES_NOT_EXIST ∧ ReadOnly = true then
    if dispositionOf Options = FILE_OPEN_IF then STATUS_MEDIA_WRITE_PROTECTED
    else EventInfo.Status
  else EventInfo.Status

/-- Lines 1478 to 1501 of `DokanCompleteCreate`: the flags set on a success. -/
def completeFlags (irpSp : IO_STACK_LOCATION) (EventInfo : EVENT_INFORMATION)
    (status : NTSTATUS) (ccb fcb : Nat) (w1 : World) : World :=
  let w2 : World :=
    if NT_SUCCESS status = true
        ∧ (FlagOn irpSp.Options FILE_DIRECTORY_FILE = true ∨ EventInfo.IsDirectory = true)
    then
      w1.setFcb fcb
        { w1.fcb fcb with Flags := { (w1.fcb fcb).Flags with FILE_DIRECTORY := true } }
    else w1
  let w3 : World :=
    if NT_SUCCESS status = true then
      w2.setCcb ccb
        { w2.ccb ccb with Flags := { (w2.ccb ccb).Flags with FILE_OPENED := true } }
    else w2
  if NT_SUCCESS status = true ∧ FlagOn irpSp.Options FILE_DELETE_ON_CLOSE = true then
    (w3.setFcb fcb
      { w3.fcb fcb with Flags := { (w3.fcb fcb).Flags with DELETE_ON_CLOSE := true } }
      ).setCcb ccb
      { w3.ccb ccb with Flags := { (w3.ccb ccb).Flags with DELETE_ON_CLOSE := true } }
  else w3

/-- Lines 1503 to 1513 of `DokanCompleteCreate`: the notification of a creation and
the end of the pending atomic oplock request. -/
def completeSuccess (info : Nat) (ccb fcb : Nat) (w4 : World) : World :=
  let w5 : World :=
    if info = FILE_CREATED then
      w4.emit (Event.NotifyReportChange fcb (w4.fcb fcb).Flags.FILE_DIRECTORY)
    else w4
  w5.setCcb ccb { w5.ccb ccb with AtomicOplockRequestPending := false }

/-- Lines 1514 to 1524 of `DokanCompleteCreate`: the unwind on a failure. -/
def completeFailure (ccb fcb : Nat) (w4 : World) : World :=
  let w5 := DokanMaybeBackOutAtomicOplockRequest w4 ccb
  let w6 := (DokanFreeCCB w5 ccb).1
  let w7 := w6.emit (Event.IoRemoveShareAccess fcb)
  let w8 := (DokanFreeFCB w7 fcb).1
  { w8 with fileObject := w8.fileObject.map (fun f => { f with FsContext2 := none }) }

/-- The function `DokanCompleteCreate (IrpEntry, EventInfo)`; `irpSp` is the stack
location of the entry and the file object is the one of the memory. -/
def DokanCompleteCreate (irpSp : IO_STACK_LOCATION) (EventInfo : EVENT_INFORMATION)
    (w : World) : CompleteResult :=
  match w.fileObject with
  | none => { w := w, fault := true }
  | some fo =>
    match fo.FsContext2 with
    | none => { w := w, fault := true }
    | some ccb =>
      match (w.ccb ccb).Fcb with
      | none => { w := w, fault := true }
      | some fcb =>
        let w1 := w.setCcb ccb { w.ccb ccb with UserContext := EventInfo.Context }
        let info := EventInfo.Information
        let status := completeStatus w1.vcb.ReadOnly irpSp.Options EventInfo
        let w4 := completeFlags irpSp EventInfo status ccb fcb w1
        if NT_SUCCESS status = true then
          { w := (completeSuccess info ccb fcb w4).emit (Event.CompleteIrpRequest status info)
            status := status
            info := info }
        else
          { w := (completeFailure ccb fcb w4).emit (Event.CompleteIrpRequest status info)
            status := status
            info := info }

/-- Successive calls of `DokanGetFCB` for one path, each with its pool results and its
case policy, with no release in between: the memory afterwards and the blocks
returned, in order. -/
def DokanGetFCB_calls (env : Env) (FileName : List Nat) (FileNameLength : Nat) :
    List (PoolOracle × Bool) → World → World × List (Option Nat)
  | [], w => (w, [])
  | c :: rest, w =>
    let r := DokanGetFCB env c.1 w FileName FileNameLength c.2
    let r2 := DokanGetFCB_calls env FileName FileNameLength rest r.1
    (r2.1, r.2 :: r2.2)

/-- Every address in the cache list is the address of a block. -/
def World.cacheValid (w : World) : Prop := ∀ b ∈ w.vcb.NextFCB, b < w.fcbs.length

instance (w : World) : Decidable w.cacheValid := by
  unfold World.cacheValid
  infer_instance

/-- The memory `w1` is the memory `w` in which one block for the path was allocated at
the first unused address and linked at the tail of the cache, and now holds `k`
references. -/
def AcquiredFrom (w : World) (FileName : List Nat) (FileNameLength : Nat) (k : Int)
    (w1 : World) : Prop :=
  w1.vcb.NextFCB = w.vcb.NextFCB ++ [w.fcbs.length]
    ∧ w1.fcbs.length = w.fcbs.length + 1
    ∧ (∀ b, b < w.fcbs.length → (w1.fcb b).FileName = (w.fcb b).FileName)
    ∧ (w1.fcb w.fcbs.length).FileName
        = { Length := toUSHORT FileNameLength, MaximumLength := toUSHORT FileNameLength,
            Buffer := some FileName }
    ∧ (w1.fcb w.fcbs.length).FileCount = k
    ∧ (w1.fcb w.fcbs.length).IdentifierType = FSD_IDENTIFIER_TYPE.FCB
    ∧ w1.vcb.FcbAllocations = w.vcb.FcbAllocations + 1
    ∧ w1.vcb.FcbAllocated = w.vcb.FcbAllocated + 1

/-- Successive calls of `DokanFreeFCB` on one block: the memory afterwards and the
statuses returned, in order. -/
def DokanFreeFCB_calls : Nat → World → Nat → World × List NTSTATUS
  | 0, w, _ => (w, [])
  | n + 1, w, Fcb =>
    let r := DokanFreeFCB w Fcb
    let r2 := DokanFreeFCB_calls n r.1 Fcb
    (r2.1, r.2 :: r2.2)

/-- An environment for the examples: no case folding, and two short reserved names. -/
def sampleEnv : Env :=
  { upcase := id
    keepAliveFileName := { Length := 4, MaximumLength := 4, Buffer := some [92, 107] }
    notificationFileName := { Length := 4, MaximumLength := 4, Buffer := some [92, 110] }
    sizeofPVOID := 8
    sizeofEventContext := 160
    offsetCreate := 48
    offsetAccessState := 48 }

/-- A memory for the examples: deferred collection enabled, and one cached block for
the path `\a` holding one reference. -/
def sampleWorld : World :=
  { vcb := { NextFCB := [0], FcbGarbageCollectionEnabled := true }
    fcbs :=
      [{ IdentifierType := FSD_IDENTIFIER_TYPE.FCB
         FileName := { Length := 4, MaximumLength := 4, Buffer := some [92, 97, 0] }
         FileCount := 1 }] }

/-- What holds of a frame as long as the `__try` block has not reached the acquisition
of the FCB (line 784): the volume, the FCBs and the CCBs are those of the memory `w`
at entry, and no block, event context or share access is held. -/
def EarlyFrame (w : World) (fr : CreateFrame) : Prop :=
  fr.w.hasVcb = w.hasVcb ∧ fr.w.vcb = w.vcb ∧ fr.w.fcbs = w.fcbs ∧ fr.w.ccbs = w.ccbs
    ∧ fr.fcb = none ∧ fr.ccb = none ∧ fr.eventContext = none
    ∧ fr.EventContextConsumed = false ∧ fr.UnwindShareAccess = false
    ∧ fr.fcbLocked = false ∧ fr.parentDir = none ∧ fr.allocateCcb = true
    ∧ fr.fault = false

/-- What holds of a frame with which a step before line 784 is entered: the local
`fileObject` is set and points to the file object of the request, the disposition is
the one of the options word, and the volume passed the tests of lines 565 to 584. -/
def ArrivedFrame (w : World) (irpSp : IO_STACK_LOCATION) (fr : CreateFrame) : Prop :=
  fr.fileObject = true ∧ fr.w.fileObject ≠ none
    ∧ ((w.fileObject.bind (fun fo => fo.FsContext2)) = none →
        (fr.w.fileObject.bind (fun fo => fo.FsContext2)) = none)
    ∧ fr.disposition = dispositionOf irpSp.Options
    ∧ w.hasVcb = true ∧ w.vcb.IdentifierType = FSD_IDENTIFIER_TYPE.VCB
    ∧ w.vcb.UnmountPending = false

/-- A memory for the examples: a read-only volume with an empty cache, and a file
object that names `\foo`. -/
def sampleReadOnlyWorld : World :=
  { vcb := { ReadOnly := true }
    fileObject :=
      some { FileName := { Length := 8, MaximumLength := 10,
                           Buffer := some [92, 102, 111, 111, 0] } } }

/-- A request for the examples: disposition `FILE_CREATE`, no other option. -/
def sampleCreateRequest : IO_STACK_LOCATION :=
  { Options := 0x02000000, DesiredAccess := 1, ShareAccess := 7 }

/-- The frame `b` holds the event context of the frame `a`, and records a fault if
`a` does. -/
def KeepsEnvelope (a b : CreateFrame) : Prop :=
  b.eventContext = a.eventContext ∧ (b.fault = false → a.fault = false)

/-- The frame has no event context and the read-only mode of the volume is the one of
the memory `w` at entry. -/
def BeforeEnvelope (w : World) (fr : CreateFrame) : Prop :=
  fr.w.vcb.ReadOnly = w.vcb.ReadOnly ∧ fr.eventContext = none

/-- The header fields of an event context that locate its sub-records, with the
options word. -/
def EVENT_CONTEXT.locators (ec : EVENT_CONTEXT) : Nat × Nat × Nat × Nat × Nat × Nat :=
  (ec.SecurityDescriptorOffset, ec.UnicodeStringObjectNameOffset,
    ec.UnicodeStringObjectTypeOffset, ec.CreateOptions, ec.FileNameLength, ec.FileNameOffset)

/-- A request for the examples: disposition `FILE_OPEN_IF`, with an access state that
carries a security descriptor and the object name `AB`. -/
def sampleOpenIfRequest : IO_STACK_LOCATION :=
  { Options := 0x03000020, DesiredAccess := 1, ShareAccess := 7
    AccessState :=
      some { SecurityDescriptor := true, ObjectName := { Length := 4, Buffer := [65, 0, 66, 0] } } }

/-- Results for the examples: `SeAssignSecurity` hands out a descriptor of five
bytes, every other call succeeds. -/
def sampleOracle : CreateOracle := { seAssignSecurity := some [1, 2, 3, 4, 5] }

/-- A reply for the examples: the worker did not find the file
(`STATUS_OBJECT_NAME_NOT_FOUND`, outcome `FILE_DOES_NOT_EXIST`). -/
def sampleNotFoundReply : EVENT_INFORMATION :=
  { Status := 0xC0000034, Information := FILE_DOES_NOT_EXIST }

/-- A memory for the examples: the read-only volume after the dispatch of the OpenIf
request for `\foo`, which is pending at the worker. -/
def samplePendingWorld : World :=
  (DokanDispatchCreate sampleEnv sampleOracle sampleOpenIfRequest sampleReadOnlyWorld).w

/-- Lines 790 to 806: the path and the byte length that `createAcquire` passes to
`DokanGetFCB` from the frame `fr`: the parent directory computed by `DokanGetParentDir`
when `SL_OPEN_TARGET_DIRECTORY` is set, the path of the request otherwise; `none` when
`DokanGetParentDir` does not succeed. -/
def acquiredName (o : CreateOracle) (irpSp : IO_STACK_LOCATION) (fr : CreateFrame) :
    Option (List Nat × Nat) :=
  if FlagOn irpSp.Flags SL_OPEN_TARGET_DIRECTORY = true then
    match DokanGetParentDir (fr.fileName.getD []) o.parentDirAlloc with
    | none => none
    | some r =>
      if r.status ≠ STATUS_SUCCESS then none
      else some (r.parentDir.getD [], r.parentDirLength)
  else some (fr.fileName.getD [], fr.fileNameLength)

/-- A memory for the examples: a writable volume whose cache holds one block for
`\foo` with one reference, and a file object that names `\foo`. -/
def sampleOpenWorld : World :=
  { vcb := { NextFCB := [0] }
    fcbs :=
      [{ IdentifierType := FSD_IDENTIFIER_TYPE.FCB
         FileName := { Length := 8, MaximumLength := 8, Buffer := some [92, 102, 111, 111, 0] }
         FileCount := 1 }]
    fileObject :=
      some { FileName := { Length := 8, MaximumLength := 10,
                           Buffer := some [92, 102, 111, 111, 0] } } }

/-- The paths of the cached blocks, in cache order: the byte length and the characters
of each stored name. -/
def World.cachedPaths (w : World) : List (Nat × List Nat) :=
  w.vcb.NextFCB.map (fun b => ((w.fcb b).FileName.Length, (w.fcb b).FileName.chars))

/-- Cache uniqueness: no two entries of the cache list have the same path (same byte
length and same characters). -/
def World.cacheUnique (w : World) : Prop := w.cachedPaths.Nodup

instance (w : World) : Decidable w.cacheUnique := by
  unfold World.cacheUnique
  infer_instance

/-- The cache of `w1` is the cache of `w` with some entries removed: no block was
allocated, and the blocks still cached have the names they had. -/
def CacheShrinks (w w1 : World) : Prop :=
  w1.fcbs.length = w.fcbs.length ∧ List.Sublist w1.vcb.NextFCB w.vcb.NextFCB
    ∧ ∀ b ∈ w1.vcb.NextFCB, (w1.fcb b).FileName = (w.fcb b).FileName

/-- The run of the `__try` block up to line 683, where the name is resolved. -/
def createUpToResolve (env : Env) (o : CreateOracle) (irpSp : IO_STACK_LOCATION)
    (w : World) : CreateFrame × Bool :=
  andThen (createEntry env o irpSp w) (createNormalize o)

/-- The concatenation of a related path `R` and a relative name `N` as the
specification words it: one separator is inserted when `N` is not empty, `R` does not
end in a separator and `N` does not begin with a colon. -/
def specResolvedPath (R N : List Nat) : List Nat :=
  if N ≠ [] ∧ R.getLast? ≠ some BACKSLASH ∧ N.head? ≠ some COLON then R ++ [BACKSLASH] ++ N
  else R ++ N

/-- A memory for the examples: a file object that names `\a:b`, on a volume that has
alternate streams disabled. -/
def sampleStreamWorld : World :=
  { fileObject :=
      some { FileName := { Length := 8, MaximumLength := 10,
                           Buffer := some [92, 97, 58, 98, 0] } } }

/-- A memory for the examples: the directory `\dir` is open (one FCB, one CCB), and a
file object names `foo` relative to that open. -/
def sampleRelativeWorld : World :=
  { vcb := { NextFCB := [0] }
    fcbs :=
      [{ IdentifierType := FSD_IDENTIFIER_TYPE.FCB
         FileName := { Length := 8, MaximumLength := 8,
                       Buffer := some [92, 100, 105, 114, 0] }
         FileCount := 1
         NextCCB := [0] }]
    ccbs := [{ IdentifierType := FSD_IDENTIFIER_TYPE.CCB, Fcb := some 0, Linked := true }]
    fileObject :=
      some { FileName := { Length := 6, MaximumLength := 8, Buffer := some [102, 111, 111, 0] }
             RelatedFileObject := some { FsContext2 := some 0 } } }

/-- Every block of the cache list carries the FCB tag. -/
def World.cacheTagged (w : World) : Prop :=
  ∀ b ∈ w.vcb.NextFCB, (w.fcb b).IdentifierType = FSD_IDENTIFIER_TYPE.FCB

instance (w : World) : Decidable w.cacheTagged := by
  unfold World.cacheTagged
  infer_instance

/-- The calls made since the memory `w0`: the trace of `w1` after the calls that `w0`
had recorded. -/
def callsSince (w0 w1 : World) : List Event := w1.trace.drop w0.trace.length

/-- The trace of `b` is the trace of `a` followed by calls that all satisfy `P`. -/
def Ext (P : Event → Bool) (a b : World) : Prop :=
  ∃ t, b.trace = a.trace ++ t ∧ ∀ e ∈ t, P e = true

/-- The calls that record a share access on an FCB: `IoSetShareAccess` and
`IoUpdateShareAccess`. -/
def Event.isShareGrant : Event → Bool
  | Event.IoSetShareAccess _ _ _ => true
  | Event.IoUpdateShareAccess _ => true
  | _ => false

/-- The call that removes a share access: `IoRemoveShareAccess`. -/
def Event.isShareRemoval : Event → Bool
  | Event.IoRemoveShareAccess _ => true
  | _ => false

/-- The request of an oplock break: `FsRtlOplockBreakH`. -/
def Event.isOplockBreak : Event → Bool
  | Event.OplockBreakH _ => true
  | _ => false

/-- The log entries (`DokanLogInfo`). -/
def Event.isLog : Event → Bool
  | Event.LogInfo => true
  | _ => false

/-- The calls made before the share access check of line 1123: log entries, the
allocation of the event context and the release of the assigned descriptor. -/
def Event.isPreparatory : Event → Bool
  | Event.LogInfo => true
  | Event.AllocateEventContext _ => true
  | Event.SeDeassignSecurity => true
  | _ => false

/-- The oplock checks of lines 1265 to 1306: `FsRtlCheckOplock`, `FsRtlCheckOplockEx`
with the key flag, and `FsRtlOplockFsctrl`. -/
def Event.isOplockCheck : Event → Bool
  | Event.CheckOplock _ => true
  | Event.CheckOplockKey _ => true
  | Event.OplockFsctrl _ _ => true
  | _ => false

/-- The calls of the `__finally` block: the back-out of an atomic oplock, the removal
of the share access, the release of the event context, an error log entry of
`DokanFreeFCB`, and the completion of the request. -/
def Event.isUnwind : Event → Bool
  | Event.BackOutAtomicOplock _ => true
  | Event.IoRemoveShareAccess _ => true
  | Event.FreeEventContext => true
  | Event.LogError _ => true
  | Event.CompleteIrpRequest _ _ => true
  | _ => false

/-- The memory after the calls of lines 1353 to 1372 of the `__finally` block on a
failure status: the back-out of the atomic oplock, the removal of the share access and
the release of the event context. -/
def unwindCalls (fr : CreateFrame) : World :=
  let w1 : World :=
    match fr.ccb with
    | some c => DokanMaybeBackOutAtomicOplockRequest fr.w c
    | none => fr.w
  let w2 : World :=
    if fr.UnwindShareAccess = true then w1.emit (Event.IoRemoveShareAccess (fr.fcb.getD 0))
    else w1
  if fr.EventContextConsumed = false ∧ fr.eventContext.isSome = true then
    w2.emit Event.FreeEventContext
  else w2

/-- The memory after lines 1353 to 1378 of the `__finally` block on a failure status:
after `unwindCalls`, the release of the CCB and of the FCB. -/
def unwindBlocks (fr : CreateFrame) : World :=
  let w4 : World :=
    match fr.ccb with
    | some c => (DokanFreeCCB (unwindCalls fr) c).1
    | none => unwindCalls fr
  match fr.fcb with
  | some f => (DokanFreeFCB w4 f).1
  | none => w4

/-- Between the memories `a` and `b`, `g` calls that record a share access and `r`
calls that remove one were made, and no call of the trace of `a` was lost. -/
def ShareCalls (a b : World) (g r : Nat) : Prop :=
  ∃ t, b.trace = a.trace ++ t ∧ t.countP Event.isShareGrant = g
    ∧ t.countP Event.isShareRemoval = r

/-- What holds of a frame from the point where it holds the block `b` (line 813 on a
first dispatch, line 791 on a retry), `w` being the memory at entry: the frame holds `b`
and the file object, `b` is a valid block of a valid volume with `k` references more
than at entry (1 when the dispatch acquired the block, 0 on a retry), the CCB of the
frame is either absent or a block that belongs to `b`, is linked, and occurs once in the
list of `b`; and the calls that record a share access number one if `UnwindShareAccess`
is set and none otherwise, with no removal. -/
def HeldFrame (w : World) (b : Nat) (k : Int) (fr : CreateFrame) : Prop :=
  fr.fcb = some b ∧ fr.fileObject = true ∧ fr.w.fileObject ≠ none
    ∧ fr.w.vcb.IdentifierType = FSD_IDENTIFIER_TYPE.VCB
    ∧ (fr.w.fcb b).IdentifierType = FSD_IDENTIFIER_TYPE.FCB
    ∧ (fr.w.fcb b).FileCount = (w.fcb b).FileCount + k
    ∧ (fr.ccb = none
        ∨ ∃ c, fr.ccb = some c ∧ (fr.w.ccb c).Fcb = some b ∧ (fr.w.ccb c).Linked = true
            ∧ c ∉ (fr.w.fcb b).NextCCB.erase c)
    ∧ ShareCalls w fr.w (if fr.UnwindShareAccess = true then 1 else 0) 0

/-- A frame that holds a block acquired by the dispatch, before line 832: no CCB, no
event context and no share access yet. -/
def FreshHeld (w : World) (b : Nat) (fr : CreateFrame) : Prop :=
  HeldFrame w b 1 fr ∧ fr.ccb = none ∧ fr.w.ccbs = w.ccbs
    ∧ (fr.w.fcb b).NextCCB = (w.fcb b).NextCCB ∧ fr.allocateCcb = true
    ∧ fr.eventContext = none ∧ fr.UnwindShareAccess = false
    ∧ fr.EventContextConsumed = false ∧ Ext Event.isLog w fr.w

/-- A request for the examples: disposition `FILE_OPEN` with `FILE_DIRECTORY_FILE`, and
the temporary attribute. -/
def sampleOpenDirectoryRequest : IO_STACK_LOCATION :=
  { Options := 0x01000001, FileAttributes := 0x100, DesiredAccess := 1, ShareAccess := 7 }

/-- A request for the examples: disposition `FILE_OPEN_IF` with `FILE_DIRECTORY_FILE`,
and the temporary attribute. -/
def sampleOpenIfDirectoryRequest : IO_STACK_LOCATION :=
  { Options := 0x03000001, FileAttributes := 0x100, DesiredAccess := 1, ShareAccess := 7 }

/-- A request for the examples: disposition `FILE_OPEN` with `FILE_COMPLETE_IF_OPLOCKED`. -/
def sampleCompleteIfOplockedRequest : IO_STACK_LOCATION :=
  { Options := 0x01000100, DesiredAccess := 1, ShareAccess := 7 }

/-- Results for the examples: `IoCheckShareAccess` reports a sharing violation, every
other call succeeds. -/
def sampleViolationOracle : CreateOracle := { ioCheckShareAccess1 := STATUS_SHARING_VIOLATION }

/-- A request for the examples: disposition `FILE_OPEN`, sharing for read and write but
not for delete. -/
def sampleOpenRequest : IO_STACK_LOCATION :=
  { Options := 0x01000000, DesiredAccess := 1, ShareAccess := 3 }

/-- A memory for the examples: `sampleOpenWorld` with the delete-on-close flag set on
the block of `\foo`. -/
def sampleDeletePendingWorld : World :=
  { vcb := { NextFCB := [0] }
    fcbs :=
      [{ IdentifierType := FSD_IDENTIFIER_TYPE.FCB
         FileName := { Length := 8, MaximumLength := 8, Buffer := some [92, 102, 111, 111, 0] }
         FileCount := 1
         Flags := { DELETE_ON_CLOSE := true } }]
    fileObject :=
      some { FileName := { Length := 8, MaximumLength := 10,
                           Buffer := some [92, 102, 111, 111, 0] } } }

/-- The allocation of an event context: `AllocateEventContext`. -/
def Event.isEnvelopeAllocation : Event → Bool
  | Event.AllocateEventContext _ => true
  | _ => false

/-- The two consumers of an event context: `DokanRegisterPendingIrp`, which hands it to
the pending-request table, and `DokanFreeEventContext`. -/
def Event.isEnvelopeConsumer : Event → Bool
  | Event.RegisterPendingIrp => true
  | Event.FreeEventContext => true
  | _ => false

/-- Results for the examples: `IoCheckShareAccess` reports a sharing violation and
`FsRtlOplockBreakH` returns `STATUS_PENDING`. -/
def samplePendingBreakOracle : CreateOracle :=
  { ioCheckShareAccess1 := STATUS_SHARING_VIOLATION, oplockBreakH := STATUS_PENDING }

/-- Results for the examples: `FsRtlCheckOplock` returns `STATUS_PENDING`, every other
call succeeds. -/
def samplePendingCheckOracle : CreateOracle := { checkOplock := STATUS_PENDING }

/-- A held frame from the allocation of the CCB (line 847) to the share access check:
the frame has a CCB and `UnwindShareAccess` is not set. -/
def ReadyFrame (fr : CreateFrame) : Prop :=
  fr.UnwindShareAccess = false ∧ fr.ccb ≠ none

/-- The step from the frame `fr` to the frame `fr2` keeps the blocks: the same FCB, CCB
and file object in the frame, the same FCBs, volume and file object in memory, and for
every CCB the same FCB and the same link. -/
def SteadyStep (fr fr2 : CreateFrame) : Prop :=
  fr2.fcb = fr.fcb ∧ fr2.ccb = fr.ccb ∧ fr2.fileObject = fr.fileObject
    ∧ fr2.w.fcbs = fr.w.fcbs ∧ fr2.w.vcb = fr.w.vcb ∧ fr2.w.fileObject = fr.w.fileObject
    ∧ ∀ x, (fr2.w.ccb x).Fcb = (fr.w.ccb x).Fcb ∧ (fr2.w.ccb x).Linked = (fr.w.ccb x).Linked

/-- A request for the examples: disposition `FILE_OPEN` with
`FILE_OPEN_REQUIRING_OPLOCK`. -/
def sampleOplockRequest : IO_STACK_LOCATION :=
  { Options := 0x01010000, DesiredAccess := 1, ShareAccess := 7 }

/-- A memory for the examples: `\foo` is open once and a create of `\foo` is pending a
retry: its first dispatch took the second reference of the block, allocated the CCB 0
and set the contexts of the file object, and the CCB was flagged `DOKAN_RETRY_CREATE`
when the request was queued again. -/
def sampleRetryWorld : World :=
  { vcb := { NextFCB := [0] }
    fcbs :=
      [{ IdentifierType := FSD_IDENTIFIER_TYPE.FCB
         FileName := { Length := 8, MaximumLength := 8, Buffer := some [92, 102, 111, 111, 0] }
         FileCount := 2
         NextCCB := [0] }]
    ccbs :=
      [{ IdentifierType := FSD_IDENTIFIER_TYPE.CCB, Fcb := some 0, Linked := true
         Flags := { RETRY_CREATE := true } }]
    fileObject :=
      some { FileName := { Length := 8, MaximumLength := 10,
                           Buffer := some [92, 102, 111, 111, 0] }
             FsContext := some (FsContextRef.FcbHeader 0)
             FsContext2 := some 0
             SectionObjectPointer := some (FsContextRef.FcbHeader 0) } }

/-- Results for the examples: `DokanRegisterPendingIrp` fails with
`STATUS_INSUFFICIENT_RESOURCES`, every other call succeeds. -/
def sampleRegisterFailureOracle : CreateOracle :=
  { registerPendingIrp := STATUS_INSUFFICIENT_RESOURCES }

/-- A memory for the examples: the root directory `\` is open (one FCB, one CCB) on a
volume with alternate streams enabled, and a file object names `:s` relative to that
open. -/
def sampleRootStreamWorld : World :=
  { vcb := { NextFCB := [0], UseAltStream := true }
    fcbs :=
      [{ IdentifierType := FSD_IDENTIFIER_TYPE.FCB
         FileName := { Length := 2, MaximumLength := 2, Buffer := some [92, 0] }
         FileCount := 1
         NextCCB := [0] }]
    ccbs := [{ IdentifierType := FSD_IDENTIFIER_TYPE.CCB, Fcb := some 0, Linked := true }]
    fileObject :=
      some { FileName := { Length := 4, MaximumLength := 6, Buffer := some [58, 115, 0] }
             RelatedFileObject := some { FsContext2 := some 0 } } }

/-- A memory for the examples: the memory left by the dispatch of `sampleOpenRequest` on
`sampleOpenWorld` that recorded the share access and then returned `STATUS_PENDING`
from `FsRtlCheckOplock` (line 1274), in which the CCB 0 of the request has since been
flagged `DOKAN_RETRY_CREATE`, as line 789 expects of a create that is dispatched
again. -/
def sampleRetryAfterPendingWorld : World :=
  (DokanDispatchCreate sampleEnv samplePendingCheckOracle sampleOpenRequest sampleOpenWorld).w.setCcb
    0
    { (DokanDispatchCreate sampleEnv samplePendingCheckOracle sampleOpenRequest
        sampleOpenWorld).w.ccb 0 with
      Flags :=
        { ((DokanDispatchCreate sampleEnv samplePendingCheckOracle sampleOpenRequest
            sampleOpenWorld).w.ccb 0).Flags with RETRY_CREATE := true } }

/-! # Theorems -/

/-! ## Lemmas on buffers -/

theorem bufRead_mid (pre : List Nat) (x : Nat) (suf : List Nat) :
    bufRead (pre ++ x :: suf) (pre.length : Int) = some x := by
  unfold bufRead
  have h : (0 : Int) ≤ (pre.length : Int) ∧
      ((pre.length : Nat) : Int) < ((pre ++ x :: suf).length : Nat) := by
    constructor
    · omega
    · simp
  rw [if_pos h]
  simp only [Int.toNat_ofNat]
  rw [List.getElem?_append_right (le_refl _)]
  simp

theorem bufWrite_mid (pre : List Nat) (x v : Nat) (suf : List Nat) :
    bufWrite (pre ++ x :: suf) (pre.length : Int) v = some (pre ++ v :: suf) := by
  unfold bufWrite
  have h : (0 : Int) ≤ (pre.length : Int) ∧
      ((pre.length : Nat) : Int) < ((pre ++ x :: suf).length : Nat) := by
    constructor
    · omega
    · simp
  rw [if_pos h]
  simp

theorem bufRead_suf (pre : List Nat) (x : Nat) (suf : List Nat) (j : Nat) (hj : j < suf.length) :
    bufRead (pre ++ x :: suf) ((pre.length + 1 + j : Nat) : Int) = some (suf.get ⟨j, hj⟩) := by
  unfold bufRead
  have h : (0 : Int) ≤ ((pre.length + 1 + j : Nat) : Int) ∧
      ((pre.length + 1 + j : Nat) : Int) < ((pre ++ x :: suf).length : Nat) := by
    constructor
    · omega
    · simp; omega
  rw [if_pos h]
  simp only [Int.toNat_ofNat]
  rw [List.getElem?_append_right (by omega)]
  have e : pre.length + 1 + j - pre.length = j + 1 := by omega
  rw [e]
  simp [List.getElem?_eq_getElem hj]

/-! ## Lemmas on `DokanGetParentDir` -/

theorem cstr_append_zero (s rest : List Nat) (hs : ∀ c ∈ s, c ≠ 0) :
    cstr (s ++ 0 :: rest) = s := by
  unfold cstr
  induction s with
  | nil => simp
  | cons a t ih =>
    have ha : a ≠ 0 := hs a (by simp)
    have ht : ∀ c ∈ t, c ≠ 0 := fun c hc => hs c (by simp [hc])
    simp [List.takeWhile_cons, ha, ih ht]

theorem toLONG_small (n : Nat) (h : n < 2 ^ 31) : toLONG n = (n : Int) := by
  unfold toLONG
  have h1 : n % 2 ^ 32 = n := Nat.mod_eq_of_lt (by omega)
  rw [h1, if_pos h]

theorem toULONG_small (n : Nat) (h : n < 2 ^ 32) : toULONG n = n := by
  unfold toULONG
  exact Nat.mod_eq_of_lt h

/-- The loop stops at the last separator when no separator follows it. -/
theorem parentScan_found (t : Bool) (len : Int) (pre suf : List Nat)
    (hsuf : ∀ c ∈ suf, c ≠ BACKSLASH)
    (hcont : ¬ ((pre.length : Int) = len - 1 ∧ t = true)) :
    ∀ j : Nat, j ≤ suf.length →
      parentScan t len (pre.length + 1 + j) (pre ++ BACKSLASH :: suf)
        = some (pre ++ 0 :: suf, (pre.length : Int)) := by
  intro j
  induction j with
  | zero =>
    intro _
    show parentScan t len (pre.length + 1) (pre ++ BACKSLASH :: suf) = _
    rw [parentScan, bufRead_mid]
    simp only [if_true, if_neg hcont, bufWrite_mid]
  | succ j ih =>
    intro hj
    have hj1 : j < suf.length := by omega
    have e : pre.length + 1 + (j + 1) = (pre.length + 1 + j) + 1 := by omega
    rw [e, parentScan, bufRead_suf pre BACKSLASH suf j hj1]
    have hne : suf.get ⟨j, hj1⟩ ≠ BACKSLASH := hsuf _ (List.get_mem _ _ _)
    simp only [if_neg hne]
    exact ih (by omega)

/-- The run of `DokanGetParentDir` on a name with a separator after a first part `d`
and no separator in `m`, up to the code after the loop. -/
theorem DokanGetParentDir_split (d m : List Nat) (z : Nat) (rest : List Nat)
    (hd0 : ∀ c ∈ d, c ≠ 0) (hm0 : ∀ c ∈ m, c ≠ 0) (hm : ∀ c ∈ m, c ≠ BACKSLASH)
    (hz : z ≠ 0) (hb : d.length + m.length + 2 < 2 ^ 31 - 1) :
    DokanGetParentDir ((d ++ BACKSLASH :: m ++ [z]) ++ 0 :: rest) true
      = parentFinish (decide (z = BACKSLASH)) (d ++ 0 :: (m ++ [0, 0])) (d.length : Int) := by
  have hs0 : ∀ c ∈ d ++ BACKSLASH :: m ++ [z], c ≠ 0 := by
    intro c hc
    simp only [List.mem_append, List.mem_cons, List.mem_singleton, List.not_mem_nil,
      or_false] at hc
    rcases hc with (h | h | h) | h
    · exact hd0 c h
    · rw [h]; decide
    · exact hm0 c h
    · rw [h]; exact hz
  have hc : cstr ((d ++ BACKSLASH :: m ++ [z]) ++ 0 :: rest) = d ++ BACKSLASH :: m ++ [z] :=
    cstr_append_zero _ rest hs0
  have hlen : (d ++ BACKSLASH :: m ++ [z]).length = d.length + m.length + 2 := by
    simp; omega
  have hw : wcslen ((d ++ BACKSLASH :: m ++ [z]) ++ 0 :: rest) = d.length + m.length + 2 := by
    unfold wcslen; rw [hc, hlen]
  have hL : toLONG (d.length + m.length + 2) = ((d.length + m.length + 2 : Nat) : Int) :=
    toLONG_small _ (by omega)
  have hne : d ++ BACKSLASH :: m ++ [z] ≠ [BACKSLASH] := by
    intro h
    have := congrArg List.length h
    rw [hlen] at this
    simp at this
  have hread : bufRead ((d ++ BACKSLASH :: m ++ [z]) ++ 0 :: rest)
      (((d.length + m.length + 2 : Nat) : Int) - 1) = some z := by
    have e : (d ++ BACKSLASH :: m ++ [z]) ++ 0 :: rest
        = (d ++ BACKSLASH :: m) ++ z :: (0 :: rest) := by simp
    have e2 : (((d.length + m.length + 2 : Nat) : Int) - 1)
        = (((d ++ BACKSLASH :: m).length : Nat) : Int) := by
      simp; omega
    rw [e, e2, bufRead_mid]
  have hcopy : RtlStringCchCopyW
      (List.replicate ((((d.length + m.length + 2 : Nat) : Int) + 1).toNat) 0)
      ((d.length + m.length + 2 : Nat) : Int).toNat
      ((d ++ BACKSLASH :: m ++ [z]) ++ 0 :: rest)
      = some (d ++ BACKSLASH :: (m ++ [0, 0])) := by
    unfold RtlStringCchCopyW
    rw [hc]
    have e1 : ((d.length + m.length + 2 : Nat) : Int).toNat = d.length + m.length + 2 := by omega
    have e2 : ((((d.length + m.length + 2 : Nat) : Int) + 1).toNat) = d.length + m.length + 3 := by
      omega
    rw [e1, e2, if_neg (by omega)]
    have e3 : (d ++ BACKSLASH :: m ++ [z]).take (d.length + m.length + 2 - 1)
        = d ++ BACKSLASH :: m := by
      have e4 : d.length + m.length + 2 - 1 = (d ++ BACKSLASH :: m).length := by
        simp; omega
      have e5 : d ++ BACKSLASH :: m ++ [z] = (d ++ BACKSLASH :: m) ++ [z] := by simp
      rw [e4, e5, List.take_left]
    simp only [e3]
    have e6 : (d ++ BACKSLASH :: m).length = d.length + m.length + 1 := by simp; omega
    rw [e6]
    simp only [List.length_replicate, List.drop_replicate]
    rw [if_pos (by omega)]
    have e7 : d.length + m.length + 3 - (d.length + m.length + 1 + 1) = 1 := by omega
    rw [e7]
    simp
  have hscan : parentScan (decide (z = BACKSLASH)) ((d.length + m.length + 2 : Nat) : Int)
      ((d.length + m.length + 2 : Nat) : Int).toNat (d ++ BACKSLASH :: (m ++ [0, 0]))
      = some (d ++ 0 :: (m ++ [0, 0]), (d.length : Int)) := by
    have e1 : ((d.length + m.length + 2 : Nat) : Int).toNat = d.length + 1 + (m.length + 1) := by
      omega
    rw [e1]
    apply parentScan_found
    · intro c hc
      simp only [List.mem_append, List.mem_cons, List.not_mem_nil, or_false] at hc
      rcases hc with h | h | h
      · exact hm c h
      · rw [h]; decide
      · rw [h]; decide
    · intro h
      have := h.1
      push_cast at this
      omega
    · simp
  unfold DokanGetParentDir
  simp only [hw, hL, hc]
  rw [if_neg (by omega), if_neg hne, hread]
  simp only []
  rw [if_neg (by push_cast; omega)]
  simp only [Bool.true_eq_false, if_false]
  rw [hcopy]
  simp only []
  rw [hscan]

theorem bufWrite_some (buf : List Nat) (i : Int) (v : Nat) (h0 : 0 ≤ i) (h1 : i < buf.length) :
    ∃ b, bufWrite buf i v = some b ∧ b.length = buf.length := by
  refine ⟨buf.set i.toNat v, ?_, by simp⟩
  unfold bufWrite
  rw [if_pos ⟨h0, h1⟩]

theorem bufRead_some (buf : List Nat) (i : Int) (h0 : 0 ≤ i) (h1 : i < buf.length) :
    ∃ c, bufRead buf i = some c := by
  have hi : i.toNat < buf.length := by omega
  refine ⟨buf.get ⟨i.toNat, hi⟩, ?_⟩
  unfold bufRead
  rw [if_pos ⟨h0, h1⟩]
  exact List.getElem?_eq_getElem hi

/-- The loop never leaves the buffer, and leaves `i` between `-1` and its start value. -/
theorem parentScan_total (t : Bool) (len : Int) :
    ∀ (k : Nat) (buf : List Nat), k ≤ buf.length →
      ∃ b i, parentScan t len k buf = some (b, i) ∧ b.length = buf.length ∧ -1 ≤ i ∧ i < k := by
  intro k
  induction k with
  | zero =>
    intro buf _
    exact ⟨buf, -1, by rw [parentScan], rfl, le_refl _, by decide⟩
  | succ k ih =>
    intro buf hk
    obtain ⟨c, hc⟩ := bufRead_some buf (k : Int) (by omega) (by omega)
    obtain ⟨b, i, h1, h2, h3, h4⟩ := ih buf (by omega)
    rw [parentScan, hc]
    by_cases hcb : c = BACKSLASH
    · by_cases hcont : (k : Int) = len - 1 ∧ t = true
      · simp only [if_pos hcb, if_pos hcont]
        exact ⟨b, i, h1, h2, h3, by omega⟩
      · obtain ⟨b1, hb1, hb2⟩ := bufWrite_some buf (k : Int) 0 (by omega) (by omega)
        simp only [if_pos hcb, if_neg hcont, hb1]
        exact ⟨b1, (k : Int), rfl, hb2, by omega, by omega⟩
    · simp only [if_neg hcb]
      exact ⟨b, i, h1, h2, h3, by omega⟩

/-- The code after the loop stays inside a buffer of at least two characters and
returns `STATUS_SUCCESS`. -/
theorem parentFinish_total (t : Bool) (buf : List Nat) (i : Int)
    (h2 : 2 ≤ buf.length) (hi : i + 1 < buf.length) :
    ∃ b n, parentFinish t buf i = some ⟨STATUS_SUCCESS, some b, n⟩ ∧ b.length = buf.length := by
  unfold parentFinish
  by_cases h0 : i ≤ 0
  · obtain ⟨b1, hb1, hl1⟩ := bufWrite_some buf 0 BACKSLASH (le_refl _) (by omega)
    obtain ⟨b2, hb2, hl2⟩ := bufWrite_some b1 1 0 (by omega) (by omega)
    simp only [if_pos h0, hb1, hb2]
    have hn : ¬ (t = true ∧ (1 : Int) < 1) := by omega
    rw [if_neg hn]
    exact ⟨b2, _, rfl, by omega⟩
  · simp only [if_neg h0]
    by_cases hc : t = true ∧ 1 < i
    · obtain ⟨b3, hb3, hl3⟩ := bufWrite_some buf i BACKSLASH (by omega) (by omega)
      obtain ⟨b4, hb4, hl4⟩ := bufWrite_some b3 (i + 1) 0 (by omega) (by omega)
      simp only [if_pos hc, hb3, hb4]
      exact ⟨b4, _, rfl, by omega⟩
    · simp only [if_neg hc]
      exact ⟨buf, _, rfl, rfl⟩

theorem cstr_length_le (p : List Nat) : (cstr p).length ≤ p.length := by
  unfold cstr
  exact (List.takeWhile_sublist _).length_le

/-- Every run of `DokanGetParentDir` on a name other than the empty one and the root
allocates, stays inside its buffers and returns `STATUS_SUCCESS`. -/
theorem DokanGetParentDir_success (fileName : List Nat)
    (hb : wcslen fileName < 2 ^ 31 - 1) (h0 : cstr fileName ≠ [])
    (hr : cstr fileName ≠ [BACKSLASH]) :
    ∃ b n, DokanGetParentDir fileName true = some ⟨STATUS_SUCCESS, some b, n⟩
      ∧ b.length = wcslen fileName + 1 := by
  have hpos : 0 < wcslen fileName := by
    unfold wcslen
    exact List.length_pos.mpr h0
  have hL : toLONG (wcslen fileName) = ((wcslen fileName : Nat) : Int) :=
    toLONG_small _ (by omega)
  have hle : wcslen fileName ≤ fileName.length := cstr_length_le fileName
  obtain ⟨last, hlast⟩ := bufRead_some fileName (((wcslen fileName : Nat) : Int) - 1)
    (by omega) (by omega)
  have hcopy : ∃ b1, RtlStringCchCopyW
      (List.replicate ((((wcslen fileName : Nat) : Int) + 1).toNat) 0)
      ((wcslen fileName : Nat) : Int).toNat fileName = some b1
      ∧ b1.length = wcslen fileName + 1 := by
    unfold RtlStringCchCopyW
    have e1 : ((wcslen fileName : Nat) : Int).toNat = wcslen fileName := by omega
    have e2 : ((((wcslen fileName : Nat) : Int) + 1).toNat) = wcslen fileName + 1 := by omega
    rw [e1, e2, if_neg (by omega)]
    have e3 : ((cstr fileName).take (wcslen fileName - 1)).length = wcslen fileName - 1 := by
      rw [List.length_take]
      unfold wcslen
      omega
    simp only [e3, List.length_replicate]
    rw [if_pos (by omega)]
    refine ⟨_, rfl, ?_⟩
    simp only [List.length_append, List.length_cons, List.length_drop, List.length_replicate, e3]
    omega
  obtain ⟨b1, hb1, hl1⟩ := hcopy
  obtain ⟨b2, i, hs, hl2, hi0, hi1⟩ :=
    parentScan_total (decide (last = BACKSLASH)) ((wcslen fileName : Nat) : Int)
      ((wcslen fileName : Nat) : Int).toNat b1 (by omega)
  obtain ⟨b, n, hf, hl3⟩ := parentFinish_total (decide (last = BACKSLASH)) b2 i
    (by omega) (by omega)
  refine ⟨b, n, ?_, by omega⟩
  unfold DokanGetParentDir
  simp only [hL]
  rw [if_neg (by omega), if_neg hr, hlast]
  simp only []
  rw [if_neg (by push_cast; omega)]
  simp only [Bool.true_eq_false, if_false]
  rw [hb1]
  simp only []
  rw [hs]
  exact hf

/-- A run of `DokanGetParentDir` whose allocation fails, on a name other than the
empty one and the root. -/
theorem DokanGetParentDir_alloc_fail (fileName : List Nat)
    (hb : wcslen fileName < 2 ^ 31 - 1) (h0 : cstr fileName ≠ [])
    (hr : cstr fileName ≠ [BACKSLASH]) :
    DokanGetParentDir fileName false = some ⟨STATUS_INSUFFICIENT_RESOURCES, none, 0⟩ := by
  have hpos : 0 < wcslen fileName := by
    unfold wcslen
    exact List.length_pos.mpr h0
  have hL : toLONG (wcslen fileName) = ((wcslen fileName : Nat) : Int) :=
    toLONG_small _ (by omega)
  have hle : wcslen fileName ≤ fileName.length := cstr_length_le fileName
  obtain ⟨last, hlast⟩ := bufRead_some fileName (((wcslen fileName : Nat) : Int) - 1)
    (by omega) (by omega)
  unfold DokanGetParentDir
  simp only [hL]
  rw [if_neg (by omega), if_neg hr, hlast]
  simp only []
  rw [if_neg (by push_cast; omega)]
  simp

/-! ## Lemmas on the FCB cache -/

theorem fcb_setFcb_same (w : World) (a : Nat) (f : DokanFCB) (h : a < w.fcbs.length) :
    (w.setFcb a f).fcb a = f := by
  unfold World.fcb World.setFcb
  simp only [List.getD_eq_getElem?_getD, List.getElem?_set_self h]
  rfl

theorem fcb_setFcb_ne (w : World) (a b : Nat) (f : DokanFCB) (h : a ≠ b) :
    (w.setFcb a f).fcb b = w.fcb b := by
  unfold World.fcb World.setFcb
  simp only [List.getD_eq_getElem?_getD, List.getElem?_set_ne h]

theorem fcbs_length_setFcb (w : World) (a : Nat) (f : DokanFCB) :
    (w.setFcb a f).fcbs.length = w.fcbs.length := by
  unfold World.setFcb
  simp

theorem vcb_setFcb (w : World) (a : Nat) (f : DokanFCB) : (w.setFcb a f).vcb = w.vcb := rfl

theorem fcbMatches_congr (env : Env) (f1 f2 : DokanFCB) (FileName : List Nat) (L : Nat)
    (cs : Bool) (h : f1.FileName = f2.FileName) :
    fcbMatches env f1 FileName L cs = fcbMatches env f2 FileName L cs := by
  unfold fcbMatches
  rw [h]

theorem findFCB_congr (env : Env) (w1 w2 : World) (FileName : List Nat) (L : Nat) (cs : Bool) :
    ∀ l : List Nat, (∀ b ∈ l, (w1.fcb b).FileName = (w2.fcb b).FileName) →
      findFCB env w1 FileName L cs l = findFCB env w2 FileName L cs l := by
  intro l
  induction l with
  | nil => intro _; rfl
  | cons a rest ih =>
    intro h
    rw [findFCB, findFCB, fcbMatches_congr env _ _ FileName L cs (h a (by simp)),
      ih (fun b hb => h b (by simp [hb]))]

theorem findFCB_append_none (env : Env) (w : World) (FileName : List Nat) (L : Nat) (cs : Bool)
    (l2 : List Nat) :
    ∀ l1 : List Nat, findFCB env w FileName L cs l1 = none →
      findFCB env w FileName L cs (l1 ++ l2) = findFCB env w FileName L cs l2 := by
  intro l1
  induction l1 with
  | nil => intro _; rfl
  | cons a rest ih =>
    intro h
    rw [findFCB] at h
    by_cases hm : fcbMatches env (w.fcb a) FileName L cs = true
    · rw [if_pos hm] at h
      exact absurd h (by simp)
    · rw [if_neg hm] at h
      rw [List.cons_append, findFCB, if_neg hm]
      exact ih h

theorem findFCB_none_filter (env : Env) (w : World) (FileName : List Nat) (L : Nat) (cs : Bool) :
    ∀ l : List Nat, findFCB env w FileName L cs l = none →
      l.filter (fun b => fcbMatches env (w.fcb b) FileName L cs) = [] := by
  intro l
  induction l with
  | nil => intro _; rfl
  | cons a rest ih =>
    intro h
    rw [findFCB] at h
    by_cases hm : fcbMatches env (w.fcb a) FileName L cs = true
    · rw [if_pos hm] at h
      exact absurd h (by simp)
    · rw [if_neg hm] at h
      have e : List.filter (fun b => fcbMatches env (w.fcb b) FileName L cs) (a :: rest)
          = List.filter (fun b => fcbMatches env (w.fcb b) FileName L cs) rest := by
        simp [List.filter_cons, hm]
      rw [e]
      exact ih h

theorem toUSHORT_small (n : Nat) (h : n < 65536) : toUSHORT n = n := by
  unfold toUSHORT
  exact Nat.mod_eq_of_lt (by omega)

/-- A block allocated for a path of less than 65536 bytes matches a later search for
that path, under either case policy. -/
theorem fcbMatches_self (env : Env) (f : DokanFCB) (FileName : List Nat) (L : Nat) (cs : Bool)
    (hL : L < 65536)
    (hf : f.FileName = { Length := toUSHORT L, MaximumLength := toUSHORT L,
                         Buffer := some FileName }) :
    fcbMatches env f FileName L cs = true := by
  unfold fcbMatches RtlEqualUnicodeString UNICODE_STRING.chars
  rw [hf, toUSHORT_small L hL]
  simp

theorem fcb_append_new (w : World) (f : DokanFCB) (v : DokanVCB) :
    ({ w with fcbs := w.fcbs ++ [f], vcb := v } : World).fcb w.fcbs.length = f := by
  unfold World.fcb
  simp only [List.getD_eq_getElem?_getD, List.getElem?_concat_length]
  rfl

theorem fcb_append_old (w : World) (f : DokanFCB) (v : DokanVCB) (b : Nat)
    (hb : b < w.fcbs.length) :
    ({ w with fcbs := w.fcbs ++ [f], vcb := v } : World).fcb b = w.fcb b := by
  unfold World.fcb
  simp only [List.getD_eq_getElem?_getD, List.getElem?_append_left hb]

/-- The first call for a path that is not in the cache, the pool allocations
succeeding, allocates one block at the first unused address. -/
theorem DokanGetFCB_first (env : Env) (o : PoolOracle) (w : World) (FileName : List Nat)
    (L : Nat) (cs : Bool) (ho1 : o.fcbFirst = true) (ho2 : o.resource = true)
    (hnone : findFCB env w FileName L cs w.vcb.NextFCB = none) :
    ∃ w1, DokanGetFCB env o w FileName L cs = (w1, some w.fcbs.length)
      ∧ AcquiredFrom w FileName L 1 w1 := by
  unfold DokanGetFCB
  rw [hnone]
  unfold DokanAllocateFCB
  simp only [ho1, ho2, if_true, Bool.true_eq_false, if_false]
  refine ⟨_, rfl, ?_⟩
  unfold AcquiredFrom incFileCount
  simp only [vcb_setFcb, fcbs_length_setFcb, List.length_append, List.length_singleton]
  have hlt : w.fcbs.length < w.fcbs.length + 1 := by omega
  refine ⟨trivial, trivial, ?_, ?_, ?_, ?_, trivial, trivial⟩
  · intro b hb
    have hne : w.fcbs.length ≠ b := by omega
    rw [fcb_setFcb_ne _ _ _ _ hne, fcb_setFcb_ne _ _ _ _ hne, fcb_append_old w _ _ b hb]
  · rw [fcb_setFcb_same _ _ _ (by simp [fcbs_length_setFcb])]
    rw [fcb_setFcb_same _ _ _ (by simp), fcb_append_new]
    split <;> split <;> rfl
  · rw [fcb_setFcb_same _ _ _ (by simp [fcbs_length_setFcb])]
    rw [fcb_setFcb_same _ _ _ (by simp), fcb_append_new]
    split <;> split <;> rfl
  · rw [fcb_setFcb_same _ _ _ (by simp [fcbs_length_setFcb])]
    rw [fcb_setFcb_same _ _ _ (by simp), fcb_append_new]
    split <;> split <;> rfl

/-- A later call for the same path, of less than 65536 bytes, finds the block and adds
one reference. -/
theorem DokanGetFCB_again (env : Env) (o : PoolOracle) (w w1 : World) (FileName : List Nat)
    (L : Nat) (cs : Bool) (k : Int) (hv : w.cacheValid) (hL : L < 65536)
    (hS : AcquiredFrom w FileName L k w1)
    (hnone : findFCB env w FileName L cs w.vcb.NextFCB = none) :
    ∃ w2, DokanGetFCB env o w1 FileName L cs = (w2, some w.fcbs.length)
      ∧ AcquiredFrom w FileName L (k + 1) w2 := by
  obtain ⟨h1, h2, h3, h4, h5, h6, h7, h8⟩ := hS
  have hold : findFCB env w1 FileName L cs w.vcb.NextFCB = none := by
    rw [findFCB_congr env w1 w FileName L cs _ (fun b hb => h3 b (hv b hb))]
    exact hnone
  have hfind : findFCB env w1 FileName L cs w1.vcb.NextFCB = some w.fcbs.length := by
    rw [h1, findFCB_append_none env w1 FileName L cs _ _ hold, findFCB,
      if_pos (fcbMatches_self env _ FileName L cs hL h4)]
  unfold DokanGetFCB
  rw [hfind]
  refine ⟨_, rfl, ?_⟩
  have hlt : w.fcbs.length < (DokanCancelFcbGarbageCollection w1 w.fcbs.length).fcbs.length := by
    show w.fcbs.length < w1.fcbs.length
    omega
  have hc : ∀ b, (DokanCancelFcbGarbageCollection w1 w.fcbs.length).fcb b = w1.fcb b :=
    fun _ => rfl
  unfold AcquiredFrom incFileCount
  simp only [vcb_setFcb, fcbs_length_setFcb]
  refine ⟨h1, h2, ?_, ?_, ?_, ?_, h7, h8⟩
  · intro b hb
    have hne : w.fcbs.length ≠ b := by omega
    rw [fcb_setFcb_ne _ _ _ _ hne, hc, h3 b hb]
  · rw [fcb_setFcb_same _ _ _ hlt, hc]
    exact h4
  · rw [fcb_setFcb_same _ _ _ hlt, hc]
    show (w1.fcb w.fcbs.length).FileCount + 1 = k + 1
    rw [h5]
  · rw [fcb_setFcb_same _ _ _ hlt, hc]
    exact h6

/-- Later calls for the same path all return the block and add one reference each. -/
theorem DokanGetFCB_calls_again (env : Env) (w : World) (FileName : List Nat) (L : Nat)
    (hv : w.cacheValid) (hL : L < 65536) :
    ∀ (calls : List (PoolOracle × Bool)) (k : Int) (w1 : World),
      AcquiredFrom w FileName L k w1 →
      (∀ c ∈ calls, findFCB env w FileName L c.2 w.vcb.NextFCB = none) →
      ∃ w2, DokanGetFCB_calls env FileName L calls w1
          = (w2, List.replicate calls.length (some w.fcbs.length))
        ∧ AcquiredFrom w FileName L (k + calls.length) w2 := by
  intro calls
  induction calls with
  | nil =>
    intro k w1 hS _
    exact ⟨w1, rfl, by simpa using hS⟩
  | cons c rest ih =>
    intro k w1 hS hnone
    obtain ⟨w2, hw2, hS2⟩ := DokanGetFCB_again env c.1 w w1 FileName L c.2 k hv hL hS
      (hnone c (by simp))
    obtain ⟨w3, hw3, hS3⟩ := ih (k + 1) w2 hS2 (fun c' hc' => hnone c' (by simp [hc']))
    refine ⟨w3, ?_, ?_⟩
    · rw [DokanGetFCB_calls]
      simp only [hw2, hw3, List.length_cons, List.replicate_succ]
    · have e : k + ((c :: rest).length : Int) = k + 1 + (rest.length : Int) := by
        simp only [List.length_cons]
        push_cast
        ring
      rw [e]
      exact hS3

theorem fcb_valid_lt (w : World) (a : Nat)
    (h : (w.fcb a).IdentifierType = FSD_IDENTIFIER_TYPE.FCB) : a < w.fcbs.length := by
  by_contra hlt
  have hd : w.fcb a = default := by
    unfold World.fcb
    rw [List.getD_eq_getElem?_getD, List.getElem?_eq_none (by omega)]
    rfl
  rw [hd] at h
  exact absurd h (by decide)

/-- A release that does not bring the count to zero only decrements the count. -/
theorem DokanFreeFCB_dec (w : World) (Fcb : Nat)
    (hvcb : w.vcb.IdentifierType = FSD_IDENTIFIER_TYPE.VCB)
    (hfcb : (w.fcb Fcb).IdentifierType = FSD_IDENTIFIER_TYPE.FCB)
    (hc : (w.fcb Fcb).FileCount ≠ 1) :
    DokanFreeFCB w Fcb
      = (w.setFcb Fcb { w.fcb Fcb with FileCount := (w.fcb Fcb).FileCount - 1 },
          STATUS_SUCCESS) := by
  have hlt := fcb_valid_lt w Fcb hfcb
  unfold DokanFreeFCB
  rw [if_neg (by simp [hvcb]), if_neg (by simp [hfcb])]
  simp only [fcb_setFcb_same _ _ _ hlt]
  rw [if_neg (by omega)]

/-- The release that brings the count to zero, deferred collection being disabled,
deletes the block. -/
theorem DokanFreeFCB_last_disabled (w : World) (Fcb : Nat)
    (hvcb : w.vcb.IdentifierType = FSD_IDENTIFIER_TYPE.VCB)
    (hfcb : (w.fcb Fcb).IdentifierType = FSD_IDENTIFIER_TYPE.FCB)
    (hc : (w.fcb Fcb).FileCount = 1)
    (hgc : w.vcb.FcbGarbageCollectionEnabled = false) :
    DokanFreeFCB w Fcb
      = (DokanDeleteFcb (w.setFcb Fcb { w.fcb Fcb with FileCount := 0 }) Fcb,
          STATUS_SUCCESS) := by
  have hlt := fcb_valid_lt w Fcb hfcb
  unfold DokanFreeFCB
  rw [if_neg (by simp [hvcb]), if_neg (by simp [hfcb])]
  simp only [fcb_setFcb_same _ _ _ hlt, hc]
  unfold DokanScheduleFcbForGarbageCollection
  simp [vcb_setFcb, hgc]

theorem schedule_enabled (w : World) (Fcb : Nat)
    (hgc : w.vcb.FcbGarbageCollectionEnabled = true) :
    (DokanScheduleFcbForGarbageCollection w Fcb).2 = true := by
  unfold DokanScheduleFcbForGarbageCollection
  simp only [hgc, if_true]
  split <;> rfl

/-- The release that brings the count to zero, deferred collection being enabled,
parks the block. -/
theorem DokanFreeFCB_last_enabled (w : World) (Fcb : Nat)
    (hvcb : w.vcb.IdentifierType = FSD_IDENTIFIER_TYPE.VCB)
    (hfcb : (w.fcb Fcb).IdentifierType = FSD_IDENTIFIER_TYPE.FCB)
    (hc : (w.fcb Fcb).FileCount = 1)
    (hgc : w.vcb.FcbGarbageCollectionEnabled = true) :
    DokanFreeFCB w Fcb
      = ((DokanScheduleFcbForGarbageCollection
            (w.setFcb Fcb { w.fcb Fcb with FileCount := 0 }) Fcb).1, STATUS_SUCCESS) := by
  have hlt := fcb_valid_lt w Fcb hfcb
  unfold DokanFreeFCB
  rw [if_neg (by simp [hvcb]), if_neg (by simp [hfcb])]
  simp only [fcb_setFcb_same _ _ _ hlt, hc, sub_self, if_true]
  rw [schedule_enabled _ _ (by rw [vcb_setFcb]; exact hgc)]
  simp

theorem fcb_DokanDeleteFcb_same (w : World) (Fcb : Nat) (hlt : Fcb < w.fcbs.length) :
    (DokanDeleteFcb w Fcb).fcb Fcb
      = { w.fcb Fcb with
          NextCCB := []
          FileName := { Length := 0, MaximumLength := 0, Buffer := none }
          OplockInitialized := false
          IdentifierType := FSD_IDENTIFIER_TYPE.FREED_FCB
          HasResource := false } := by
  unfold DokanDeleteFcb
  exact fcb_setFcb_same w Fcb _ hlt

theorem fcb_schedule (w : World) (Fcb b : Nat) :
    (DokanScheduleFcbForGarbageCollection w Fcb).1.fcb b = w.fcb b := by
  unfold DokanScheduleFcbForGarbageCollection
  split
  · split <;> rfl
  · rfl

theorem cache_schedule (w : World) (Fcb : Nat) :
    (DokanScheduleFcbForGarbageCollection w Fcb).1.vcb.NextFCB = w.vcb.NextFCB := by
  unfold DokanScheduleFcbForGarbageCollection
  split
  · split <;> rfl
  · rfl

theorem fcbs_schedule (w : World) (Fcb : Nat) :
    (DokanScheduleFcbForGarbageCollection w Fcb).1.fcbs = w.fcbs := by
  unfold DokanScheduleFcbForGarbageCollection
  split
  · split <;> rfl
  · rfl

theorem allocations_schedule (w : World) (Fcb : Nat) :
    (DokanScheduleFcbForGarbageCollection w Fcb).1.vcb.FcbAllocations = w.vcb.FcbAllocations := by
  unfold DokanScheduleFcbForGarbageCollection
  split
  · split <;> rfl
  · rfl

theorem parked_schedule (w : World) (Fcb : Nat)
    (hgc : w.vcb.FcbGarbageCollectionEnabled = true) :
    Fcb ∈ (DokanScheduleFcbForGarbageCollection w Fcb).1.vcb.FcbGarbageList := by
  unfold DokanScheduleFcbForGarbageCollection
  rw [if_pos hgc]
  split
  · assumption
  · simp

/-- A release of a valid block returns `STATUS_SUCCESS` and takes one off the count. -/
theorem DokanFreeFCB_step (w : World) (Fcb : Nat)
    (hvcb : w.vcb.IdentifierType = FSD_IDENTIFIER_TYPE.VCB)
    (hfcb : (w.fcb Fcb).IdentifierType = FSD_IDENTIFIER_TYPE.FCB) :
    (DokanFreeFCB w Fcb).2 = STATUS_SUCCESS
      ∧ ((DokanFreeFCB w Fcb).1.fcb Fcb).FileCount = (w.fcb Fcb).FileCount - 1 := by
  have hlt := fcb_valid_lt w Fcb hfcb
  by_cases hc : (w.fcb Fcb).FileCount = 1
  · cases hgc : w.vcb.FcbGarbageCollectionEnabled with
    | false =>
      rw [DokanFreeFCB_last_disabled w Fcb hvcb hfcb hc hgc]
      refine ⟨rfl, ?_⟩
      rw [fcb_DokanDeleteFcb_same _ _ (by rw [fcbs_length_setFcb]; exact hlt),
        fcb_setFcb_same _ _ _ hlt, hc]
      rfl
    | true =>
      rw [DokanFreeFCB_last_enabled w Fcb hvcb hfcb hc hgc]
      refine ⟨rfl, ?_⟩
      rw [fcb_schedule, fcb_setFcb_same _ _ _ hlt, hc]
      rfl
  · rw [DokanFreeFCB_dec w Fcb hvcb hfcb hc]
    refine ⟨rfl, ?_⟩
    rw [fcb_setFcb_same _ _ _ hlt]

/-- As many releases as the count bring the count to zero, and each returns
`STATUS_SUCCESS`. -/
theorem DokanFreeFCB_calls_all (Fcb : Nat) :
    ∀ (n : Nat) (w : World), w.vcb.IdentifierType = FSD_IDENTIFIER_TYPE.VCB →
      (w.fcb Fcb).IdentifierType = FSD_IDENTIFIER_TYPE.FCB →
      (w.fcb Fcb).FileCount = ((n + 1 : Nat) : Int) →
      (DokanFreeFCB_calls (n + 1) w Fcb).2 = List.replicate (n + 1) STATUS_SUCCESS
        ∧ ((DokanFreeFCB_calls (n + 1) w Fcb).1.fcb Fcb).FileCount = 0 := by
  intro n
  induction n with
  | zero =>
    intro w hvcb hfcb hc
    have hstep := DokanFreeFCB_step w Fcb hvcb hfcb
    rw [DokanFreeFCB_calls, DokanFreeFCB_calls]
    refine ⟨?_, ?_⟩
    · simp only [hstep.1, List.replicate_succ, List.replicate_zero]
    · show ((DokanFreeFCB w Fcb).1.fcb Fcb).FileCount = 0
      rw [hstep.2, hc]
      simp
  | succ n ih =>
    intro w hvcb hfcb hc
    have hlt := fcb_valid_lt w Fcb hfcb
    have hne : (w.fcb Fcb).FileCount ≠ 1 := by
      rw [hc]; push_cast; omega
    have hfree := DokanFreeFCB_dec w Fcb hvcb hfcb hne
    have hih := ih (w.setFcb Fcb { w.fcb Fcb with FileCount := (w.fcb Fcb).FileCount - 1 })
      (by rw [vcb_setFcb]; exact hvcb)
      (by rw [fcb_setFcb_same _ _ _ hlt]; exact hfcb)
      (by rw [fcb_setFcb_same _ _ _ hlt]
          show (w.fcb Fcb).FileCount - 1 = ((n + 1 : Nat) : Int)
          rw [hc]; push_cast; ring)
    rw [DokanFreeFCB_calls]
    simp only [hfree]
    refine ⟨?_, hih.2⟩
    rw [hih.1]
    simp [List.replicate_succ]

theorem findFCB_unique (env : Env) (w : World) (FileName : List Nat) (L : Nat) (cs : Bool)
    (Fcb : Nat) (hm : fcbMatches env (w.fcb Fcb) FileName L cs = true) :
    ∀ l : List Nat, Fcb ∈ l →
      (∀ b ∈ l, b ≠ Fcb → fcbMatches env (w.fcb b) FileName L cs = false) →
      findFCB env w FileName L cs l = some Fcb := by
  intro l
  induction l with
  | nil => intro h; simp at h
  | cons a rest ih =>
    intro hin hu
    rw [findFCB]
    by_cases ha : a = Fcb
    · rw [ha, if_pos hm]
    · have hf := hu a (by simp) ha
      rw [if_neg (by simp [hf])]
      have hin2 : Fcb ∈ rest := by
        rcases List.mem_cons.mp hin with h | h
        · exact absurd h.symm ha
        · exact h
      exact ih hin2 (fun b hb => hu b (by simp [hb]))

/-- A cached block whose stored name has the length and the characters of a path of
less than 65536 bytes matches a search for that path. -/
theorem fcbMatches_same_path (env : Env) (f : DokanFCB) (FileName : List Nat) (L : Nat)
    (cs : Bool) (hL : L < 65536) (hlen : f.FileName.Length = L)
    (hch : f.FileName.chars = FileName.take (L / 2)) :
    fcbMatches env f FileName L cs = true := by
  unfold fcbMatches RtlEqualUnicodeString
  have e : UNICODE_STRING.chars
      { Length := L, MaximumLength := toUSHORT (L + 2),
        Buffer := some FileName } = FileName.take (L / 2) := rfl
  simp only [toUSHORT_small L hL, e, hch, hlen]
  simp

/-! ## Claims on `DokanGetParentDir` -/

/-- C1: for a null-terminated name `d ++ "\" ++ n` with `d` non-empty and `n` non-empty
without separator, `DokanGetParentDir` (allocation succeeding) returns `STATUS_SUCCESS`,
the string in the returned buffer is exactly `d` and the returned length is `2 * |d|`
bytes. The name is shorter than `2^31 - 1` characters, so that `len + 1` is a `LONG`. -/
theorem C1_parent_without_trailing_separator (d n rest : List Nat)
    (hd : d ≠ []) (hn : n ≠ []) (hd0 : ∀ c ∈ d, c ≠ 0)
    (hn0 : ∀ c ∈ n, c ≠ 0) (hnb : ∀ c ∈ n, c ≠ BACKSLASH)
    (hb : d.length + 1 + n.length < 2 ^ 31 - 1) :
    ∃ buf, DokanGetParentDir ((d ++ BACKSLASH :: n) ++ 0 :: rest) true
        = some ⟨STATUS_SUCCESS, some buf, 2 * d.length⟩
      ∧ cstr buf = d := by
  rcases List.eq_nil_or_concat n with h | ⟨m, z, h⟩
  · exact absurd h hn
  · rw [List.concat_eq_append] at h
    subst h
    have hm0 : ∀ c ∈ m, c ≠ 0 := fun c hc => hn0 c (by simp [hc])
    have hm : ∀ c ∈ m, c ≠ BACKSLASH := fun c hc => hnb c (by simp [hc])
    have hz0 : z ≠ 0 := hn0 z (by simp)
    have hzb : z ≠ BACKSLASH := hnb z (by simp)
    have hlen : d.length + m.length + 2 < 2 ^ 31 - 1 := by
      simp only [List.length_append, List.length_singleton] at hb
      omega
    have hdl : 0 < d.length := List.length_pos.mpr hd
    have e : d ++ BACKSLASH :: (m ++ [z]) = d ++ BACKSLASH :: m ++ [z] := by simp
    refine ⟨d ++ 0 :: (m ++ [0, 0]), ?_, cstr_append_zero d _ hd0⟩
    rw [e, DokanGetParentDir_split d m z rest hd0 hm0 hm hz0 hlen]
    unfold parentFinish
    have h1 : ¬ ((d.length : Int) ≤ 0) := by omega
    have h2 : ¬ (decide (z = BACKSLASH) = true ∧ (1 : Int) < (d.length : Int)) := by
      simp [hzb]
    simp only [if_neg h1, if_neg h2, Int.toNat_ofNat]
    rw [toULONG_small (d.length * 2) (by omega)]
    congr 2
    omega

/-- C1, witness: the name `\foo\bar.txt` gives `\foo` with length 8. -/
theorem C1_parent_without_trailing_separator_witness :
    ∃ buf, DokanGetParentDir
        (([92, 102, 111, 111] ++ BACKSLASH :: [98, 97, 114, 46, 116, 120, 116]) ++ 0 :: [])
        true = some ⟨STATUS_SUCCESS, some buf, 2 * [92, 102, 111, 111].length⟩
      ∧ cstr buf = [92, 102, 111, 111] :=
  C1_parent_without_trailing_separator [92, 102, 111, 111] [98, 97, 114, 46, 116, 120, 116] []
    (by decide) (by decide) (by decide) (by decide) (by decide) (by norm_num)

/-- C2: for a null-terminated name `d ++ "\" ++ n ++ "\"` with `d` of at least two
characters and `n` non-empty without separator, `DokanGetParentDir` (allocation
succeeding) returns `STATUS_SUCCESS`, the string in the returned buffer is exactly
`d ++ "\"` and the returned length is `2 * (|d| + 1)` bytes. The name is shorter than
`2^31 - 1` characters, so that `len + 1` is a `LONG`. -/
theorem C2_parent_with_trailing_separator (d n rest : List Nat)
    (hd : 2 ≤ d.length) (hn : n ≠ []) (hd0 : ∀ c ∈ d, c ≠ 0)
    (hn0 : ∀ c ∈ n, c ≠ 0) (hnb : ∀ c ∈ n, c ≠ BACKSLASH)
    (hb : d.length + 1 + n.length + 1 < 2 ^ 31 - 1) :
    ∃ buf, DokanGetParentDir ((d ++ BACKSLASH :: n ++ [BACKSLASH]) ++ 0 :: rest) true
        = some ⟨STATUS_SUCCESS, some buf, 2 * (d.length + 1)⟩
      ∧ cstr buf = d ++ [BACKSLASH] := by
  cases n with
  | nil => exact absurd rfl hn
  | cons a m =>
    have hlen : d.length + (a :: m).length + 2 < 2 ^ 31 - 1 := by omega
    have hdb0 : ∀ c ∈ d ++ [BACKSLASH], c ≠ 0 := by
      intro c hc
      simp only [List.mem_append, List.mem_singleton] at hc
      rcases hc with h | h
      · exact hd0 c h
      · rw [h]; decide
    refine ⟨(d ++ [BACKSLASH]) ++ 0 :: (m ++ [0, 0]), ?_, cstr_append_zero _ _ hdb0⟩
    rw [DokanGetParentDir_split d (a :: m) BACKSLASH rest hd0 hn0 hnb (by decide) hlen]
    unfold parentFinish
    have h1 : ¬ ((d.length : Int) ≤ 0) := by omega
    have h2 : decide (BACKSLASH = BACKSLASH) = true ∧ (1 : Int) < (d.length : Int) := by
      constructor
      · decide
      · omega
    simp only [if_neg h1, if_pos h2, Int.toNat_ofNat, bufWrite_mid]
    have e1 : d ++ BACKSLASH :: (a :: m ++ [0, 0])
        = (d ++ [BACKSLASH]) ++ a :: (m ++ [0, 0]) := by simp
    have e2 : ((d.length : Int) + 1) = (((d ++ [BACKSLASH]).length : Nat) : Int) := by
      simp
    rw [e1, e2, bufWrite_mid]
    simp only []
    have h3 : decide True = true ∧ (1 : Int) < (d.length : Int) := ⟨by decide, by omega⟩
    rw [if_pos h3, toULONG_small (d.length * 2) (by omega),
      toULONG_small (d.length * 2 + 2) (by omega)]
    congr 2
    omega

/-- C2, witness: the name `\foo\bar\` gives `\foo\` with length 10. -/
theorem C2_parent_with_trailing_separator_witness :
    ∃ buf, DokanGetParentDir
        (([92, 102, 111, 111] ++ BACKSLASH :: [98, 97, 114] ++ [BACKSLASH]) ++ 0 :: [])
        true = some ⟨STATUS_SUCCESS, some buf, 2 * ([92, 102, 111, 111].length + 1)⟩
      ∧ cstr buf = [92, 102, 111, 111] ++ [BACKSLASH] :=
  C2_parent_with_trailing_separator [92, 102, 111, 111] [98, 97, 114] []
    (by decide) (by decide) (by decide) (by decide) (by decide) (by norm_num)

/-- C3, as stated, fails: the empty name is not the root, yet the call returns
`STATUS_INVALID_PARAMETER`, which is neither `STATUS_SUCCESS` nor
`STATUS_INSUFFICIENT_RESOURCES`. -/
theorem C3_status_contract_counterexample :
    cstr [0] ≠ [BACKSLASH]
      ∧ DokanGetParentDir [0] true = some ⟨STATUS_INVALID_PARAMETER, none, 0⟩
      ∧ DokanGetParentDir [0] false = some ⟨STATUS_INVALID_PARAMETER, none, 0⟩
      ∧ STATUS_INVALID_PARAMETER ≠ STATUS_SUCCESS
      ∧ STATUS_INVALID_PARAMETER ≠ STATUS_INSUFFICIENT_RESOURCES
      ∧ STATUS_INVALID_PARAMETER ≠ STATUS_ACCESS_DENIED := by
  decide

/-- C3, amended: `DokanGetParentDir` returns `STATUS_ACCESS_DENIED` exactly when the name
is the root `\`, and `STATUS_INVALID_PARAMETER` exactly when the name is empty; in both
cases the output pointer is null and the output length is 0. For every other name it
returns `STATUS_INSUFFICIENT_RESOURCES` (null pointer, length 0) if the allocation fails
and `STATUS_SUCCESS` otherwise. The name is shorter than `2^31 - 1` characters. -/
theorem C3_status_contract (fileName : List Nat) (allocOk : Bool)
    (hb : wcslen fileName < 2 ^ 31 - 1) :
    ∃ r, DokanGetParentDir fileName allocOk = some r
      ∧ (r.status = STATUS_ACCESS_DENIED ↔ cstr fileName = [BACKSLASH])
      ∧ (r.status = STATUS_INVALID_PARAMETER ↔ cstr fileName = [])
      ∧ (cstr fileName = [BACKSLASH] ∨ cstr fileName = [] →
          r.parentDir = none ∧ r.parentDirLength = 0)
      ∧ (cstr fileName ≠ [BACKSLASH] → cstr fileName ≠ [] →
          r.status = (if allocOk = true then STATUS_SUCCESS else STATUS_INSUFFICIENT_RESOURCES)
          ∧ (allocOk = false → r.parentDir = none ∧ r.parentDirLength = 0)
          ∧ (allocOk = true → r.parentDir ≠ none)) := by
  by_cases h0 : cstr fileName = []
  · refine ⟨⟨STATUS_INVALID_PARAMETER, none, 0⟩, ?_, ?_, ?_, ?_, ?_⟩
    · unfold DokanGetParentDir wcslen
      rw [h0]
      rfl
    · rw [h0]; decide
    · simp [h0]
    · intro _; exact ⟨rfl, rfl⟩
    · intro _ h; exact absurd h0 h
  · by_cases hr : cstr fileName = [BACKSLASH]
    · refine ⟨⟨STATUS_ACCESS_DENIED, none, 0⟩, ?_, ?_, ?_, ?_, ?_⟩
      · unfold DokanGetParentDir wcslen
        rw [hr]
        rfl
      · simp [hr]
      · rw [hr]; decide
      · intro _; exact ⟨rfl, rfl⟩
      · intro h; exact absurd hr h
    · cases allocOk with
      | false =>
        refine ⟨_, DokanGetParentDir_alloc_fail fileName hb h0 hr, ?_, ?_, ?_, ?_⟩
        · simp [hr]
        · simp [h0]
        · intro h; rcases h with h | h
          · exact absurd h hr
          · exact absurd h h0
        · intro _ _; simp
      | true =>
        obtain ⟨b, n, hrun, _⟩ := DokanGetParentDir_success fileName hb h0 hr
        refine ⟨_, hrun, ?_, ?_, ?_, ?_⟩
        · simp [hr]
        · simp [h0]
        · intro h; rcases h with h | h
          · exact absurd h hr
          · exact absurd h h0
        · intro _ _; simp

/-- C3, witness: the root name `\`, of one character. -/
theorem C3_status_contract_witness :
    ∃ r, DokanGetParentDir [92, 0] true = some r
      ∧ (r.status = STATUS_ACCESS_DENIED ↔ cstr [92, 0] = [BACKSLASH])
      ∧ (r.status = STATUS_INVALID_PARAMETER ↔ cstr [92, 0] = [])
      ∧ (cstr [92, 0] = [BACKSLASH] ∨ cstr [92, 0] = [] →
          r.parentDir = none ∧ r.parentDirLength = 0)
      ∧ (cstr [92, 0] ≠ [BACKSLASH] → cstr [92, 0] ≠ [] →
          r.status = (if true = true then STATUS_SUCCESS else STATUS_INSUFFICIENT_RESOURCES)
          ∧ (true = false → r.parentDir = none ∧ r.parentDirLength = 0)
          ∧ (true = true → r.parentDir ≠ none)) :=
  C3_status_contract [92, 0] true (by decide)

/-! ## Claims on the FCB cache -/

/-- For a path of less than 65536 bytes that is not in the cache, `N >= 1` successive
calls of `DokanGetFCB` with pool allocation succeeding and no release in between all
return the same block, the one the first call allocates at the tail of the cache; it is
the only cached block that matches the path, one block was allocated in all, and its
final count is `N`. `N` is below `2^31`, so that the count stays in the range of the
`LONG` counter. -/
theorem DokanGetFCB_calls_short_path (env : Env) (w : World) (FileName : List Nat) (L : Nat)
    (calls : List (PoolOracle × Bool)) (hv : w.cacheValid) (hL : L < 65536)
    (hN : 1 ≤ calls.length) (hlong : calls.length < 2 ^ 31)
    (hpool : ∀ c ∈ calls, c.1.fcbFirst = true ∧ c.1.resource = true)
    (hnone : ∀ c ∈ calls, findFCB env w FileName L c.2 w.vcb.NextFCB = none) :
    (DokanGetFCB_calls env FileName L calls w).2
        = List.replicate calls.length (some w.fcbs.length)
      ∧ (DokanGetFCB_calls env FileName L calls w).1.vcb.NextFCB
          = w.vcb.NextFCB ++ [w.fcbs.length]
      ∧ (∀ c ∈ calls,
          (DokanGetFCB_calls env FileName L calls w).1.vcb.NextFCB.filter
            (fun b => fcbMatches env ((DokanGetFCB_calls env FileName L calls w).1.fcb b)
              FileName L c.2) = [w.fcbs.length])
      ∧ (∀ c rest, calls = c :: rest →
          (DokanGetFCB env c.1 w FileName L c.2).1.fcbs.length = w.fcbs.length + 1)
      ∧ (DokanGetFCB_calls env FileName L calls w).1.fcbs.length = w.fcbs.length + 1
      ∧ (DokanGetFCB_calls env FileName L calls w).1.vcb.FcbAllocations
          = w.vcb.FcbAllocations + 1
      ∧ ((DokanGetFCB_calls env FileName L calls w).1.fcb w.fcbs.length).FileCount
          = calls.length
      ∧ ((DokanGetFCB_calls env FileName L calls w).1.fcb w.fcbs.length).FileCount
          < 2 ^ 31 := by
  cases calls with
  | nil => simp at hN
  | cons c rest =>
    obtain ⟨w1, hw1, hS1⟩ := DokanGetFCB_first env c.1 w FileName L c.2
      (hpool c (by simp)).1 (hpool c (by simp)).2 (hnone c (by simp))
    obtain ⟨w2, hw2, hS2⟩ := DokanGetFCB_calls_again env w FileName L hv hL rest 1 w1 hS1
      (fun c' hc' => hnone c' (by simp [hc']))
    have hrun : DokanGetFCB_calls env FileName L (c :: rest) w
        = (w2, List.replicate (c :: rest).length (some w.fcbs.length)) := by
      rw [DokanGetFCB_calls]
      simp only [hw1, hw2, List.length_cons, List.replicate_succ]
    rw [hrun]
    obtain ⟨h1, h2, h3, h4, h5, _, h7, _⟩ := hS2
    have hcount : (w2.fcb w.fcbs.length).FileCount = ((c :: rest).length : Int) := by
      rw [h5]
      simp only [List.length_cons]
      push_cast
      ring
    refine ⟨rfl, h1, ?_, ?_, h2, h7, hcount, ?_⟩
    · intro c' hc'
      show w2.vcb.NextFCB.filter (fun b => fcbMatches env (w2.fcb b) FileName L c'.2)
        = [w.fcbs.length]
      have hold : w.vcb.NextFCB.filter (fun b => fcbMatches env (w2.fcb b) FileName L c'.2)
          = [] := by
        have hc : w.vcb.NextFCB.filter (fun b => fcbMatches env (w2.fcb b) FileName L c'.2)
            = w.vcb.NextFCB.filter (fun b => fcbMatches env (w.fcb b) FileName L c'.2) := by
          apply List.filter_congr
          intro b hb
          exact fcbMatches_congr env _ _ FileName L c'.2 (h3 b (hv b hb))
        rw [hc]
        exact findFCB_none_filter env w FileName L c'.2 _ (hnone c' hc')
      rw [h1, List.filter_append, hold]
      simp [List.filter_cons, fcbMatches_self env _ FileName L c'.2 hL h4]
    · intro c0 rest0 he
      have hc0 : c0 = c := by
        have := List.cons.inj he
        exact this.1.symm
      rw [hc0, hw1]
      exact hS1.2.1
    · show (w2.fcb w.fcbs.length).FileCount < 2 ^ 31
      rw [hcount]
      exact_mod_cast hlong

/-- Example: three calls for the path `\a` on an empty cache, under both case
policies. -/
theorem DokanGetFCB_calls_short_path_example :
    (DokanGetFCB_calls sampleEnv [92, 97, 0] 4 [({}, true), ({}, false), ({}, true)] {}).2
        = [some 0, some 0, some 0]
      ∧ (DokanGetFCB_calls sampleEnv [92, 97, 0] 4
          [({}, true), ({}, false), ({}, true)] {}).1.vcb.NextFCB = [0]
      ∧ ((DokanGetFCB_calls sampleEnv [92, 97, 0] 4
          [({}, true), ({}, false), ({}, true)] {}).1.fcb 0).FileCount = 3 :=
  have h := DokanGetFCB_calls_short_path sampleEnv {} [92, 97, 0] 4
    [({}, true), ({}, false), ({}, true)]
    (by intro b hb; cases hb) (by decide) (by decide) (by decide) (by decide) (by decide)
  ⟨h.1, h.2.1, h.2.2.2.2.2.2.1⟩

/-- C10: on a valid block with count `N >= 1` (valid volume), `N` calls of `DokanFreeFCB`
all return `STATUS_SUCCESS` and drive the count to 0; a call returns `STATUS_SUCCESS`
and takes exactly one off the count; a call that does not bring the count to zero
changes nothing else (no scheduling, no deletion); the call that brings it to zero,
deferred collection being disabled, deletes the block (unlinked from the cache, tag
`FREED_FCB`); deferred collection being enabled, the block stays cached and parked with
count 0, and a following `DokanGetFCB` for its path (of less than 65536 bytes, no other
cached block matching) returns the same block with count 1, un-parks it and allocates
nothing. -/
theorem C10_release_n_times (w : World) (Fcb : Nat) (N : Nat)
    (hvcb : w.vcb.IdentifierType = FSD_IDENTIFIER_TYPE.VCB)
    (hfcb : (w.fcb Fcb).IdentifierType = FSD_IDENTIFIER_TYPE.FCB)
    (hN : 1 ≤ N) (hc : (w.fcb Fcb).FileCount = (N : Int)) :
    (DokanFreeFCB_calls N w Fcb).2 = List.replicate N STATUS_SUCCESS
      ∧ ((DokanFreeFCB_calls N w Fcb).1.fcb Fcb).FileCount = 0
      ∧ (DokanFreeFCB w Fcb).2 = STATUS_SUCCESS
      ∧ ((DokanFreeFCB w Fcb).1.fcb Fcb).FileCount = (N : Int) - 1
      ∧ (N ≠ 1 →
          (DokanFreeFCB w Fcb).1
            = w.setFcb Fcb { w.fcb Fcb with FileCount := (w.fcb Fcb).FileCount - 1 })
      ∧ (N = 1 → w.vcb.FcbGarbageCollectionEnabled = false →
          ((DokanFreeFCB w Fcb).1.fcb Fcb).IdentifierType = FSD_IDENTIFIER_TYPE.FREED_FCB
            ∧ (DokanFreeFCB w Fcb).1.vcb.NextFCB = w.vcb.NextFCB.erase Fcb
            ∧ (w.vcb.NextFCB.Nodup → Fcb ∉ (DokanFreeFCB w Fcb).1.vcb.NextFCB)
            ∧ (DokanFreeFCB w Fcb).1.vcb.FcbDeletions = w.vcb.FcbDeletions + 1)
      ∧ (N = 1 → w.vcb.FcbGarbageCollectionEnabled = true →
          (DokanFreeFCB w Fcb).1.vcb.NextFCB = w.vcb.NextFCB
            ∧ ((DokanFreeFCB w Fcb).1.fcb Fcb).IdentifierType = FSD_IDENTIFIER_TYPE.FCB
            ∧ Fcb ∈ (DokanFreeFCB w Fcb).1.vcb.FcbGarbageList
            ∧ ∀ (env : Env) (o : PoolOracle) (FileName : List Nat) (L : Nat) (cs : Bool),
                L < 65536 → (w.fcb Fcb).FileName.Length = L →
                (w.fcb Fcb).FileName.chars = FileName.take (L / 2) →
                Fcb ∈ w.vcb.NextFCB →
                (∀ b ∈ w.vcb.NextFCB, b ≠ Fcb →
                  fcbMatches env (w.fcb b) FileName L cs = false) →
                (DokanGetFCB env o (DokanFreeFCB w Fcb).1 FileName L cs).2 = some Fcb
                  ∧ ((DokanGetFCB env o (DokanFreeFCB w Fcb).1 FileName L cs).1.fcb
                      Fcb).FileCount = 1
                  ∧ Fcb ∉ (DokanGetFCB env o (DokanFreeFCB w Fcb).1 FileName L
                      cs).1.vcb.FcbGarbageList
                  ∧ (DokanGetFCB env o (DokanFreeFCB w Fcb).1 FileName L cs).1.fcbs.length
                      = w.fcbs.length
                  ∧ (DokanGetFCB env o (DokanFreeFCB w Fcb).1 FileName L
                      cs).1.vcb.FcbAllocations = w.vcb.FcbAllocations
                  ∧ (DokanGetFCB env o (DokanFreeFCB w Fcb).1 FileName L cs).1.vcb.NextFCB
                      = w.vcb.NextFCB) := by
  have hlt := fcb_valid_lt w Fcb hfcb
  have hstep := DokanFreeFCB_step w Fcb hvcb hfcb
  obtain ⟨n, rfl⟩ : ∃ n, N = n + 1 := ⟨N - 1, by omega⟩
  have hall := DokanFreeFCB_calls_all Fcb n w hvcb hfcb hc
  refine ⟨hall.1, hall.2, hstep.1, ?_, ?_, ?_, ?_⟩
  · rw [hstep.2, hc]
  · intro hne
    have hne1 : (w.fcb Fcb).FileCount ≠ 1 := by
      rw [hc]; push_cast; omega
    rw [DokanFreeFCB_dec w Fcb hvcb hfcb hne1]
  · intro h1 hgc
    have hc1 : (w.fcb Fcb).FileCount = 1 := by
      rw [hc]; push_cast; omega
    rw [DokanFreeFCB_last_disabled w Fcb hvcb hfcb hc1 hgc]
    have hcache : (DokanDeleteFcb (w.setFcb Fcb { w.fcb Fcb with FileCount := 0 }) Fcb).vcb.NextFCB
        = w.vcb.NextFCB.erase Fcb := rfl
    refine ⟨?_, hcache, ?_, rfl⟩
    · rw [fcb_DokanDeleteFcb_same _ _ (by rw [fcbs_length_setFcb]; exact hlt)]
    · intro hnd hmem
      rw [hcache] at hmem
      exact ((List.Nodup.mem_erase_iff hnd).mp hmem).1 rfl
  · intro h1 hgc
    have hc1 : (w.fcb Fcb).FileCount = 1 := by
      rw [hc]; push_cast; omega
    rw [DokanFreeFCB_last_enabled w Fcb hvcb hfcb hc1 hgc]
    have hname : ∀ b, ((DokanScheduleFcbForGarbageCollection
        (w.setFcb Fcb { w.fcb Fcb with FileCount := 0 }) Fcb).1.fcb b).FileName
          = (w.fcb b).FileName := by
      intro b
      rw [fcb_schedule]
      by_cases hb : Fcb = b
      · rw [← hb, fcb_setFcb_same _ _ _ hlt]
      · rw [fcb_setFcb_ne _ _ _ _ hb]
    have hcache : (DokanScheduleFcbForGarbageCollection
        (w.setFcb Fcb { w.fcb Fcb with FileCount := 0 }) Fcb).1.vcb.NextFCB = w.vcb.NextFCB := by
      rw [cache_schedule, vcb_setFcb]
    refine ⟨hcache, ?_, ?_, ?_⟩
    · rw [fcb_schedule, fcb_setFcb_same _ _ _ hlt]
      exact hfcb
    · exact parked_schedule _ _ (by rw [vcb_setFcb]; exact hgc)
    · intro env o FileName L cs hL hlen hch hin hu
      have hm : fcbMatches env (w.fcb Fcb) FileName L cs = true :=
        fcbMatches_same_path env _ FileName L cs hL hlen hch
      have hfind : findFCB env (DokanScheduleFcbForGarbageCollection
          (w.setFcb Fcb { w.fcb Fcb with FileCount := 0 }) Fcb).1 FileName L cs
          (DokanScheduleFcbForGarbageCollection
            (w.setFcb Fcb { w.fcb Fcb with FileCount := 0 }) Fcb).1.vcb.NextFCB = some Fcb := by
        rw [hcache, findFCB_congr env _ w FileName L cs _ (fun b _ => hname b)]
        exact findFCB_unique env w FileName L cs Fcb hm _ hin hu
      unfold DokanGetFCB
      rw [hfind]
      have hlen2 : Fcb < (DokanCancelFcbGarbageCollection (DokanScheduleFcbForGarbageCollection
          (w.setFcb Fcb { w.fcb Fcb with FileCount := 0 }) Fcb).1 Fcb).fcbs.length := by
        show Fcb < (DokanScheduleFcbForGarbageCollection
          (w.setFcb Fcb { w.fcb Fcb with FileCount := 0 }) Fcb).1.fcbs.length
        rw [fcbs_schedule, fcbs_length_setFcb]
        exact hlt
      refine ⟨rfl, ?_, ?_, ?_, ?_, ?_⟩
      · unfold incFileCount
        rw [fcb_setFcb_same _ _ _ hlen2]
        show ((DokanScheduleFcbForGarbageCollection
          (w.setFcb Fcb { w.fcb Fcb with FileCount := 0 }) Fcb).1.fcb Fcb).FileCount + 1 = 1
        rw [fcb_schedule, fcb_setFcb_same _ _ _ hlt]
        rfl
      · unfold incFileCount DokanCancelFcbGarbageCollection
        rw [vcb_setFcb]
        simp [List.mem_filter]
      · unfold incFileCount
        rw [fcbs_length_setFcb]
        show (DokanScheduleFcbForGarbageCollection
          (w.setFcb Fcb { w.fcb Fcb with FileCount := 0 }) Fcb).1.fcbs.length = w.fcbs.length
        rw [fcbs_schedule, fcbs_length_setFcb]
      · unfold incFileCount
        rw [vcb_setFcb]
        show (DokanScheduleFcbForGarbageCollection
          (w.setFcb Fcb { w.fcb Fcb with FileCount := 0 }) Fcb).1.vcb.FcbAllocations
            = w.vcb.FcbAllocations
        rw [allocations_schedule, vcb_setFcb]
      · unfold incFileCount
        rw [vcb_setFcb]
        exact hcache

/-- C10, witness: the only reference on the block of `\a` is released, deferred
collection being enabled, and the path is acquired again. -/
theorem C10_release_n_times_witness :
    (DokanFreeFCB_calls 1 sampleWorld 0).2 = [STATUS_SUCCESS]
      ∧ ((DokanFreeFCB_calls 1 sampleWorld 0).1.fcb 0).FileCount = 0
      ∧ 0 ∈ (DokanFreeFCB sampleWorld 0).1.vcb.FcbGarbageList
      ∧ (DokanGetFCB sampleEnv {} (DokanFreeFCB sampleWorld 0).1 [92, 97, 0] 4 true).2 = some 0
      ∧ ((DokanGetFCB sampleEnv {} (DokanFreeFCB sampleWorld 0).1 [92, 97, 0] 4 true).1.fcb
          0).FileCount = 1 :=
  have h := C10_release_n_times sampleWorld 0 1 (by decide) (by decide) (by decide) (by decide)
  have hp := h.2.2.2.2.2.2 rfl (by decide)
  have hd := hp.2.2.2 sampleEnv {} [92, 97, 0] 4 true (by decide) (by decide) (by decide)
    (by decide) (by decide)
  ⟨h.1, h.2.1, hp.2.2.1, hd.1, hd.2.1⟩

/-! ## Lemmas on the first steps of `DokanDispatchCreate` -/

theorem createEntry_early (env : Env) (o : CreateOracle) (irpSp : IO_STACK_LOCATION)
    (w : World) : EarlyFrame w (createEntry env o irpSp w).1 := by
  unfold createEntry EarlyFrame
  dsimp only
  repeat' split
  all_goals exact ⟨rfl, rfl, rfl, rfl, rfl, rfl, rfl, rfl, rfl, rfl, rfl, rfl, rfl⟩

theorem createNormalize_early (o : CreateOracle) (w : World) (fr : CreateFrame)
    (h : EarlyFrame w fr) : EarlyFrame w (createNormalize o fr).1 := by
  unfold createNormalize
  dsimp only
  repeat' split
  all_goals exact h

theorem createResolve_early (irpSp : IO_STACK_LOCATION) (w : World) (fr : CreateFrame)
    (h : EarlyFrame w fr) : EarlyFrame w (createResolve irpSp fr).1 := by
  unfold createResolve
  dsimp only
  repeat' split
  all_goals exact h

theorem createBuildName_early (o : CreateOracle) (w : World) (fr : CreateFrame)
    (h : EarlyFrame w fr) (hl : (createBuildName o fr).2 = false) :
    EarlyFrame w (createBuildName o fr).1 := by
  generalize hr : createBuildName o fr = r at hl ⊢
  unfold createBuildName at hr
  repeat' split at hr
  all_goals subst hr
  all_goals first
    | exact h
    | simp at hl

theorem createReadOnly_early (irpSp : IO_STACK_LOCATION) (w : World) (fr : CreateFrame)
    (h : EarlyFrame w fr) : EarlyFrame w (createReadOnly irpSp fr).1 := by
  unfold createReadOnly
  split
  all_goals exact h

/-- The frame with which the `__try` block goes on after its first tests. -/
theorem createEntry_continues (env : Env) (o : CreateOracle) (irpSp : IO_STACK_LOCATION)
    (w : World) (hl : (createEntry env o irpSp w).2 = false) :
    ∃ fo fo1, w.fileObject = some fo ∧ w.hasVcb = true
      ∧ w.vcb.IdentifierType = FSD_IDENTIFIER_TYPE.VCB ∧ w.vcb.UnmountPending = false
      ∧ fo1.FsContext2 = fo.FsContext2
      ∧ (createEntry env o irpSp w).1
          = { w := { w with fileObject := some fo1 }, fileObject := true,
              disposition := dispositionOf irpSp.Options } := by
  cases hfo : w.fileObject with
  | none =>
    unfold createEntry at hl
    simp [hfo] at hl
  | some fo =>
    generalize hr : createEntry env o irpSp w = r at hl ⊢
    unfold createEntry at hr
    simp only [hfo] at hr
    repeat' split at hr
    all_goals subst hr
    all_goals first
      | (simp at hl; done)
      | exact ⟨fo, _, rfl, by simpa using ‹¬w.hasVcb = false›,
          by simpa using ‹¬w.vcb.IdentifierType ≠ FSD_IDENTIFIER_TYPE.VCB›,
          by simpa using ‹¬w.vcb.UnmountPending = true›, by rfl, rfl⟩

theorem createEntry_arrived (env : Env) (o : CreateOracle) (irpSp : IO_STACK_LOCATION)
    (w : World) (hl : (createEntry env o irpSp w).2 = false) :
    ArrivedFrame w irpSp (createEntry env o irpSp w).1 := by
  obtain ⟨fo, fo1, hfo, h1, h2, h3, h4, h5⟩ := createEntry_continues env o irpSp w hl
  rw [h5]
  refine ⟨rfl, by simp, ?_, rfl, h1, h2, h3⟩
  intro h
  rw [hfo] at h
  show fo1.FsContext2 = none
  rw [h4]
  exact h

theorem andThen_continues (r : CreateFrame × Bool) (step : CreateFrame → CreateFrame × Bool)
    (h : (andThen r step).2 = false) :
    r.2 = false ∧ andThen r step = step r.1 := by
  unfold andThen at h ⊢
  by_cases hr : r.2 = true
  · rw [if_pos hr] at h
    rw [hr] at h
    exact absurd h (by decide)
  · rw [if_neg hr]
    exact ⟨by simpa using hr, rfl⟩

theorem andThen_left (r : CreateFrame × Bool) (step : CreateFrame → CreateFrame × Bool)
    (h : r.2 = true) : andThen r step = r := by
  unfold andThen
  rw [if_pos h]

theorem andThen_next (r : CreateFrame × Bool) (step : CreateFrame → CreateFrame × Bool)
    (h : r.2 = false) : andThen r step = step r.1 := by
  unfold andThen
  rw [if_neg (by simp [h])]

theorem createNormalize_arrived (o : CreateOracle) (w : World) (irpSp : IO_STACK_LOCATION)
    (fr : CreateFrame) (h : ArrivedFrame w irpSp fr) :
    ArrivedFrame w irpSp (createNormalize o fr).1 := by
  obtain ⟨h1, h2, h3, h4, h5, h6, h7⟩ := h
  cases hfo : fr.w.fileObject with
  | none => exact absurd hfo h2
  | some fo =>
    have h3' : (w.fileObject.bind (fun fo => fo.FsContext2)) = none → fo.FsContext2 = none := by
      intro hh
      have := h3 hh
      rw [hfo] at this
      exact this
    unfold createNormalize
    simp only [hfo, Option.getD_some]
    repeat' split
    all_goals exact ⟨h1, by simp, h3', h4, h5, h6, h7⟩

theorem createResolve_arrived (w : World) (irpSp : IO_STACK_LOCATION)
    (fr : CreateFrame) (h : ArrivedFrame w irpSp fr) :
    ArrivedFrame w irpSp (createResolve irpSp fr).1 := by
  obtain ⟨h1, h2, h3, h4, h5, h6, h7⟩ := h
  cases hfo : fr.w.fileObject with
  | none => exact absurd hfo h2
  | some fo =>
    have h3' : (w.fileObject.bind (fun fo => fo.FsContext2)) = none → fo.FsContext2 = none := by
      intro hh
      have := h3 hh
      rw [hfo] at this
      exact this
    unfold createResolve
    simp only [hfo, Option.getD_some]
    repeat' split
    all_goals first
      | exact ⟨h1, by simp, h3', h4, h5, h6, h7⟩
      | exact ⟨h1, by simp [hfo], by rw [hfo]; exact h3', h4, h5, h6, h7⟩

theorem createBuildName_arrived (o : CreateOracle) (w : World) (irpSp : IO_STACK_LOCATION)
    (fr : CreateFrame) (h : ArrivedFrame w irpSp fr) :
    ArrivedFrame w irpSp (createBuildName o fr).1 := by
  unfold createBuildName
  repeat' split
  all_goals exact h

theorem createReadOnly_arrived (w : World) (irpSp : IO_STACK_LOCATION)
    (fr : CreateFrame) (h : ArrivedFrame w irpSp fr) :
    ArrivedFrame w irpSp (createReadOnly irpSp fr).1 := by
  unfold createReadOnly
  split
  all_goals exact h

/-- A run that reaches line 741 arrives there with an early frame. -/
theorem createUpToBuildName_frame (env : Env) (o : CreateOracle) (irpSp : IO_STACK_LOCATION)
    (w : World) (hl : (createUpToBuildName env o irpSp w).2 = false) :
    EarlyFrame w (createUpToBuildName env o irpSp w).1
      ∧ ArrivedFrame w irpSp (createUpToBuildName env o irpSp w).1 := by
  unfold createUpToBuildName at hl ⊢
  obtain ⟨hl2, e2⟩ := andThen_continues _ _ hl
  obtain ⟨hl1, e1⟩ := andThen_continues _ _ hl2
  rw [e2, e1]
  exact ⟨createResolve_early irpSp w _ (createNormalize_early o w _ (createEntry_early env o irpSp w)),
    createResolve_arrived w irpSp _
      (createNormalize_arrived o w irpSp _ (createEntry_arrived env o irpSp w hl1))⟩

/-- A run that reaches line 770 arrives there with an early frame. -/
theorem createUpToReadOnly_frame (env : Env) (o : CreateOracle) (irpSp : IO_STACK_LOCATION)
    (w : World) (hl : (createUpToReadOnly env o irpSp w).2 = false) :
    EarlyFrame w (createUpToReadOnly env o irpSp w).1
      ∧ ArrivedFrame w irpSp (createUpToReadOnly env o irpSp w).1 := by
  unfold createUpToReadOnly at hl ⊢
  obtain ⟨hl1, e1⟩ := andThen_continues _ _ hl
  obtain ⟨he, ha⟩ := createUpToBuildName_frame env o irpSp w hl1
  rw [e1] at hl ⊢
  exact ⟨createBuildName_early o w _ he hl, createBuildName_arrived o w irpSp _ ha⟩

/-- A run that reaches line 784 arrives there with an early frame. -/
theorem createUpToAcquire_frame (env : Env) (o : CreateOracle) (irpSp : IO_STACK_LOCATION)
    (w : World) (hl : (createUpToAcquire env o irpSp w).2 = false) :
    EarlyFrame w (createUpToAcquire env o irpSp w).1
      ∧ ArrivedFrame w irpSp (createUpToAcquire env o irpSp w).1 := by
  unfold createUpToAcquire at hl ⊢
  obtain ⟨hl1, e1⟩ := andThen_continues _ _ hl
  obtain ⟨he, ha⟩ := createUpToReadOnly_frame env o irpSp w hl1
  rw [e1]
  exact ⟨createReadOnly_early irpSp w _ he, createReadOnly_arrived w irpSp _ ha⟩

/-- A `__leave` before line 832 ends the `__try` block with the frame of the leave. -/
theorem try_of_left_at_instance (env : Env) (o : CreateOracle) (irpSp : IO_STACK_LOCATION)
    (w : World) (fr : CreateFrame) (h : createUpToInstance env o irpSp w = (fr, true)) :
    DokanDispatchCreateTry env o irpSp w = fr := by
  unfold DokanDispatchCreateTry createUpToShare createUpToEnvelope
  rw [h, andThen_left _ _ rfl, andThen_left _ _ rfl, andThen_left _ _ rfl, andThen_left _ _ rfl,
    andThen_left _ _ rfl]

/-- A `__leave` before line 784 ends the `__try` block with the frame of the leave. -/
theorem try_of_left_at_acquire (env : Env) (o : CreateOracle) (irpSp : IO_STACK_LOCATION)
    (w : World) (fr : CreateFrame) (h : createUpToAcquire env o irpSp w = (fr, true)) :
    DokanDispatchCreateTry env o irpSp w = fr := by
  apply try_of_left_at_instance
  unfold createUpToInstance
  rw [h, andThen_left _ _ rfl]

/-- The `__finally` block on a failure status, entered with an early frame: the
volume, the FCBs and the CCBs are untouched and nothing is dereferenced wrongly. -/
theorem createFinally_early (w : World) (fr : CreateFrame) (he : EarlyFrame w fr)
    (hfo : fr.fileObject = true) (hfo2 : fr.w.fileObject ≠ none)
    (hs : NT_SUCCESS fr.status = false) :
    (createFinally fr).status = fr.status
      ∧ (createFinally fr).w.vcb = w.vcb
      ∧ (createFinally fr).w.fcbs = w.fcbs
      ∧ (createFinally fr).w.ccbs = w.ccbs
      ∧ (createFinally fr).fcb = none
      ∧ (createFinally fr).ccb = none
      ∧ (createFinally fr).eventContext = none
      ∧ (createFinally fr).fault = false
      ∧ (createFinally fr).w.trace
          = fr.w.trace ++ [Event.CompleteIrpRequest fr.status fr.info] := by
  obtain ⟨h1, h2, h3, h4, h5, h6, h7, h8, h9, h10, h11, h12, h13⟩ := he
  cases hf : fr.w.fileObject with
  | none => exact absurd hf hfo2
  | some fo =>
    unfold createFinally
    simp only [hs, h5, h6, h7, h8, h9, hfo, hf, if_true, Option.isSome_none, Bool.false_eq_true,
      and_false, if_false]
    exact ⟨trivial, h2, h3, h4, trivial, trivial, trivial, h13, rfl⟩

/-! ## Lemmas on the event context of `DokanDispatchCreate` -/

theorem readOnly_foldl_delete (l : List Nat) :
    ∀ w : World, (l.foldl DokanDeleteFcb w).vcb.ReadOnly = w.vcb.ReadOnly := by
  induction l with
  | nil => intro w; rfl
  | cons a rest ih =>
    intro w
    rw [List.foldl_cons, ih]
    rfl

theorem readOnly_forceGC (w : World) :
    (DokanForceFcbGarbageCollection w).1.vcb.ReadOnly = w.vcb.ReadOnly := by
  unfold DokanForceFcbGarbageCollection
  split
  · exact readOnly_foldl_delete _ w
  · rfl

theorem readOnly_allocateFCB (o : PoolOracle) (w : World) (n : List Nat) (l : Nat) :
    (DokanAllocateFCB o w n l).1.vcb.ReadOnly = w.vcb.ReadOnly := by
  unfold DokanAllocateFCB
  dsimp only
  repeat' split
  all_goals first
    | rfl
    | exact readOnly_forceGC w

theorem readOnly_getFCB (env : Env) (o : PoolOracle) (w : World) (n : List Nat) (l : Nat)
    (cs : Bool) : (DokanGetFCB env o w n l cs).1.vcb.ReadOnly = w.vcb.ReadOnly := by
  unfold DokanGetFCB
  split
  · have h := readOnly_allocateFCB o w n l
    split
    · rename_i heq
      rw [heq] at h
      exact h
    · rename_i heq
      rw [heq] at h
      exact h
  · rfl

/-- What holds of a frame before the event context is built (line 882): the
read-only mode of the volume is the one at entry and there is no event context. -/
theorem createAcquire_mid (env : Env) (o : CreateOracle) (irpSp : IO_STACK_LOCATION)
    (w : World) (fr : CreateFrame)
    (h : fr.w.vcb.ReadOnly = w.vcb.ReadOnly ∧ fr.eventContext = none) :
    (createAcquire env o irpSp fr).1.w.vcb.ReadOnly = w.vcb.ReadOnly
      ∧ (createAcquire env o irpSp fr).1.eventContext = none := by
  unfold createAcquire createAcquired
  dsimp only
  repeat' split
  all_goals first
    | exact h
    | exact ⟨(readOnly_getFCB _ _ _ _ _ _).trans h.1, h.2⟩

theorem createInstance_mid (o : CreateOracle) (irpSp : IO_STACK_LOCATION)
    (w : World) (fr : CreateFrame)
    (h : fr.w.vcb.ReadOnly = w.vcb.ReadOnly ∧ fr.eventContext = none) :
    (createInstance o irpSp fr).1.w.vcb.ReadOnly = w.vcb.ReadOnly
      ∧ (createInstance o irpSp fr).1.eventContext = none := by
  unfold createInstance DokanAllocateCCB
  dsimp only
  repeat' split
  all_goals exact h

theorem createEntry_before (env : Env) (o : CreateOracle) (irpSp : IO_STACK_LOCATION)
    (w : World) : BeforeEnvelope w (createEntry env o irpSp w).1 := by
  unfold createEntry BeforeEnvelope
  dsimp only
  repeat' split
  all_goals exact ⟨rfl, rfl⟩

theorem createNormalize_before (o : CreateOracle) (w : World) (fr : CreateFrame)
    (h : BeforeEnvelope w fr) : BeforeEnvelope w (createNormalize o fr).1 := by
  unfold createNormalize
  dsimp only
  repeat' split
  all_goals exact h

theorem createResolve_before (irpSp : IO_STACK_LOCATION) (w : World) (fr : CreateFrame)
    (h : BeforeEnvelope w fr) : BeforeEnvelope w (createResolve irpSp fr).1 := by
  unfold createResolve
  dsimp only
  repeat' split
  all_goals exact h

theorem createBuildName_before (o : CreateOracle) (w : World) (fr : CreateFrame)
    (h : BeforeEnvelope w fr) : BeforeEnvelope w (createBuildName o fr).1 := by
  unfold createBuildName
  repeat' split
  all_goals exact h

theorem createReadOnly_before (irpSp : IO_STACK_LOCATION) (w : World) (fr : CreateFrame)
    (h : BeforeEnvelope w fr) : BeforeEnvelope w (createReadOnly irpSp fr).1 := by
  unfold createReadOnly
  split
  all_goals exact h

theorem andThen_before (w : World) (r : CreateFrame × Bool)
    (step : CreateFrame → CreateFrame × Bool) (h : BeforeEnvelope w r.1)
    (hs : ∀ fr, BeforeEnvelope w fr → BeforeEnvelope w (step fr).1) :
    BeforeEnvelope w (andThen r step).1 := by
  unfold andThen
  split
  · exact h
  · exact hs _ h

theorem createUpToEnvelope_before (env : Env) (o : CreateOracle) (irpSp : IO_STACK_LOCATION)
    (w : World) : BeforeEnvelope w (createUpToEnvelope env o irpSp w).1 := by
  unfold createUpToEnvelope createUpToInstance createUpToAcquire createUpToReadOnly
    createUpToBuildName
  apply andThen_before _ _ _ _ (fun fr h => createInstance_mid o irpSp w fr h)
  apply andThen_before _ _ _ _ (fun fr h => createAcquire_mid env o irpSp w fr h)
  apply andThen_before _ _ _ _ (fun fr h => createReadOnly_before irpSp w fr h)
  apply andThen_before _ _ _ _ (fun fr h => createBuildName_before o w fr h)
  apply andThen_before _ _ _ _ (fun fr h => createResolve_before irpSp w fr h)
  apply andThen_before _ _ _ _ (fun fr h => createNormalize_before o w fr h)
  exact createEntry_before env o irpSp w

theorem keepsEnvelope_refl (a : CreateFrame) : KeepsEnvelope a a := ⟨rfl, fun h => h⟩

theorem keepsEnvelope_trans (a b c : CreateFrame) (h1 : KeepsEnvelope a b)
    (h2 : KeepsEnvelope b c) : KeepsEnvelope a c :=
  ⟨h2.1.trans h1.1, fun h => h1.2 (h2.2 h)⟩

theorem andThen_keeps (r : CreateFrame × Bool) (step : CreateFrame → CreateFrame × Bool)
    (hs : ∀ fr, KeepsEnvelope fr (step fr).1) : KeepsEnvelope r.1 (andThen r step).1 := by
  unfold andThen
  split
  · exact keepsEnvelope_refl _
  · exact hs _

theorem createShare_keeps (o : CreateOracle) (irpSp : IO_STACK_LOCATION) (fr : CreateFrame) :
    KeepsEnvelope fr (createShare o irpSp fr).1 := by
  unfold createShare KeepsEnvelope
  dsimp only
  repeat' split
  all_goals first
    | exact ⟨rfl, fun h => h⟩
    | exact ⟨rfl, fun h => Bool.noConfusion h⟩

theorem createOplock_keeps (o : CreateOracle) (irpSp : IO_STACK_LOCATION) (fr : CreateFrame) :
    KeepsEnvelope fr (createOplock o irpSp fr).1 := by
  unfold createOplock KeepsEnvelope
  dsimp only
  repeat' split
  all_goals first
    | exact ⟨rfl, fun h => h⟩
    | exact ⟨rfl, fun h => Bool.noConfusion h⟩

theorem createRegister_keeps (o : CreateOracle) (fr : CreateFrame) :
    KeepsEnvelope fr (createRegister o fr).1 := ⟨rfl, fun h => h⟩

theorem createFinally_keeps (fr : CreateFrame) : KeepsEnvelope fr (createFinally fr) := by
  unfold createFinally KeepsEnvelope
  dsimp only
  repeat' split
  all_goals first
    | exact ⟨rfl, fun h => h⟩
    | exact ⟨rfl, fun h => Bool.noConfusion h⟩

/-- The event context that a step leaves when it had none on arrival at line 882 is
the one built by lines 949 to 1101. -/
theorem createEnvelope_built (env : Env) (o : CreateOracle) (irpSp : IO_STACK_LOCATION)
    (fr : CreateFrame) (ec : EVENT_CONTEXT) (h0 : fr.eventContext = none)
    (h : (createEnvelope env o irpSp fr).1.eventContext = some ec)
    (hnf : (createEnvelope env o irpSp fr).1.fault = false) :
    ∃ flags nameBuffer nameLength,
      buildEventContext env irpSp fr.w.vcb.ReadOnly (assignedSecurityDescriptor o irpSp) flags
        nameBuffer nameLength = some ec := by
  generalize hr : createEnvelope env o irpSp fr = r at h hnf
  unfold createEnvelope at hr
  dsimp only at hr
  repeat' split at hr
  all_goals subst hr
  all_goals first
    | (rw [h0] at h; exact Option.noConfusion h)
    | exact Bool.noConfusion hnf
    | (have he := Option.some.inj h
       subst he
       exact ⟨_, _, _, by assumption⟩)

/-- Every event context that `DokanDispatchCreate` leaves in its frame without a fault
is one built by lines 949 to 1101 from the request and the read-only mode of the
volume. -/
theorem dispatch_envelope (env : Env) (o : CreateOracle) (irpSp : IO_STACK_LOCATION)
    (w : World) (ec : EVENT_CONTEXT)
    (h : (DokanDispatchCreate env o irpSp w).eventContext = some ec)
    (hnf : (DokanDispatchCreate env o irpSp w).fault = false) :
    ∃ flags nameBuffer nameLength,
      buildEventContext env irpSp w.vcb.ReadOnly (assignedSecurityDescriptor o irpSp) flags
        nameBuffer nameLength = some ec := by
  have hb := createUpToEnvelope_before env o irpSp w
  have hk : KeepsEnvelope (andThen (createUpToEnvelope env o irpSp w)
      (createEnvelope env o irpSp)).1 (DokanDispatchCreate env o irpSp w) := by
    unfold DokanDispatchCreate DokanDispatchCreateTry createUpToShare
    apply keepsEnvelope_trans _ _ _ _ (createFinally_keeps _)
    apply keepsEnvelope_trans _ _ _ _ (andThen_keeps _ _ (createRegister_keeps o))
    apply keepsEnvelope_trans _ _ _ _ (andThen_keeps _ _ (createOplock_keeps o irpSp))
    exact andThen_keeps _ _ (createShare_keeps o irpSp)
  rw [hk.1] at h
  have hnf2 := hk.2 hnf
  by_cases hl : (createUpToEnvelope env o irpSp w).2 = true
  · rw [andThen_left _ _ hl, hb.2] at h
    exact absurd h (by simp)
  · have hl2 : (createUpToEnvelope env o irpSp w).2 = false := by simpa using hl
    rw [andThen_next _ _ hl2] at h hnf2
    have := createEnvelope_built env o irpSp _ ec hb.2 h hnf2
    rw [hb.1] at this
    exact this

theorem ecStore_locators (env : Env) (ec ec1 : EVENT_CONTEXT) (off : Nat) (bytes : List Nat)
    (h : ecStore env ec off bytes = some ec1) : ec1.locators = ec.locators := by
  unfold ecStore at h
  dsimp only at h
  split at h
  · have he := Option.some.inj h
    rw [← he]
    rfl
  · exact Option.noConfusion h

theorem storeNameRecord_locators (env : Env) (ec ec1 : EVENT_CONTEXT) (off : Nat)
    (name : BYTE_STRING) (sz : Nat) (h : storeNameRecord env ec off name sz = some ec1) :
    ec1.locators = ec.locators := by
  unfold storeNameRecord at h
  split at h
  · exact Option.noConfusion h
  · rename_i e1 h1
    split at h
    · exact Option.noConfusion h
    · rename_i e2 h2
      split at h
      · split at h
        · exact Option.noConfusion h
        · rename_i e3 h3
          rw [ecStore_locators env _ _ _ _ h, ecStore_locators env _ _ _ _ h3,
            ecStore_locators env _ _ _ _ h2, ecStore_locators env _ _ _ _ h1]
      · rw [ecStore_locators env _ _ _ _ h, ecStore_locators env _ _ _ _ h2,
          ecStore_locators env _ _ _ _ h1]

theorem storeDescriptor_locators (env : Env) (sd : Option (List Nat)) (ec ec1 : EVENT_CONTEXT)
    (h : storeDescriptor env sd ec = some ec1) : ec1.locators = ec.locators := by
  unfold storeDescriptor at h
  split at h
  · exact ecStore_locators env _ _ _ _ h
  · rw [← Option.some.inj h]

theorem storeNames_locators (env : Env) (irpSp : IO_STACK_LOCATION) (ec ec1 : EVENT_CONTEXT)
    (h : storeNames env irpSp ec = some ec1) : ec1.locators = ec.locators := by
  unfold storeNames at h
  split at h
  · split at h
    · exact Option.noConfusion h
    · rename_i e4 h4
      rw [storeNameRecord_locators env _ _ _ _ _ h, storeNameRecord_locators env _ _ _ _ _ h4]
  · rw [← Option.some.inj h]

theorem storePath_locators (env : Env) (flags : DokanFlags) (nb : List Nat) (nl : Nat)
    (ec ec1 : EVENT_CONTEXT) (h : storePath env flags nb nl ec = some ec1) :
    ec1.locators = ec.locators := by
  unfold storePath at h
  split at h
  · exact Option.noConfusion h
  · rename_i e6 h6
    rw [ecStore_locators env _ _ _ _ h, ecStore_locators env _ _ _ _ h6]
    rfl

/-- The locating fields of a built event context are those written by lines 977 to
1030. -/
theorem buildEventContext_locators (env : Env) (irpSp : IO_STACK_LOCATION) (ro : Bool)
    (sd : Option (List Nat)) (flags : DokanFlags) (nb : List Nat) (nl : Nat)
    (ec : EVENT_CONTEXT) (h : buildEventContext env irpSp ro sd flags nb nl = some ec) :
    ec.locators = (envelopeHeader env irpSp ro sd nl).locators := by
  unfold buildEventContext at h
  split at h
  · exact Option.noConfusion h
  · rename_i e3 h3
    split at h
    · exact Option.noConfusion h
    · rename_i e4 h4
      rw [storePath_locators env _ _ _ _ _ h, storeNames_locators env _ _ _ h4,
        storeDescriptor_locators env _ _ _ h3]

/-- The options word of a built event context is the one of lines 1012 to 1021. -/
theorem buildEventContext_options (env : Env) (irpSp : IO_STACK_LOCATION) (ro : Bool)
    (sd : Option (List Nat)) (flags : DokanFlags) (nb : List Nat) (nl : Nat)
    (ec : EVENT_CONTEXT) (h : buildEventContext env irpSp ro sd flags nb nl = some ec) :
    ec.CreateOptions = envelopeCreateOptions ro irpSp.Options := by
  have h1 := buildEventContext_locators env irpSp ro sd flags nb nl ec h
  have h2 := congrArg (fun t => t.2.2.2.1) h1
  exact h2

/-- On a word whose disposition is `FILE_OPEN_IF`, the substitution gives the
disposition `FILE_OPEN` and keeps the low 24 bits. -/
theorem envelopeCreateOptions_open_if (Options : Nat)
    (h : dispositionOf Options = FILE_OPEN_IF) :
    dispositionOf (envelopeCreateOptions true Options) = FILE_OPEN
      ∧ envelopeCreateOptions true Options % 2 ^ 24 = Options % 2 ^ 24 := by
  have hc : (true = true ∧ dispositionOf Options = FILE_OPEN_IF) := ⟨rfl, h⟩
  unfold envelopeCreateOptions
  rw [if_pos hc]
  unfold dispositionOf at h ⊢
  have e1 : ((FILE_OPEN <<< 24) ||| 0x00FFFFFF : Nat) = 2 ^ 25 - 1 := by decide
  have e2 : (0x000000ff : Nat) = 2 ^ 8 - 1 := by decide
  have e3 : FILE_OPEN_IF = 3 := rfl
  have e4 : FILE_OPEN = 1 := rfl
  rw [e1, e2, Nat.and_pow_two_sub_one_eq_mod, Nat.and_pow_two_sub_one_eq_mod,
    Nat.shiftRight_eq_div_pow, e4]
  rw [e2, Nat.and_pow_two_sub_one_eq_mod, Nat.shiftRight_eq_div_pow, e3] at h
  omega

/-! ## Lemmas on the acquisition of the FCB in `DokanDispatchCreate` -/

theorem findFCB_fcbs (env : Env) (w1 w2 : World) (FileName : List Nat) (L : Nat) (cs : Bool)
    (h : w1.fcbs = w2.fcbs) (l : List Nat) :
    findFCB env w1 FileName L cs l = findFCB env w2 FileName L cs l :=
  findFCB_congr env w1 w2 FileName L cs l (fun b _ => by unfold World.fcb; rw [h])

theorem DokanGetFCB_found (env : Env) (o : PoolOracle) (w : World) (FileName : List Nat)
    (L : Nat) (cs : Bool) (b : Nat)
    (h : findFCB env w FileName L cs w.vcb.NextFCB = some b) :
    DokanGetFCB env o w FileName L cs
      = (incFileCount (DokanCancelFcbGarbageCollection w b) b, some b) := by
  unfold DokanGetFCB
  rw [h]

theorem fileObject_setFcb (w : World) (a : Nat) (f : DokanFCB) :
    (w.setFcb a f).fileObject = w.fileObject := rfl

/-- The `__finally` block on a failure status, entered with an FCB that holds more than
one reference and with no CCB, event context or share access: the reference is given
back and nothing else changes in the blocks. -/
theorem createFinally_release (fr : CreateFrame) (b : Nat)
    (hs : NT_SUCCESS fr.status = false) (hfcbf : fr.fcb = some b) (hccb : fr.ccb = none)
    (hus : fr.UnwindShareAccess = false) (hec : fr.eventContext = none)
    (hfo : fr.fileObject = true) (hfo2 : fr.w.fileObject ≠ none) (hfault : fr.fault = false)
    (hvcb : fr.w.vcb.IdentifierType = FSD_IDENTIFIER_TYPE.VCB)
    (hfcb : (fr.w.fcb b).IdentifierType = FSD_IDENTIFIER_TYPE.FCB)
    (hc : (fr.w.fcb b).FileCount ≠ 1) :
    (createFinally fr).status = fr.status
      ∧ (createFinally fr).w.ccbs = fr.w.ccbs
      ∧ (createFinally fr).eventContext = none
      ∧ (createFinally fr).ccb = none
      ∧ ((createFinally fr).w.fcb b).FileCount = (fr.w.fcb b).FileCount - 1
      ∧ (createFinally fr).w.vcb = fr.w.vcb
      ∧ (createFinally fr).fault = false := by
  have hdec := DokanFreeFCB_dec fr.w b hvcb hfcb hc
  have hlt := fcb_valid_lt fr.w b hfcb
  cases hf : fr.w.fileObject with
  | none => exact absurd hf hfo2
  | some fo =>
    unfold createFinally
    simp only [hs, hfcbf, hccb, hus, hec, hfo, hdec, fileObject_setFcb, hf, if_true,
      Option.isSome_none, Bool.false_eq_true, and_false, if_false]
    refine ⟨trivial, rfl, trivial, trivial, ?_, rfl, hfault⟩
    show ((fr.w.setFcb b _).fcb b).FileCount = _
    rw [fcb_setFcb_same _ _ _ hlt]

/-- The tests of lines 813 to 830 on a block that holds more than one reference, for
the disposition `FILE_CREATE`: the step leaves with `STATUS_OBJECT_NAME_COLLISION`. -/
theorem createAcquired_collision (fr : CreateFrame) (W : World) (b : Nat)
    (hd : fr.disposition = FILE_CREATE) (hc : (W.fcb b).FileCount > 1) :
    ∃ W3, createAcquired fr (W, some b)
        = ({ fr with w := W3, fcb := some b, status := STATUS_OBJECT_NAME_COLLISION }, true)
      ∧ W3.fcbs = W.fcbs ∧ W3.vcb = W.vcb ∧ W3.ccbs = W.ccbs
      ∧ W3.fileObject = W.fileObject := by
  have hcol : ∀ W2 : World, W2.fcbs = W.fcbs →
      createCollision (W2.fcb b).FileCount fr.disposition = true := by
    intro W2 h2
    unfold createCollision World.fcb
    rw [h2, hd]
    exact decide_eq_true ⟨hc, rfl⟩
  unfold createAcquired
  dsimp only
  by_cases hb : (W.fcb b).BlockUserModeDispatch = true
  · refine ⟨W.emit Event.LogInfo, ?_, rfl, rfl, rfl, rfl⟩
    simp only [hb, if_true]
    rw [if_pos (hcol (W.emit Event.LogInfo) rfl)]
  · refine ⟨W, ?_, rfl, rfl, rfl, rfl⟩
    simp only [hb, Bool.false_eq_true, if_false]
    rw [if_pos (hcol W rfl)]

/-- The tests of lines 813 to 830 on a block that holds one reference: the step
falls through with the block. -/
theorem createAcquired_passes (fr : CreateFrame) (W : World) (b : Nat)
    (hc : (W.fcb b).FileCount ≤ 1) :
    (createAcquired fr (W, some b)).2 = false
      ∧ (createAcquired fr (W, some b)).1.fcb = some b := by
  have hcol : ∀ W2 : World, W2.fcbs = W.fcbs →
      createCollision (W2.fcb b).FileCount fr.disposition = false := by
    intro W2 h2
    unfold createCollision World.fcb
    rw [h2]
    apply decide_eq_false
    intro h
    have h1 := h.1
    unfold World.fcb at hc
    omega
  unfold createAcquired
  dsimp only
  by_cases hb : (W.fcb b).BlockUserModeDispatch = true
  · simp only [hb, if_true]
    rw [if_neg (by rw [hcol (W.emit Event.LogInfo) rfl]; exact Bool.noConfusion)]
    exact ⟨rfl, rfl⟩
  · simp only [hb, Bool.false_eq_true, if_false]
    rw [if_neg (by rw [hcol W rfl]; exact Bool.noConfusion)]
    exact ⟨rfl, rfl⟩

/-- The step `createAcquire` for a request that is not a retry: the block is acquired
for the path of `acquiredName`. -/
theorem createAcquire_fresh (env : Env) (o : CreateOracle) (irpSp : IO_STACK_LOCATION)
    (fr : CreateFrame) (nm : List Nat) (L : Nat)
    (hnr : (fr.w.fileObject.bind (fun fo => fo.FsContext2)) = none)
    (hp : acquiredName o irpSp fr = some (nm, L)) :
    ∃ fr2 : CreateFrame, createAcquire env o irpSp fr
        = createAcquired fr2
            (DokanGetFCB env o.pool fr.w nm L (FlagOn irpSp.Flags SL_CASE_SENSITIVE))
      ∧ fr2.w = fr.w ∧ fr2.fcb = fr.fcb ∧ fr2.ccb = fr.ccb
      ∧ fr2.eventContext = fr.eventContext ∧ fr2.UnwindShareAccess = fr.UnwindShareAccess
      ∧ fr2.fileObject = fr.fileObject ∧ fr2.fault = fr.fault
      ∧ fr2.disposition = fr.disposition := by
  unfold acquiredName at hp
  unfold createAcquire
  simp only [hnr]
  by_cases hf : FlagOn irpSp.Flags SL_OPEN_TARGET_DIRECTORY = true
  · rw [if_pos hf] at hp
    simp only [hf, if_true, Bool.false_eq_true, if_false]
    cases hg : DokanGetParentDir (fr.fileName.getD []) o.parentDirAlloc with
    | none => rw [hg] at hp; exact Option.noConfusion hp
    | some r =>
      rw [hg] at hp
      dsimp only at hp ⊢
      by_cases hst : r.status ≠ STATUS_SUCCESS
      · rw [if_pos hst] at hp; exact Option.noConfusion hp
      · rw [if_neg hst] at hp
        have e := Option.some.inj hp
        have e1 : r.parentDir.getD [] = nm := congrArg Prod.fst e
        have e2 : r.parentDirLength = L := congrArg Prod.snd e
        rw [if_neg hst, e1, e2]
        exact ⟨_, rfl, rfl, rfl, rfl, rfl, rfl, rfl, rfl, rfl⟩
  · rw [if_neg hf] at hp
    have e := Option.some.inj hp
    have e1 : fr.fileName.getD [] = nm := congrArg Prod.fst e
    have e2 : fr.fileNameLength = L := congrArg Prod.snd e
    simp only [hf, Bool.false_eq_true, if_false]
    rw [e1, e2]
    exact ⟨_, rfl, rfl, rfl, rfl, rfl, rfl, rfl, rfl, rfl⟩

theorem count_incFileCount_le (w : World) (b : Nat) :
    ((incFileCount w b).fcb b).FileCount ≤ (w.fcb b).FileCount + 1 := by
  unfold incFileCount
  by_cases hlt : b < w.fcbs.length
  · rw [fcb_setFcb_same _ _ _ hlt]
  · unfold World.setFcb World.fcb
    dsimp only
    rw [List.set_eq_of_length_le (by omega)]
    omega

/-- A block that `DokanGetFCB` allocates holds one reference when the call returns. -/
theorem DokanGetFCB_new_count (env : Env) (o : PoolOracle) (w : World) (FileName : List Nat)
    (L : Nat) (cs : Bool) (hnone : findFCB env w FileName L cs w.vcb.NextFCB = none) (a : Nat)
    (ha : (DokanGetFCB env o w FileName L cs).2 = some a) :
    ((DokanGetFCB env o w FileName L cs).1.fcb a).FileCount ≤ 1 := by
  unfold DokanGetFCB at ha ⊢
  rw [hnone] at ha ⊢
  dsimp only at ha ⊢
  generalize hr : DokanAllocateFCB o w FileName L = r at ha ⊢
  obtain ⟨w1, oa⟩ := r
  cases oa with
  | none => exact Option.noConfusion ha
  | some a1 =>
    have e : a1 = a := Option.some.inj ha
    subst e
    have hnew : a1 < w1.fcbs.length ∧ (w1.fcb a1).FileCount = 0 := by
      unfold DokanAllocateFCB at hr
      dsimp only at hr
      repeat' split at hr
      all_goals first
        | exact Option.noConfusion (congrArg Prod.snd hr)
        | (injection hr with h1 h2
           injection h2 with h2
           subst h1 h2
           refine ⟨by simp, ?_⟩
           unfold World.fcb
           simp [List.getD_eq_getElem?_getD])
    dsimp only
    refine le_trans (count_incFileCount_le _ _) ?_
    rw [fcb_setFcb_same _ _ _ hnew.1]
    have h0 := hnew.2
    split <;> split <;> simp [h0]

/-! ## Lemmas on the bytes of the event context -/

theorem splice_length (l bytes : List Nat) (k : Nat) (h : k + bytes.length ≤ l.length) :
    (l.take k ++ bytes ++ l.drop (k + bytes.length)).length = l.length := by
  simp only [List.length_append, List.length_take, List.length_drop]
  omega

theorem splice_load_same (l bytes : List Nat) (k : Nat) (h : k + bytes.length ≤ l.length) :
    ((l.take k ++ bytes ++ l.drop (k + bytes.length)).drop k).take bytes.length = bytes := by
  have hk : (l.take k).length = k := by
    rw [List.length_take]; omega
  rw [List.append_assoc]
  rw [List.drop_append_of_le_length (by omega)]
  rw [List.drop_of_length_le (by omega), List.nil_append]
  exact List.take_left' rfl

theorem splice_load_before (l bytes : List Nat) (k p n : Nat) (h : k + bytes.length ≤ l.length)
    (hp : p + n ≤ k) :
    ((l.take k ++ bytes ++ l.drop (k + bytes.length)).drop p).take n = (l.drop p).take n := by
  have hk : (l.take k).length = k := by
    rw [List.length_take]; omega
  rw [List.append_assoc]
  rw [List.drop_append_of_le_length (by omega)]
  rw [List.take_append_of_le_length (by rw [List.length_drop]; omega)]
  rw [List.drop_take]
  rw [List.take_take]
  congr 1
  omega

/-- A size is not more than its pointer-aligned size. -/
theorem le_PointerAlignSize (env : Env) (n : Nat) (hp : 0 < env.sizeofPVOID) :
    n ≤ PointerAlignSize env n := by
  unfold PointerAlignSize
  have h1 := Nat.div_add_mod (n + env.sizeofPVOID - 1) env.sizeofPVOID
  have h2 := Nat.mod_lt (n + env.sizeofPVOID - 1) hp
  rw [Nat.mul_comm] at h1
  omega

/-- A store leaves the bytes below it as they were. -/
theorem ecStore_keeps (env : Env) (ec ec1 : EVENT_CONTEXT) (off : Nat) (bytes : List Nat)
    (p n : Nat) (v : List Nat) (h : ecStore env ec off bytes = some ec1)
    (hl : ecLoad env ec p n = some v) (hp : p + n ≤ off) : ecLoad env ec1 p n = some v := by
  unfold ecStore at h
  unfold ecLoad at hl ⊢
  dsimp only at h hl ⊢
  split at h
  · rename_i hc
    rw [← Option.some.inj h]
    dsimp only
    split at hl
    · rename_i hc2
      have hk : (off - PointerAlignSize env env.sizeofEventContext) + bytes.length
          ≤ ec.tail.length := by omega
      rw [splice_length _ _ _ hk, if_pos hc2, splice_load_before _ _ _ _ _ hk (by omega)]
      exact hl
    · exact Option.noConfusion hl
  · exact Option.noConfusion h

/-- A load at the place of a store gives the bytes stored. -/
theorem ecStore_loads (env : Env) (ec ec1 : EVENT_CONTEXT) (off : Nat) (bytes : List Nat)
    (h : ecStore env ec off bytes = some ec1) :
    ecLoad env ec1 off bytes.length = some bytes := by
  unfold ecStore at h
  unfold ecLoad
  dsimp only at h ⊢
  split at h
  · rename_i hc
    rw [← Option.some.inj h]
    dsimp only
    have hk : (off - PointerAlignSize env env.sizeofEventContext) + bytes.length
        ≤ ec.tail.length := by omega
    rw [splice_length _ _ _ hk, if_pos hc, splice_load_same _ _ _ hk]
  · exact Option.noConfusion h

theorem ecLoad_zero (env : Env) (ec : EVENT_CONTEXT) (p n : Nat) (v : List Nat)
    (h : ecLoad env ec p n = some v) : ecLoad env ec p 0 = some [] := by
  unfold ecLoad at h ⊢
  dsimp only at h ⊢
  split at h
  · rename_i hc
    rw [if_pos (by omega)]
    simp
  · exact Option.noConfusion h

/-- The stores of a name record leave the bytes below the record as they were. -/
theorem storeNameRecord_keeps (env : Env) (ec ec1 : EVENT_CONTEXT) (off : Nat)
    (name : BYTE_STRING) (sz p n : Nat) (v : List Nat)
    (h : storeNameRecord env ec off name sz = some ec1)
    (hl : ecLoad env ec p n = some v) (hp : p + n ≤ off) : ecLoad env ec1 p n = some v := by
  have hib : intermediateBuffer = 4 := rfl
  unfold storeNameRecord at h
  split at h
  · exact Option.noConfusion h
  · rename_i e1 h1
    have k1 := ecStore_keeps env _ _ _ _ p n v h1 hl hp
    split at h
    · exact Option.noConfusion h
    · rename_i e2 h2
      have k2 := ecStore_keeps env _ _ _ _ p n v h2 k1 (by omega)
      split at h
      · split at h
        · exact Option.noConfusion h
        · rename_i e3 h3
          have k3 := ecStore_keeps env _ _ _ _ p n v h3 k2 (by omega)
          exact ecStore_keeps env _ _ _ _ p n v h k3 (by omega)
      · exact ecStore_keeps env _ _ _ _ p n v h k2 (by omega)

/-- The bytes of a name record after its stores: the length, the name bytes at the
inline buffer, and the terminator after them. -/
theorem storeNameRecord_loads (env : Env) (ec ec1 : EVENT_CONTEXT) (off : Nat)
    (name : BYTE_STRING) (sz : Nat) (h : storeNameRecord env ec off name sz = some ec1)
    (hb : name.Length ≤ name.Buffer.length) :
    ecLoad env ec1 off 2 = some (u16le name.Length)
      ∧ ecLoad env ec1 (off + intermediateBuffer) name.Length
          = some (name.Buffer.take name.Length)
      ∧ ecLoad env ec1 (off + intermediateBuffer + name.Length) 2 = some [0, 0] := by
  have hib : intermediateBuffer = 4 := rfl
  unfold storeNameRecord at h
  split at h
  · exact Option.noConfusion h
  · rename_i e1 h1
    have l1 : ecLoad env e1 off 2 = some (u16le name.Length) := ecStore_loads env _ _ _ _ h1
    split at h
    · exact Option.noConfusion h
    · rename_i e2 h2
      have l2 := ecStore_keeps env _ _ _ _ off 2 _ h2 l1 (by omega)
      split at h
      · split at h
        · exact Option.noConfusion h
        · rename_i e3 h3
          have l3 := ecStore_keeps env _ _ _ _ off 2 _ h3 l2 (by omega)
          have l4 := ecStore_keeps env _ _ _ _ off 2 _ h l3 (by omega)
          have hlen : (name.Buffer.take name.Length).length = name.Length := by
            rw [List.length_take]; omega
          have m3 := ecStore_loads env _ _ _ _ h3
          rw [hlen] at m3
          have m4 := ecStore_keeps env _ _ _ _ (off + intermediateBuffer) name.Length _ h m3
            (by omega)
          exact ⟨l4, m4, ecStore_loads env _ _ _ _ h⟩
      · rename_i hz
        have h0 : name.Length = 0 := by omega
        have l4 := ecStore_keeps env _ _ _ _ off 2 _ h l2 (by omega)
        have m4 : ecLoad env ec1 (off + intermediateBuffer) 2 = some [0, 0] :=
          ecStore_loads env _ _ _ _ h
        refine ⟨l4, ?_, ?_⟩
        · rw [h0]
          exact ecLoad_zero env _ _ _ _ m4
        · rw [h0]
          exact m4

/-- The stores of the path leave the bytes below the path as they were. -/
theorem storePath_keeps (env : Env) (flags : DokanFlags) (nb : List Nat) (nl : Nat)
    (ec ec1 : EVENT_CONTEXT) (p n : Nat) (v : List Nat)
    (h : storePath env flags nb nl ec = some ec1) (hl : ecLoad env ec p n = some v)
    (hp : p + n ≤ env.offsetCreate + ec.FileNameOffset) : ecLoad env ec1 p n = some v := by
  unfold storePath at h
  split at h
  · exact Option.noConfusion h
  · rename_i e6 h6
    have k1 := ecStore_keeps env _ _ _ _ p n v h6 hl hp
    exact ecStore_keeps env _ _ _ _ p n v h k1 (by omega)

/-- The aligned size of a name record holds the record header, the name and its
terminator. -/
theorem le_alignedNameSize (env : Env) (L : Nat) (hp : 0 < env.sizeofPVOID) :
    intermediateBuffer + L + 2 ≤ alignedNameSize env L := by
  have hib : intermediateBuffer = 4 := rfl
  have his : sizeofIntermediate = 6 := rfl
  unfold alignedNameSize
  split
  · have h := le_PointerAlignSize env (sizeofIntermediate + L + 2) hp
    omega
  · have h := le_PointerAlignSize env sizeofIntermediate hp
    omega

/-- The stores of the two name records leave the bytes below the object name record
as they were. -/
theorem storeNames_keeps (env : Env) (irpSp : IO_STACK_LOCATION) (ec ec1 : EVENT_CONTEXT)
    (p n : Nat) (v : List Nat) (h : storeNames env irpSp ec = some ec1)
    (hl : ecLoad env ec p n = some v)
    (hp : p + n ≤ env.offsetAccessState + ec.UnicodeStringObjectNameOffset) :
    ecLoad env ec1 p n = some v := by
  unfold storeNames at h
  split at h
  · split at h
    · exact Option.noConfusion h
    · rename_i e4 h4
      have k1 := storeNameRecord_keeps env _ _ _ _ _ p n v h4 hl hp
      exact storeNameRecord_keeps env _ _ _ _ _ p n v h k1 (by omega)
  · rw [← Option.some.inj h]
    exact hl

/-- The bytes of the object name record after the stores of the two name records. -/
theorem storeNames_loads (env : Env) (irpSp : IO_STACK_LOCATION) (a : ACCESS_STATE)
    (ec ec1 : EVENT_CONTEXT) (ha : irpSp.AccessState = some a) (hp : 0 < env.sizeofPVOID)
    (hb : a.ObjectName.Length ≤ a.ObjectName.Buffer.length)
    (h : storeNames env irpSp ec = some ec1) :
    ecLoad env ec1 (env.offsetAccessState + ec.UnicodeStringObjectNameOffset) 2
        = some (u16le a.ObjectName.Length)
      ∧ ecLoad env ec1
          (env.offsetAccessState + ec.UnicodeStringObjectNameOffset + intermediateBuffer)
          a.ObjectName.Length = some (a.ObjectName.Buffer.take a.ObjectName.Length)
      ∧ ecLoad env ec1
          (env.offsetAccessState + ec.UnicodeStringObjectNameOffset + intermediateBuffer
            + a.ObjectName.Length) 2 = some [0, 0] := by
  have hib : intermediateBuffer = 4 := rfl
  have hsz : intermediateBuffer + a.ObjectName.Length + 2 ≤ objectNameSizeOf env irpSp := by
    unfold objectNameSizeOf
    rw [ha]
    exact le_alignedNameSize env _ hp
  unfold storeNames at h
  rw [ha] at h
  dsimp only at h
  split at h
  · exact Option.noConfusion h
  · rename_i e4 h4
    obtain ⟨l1, l2, l3⟩ := storeNameRecord_loads env _ _ _ _ _ h4 hb
    exact ⟨storeNameRecord_keeps env _ _ _ _ _ _ _ _ h l1 (by omega),
      storeNameRecord_keeps env _ _ _ _ _ _ _ _ h l2 (by omega),
      storeNameRecord_keeps env _ _ _ _ _ _ _ _ h l3 (by omega)⟩

/-- The offsets that lines 977 to 1030 record in the header, with an access state. -/
theorem envelopeHeader_offsets (env : Env) (irpSp : IO_STACK_LOCATION) (ro : Bool)
    (sd : Option (List Nat)) (nl : Nat) (a : ACCESS_STATE) (ha : irpSp.AccessState = some a) :
    (envelopeHeader env irpSp ro sd nl).SecurityDescriptorOffset
        = (if securityDescriptorSizeOf env sd > 0 then
            PointerAlignSize env env.sizeofEventContext - env.offsetAccessState
          else 0)
      ∧ (envelopeHeader env irpSp ro sd nl).UnicodeStringObjectNameOffset
        = PointerAlignSize env env.sizeofEventContext + securityDescriptorSizeOf env sd
            - env.offsetAccessState
      ∧ (envelopeHeader env irpSp ro sd nl).FileNameOffset
        = PointerAlignSize env env.sizeofEventContext + securityDescriptorSizeOf env sd
            + objectNameSizeOf env irpSp + objectTypeNameSizeOf env irpSp
            - env.offsetCreate := by
  unfold envelopeHeader
  simp only [ha]
  exact ⟨trivial, trivial, trivial⟩

/-- The descriptor and the object name record in a built event context, read through
the offsets of its header. -/
theorem buildEventContext_round_trip (env : Env) (irpSp : IO_STACK_LOCATION) (ro : Bool)
    (d : List Nat) (flags : DokanFlags) (nb : List Nat) (nl : Nat) (a : ACCESS_STATE)
    (ec : EVENT_CONTEXT) (h : buildEventContext env irpSp ro (some d) flags nb nl = some ec)
    (ha : irpSp.AccessState = some a) (hp : 0 < env.sizeofPVOID)
    (hoff : env.offsetAccessState ≤ env.sizeofEventContext) (hd : d ≠ [])
    (hb : a.ObjectName.Length ≤ a.ObjectName.Buffer.length) :
    ecLoad env ec (env.offsetAccessState + ec.SecurityDescriptorOffset) d.length = some d
      ∧ ecLoad env ec (env.offsetAccessState + ec.UnicodeStringObjectNameOffset) 2
        = some (u16le a.ObjectName.Length)
      ∧ ecLoad env ec
          (env.offsetAccessState + ec.UnicodeStringObjectNameOffset + intermediateBuffer)
          a.ObjectName.Length = some (a.ObjectName.Buffer.take a.ObjectName.Length)
      ∧ ecLoad env ec
          (env.offsetAccessState + ec.UnicodeStringObjectNameOffset + intermediateBuffer
            + a.ObjectName.Length) 2 = some [0, 0] := by
  have hib : intermediateBuffer = 4 := rfl
  have hbase := le_PointerAlignSize env env.sizeofEventContext hp
  have hdl : 0 < d.length := List.length_pos.mpr hd
  have hsd : securityDescriptorSizeOf env (some d) = PointerAlignSize env d.length := rfl
  have hdsz := le_PointerAlignSize env d.length hp
  have hon : intermediateBuffer + a.ObjectName.Length + 2 ≤ objectNameSizeOf env irpSp := by
    unfold objectNameSizeOf
    rw [ha]
    exact le_alignedNameSize env _ hp
  obtain ⟨o1, o2, o3⟩ := envelopeHeader_offsets env irpSp ro (some d) nl a ha
  rw [if_pos (by rw [hsd]; omega)] at o1
  have hloc := buildEventContext_locators env irpSp ro (some d) flags nb nl ec h
  unfold buildEventContext at h
  split at h
  · exact Option.noConfusion h
  · rename_i e3 h3
    split at h
    · exact Option.noConfusion h
    · rename_i e4 h4
      have c3 := storeDescriptor_locators env _ _ _ h3
      have c4 := storeNames_locators env _ _ _ h4
      have q1 : ec.SecurityDescriptorOffset
          = PointerAlignSize env env.sizeofEventContext - env.offsetAccessState :=
        (congrArg (fun t => t.1) hloc).trans o1
      have q2 : ec.UnicodeStringObjectNameOffset
          = PointerAlignSize env env.sizeofEventContext + securityDescriptorSizeOf env (some d)
            - env.offsetAccessState := (congrArg (fun t => t.2.1) hloc).trans o2
      have q3 : e3.UnicodeStringObjectNameOffset = ec.UnicodeStringObjectNameOffset :=
        (congrArg (fun t => t.2.1) c3).trans (congrArg (fun t => t.2.1) hloc).symm
      have q4 : e4.FileNameOffset
          = PointerAlignSize env env.sizeofEventContext + securityDescriptorSizeOf env (some d)
            + objectNameSizeOf env irpSp + objectTypeNameSizeOf env irpSp
            - env.offsetCreate :=
        ((congrArg (fun t => t.2.2.2.2.2) c4).trans
          (congrArg (fun t => t.2.2.2.2.2) c3)).trans o3
      have hs3 : ecStore env (envelopeHeader env irpSp ro (some d) nl)
          (PointerAlignSize env env.sizeofEventContext) d = some e3 := h3
      have d3 := ecStore_loads env _ _ _ _ hs3
      have d4 := storeNames_keeps env irpSp e3 e4 _ _ _ h4 d3 (by rw [q3, q2, hsd]; omega)
      have d5 := storePath_keeps env flags nb nl e4 ec _ _ _ h d4 (by rw [q4, hsd]; omega)
      obtain ⟨n1, n2, n3⟩ := storeNames_loads env irpSp a e3 e4 ha hp hb h4
      rw [q3] at n1 n2 n3
      refine ⟨?_, storePath_keeps env flags nb nl e4 ec _ _ _ h n1 (by rw [q4, q2, hsd]; omega),
        storePath_keeps env flags nb nl e4 ec _ _ _ h n2 (by rw [q4, q2, hsd]; omega),
        storePath_keeps env flags nb nl e4 ec _ _ _ h n3 (by rw [q4, q2, hsd]; omega)⟩
      have e : env.offsetAccessState + ec.SecurityDescriptorOffset
          = PointerAlignSize env env.sizeofEventContext := by rw [q1]; omega
      rw [e]
      exact d5

/-! ## Lemmas on the uniqueness of cached paths -/

theorem shrinks_unique (w w1 : World) (hu : w.cacheUnique) (hs : CacheShrinks w w1) :
    w1.cacheUnique := by
  obtain ⟨_, h2, h3⟩ := hs
  unfold World.cacheUnique World.cachedPaths at hu ⊢
  have e : w1.vcb.NextFCB.map
        (fun b => ((w1.fcb b).FileName.Length, (w1.fcb b).FileName.chars))
      = w1.vcb.NextFCB.map
        (fun b => ((w.fcb b).FileName.Length, (w.fcb b).FileName.chars)) := by
    apply List.map_congr_left
    intro b hb
    rw [h3 b hb]
  rw [e]
  exact List.Nodup.sublist (List.Sublist.map _ h2) hu

theorem shrinks_valid (w w1 : World) (hv : w.cacheValid) (hs : CacheShrinks w w1) :
    w1.cacheValid := by
  obtain ⟨h1, h2, _⟩ := hs
  intro b hb
  rw [h1]
  exact hv b (h2.subset hb)

theorem shrinks_trans (w w1 w2 : World) (h1 : CacheShrinks w w1) (h2 : CacheShrinks w1 w2) :
    CacheShrinks w w2 := by
  obtain ⟨a1, a2, a3⟩ := h1
  obtain ⟨b1, b2, b3⟩ := h2
  refine ⟨b1.trans a1, b2.trans a2, ?_⟩
  intro b hb
  rw [b3 b hb, a3 b (b2.subset hb)]

/-- A memory with the same cache list, as many blocks and the same names. -/
theorem shrinks_same (w w1 : World) (h1 : w1.fcbs.length = w.fcbs.length)
    (h2 : w1.vcb.NextFCB = w.vcb.NextFCB)
    (h3 : ∀ b, (w1.fcb b).FileName = (w.fcb b).FileName) : CacheShrinks w w1 := by
  refine ⟨h1, ?_, fun b _ => h3 b⟩
  rw [h2]

theorem cacheUnique_nodup (w : World) (hu : w.cacheUnique) : w.vcb.NextFCB.Nodup :=
  List.Nodup.of_map _ hu

theorem DokanDeleteFcb_shrinks (w : World) (Fcb : Nat) (hn : w.vcb.NextFCB.Nodup) :
    CacheShrinks w (DokanDeleteFcb w Fcb) := by
  refine ⟨?_, ?_, ?_⟩
  · show (w.setFcb Fcb _).fcbs.length = _
    rw [fcbs_length_setFcb]
  · show List.Sublist (w.vcb.NextFCB.erase Fcb) w.vcb.NextFCB
    exact List.erase_sublist Fcb _
  · intro b hb
    have hb2 : b ∈ w.vcb.NextFCB.erase Fcb := hb
    have hne : b ≠ Fcb := ((List.Nodup.mem_erase_iff hn).mp hb2).1
    show ((w.setFcb Fcb _).fcb b).FileName = _
    rw [fcb_setFcb_ne _ _ _ _ (Ne.symm hne)]

theorem foldl_delete_shrinks (l : List Nat) :
    ∀ w : World, w.cacheUnique → CacheShrinks w (l.foldl DokanDeleteFcb w) := by
  induction l with
  | nil =>
    intro w _
    exact shrinks_same w w rfl rfl (fun _ => rfl)
  | cons a rest ih =>
    intro w hu
    rw [List.foldl_cons]
    have h1 := DokanDeleteFcb_shrinks w a (cacheUnique_nodup w hu)
    exact shrinks_trans _ _ _ h1 (ih _ (shrinks_unique _ _ hu h1))

theorem forceGC_shrinks (w : World) (hu : w.cacheUnique) :
    CacheShrinks w (DokanForceFcbGarbageCollection w).1 := by
  unfold DokanForceFcbGarbageCollection
  split
  · exact foldl_delete_shrinks _ w hu
  · exact shrinks_same w w rfl rfl (fun _ => rfl)

theorem DokanFreeFCB_shrinks (w : World) (Fcb : Nat) (hu : w.cacheUnique) :
    CacheShrinks w (DokanFreeFCB w Fcb).1 := by
  unfold DokanFreeFCB DokanLogError
  split
  · exact shrinks_same w _ rfl rfl (fun _ => rfl)
  · split
    · exact shrinks_same w _ rfl rfl (fun _ => rfl)
    · have hset : CacheShrinks w
          (w.setFcb Fcb { w.fcb Fcb with FileCount := (w.fcb Fcb).FileCount - 1 }) := by
        apply shrinks_same
        · exact fcbs_length_setFcb _ _ _
        · rfl
        · intro b
          by_cases hb : Fcb = b
          · subst hb
            by_cases hlt : Fcb < w.fcbs.length
            · rw [fcb_setFcb_same _ _ _ hlt]
            · unfold World.setFcb World.fcb
              dsimp only
              rw [List.set_eq_of_length_le (by omega)]
          · rw [fcb_setFcb_ne _ _ _ _ hb]
      dsimp only
      split
      · have hsch : CacheShrinks
            (w.setFcb Fcb { w.fcb Fcb with FileCount := (w.fcb Fcb).FileCount - 1 })
            (DokanScheduleFcbForGarbageCollection
              (w.setFcb Fcb { w.fcb Fcb with FileCount := (w.fcb Fcb).FileCount - 1 })
              Fcb).1 := by
          apply shrinks_same
          · rw [fcbs_schedule]
          · exact cache_schedule _ _
          · intro b
            rw [fcb_schedule]
        split
        · refine shrinks_trans _ _ _ (shrinks_trans _ _ _ hset hsch) ?_
          apply DokanDeleteFcb_shrinks
          rw [cache_schedule]
          exact cacheUnique_nodup w hu
        · exact shrinks_trans _ _ _ hset hsch
      · exact hset

theorem fileName_setFcb (w : World) (a b : Nat) (f : DokanFCB)
    (h : f.FileName = (w.fcb a).FileName) :
    ((w.setFcb a f).fcb b).FileName = (w.fcb b).FileName := by
  by_cases hb : a = b
  · subst hb
    by_cases hlt : a < w.fcbs.length
    · rw [fcb_setFcb_same _ _ _ hlt, h]
    · unfold World.setFcb World.fcb
      dsimp only
      rw [List.set_eq_of_length_le (by omega)]
  · rw [fcb_setFcb_ne _ _ _ _ hb]

theorem fileName_incFileCount (w : World) (a b : Nat) :
    ((incFileCount w a).fcb b).FileName = (w.fcb b).FileName := by
  unfold incFileCount
  exact fileName_setFcb w a b { w.fcb a with FileCount := (w.fcb a).FileCount + 1 } rfl

/-- What `DokanAllocateFCB` returns: after a possible forced collection, which only
removes entries from the cache, either nothing, or a block with the given name at the
first unused address, linked at the tail of the cache. -/
theorem DokanAllocateFCB_shape (o : PoolOracle) (w : World) (FileName : List Nat) (L : Nat)
    (hu : w.cacheUnique) :
    ∃ w1, CacheShrinks w w1
      ∧ (DokanAllocateFCB o w FileName L = (w1, none)
        ∨ ∃ (f : DokanFCB) (v : DokanVCB),
            DokanAllocateFCB o w FileName L
                = ({ w1 with fcbs := w1.fcbs ++ [f], vcb := v }, some w1.fcbs.length)
              ∧ f.FileName
                  = { Buffer := some FileName, Length := toUSHORT L,
                      MaximumLength := toUSHORT L }
              ∧ v.NextFCB = w1.vcb.NextFCB ++ [w1.fcbs.length]) := by
  have hrefl : CacheShrinks w w := shrinks_same w w rfl rfl (fun _ => rfl)
  have hgc := forceGC_shrinks w hu
  unfold DokanAllocateFCB
  dsimp only
  by_cases h1 : o.fcbFirst = true
  · by_cases h3 : o.resource = false
    · refine ⟨w, hrefl, Or.inl ?_⟩
      simp [h1, h3]
    · have h3r : o.resource = true := by simpa using h3
      simp only [h1, h3r, if_true, Bool.true_eq_false, if_false]
      exact ⟨w, hrefl, Or.inr ⟨_, _, rfl, rfl, rfl⟩⟩
  · have h1r : o.fcbFirst = false := by simpa using h1
    by_cases h2 : (DokanForceFcbGarbageCollection w).2 = true
    · by_cases h4 : o.fcbRetry = true
      · by_cases h3 : o.resource = false
        · refine ⟨_, hgc, Or.inl ?_⟩
          simp [h1, h2, h3, h4]
        · have h3r : o.resource = true := by simpa using h3
          simp only [h1r, h2, h4, h3r, if_true, Bool.true_eq_false, Bool.false_eq_true,
            if_false]
          exact ⟨_, hgc, Or.inr ⟨_, _, rfl, rfl, rfl⟩⟩
      · refine ⟨_, hgc, Or.inl ?_⟩
        simp [h1, h2, h4]
    · refine ⟨_, hgc, Or.inl ?_⟩
      simp [h1, h2]

/-- A block appended at the first unused address whose path is not yet cached keeps
the cache well formed and its paths distinct. -/
theorem appended_unique (w1 W : World) (hv1 : w1.cacheValid) (hu1 : w1.cacheUnique)
    (hlen : W.fcbs.length = w1.fcbs.length + 1)
    (hnext : W.vcb.NextFCB = w1.vcb.NextFCB ++ [w1.fcbs.length])
    (hold : ∀ b, b < w1.fcbs.length → (W.fcb b).FileName = (w1.fcb b).FileName)
    (hnew : ((W.fcb w1.fcbs.length).FileName.Length, (W.fcb w1.fcbs.length).FileName.chars)
      ∉ w1.cachedPaths) : W.cacheValid ∧ W.cacheUnique := by
  constructor
  · intro b hb
    rw [hnext] at hb
    rw [hlen]
    rcases List.mem_append.mp hb with h | h
    · have := hv1 b h
      omega
    · have e : b = w1.fcbs.length := by simpa using h
      omega
  · unfold World.cacheUnique World.cachedPaths
    rw [hnext, List.map_append]
    have e : w1.vcb.NextFCB.map
          (fun b => ((W.fcb b).FileName.Length, (W.fcb b).FileName.chars))
        = w1.cachedPaths := by
      unfold World.cachedPaths
      apply List.map_congr_left
      intro b hb
      rw [hold b (hv1 b hb)]
    rw [e]
    apply List.Nodup.append hu1 (List.nodup_singleton _)
    intro x hx1 hx2
    have ex : x = ((W.fcb w1.fcbs.length).FileName.Length,
        (W.fcb w1.fcbs.length).FileName.chars) := by simpa using hx2
    rw [ex] at hx1
    exact hnew hx1

/-- The cache stays well formed and its paths distinct across `DokanGetFCB`, for a
path of less than 65536 bytes. -/
theorem DokanGetFCB_unique (env : Env) (o : PoolOracle) (w : World) (FileName : List Nat)
    (L : Nat) (cs : Bool) (hv : w.cacheValid) (hu : w.cacheUnique) (hL : L < 65536) :
    (DokanGetFCB env o w FileName L cs).1.cacheValid
      ∧ (DokanGetFCB env o w FileName L cs).1.cacheUnique := by
  cases hf : findFCB env w FileName L cs w.vcb.NextFCB with
  | some a =>
    rw [DokanGetFCB_found env o w FileName L cs a hf]
    have hs : CacheShrinks w (incFileCount (DokanCancelFcbGarbageCollection w a) a) := by
      apply shrinks_same
      · unfold incFileCount
        rw [fcbs_length_setFcb]
        rfl
      · rfl
      · intro b
        rw [fileName_incFileCount]
        rfl
    exact ⟨shrinks_valid _ _ hv hs, shrinks_unique _ _ hu hs⟩
  | none =>
    obtain ⟨w1, hs, hal⟩ := DokanAllocateFCB_shape o w FileName L hu
    have hv1 := shrinks_valid _ _ hv hs
    have hu1 := shrinks_unique _ _ hu hs
    unfold DokanGetFCB
    rw [hf]
    dsimp only
    rcases hal with hal | ⟨f, v, hal, hfn, hnext⟩
    · rw [hal]
      exact ⟨hv1, hu1⟩
    · rw [hal]
      dsimp only
      have hlt : w1.fcbs.length < (w1.fcbs ++ [f]).length := by simp
      have hname : ∀ W1 : World, W1.fcb w1.fcbs.length = f →
          w1.fcbs.length < W1.fcbs.length → ∀ f2 : DokanFCB, f2.FileName = f.FileName →
          ((incFileCount (W1.setFcb w1.fcbs.length f2) w1.fcbs.length).fcb
            w1.fcbs.length).FileName = f.FileName := by
        intro W1 h1 h2 f2 h3
        rw [fileName_incFileCount, fcb_setFcb_same _ _ _ h2, h3]
      apply appended_unique w1 _ hv1 hu1
      · unfold incFileCount
        rw [fcbs_length_setFcb, fcbs_length_setFcb]
        simp
      · exact hnext
      · intro b hb
        have hne : w1.fcbs.length ≠ b := by omega
        unfold incFileCount
        rw [fcb_setFcb_ne _ _ _ _ hne, fcb_setFcb_ne _ _ _ _ hne, fcb_append_old w1 _ _ b hb]
      · rw [hname _ (fcb_append_new w1 f v) hlt _
          (by rw [fcb_append_new]; split <;> split <;> rfl), hfn]
        intro hmem
        unfold World.cachedPaths at hmem
        obtain ⟨b, hb, hpath⟩ := List.mem_map.mp hmem
        have hbw : b ∈ w.vcb.NextFCB := hs.2.1.subset hb
        have hfnb := hs.2.2 b hb
        have hnomatch : ¬ fcbMatches env (w.fcb b) FileName L cs = true :=
          List.filter_eq_nil_iff.mp (findFCB_none_filter env w FileName L cs _ hf) b hbw
        apply hnomatch
        have h1 : (w1.fcb b).FileName.Length = toUSHORT L := congrArg Prod.fst hpath
        have h2 : (w1.fcb b).FileName.chars = FileName.take (toUSHORT L / 2) :=
          congrArg Prod.snd hpath
        rw [toUSHORT_small L hL] at h1 h2
        rw [hfnb] at h1 h2
        exact fcbMatches_same_path env _ FileName L cs hL h1 h2

/-! ## Lemmas on the blocks of a memory -/

/-- A store into an FCB that keeps a field of the block keeps that field of every
block. -/
theorem field_setFcb {α : Type} (g : DokanFCB → α) (w : World) (a b : Nat) (f : DokanFCB)
    (h : g f = g (w.fcb a)) : g ((w.setFcb a f).fcb b) = g (w.fcb b) := by
  by_cases hb : a = b
  · subst hb
    by_cases hlt : a < w.fcbs.length
    · rw [fcb_setFcb_same _ _ _ hlt, h]
    · unfold World.setFcb World.fcb
      dsimp only
      rw [List.set_eq_of_length_le (by omega)]
  · rw [fcb_setFcb_ne _ _ _ _ hb]

theorem ccb_setCcb_same (w : World) (a : Nat) (c : DokanCCB) (h : a < w.ccbs.length) :
    (w.setCcb a c).ccb a = c := by
  unfold World.ccb World.setCcb
  simp only [List.getD_eq_getElem?_getD, List.getElem?_set_self h]
  rfl

theorem ccb_setCcb_ne (w : World) (a b : Nat) (c : DokanCCB) (h : a ≠ b) :
    (w.setCcb a c).ccb b = w.ccb b := by
  unfold World.ccb World.setCcb
  simp only [List.getD_eq_getElem?_getD, List.getElem?_set_ne h]

theorem ccbs_length_setCcb (w : World) (a : Nat) (c : DokanCCB) :
    (w.setCcb a c).ccbs.length = w.ccbs.length := by
  unfold World.setCcb
  simp

/-- A store into a CCB that keeps a field of the block keeps that field of every
block. -/
theorem field_setCcb {α : Type} (g : DokanCCB → α) (w : World) (a b : Nat) (c : DokanCCB)
    (h : g c = g (w.ccb a)) : g ((w.setCcb a c).ccb b) = g (w.ccb b) := by
  by_cases hb : a = b
  · subst hb
    by_cases hlt : a < w.ccbs.length
    · rw [ccb_setCcb_same _ _ _ hlt, h]
    · unfold World.setCcb World.ccb
      dsimp only
      rw [List.set_eq_of_length_le (by omega)]
  · rw [ccb_setCcb_ne _ _ _ _ hb]

theorem fcb_setCcb (w : World) (a b : Nat) (c : DokanCCB) : (w.setCcb a c).fcb b = w.fcb b :=
  rfl

theorem ccb_setFcb (w : World) (a b : Nat) (f : DokanFCB) : (w.setFcb a f).ccb b = w.ccb b :=
  rfl

theorem fcb_emit (w : World) (e : Event) (b : Nat) : (w.emit e).fcb b = w.fcb b := rfl

theorem ccb_emit (w : World) (e : Event) (b : Nat) : (w.emit e).ccb b = w.ccb b := rfl

theorem backOut_fcb (w : World) (c x : Nat) :
    (DokanMaybeBackOutAtomicOplockRequest w c).fcb x = w.fcb x := by
  unfold DokanMaybeBackOutAtomicOplockRequest
  split <;> rfl

theorem backOut_fileObject (w : World) (c : Nat) :
    (DokanMaybeBackOutAtomicOplockRequest w c).fileObject = w.fileObject := by
  unfold DokanMaybeBackOutAtomicOplockRequest
  split <;> rfl

theorem backOut_vcb (w : World) (c : Nat) :
    (DokanMaybeBackOutAtomicOplockRequest w c).vcb = w.vcb := by
  unfold DokanMaybeBackOutAtomicOplockRequest
  split <;> rfl

/-- The back-out of an atomic oplock request keeps every field of every CCB that does
not depend on the pending flag. -/
theorem backOut_ccb_field {α : Type} (g : DokanCCB → α)
    (hg : ∀ c0 : DokanCCB, g { c0 with AtomicOplockRequestPending := false } = g c0)
    (w : World) (c x : Nat) :
    g ((DokanMaybeBackOutAtomicOplockRequest w c).ccb x) = g (w.ccb x) := by
  unfold DokanMaybeBackOutAtomicOplockRequest
  split
  · dsimp only
    rw [field_setCcb g _ _ _ _ (hg _)]
    rfl
  · rfl

theorem freeCCB_fileObject (w : World) (c : Nat) :
    (DokanFreeCCB w c).1.fileObject = w.fileObject := by
  unfold DokanFreeCCB
  split
  · rfl
  · split <;> rfl

theorem freeCCB_trace (w : World) (c : Nat) : (DokanFreeCCB w c).1.trace = w.trace := by
  unfold DokanFreeCCB
  split
  · rfl
  · split <;> rfl

/-- The release of a CCB keeps every field of every FCB that does not depend on the
list of its CCBs. -/
theorem freeCCB_fcb_field {α : Type} (g : DokanFCB → α)
    (hg : ∀ (f : DokanFCB) (l : List Nat), g { f with NextCCB := l } = g f)
    (w : World) (c x : Nat) : g ((DokanFreeCCB w c).1.fcb x) = g (w.fcb x) := by
  unfold DokanFreeCCB
  split
  · rfl
  · split
    · rfl
    · dsimp only
      show g ((w.setFcb _ _).fcb x) = _
      exact field_setFcb g _ _ _ _ (hg _ _)

/-- The release of a CCB keeps every field of every CCB other than the link, the
search pattern and the freed mark. -/
theorem freeCCB_ccb_field {α : Type} (g : DokanCCB → α)
    (hg : ∀ c0 : DokanCCB,
      g { c0 with Linked := false, HasSearchPattern := false, Freed := true } = g c0)
    (w : World) (c x : Nat) : g ((DokanFreeCCB w c).1.ccb x) = g (w.ccb x) := by
  unfold DokanFreeCCB
  split
  · rfl
  · split
    · rfl
    · dsimp only
      show g (((w.setFcb _ _).setCcb c _).ccb x) = _
      rw [field_setCcb g _ _ _ _ (hg _)]
      rfl

theorem freeFCB_ccbs (w : World) (b : Nat) : (DokanFreeFCB w b).1.ccbs = w.ccbs := by
  unfold DokanFreeFCB DokanLogError DokanScheduleFcbForGarbageCollection
  dsimp only
  repeat' split
  all_goals rfl

theorem freeFCB_fileObject (w : World) (b : Nat) :
    (DokanFreeFCB w b).1.fileObject = w.fileObject := by
  unfold DokanFreeFCB DokanLogError DokanScheduleFcbForGarbageCollection
  dsimp only
  repeat' split
  all_goals rfl

/-- The release of an FCB keeps every field of every FCB that depends neither on the
count nor on what a deletion resets. -/
theorem freeFCB_fcb_field {α : Type} (g : DokanFCB → α)
    (hg1 : ∀ (f : DokanFCB) (k : Int), g { f with FileCount := k } = g f)
    (hg2 : ∀ f : DokanFCB,
      g { f with
          NextCCB := []
          FileName := { Length := 0, MaximumLength := 0, Buffer := none }
          OplockInitialized := false
          IdentifierType := FSD_IDENTIFIER_TYPE.FREED_FCB
          HasResource := false } = g f)
    (w : World) (b x : Nat) : g ((DokanFreeFCB w b).1.fcb x) = g (w.fcb x) := by
  have hset : g ((w.setFcb b { w.fcb b with FileCount := (w.fcb b).FileCount - 1 }).fcb x)
      = g (w.fcb x) := field_setFcb g _ _ _ _ (hg1 _ _)
  unfold DokanFreeFCB DokanLogError
  split
  · rfl
  · split
    · rfl
    · dsimp only
      split
      · split
        · show g ((World.setFcb _ b _).fcb x) = _
          rw [field_setFcb g _ _ _ _ (hg2 _), fcb_schedule]
          exact hset
        · rw [fcb_schedule]
          exact hset
      · exact hset

/-! ## Lemmas on the resolution of the name in `DokanDispatchCreate` -/

theorem DokanStringCharFrom_found (String : List Nat) (c : Nat) :
    ∀ (n i : Nat), (∃ j, i ≤ j ∧ j < i + n ∧ String.getD j 0 = c) →
      DokanStringCharFrom String c i n ≠ -1 := by
  intro n
  induction n with
  | zero =>
    intro i h
    obtain ⟨j, h1, h2, _⟩ := h
    omega
  | succ n ih =>
    intro i h
    rw [DokanStringCharFrom]
    by_cases hi : String.getD i 0 = c
    · rw [if_pos hi]
      omega
    · rw [if_neg hi]
      obtain ⟨j, h1, h2, h3⟩ := h
      apply ih
      refine ⟨j, ?_, by omega, h3⟩
      by_contra hlt
      have e : j = i := by omega
      rw [e] at h3
      exact hi h3

/-- A character among the characters of a counted string is found by
`DokanStringChar`. -/
theorem DokanStringChar_of_mem (s : UNICODE_STRING) (c : Nat) (h : c ∈ s.chars) :
    DokanStringChar (s.Buffer.getD []) s.Length c ≠ -1 := by
  unfold DokanStringChar
  apply DokanStringCharFrom_found
  unfold UNICODE_STRING.chars at h
  obtain ⟨j, hj, hget⟩ := List.getElem_of_mem h
  have hj2 : j < s.Length / 2 := by
    have := hj
    rw [List.length_take] at this
    omega
  have hj3 : j < (s.Buffer.getD []).length := by
    have := hj
    rw [List.length_take] at this
    omega
  refine ⟨j, Nat.zero_le _, by omega, ?_⟩
  rw [List.getElem_take] at hget
  rw [List.getD_eq_getElem?_getD, List.getElem?_eq_getElem hj3]
  exact hget

theorem createUpToBuildName_eq (env : Env) (o : CreateOracle) (irpSp : IO_STACK_LOCATION)
    (w : World) :
    createUpToBuildName env o irpSp w
      = andThen (createUpToResolve env o irpSp w) (createResolve irpSp) := rfl

/-- A `__leave` before line 741 ends the `__try` block with the frame of the leave. -/
theorem try_of_left_at_buildName (env : Env) (o : CreateOracle) (irpSp : IO_STACK_LOCATION)
    (w : World) (fr : CreateFrame) (h : createUpToBuildName env o irpSp w = (fr, true)) :
    DokanDispatchCreateTry env o irpSp w = fr := by
  apply try_of_left_at_acquire
  unfold createUpToAcquire createUpToReadOnly
  rw [h, andThen_left _ _ rfl, andThen_left _ _ rfl]

/-- The frame fields that the `__finally` block leaves as they are. -/
theorem createFinally_fields (fr : CreateFrame) :
    (createFinally fr).status = fr.status ∧ (createFinally fr).info = fr.info
      ∧ (createFinally fr).fileName = fr.fileName ∧ (createFinally fr).fcb = fr.fcb
      ∧ (createFinally fr).ccb = fr.ccb
      ∧ (createFinally fr).EventContextConsumed = fr.EventContextConsumed
      ∧ (createFinally fr).eventContext = fr.eventContext := by
  unfold createFinally
  dsimp only
  repeat' split
  all_goals exact ⟨rfl, rfl, rfl, rfl, rfl, rfl, rfl⟩

/-- A run that reaches line 683 arrives there with an early frame that has no path
buffer and the information 0. -/
theorem createUpToResolve_frame (env : Env) (o : CreateOracle) (irpSp : IO_STACK_LOCATION)
    (w : World) (hl : (createUpToResolve env o irpSp w).2 = false) :
    EarlyFrame w (createUpToResolve env o irpSp w).1
      ∧ ArrivedFrame w irpSp (createUpToResolve env o irpSp w).1
      ∧ (createUpToResolve env o irpSp w).1.info = 0
      ∧ (createUpToResolve env o irpSp w).1.fileName = none := by
  unfold createUpToResolve at hl ⊢
  obtain ⟨hl1, e1⟩ := andThen_continues _ _ hl
  have he := createEntry_early env o irpSp w
  have ha := createEntry_arrived env o irpSp w hl1
  obtain ⟨fo, fo1, _, _, _, _, _, h5⟩ := createEntry_continues env o irpSp w hl1
  rw [e1]
  refine ⟨createNormalize_early o w _ he, createNormalize_arrived o w irpSp _ ha, ?_, ?_⟩
  · rw [h5]
    unfold createNormalize
    dsimp only
    repeat' split
    all_goals rfl
  · rw [h5]
    unfold createNormalize
    dsimp only
    repeat' split
    all_goals rfl

/-- The step `createResolve` on a name with a colon, alternate streams being disabled:
the step leaves with `STATUS_INVALID_PARAMETER`. -/
theorem createResolve_stream (irpSp : IO_STACK_LOCATION) (fr : CreateFrame)
    (hvol : ¬ (fr.relatedFileName = none ∧ (fr.w.fileObject.getD {}).FileName.Length = 0))
    (hua : fr.w.vcb.UseAltStream = false)
    (hcolon : DokanStringChar
      ((trimTrailingSeparator (fr.w.fileObject.getD {}).FileName).Buffer.getD [])
      (trimTrailingSeparator (fr.w.fileObject.getD {}).FileName).Length COLON ≠ -1) :
    (createResolve irpSp fr).2 = true
      ∧ (createResolve irpSp fr).1.status = STATUS_INVALID_PARAMETER
      ∧ ((createResolve irpSp fr).1.info = 0 ∨ (createResolve irpSp fr).1.info = fr.info)
      ∧ (createResolve irpSp fr).1.fileName = fr.fileName := by
  unfold createResolve
  dsimp only
  rw [if_neg hvol]
  cases hrel : fr.relatedFileName with
  | none =>
    dsimp only
    rw [if_neg Bool.noConfusion, if_pos ⟨hua, hcolon⟩]
    exact ⟨rfl, rfl, Or.inl rfl, hrel ▸ rfl⟩
  | some rel =>
    dsimp only
    by_cases hbs : (trimTrailingSeparator (fr.w.fileObject.getD {}).FileName).Length > 0
        ∧ (trimTrailingSeparator (fr.w.fileObject.getD {}).FileName).cell 0 = BACKSLASH
    · rw [if_pos hbs]
      exact ⟨rfl, rfl, Or.inr rfl, rfl⟩
    · rw [if_neg hbs]
      dsimp only
      rw [if_neg Bool.noConfusion]
      split <;> split <;> split
      all_goals first
        | exact ⟨rfl, rfl, Or.inl rfl, rfl⟩
        | exact absurd (And.intro hua hcolon) (by assumption)

/-- The step `createResolve` when alternate streams are enabled: the step leaves only
for an open of the volume or for a relative name that begins with a separator. -/
theorem createResolve_streams_enabled (irpSp : IO_STACK_LOCATION) (fr : CreateFrame)
    (hvol : ¬ (fr.relatedFileName = none ∧ (fr.w.fileObject.getD {}).FileName.Length = 0))
    (hua : fr.w.vcb.UseAltStream = true)
    (hrelname : ¬ (fr.relatedFileName ≠ none
      ∧ (trimTrailingSeparator (fr.w.fileObject.getD {}).FileName).Length > 0
      ∧ (trimTrailingSeparator (fr.w.fileObject.getD {}).FileName).cell 0 = BACKSLASH)) :
    (createResolve irpSp fr).2 = false := by
  have hno : ∀ p : Prop, ¬ (fr.w.vcb.UseAltStream = false ∧ p) := by
    intro p hp
    rw [hua] at hp
    exact Bool.noConfusion hp.1
  unfold createResolve
  dsimp only
  rw [if_neg hvol]
  cases hrel : fr.relatedFileName with
  | none =>
    dsimp only
    rw [if_neg Bool.noConfusion, if_neg (hno _)]
  | some rel =>
    dsimp only
    have hbs : ¬ ((trimTrailingSeparator (fr.w.fileObject.getD {}).FileName).Length > 0
        ∧ (trimTrailingSeparator (fr.w.fileObject.getD {}).FileName).cell 0 = BACKSLASH) := by
      intro h
      apply hrelname
      rw [hrel]
      exact ⟨Option.noConfusion, h⟩
    rw [if_neg hbs]
    dsimp only
    rw [if_neg Bool.noConfusion]
    split <;> split <;> split
    all_goals first
      | rfl
      | (rename_i h
         exact absurd h (hno _))

/-! ## Lemmas on the path buffer of `DokanDispatchCreate` -/

theorem cellsStore_zeros (pre cells : List Nat) (m : Nat) :
    cellsStore (pre ++ List.replicate (cells.length + m) 0) pre.length cells
      = some (pre ++ cells ++ List.replicate m 0) := by
  unfold cellsStore
  rw [if_pos (by simp)]
  congr 2
  · congr 1
    exact List.take_left' rfl
  · rw [List.drop_append_eq_append_drop]
    simp

/-- The path buffer after lines 750 to 768 for a related name `R`, a request name `N`
and the separator flag: `R`, the separator when flagged, `N` and the terminator. -/
theorem buildFileName_concat (R N : List Nat) (rel name : UNICODE_STRING) (sep : Bool)
    (hR : rel.chars = R) (hRl : rel.Length = 2 * R.length) (hN : name.chars = N) :
    buildFileName (List.replicate (R.length + (if sep = true then 1 else 0) + N.length + 1) 0)
        (some rel) false sep name
      = some (R ++ (if sep = true then [BACKSLASH] else []) ++ N ++ [0]) := by
  have hdiv : 2 * R.length / 2 = R.length := by omega
  unfold buildFileName
  cases sep with
  | true =>
    simp only [Bool.false_eq_true, if_false, if_true, hR, hN, hRl, hdiv]
    have e : R.length + 1 + N.length + 1 = R.length + (1 + (N.length + 1)) := by omega
    rw [e]
    have h1 := cellsStore_zeros [] R (1 + (N.length + 1))
    rw [List.nil_append, List.length_nil, List.nil_append] at h1
    rw [h1]
    dsimp only
    have h2 := cellsStore_zeros R [BACKSLASH] (N.length + 1)
    rw [List.length_singleton] at h2
    rw [h2]
    dsimp only
    have h3 := cellsStore_zeros (R ++ [BACKSLASH]) N 1
    rw [List.length_append, List.length_singleton] at h3
    rw [h3]
    rfl
  | false =>
    simp only [Bool.false_eq_true, if_false, hR, hN, hRl, hdiv, Nat.add_zero]
    have e : R.length + N.length + 1 = R.length + (N.length + 1) := by omega
    rw [e]
    have h1 := cellsStore_zeros [] R (N.length + 1)
    rw [List.nil_append, List.length_nil, List.nil_append] at h1
    rw [h1]
    dsimp only
    have h3 := cellsStore_zeros R N 1
    rw [h3]
    simp

/-- The step `createResolve` with a related name, when it falls through: the flags and
the length of lines 704 to 730, from a frame that has no flag set. -/
theorem createResolve_related (irpSp : IO_STACK_LOCATION) (fr0 : CreateFrame)
    (rel : UNICODE_STRING) (hrel : fr0.relatedFileName = some rel)
    (hnb : fr0.needBackSlashAfterRelatedFile = false)
    (hads : fr0.alternateDataStreamOfRootDir = false)
    (hl : (createResolve irpSp fr0).2 = false) :
    (createResolve irpSp fr0).1.relatedFileName = some rel
      ∧ (createResolve irpSp fr0).1.w.fileObject
          = some { (fr0.w.fileObject.getD {}) with
              FileName := trimTrailingSeparator (fr0.w.fileObject.getD {}).FileName }
      ∧ ((createResolve irpSp fr0).1.needBackSlashAfterRelatedFile = true ↔
          (rel.Length > 0
            ∧ (trimTrailingSeparator (fr0.w.fileObject.getD {}).FileName).Length > 0
            ∧ rel.cell (rel.Length / 2 - 1) ≠ BACKSLASH
            ∧ (trimTrailingSeparator (fr0.w.fileObject.getD {}).FileName).cell 0 ≠ COLON))
      ∧ ((createResolve irpSp fr0).1.alternateDataStreamOfRootDir = true ↔
          (rel.Length / 2 = 1
            ∧ (trimTrailingSeparator (fr0.w.fileObject.getD {}).FileName).Length > 0
            ∧ rel.cell 0 = BACKSLASH
            ∧ (trimTrailingSeparator (fr0.w.fileObject.getD {}).FileName).cell 0 = COLON))
      ∧ (createResolve irpSp fr0).1.fileNameLength
          = (trimTrailingSeparator (fr0.w.fileObject.getD {}).FileName).Length + rel.Length
            + (if (createResolve irpSp fr0).1.needBackSlashAfterRelatedFile = true then 2
               else 0)
      ∧ ¬ ((trimTrailingSeparator (fr0.w.fileObject.getD {}).FileName).Length > 0
          ∧ (trimTrailingSeparator (fr0.w.fileObject.getD {}).FileName).cell 0
              = BACKSLASH) := by
  have hvol : ¬ (fr0.relatedFileName = none
      ∧ (fr0.w.fileObject.getD {}).FileName.Length = 0) := by
    rw [hrel]
    exact fun h => Option.noConfusion h.1
  generalize hr : createResolve irpSp fr0 = r at hl ⊢
  unfold createResolve at hr
  dsimp only at hr
  rw [if_neg hvol] at hr
  simp only [hrel] at hr
  by_cases hbs : (trimTrailingSeparator (fr0.w.fileObject.getD {}).FileName).Length > 0
      ∧ (trimTrailingSeparator (fr0.w.fileObject.getD {}).FileName).cell 0 = BACKSLASH
  · rw [if_pos hbs] at hr
    subst hr
    exact Bool.noConfusion hl
  · rw [if_neg hbs] at hr
    dsimp only at hr
    rw [if_neg Bool.noConfusion] at hr
    split at hr <;> split at hr <;> split at hr
    all_goals subst hr
    all_goals first
      | exact Bool.noConfusion hl
      | (refine ⟨rfl, rfl, ?_, ?_, ?_, hbs⟩ <;> simp_all)

/-- The step `createBuildName`, when it falls through, only sets the path buffer. -/
theorem createBuildName_continues (o : CreateOracle) (fr1 : CreateFrame)
    (hl : (createBuildName o fr1).2 = false) :
    ∃ fileName,
      buildFileName (List.replicate ((fr1.fileNameLength + 2) / 2) 0) fr1.relatedFileName
          fr1.alternateDataStreamOfRootDir fr1.needBackSlashAfterRelatedFile
          (fr1.w.fileObject.getD {}).FileName = some fileName
        ∧ (createBuildName o fr1).1 = { fr1 with fileName := some fileName } := by
  generalize hr : createBuildName o fr1 = r at hl ⊢
  unfold createBuildName at hr
  split at hr
  · subst hr
    exact Bool.noConfusion hl
  · split at hr
    · subst hr
      exact Bool.noConfusion hl
    · rename_i fileName hb
      subst hr
      exact ⟨fileName, hb, rfl⟩

/-- The frame with which `createEntry` falls through: the memory at entry, with a file
object that keeps its name and its related file object. -/
theorem createEntry_fileObject (env : Env) (o : CreateOracle) (irpSp : IO_STACK_LOCATION)
    (w : World) (fo : FILE_OBJECT) (hfo : w.fileObject = some fo)
    (hl : (createEntry env o irpSp w).2 = false) :
    ∃ fo1, fo1.RelatedFileObject = fo.RelatedFileObject ∧ fo1.FileName = fo.FileName
      ∧ (createEntry env o irpSp w).1
          = { w := { w with fileObject := some fo1 }, fileObject := true,
              disposition := dispositionOf irpSp.Options } := by
  generalize hr : createEntry env o irpSp w = r at hl ⊢
  unfold createEntry at hr
  simp only [hfo] at hr
  repeat' split at hr
  all_goals subst hr
  all_goals first
    | (simp at hl; done)
    | exact ⟨_, by rfl, by rfl, rfl⟩

/-- The related name with which a run arrives at line 683: the copy of the name
cached in the FCB of the related file object. -/
theorem createUpToResolve_related (env : Env) (o : CreateOracle) (irpSp : IO_STACK_LOCATION)
    (w : World) (fr0 : CreateFrame) (fo : FILE_OBJECT) (rfo : RELATED_FILE_OBJECT)
    (rc rf : Nat) (hreach : createUpToResolve env o irpSp w = (fr0, false))
    (hfo : w.fileObject = some fo) (hrfo : fo.RelatedFileObject = some rfo)
    (hrc : rfo.FsContext2 = some rc) (hrf : (w.ccb rc).Fcb = some rf)
    (hlen : (w.fcb rf).FileName.Length > 0) (hbuf : (w.fcb rf).FileName.Buffer ≠ none) :
    fr0.relatedFileName
        = some (RtlUnicodeStringCopy (w.fcb rf).FileName.MaximumLength (w.fcb rf).FileName)
      ∧ fr0.needBackSlashAfterRelatedFile = false
      ∧ fr0.alternateDataStreamOfRootDir = false := by
  have hl : (createUpToResolve env o irpSp w).2 = false := by rw [hreach]
  unfold createUpToResolve at hl hreach
  obtain ⟨hl1, e1⟩ := andThen_continues _ _ hl
  obtain ⟨fo1, h1, _, h5⟩ := createEntry_fileObject env o irpSp w fo hfo hl1
  rw [e1, h5] at hreach
  unfold createNormalize at hreach
  have hccb : ∀ (f : Option FILE_OBJECT),
      ({ ({ w with fileObject := some fo1 } : World) with fileObject := f } : World).ccb rc
        = w.ccb rc := fun _ => rfl
  have hfcb : ∀ (f : Option FILE_OBJECT),
      ({ ({ w with fileObject := some fo1 } : World) with fileObject := f } : World).fcb rf
        = w.fcb rf := fun _ => rfl
  simp only [Option.getD_some, h1, hrfo, hrc, hccb, hrf, hfcb] at hreach
  rw [if_pos ⟨hlen, hbuf⟩] at hreach
  split at hreach
  · exact Bool.noConfusion (congrArg Prod.snd hreach)
  · split at hreach
    · exact Bool.noConfusion (congrArg Prod.snd hreach)
    · have e := congrArg Prod.fst hreach
      dsimp only at e
      rw [← e]
      exact ⟨rfl, rfl, rfl⟩

/-- A copy by `RtlUnicodeStringCopy` into a destination that is large enough has the
length and the characters of the source. -/
theorem RtlUnicodeStringCopy_fits (M : Nat) (src : UNICODE_STRING) (h : src.Length ≤ M) :
    (RtlUnicodeStringCopy M src).Length = src.Length
      ∧ (RtlUnicodeStringCopy M src).chars = src.chars
      ∧ ∀ i, (RtlUnicodeStringCopy M src).cell i = src.chars.getD i 0 := by
  have hmin : min src.Length M = src.Length := Nat.min_eq_left h
  have hlen : src.chars.length ≤ src.Length / 2 := by
    unfold UNICODE_STRING.chars
    rw [List.length_take]
    omega
  have htake : src.chars.take (src.Length / 2) = src.chars := List.take_of_length_le hlen
  refine ⟨hmin, ?_, ?_⟩
  · unfold RtlUnicodeStringCopy
    show ((some (src.chars.take (min src.Length M / 2))).getD []).take
      (min src.Length M / 2) = src.chars
    rw [hmin, Option.getD_some, htake, htake]
  · intro i
    unfold RtlUnicodeStringCopy
    show ((some (src.chars.take (min src.Length M / 2))).getD []).getD i 0 = _
    rw [hmin, Option.getD_some, htake]

/-- The first character of a counted string that has characters is its cell 0. -/
theorem chars_head (s : UNICODE_STRING) (hne : s.chars ≠ []) :
    s.chars.head? = some (s.cell 0) := by
  unfold UNICODE_STRING.chars UNICODE_STRING.cell at *
  cases hb : s.Buffer.getD [] with
  | nil =>
    rw [hb] at hne
    simp at hne
  | cons a t =>
    rw [hb] at hne
    cases hl : s.Length / 2 with
    | zero =>
      rw [hl] at hne
      simp at hne
    | succ k => simp

theorem getLast_getD (R : List Nat) (h : R ≠ []) :
    R.getLast? = some (R.getD (R.length - 1) 0) := by
  rw [List.getLast?_eq_getElem?, List.getD_eq_getElem?_getD]
  have hlt : R.length - 1 < R.length := by
    have := List.length_pos.mpr h
    omega
  rw [List.getElem?_eq_getElem hlt]
  rfl

/-! ## Lemmas on the trace -/

theorem ext_refl (P : Event → Bool) (a : World) : Ext P a a :=
  ⟨[], by simp, fun _ h => by cases h⟩

theorem ext_same (P : Event → Bool) (a b : World) (h : b.trace = a.trace) : Ext P a b :=
  ⟨[], by simp [h], fun _ h => by cases h⟩

theorem ext_trans (P : Event → Bool) (a b c : World) (h1 : Ext P a b) (h2 : Ext P b c) :
    Ext P a c := by
  obtain ⟨t1, e1, p1⟩ := h1
  obtain ⟨t2, e2, p2⟩ := h2
  refine ⟨t1 ++ t2, by rw [e2, e1, List.append_assoc], ?_⟩
  intro e he
  rcases List.mem_append.mp he with h | h
  · exact p1 e h
  · exact p2 e h

theorem ext_mono (P Q : Event → Bool) (a b : World) (hpq : ∀ e, P e = true → Q e = true)
    (h : Ext P a b) : Ext Q a b := by
  obtain ⟨t, e1, p1⟩ := h
  exact ⟨t, e1, fun e he => hpq e (p1 e he)⟩

theorem ext_emit (P : Event → Bool) (a : World) (e : Event) (h : P e = true) :
    Ext P a (a.emit e) :=
  ⟨[e], rfl, fun x hx => by
    have : x = e := by simpa using hx
    rw [this]
    exact h⟩

/-- The calls made since `a` are the calls appended to its trace. -/
theorem callsSince_ext (P : Event → Bool) (a b : World) (h : Ext P a b) :
    b.trace = a.trace ++ callsSince a b ∧ ∀ e ∈ callsSince a b, P e = true := by
  obtain ⟨t, e1, p1⟩ := h
  have e : callsSince a b = t := by
    unfold callsSince
    rw [e1, List.drop_left]
  rw [e]
  exact ⟨e1, p1⟩

/-! ## Lemmas on the acquisition of a block by `DokanGetFCB` -/

theorem foldl_delete_frame (l : List Nat) :
    ∀ w : World, (l.foldl DokanDeleteFcb w).fcbs.length = w.fcbs.length
      ∧ (l.foldl DokanDeleteFcb w).ccbs = w.ccbs
      ∧ (l.foldl DokanDeleteFcb w).fileObject = w.fileObject
      ∧ (l.foldl DokanDeleteFcb w).trace = w.trace
      ∧ (l.foldl DokanDeleteFcb w).hasVcb = w.hasVcb
      ∧ (l.foldl DokanDeleteFcb w).vcb.IdentifierType = w.vcb.IdentifierType := by
  induction l with
  | nil => intro w; exact ⟨rfl, rfl, rfl, rfl, rfl, rfl⟩
  | cons a rest ih =>
    intro w
    rw [List.foldl_cons]
    obtain ⟨h1, h2, h3, h4, h5, h6⟩ := ih (DokanDeleteFcb w a)
    refine ⟨h1.trans ?_, h2, h3, h4, h5, h6⟩
    show (w.setFcb a _).fcbs.length = _
    rw [fcbs_length_setFcb]

theorem forceGC_frame (w : World) :
    (DokanForceFcbGarbageCollection w).1.fcbs.length = w.fcbs.length
      ∧ (DokanForceFcbGarbageCollection w).1.ccbs = w.ccbs
      ∧ (DokanForceFcbGarbageCollection w).1.fileObject = w.fileObject
      ∧ (DokanForceFcbGarbageCollection w).1.trace = w.trace
      ∧ (DokanForceFcbGarbageCollection w).1.hasVcb = w.hasVcb
      ∧ (DokanForceFcbGarbageCollection w).1.vcb.IdentifierType = w.vcb.IdentifierType := by
  unfold DokanForceFcbGarbageCollection
  split
  · exact foldl_delete_frame _ w
  · exact ⟨rfl, rfl, rfl, rfl, rfl, rfl⟩

theorem findFCB_mem (env : Env) (w : World) (FileName : List Nat) (L : Nat) (cs : Bool)
    (b : Nat) : ∀ l : List Nat, findFCB env w FileName L cs l = some b → b ∈ l := by
  intro l
  induction l with
  | nil =>
    intro h
    exact Option.noConfusion h
  | cons a rest ih =>
    intro h
    rw [findFCB] at h
    split at h
    · have e := Option.some.inj h
      rw [← e]
      simp
    · exact List.mem_cons_of_mem _ (ih h)

/-- A block that `DokanAllocateFCB` returns: it is at the first unused address, with
the FCB tag, no reference and no CCB; the CCBs, the file object, the trace and the tag
of the volume are untouched. -/
theorem DokanAllocateFCB_some (o : PoolOracle) (w : World) (FileName : List Nat) (L : Nat)
    (W1 : World) (a : Nat) (h : DokanAllocateFCB o w FileName L = (W1, some a)) :
    a = w.fcbs.length ∧ W1.fcbs.length = w.fcbs.length + 1
      ∧ (W1.fcb a).IdentifierType = FSD_IDENTIFIER_TYPE.FCB
      ∧ (W1.fcb a).FileCount = 0 ∧ (W1.fcb a).NextCCB = []
      ∧ W1.ccbs = w.ccbs ∧ W1.fileObject = w.fileObject ∧ W1.trace = w.trace
      ∧ W1.hasVcb = w.hasVcb ∧ W1.vcb.IdentifierType = w.vcb.IdentifierType := by
  obtain ⟨g1, g2, g3, g4, g5, g6⟩ := forceGC_frame w
  have key : ∀ w1 : World, w1.fcbs.length = w.fcbs.length → w1.ccbs = w.ccbs →
      w1.fileObject = w.fileObject → w1.trace = w.trace → w1.hasVcb = w.hasVcb →
      w1.vcb.IdentifierType = w.vcb.IdentifierType →
      ∀ (f : DokanFCB) (v : DokanVCB),
      (({ w1 with fcbs := w1.fcbs ++ [f], vcb := v } : World), some w1.fcbs.length)
        = (W1, some a) →
      f.IdentifierType = FSD_IDENTIFIER_TYPE.FCB →
      f.FileCount = 0 → f.NextCCB = [] → v.IdentifierType = w1.vcb.IdentifierType →
      a = w.fcbs.length ∧ W1.fcbs.length = w.fcbs.length + 1
        ∧ (W1.fcb a).IdentifierType = FSD_IDENTIFIER_TYPE.FCB
        ∧ (W1.fcb a).FileCount = 0 ∧ (W1.fcb a).NextCCB = []
        ∧ W1.ccbs = w.ccbs ∧ W1.fileObject = w.fileObject ∧ W1.trace = w.trace
        ∧ W1.hasVcb = w.hasVcb ∧ W1.vcb.IdentifierType = w.vcb.IdentifierType := by
    intro w1 k1 k2 k3 k4 k5 k6 f v he f1 f2 f3 v1
    have ea : w1.fcbs.length = a := Option.some.inj (congrArg Prod.snd he)
    have eW := congrArg Prod.fst he
    dsimp only at eW
    subst eW
    subst ea
    rw [fcb_append_new]
    refine ⟨k1, ?_, f1, f2, f3, k2, k3, k4, k5, v1.trans k6⟩
    show (w1.fcbs ++ [f]).length = _
    rw [List.length_append, List.length_singleton, k1]
  have hnone : ∀ w1 : World, ((w1, none) : World × Option Nat) = (W1, some a) → False :=
    fun _ he => Option.noConfusion (congrArg Prod.snd he)
  unfold DokanAllocateFCB at h
  dsimp only at h
  by_cases h1 : o.fcbFirst = true
  · by_cases h3 : o.resource = false
    · simp only [h1, h3, if_true, Bool.true_eq_false, if_false] at h
      exact (hnone _ h).elim
    · have h3r : o.resource = true := by simpa using h3
      simp only [h1, h3r, if_true, Bool.true_eq_false, if_false] at h
      exact key w rfl rfl rfl rfl rfl rfl _ _ h rfl rfl rfl rfl
  · have h1r : o.fcbFirst = false := by simpa using h1
    by_cases h2 : (DokanForceFcbGarbageCollection w).2 = true
    · by_cases h4 : o.fcbRetry = true
      · by_cases h3 : o.resource = false
        · simp only [h1r, h2, h3, h4, if_true, Bool.true_eq_false, Bool.false_eq_true,
            if_false] at h
          exact (hnone _ h).elim
        · have h3r : o.resource = true := by simpa using h3
          simp only [h1r, h2, h4, h3r, if_true, Bool.true_eq_false, Bool.false_eq_true,
            if_false] at h
          exact key _ g1 g2 g3 g4 g5 g6 _ _ h rfl rfl rfl rfl
      · have h4r : o.fcbRetry = false := by simpa using h4
        simp only [h1r, h2, h4r, if_true, Bool.true_eq_false, Bool.false_eq_true,
          if_false] at h
        exact (hnone _ h).elim
    · have h2r : (DokanForceFcbGarbageCollection w).2 = false := by simpa using h2
      simp only [h1r, h2r, if_true, Bool.true_eq_false, Bool.false_eq_true, if_false] at h
      exact (hnone _ h).elim

/-- What a successful `DokanGetFCB` leaves, in a cache whose blocks carry the FCB tag:
the returned block is allocated, carries the FCB tag, holds one reference more and the
same CCBs; the CCBs, the file object, the trace and the tag of the volume are
untouched. -/
theorem DokanGetFCB_acquired (env : Env) (o : PoolOracle) (w : World) (FileName : List Nat)
    (L : Nat) (cs : Bool) (b : Nat) (ht : w.cacheTagged)
    (h : (DokanGetFCB env o w FileName L cs).2 = some b) :
    b < (DokanGetFCB env o w FileName L cs).1.fcbs.length
      ∧ ((DokanGetFCB env o w FileName L cs).1.fcb b).IdentifierType
          = FSD_IDENTIFIER_TYPE.FCB
      ∧ ((DokanGetFCB env o w FileName L cs).1.fcb b).FileCount = (w.fcb b).FileCount + 1
      ∧ ((DokanGetFCB env o w FileName L cs).1.fcb b).NextCCB = (w.fcb b).NextCCB
      ∧ (DokanGetFCB env o w FileName L cs).1.ccbs = w.ccbs
      ∧ (DokanGetFCB env o w FileName L cs).1.fileObject = w.fileObject
      ∧ (DokanGetFCB env o w FileName L cs).1.trace = w.trace
      ∧ (DokanGetFCB env o w FileName L cs).1.hasVcb = w.hasVcb
      ∧ (DokanGetFCB env o w FileName L cs).1.vcb.IdentifierType = w.vcb.IdentifierType := by
  cases hf : findFCB env w FileName L cs w.vcb.NextFCB with
  | some a =>
    rw [DokanGetFCB_found env o w FileName L cs a hf] at h ⊢
    have e : a = b := Option.some.inj h
    subst e
    have htag := ht a (findFCB_mem env w FileName L cs a _ hf)
    have hlt := fcb_valid_lt w a htag
    have hlt2 : a < (DokanCancelFcbGarbageCollection w a).fcbs.length := hlt
    have hW : (incFileCount (DokanCancelFcbGarbageCollection w a) a).fcb a
        = { w.fcb a with FileCount := (w.fcb a).FileCount + 1 } := by
      unfold incFileCount
      rw [fcb_setFcb_same _ _ _ hlt2]
      rfl
    rw [hW]
    refine ⟨?_, htag, rfl, rfl, rfl, rfl, rfl, rfl, rfl⟩
    unfold incFileCount
    rw [fcbs_length_setFcb]
    exact hlt
  | none =>
    unfold DokanGetFCB at h ⊢
    rw [hf] at h ⊢
    dsimp only at h ⊢
    generalize hr : DokanAllocateFCB o w FileName L = r at h ⊢
    obtain ⟨W1, oa⟩ := r
    cases oa with
    | none => exact Option.noConfusion h
    | some a =>
      have e : a = b := Option.some.inj h
      subst e
      obtain ⟨k1, k2, k3, k4, k5, k6, k7, k8, k9, k10⟩ :=
        DokanAllocateFCB_some o w FileName L W1 a hr
      dsimp only
      have hlt : a < W1.fcbs.length := by omega
      have hlt2 : ∀ f2 : DokanFCB, a < (W1.setFcb a f2).fcbs.length := by
        intro f2
        rw [fcbs_length_setFcb]
        exact hlt
      have hdef : w.fcb a = default := by
        unfold World.fcb
        rw [List.getD_eq_getElem?_getD, List.getElem?_eq_none (by omega)]
        rfl
      have hW : ∀ f2 : DokanFCB, (incFileCount (W1.setFcb a f2) a).fcb a
          = { f2 with FileCount := f2.FileCount + 1 } := by
        intro f2
        unfold incFileCount
        rw [fcb_setFcb_same _ _ _ (hlt2 f2), fcb_setFcb_same _ _ _ hlt]
      rw [hW, hdef]
      refine ⟨?_, ?_, ?_, ?_, k6, k7, k8, k9, k10⟩
      · unfold incFileCount
        rw [fcbs_length_setFcb]
        exact hlt2 _
      · show DokanFCB.IdentifierType _ = _
        split <;> split <;> exact k3
      · show DokanFCB.FileCount _ + 1 = (0 : Int) + 1
        have e0 : ∀ f2 : DokanFCB, f2.FileCount = 0 → f2.FileCount + 1 = (0 : Int) + 1 := by
          intro f2 hz
          rw [hz]
        apply e0
        split <;> split <;> exact k4
      · show DokanFCB.NextCCB _ = []
        split <;> split <;> exact k5

theorem trace_allocateFCB (o : PoolOracle) (w : World) (n : List Nat) (l : Nat) :
    (DokanAllocateFCB o w n l).1.trace = w.trace := by
  unfold DokanAllocateFCB
  dsimp only
  repeat' split
  all_goals first
    | rfl
    | exact (forceGC_frame w).2.2.2.1

theorem trace_getFCB (env : Env) (o : PoolOracle) (w : World) (n : List Nat) (l : Nat)
    (cs : Bool) : (DokanGetFCB env o w n l cs).1.trace = w.trace := by
  unfold DokanGetFCB
  split
  · have h := trace_allocateFCB o w n l
    split
    · rename_i heq
      rw [heq] at h
      exact h
    · rename_i heq
      rw [heq] at h
      exact h
  · rfl

/-! ## Lemmas on the calls of the steps of `DokanDispatchCreate` -/

theorem ext_then_emit (P : Event → Bool) (a b : World) (e : Event) (h : Ext P a b)
    (he : P e = true) : Ext P a (b.emit e) :=
  ext_trans P a b _ h (ext_emit P b e he)

theorem andThen_ext (P : Event → Bool) (w : World) (r : CreateFrame × Bool)
    (step : CreateFrame → CreateFrame × Bool) (h : Ext P w r.1.w)
    (hs : ∀ fr, Ext P fr.w (step fr).1.w) : Ext P w (andThen r step).1.w := by
  unfold andThen
  split
  · exact h
  · exact ext_trans P _ _ _ h (hs _)

theorem createEntry_ext (env : Env) (o : CreateOracle) (irpSp : IO_STACK_LOCATION)
    (w : World) : Ext Event.isLog w (createEntry env o irpSp w).1.w := by
  unfold createEntry
  dsimp only
  repeat' split
  all_goals first
    | exact ext_same _ _ _ rfl
    | exact ext_then_emit _ _ _ _ (ext_same _ _ _ rfl) rfl

theorem createNormalize_ext (o : CreateOracle) (fr : CreateFrame) :
    Ext Event.isLog fr.w (createNormalize o fr).1.w := by
  unfold createNormalize
  dsimp only
  repeat' split
  all_goals exact ext_same _ _ _ rfl

theorem createResolve_ext (irpSp : IO_STACK_LOCATION) (fr : CreateFrame) :
    Ext Event.isLog fr.w (createResolve irpSp fr).1.w := by
  unfold createResolve
  dsimp only
  repeat' split
  all_goals exact ext_same _ _ _ rfl

theorem createBuildName_ext (o : CreateOracle) (fr : CreateFrame) :
    Ext Event.isLog fr.w (createBuildName o fr).1.w := by
  unfold createBuildName
  repeat' split
  all_goals exact ext_same _ _ _ rfl

theorem createReadOnly_ext (irpSp : IO_STACK_LOCATION) (fr : CreateFrame) :
    Ext Event.isLog fr.w (createReadOnly irpSp fr).1.w := by
  unfold createReadOnly
  split
  all_goals exact ext_same _ _ _ rfl

theorem createAcquire_ext (env : Env) (o : CreateOracle) (irpSp : IO_STACK_LOCATION)
    (fr : CreateFrame) : Ext Event.isLog fr.w (createAcquire env o irpSp fr).1.w := by
  unfold createAcquire createAcquired
  dsimp only
  repeat' split
  all_goals first
    | exact ext_same _ _ _ rfl
    | exact ext_same _ _ _ (trace_getFCB _ _ _ _ _ _)
    | exact ext_then_emit _ _ _ _ (ext_same _ _ _ (trace_getFCB _ _ _ _ _ _)) rfl

theorem createInstance_ext (o : CreateOracle) (irpSp : IO_STACK_LOCATION) (fr : CreateFrame) :
    Ext Event.isLog fr.w (createInstance o irpSp fr).1.w := by
  unfold createInstance DokanAllocateCCB
  dsimp only
  repeat' split
  all_goals first
    | exact ext_same _ _ _ rfl
    | exact ext_then_emit _ _ _ _ (ext_same _ _ _ rfl) rfl

theorem createEnvelope_ext (env : Env) (o : CreateOracle) (irpSp : IO_STACK_LOCATION)
    (fr : CreateFrame) : Ext Event.isPreparatory fr.w (createEnvelope env o irpSp fr).1.w := by
  unfold createEnvelope
  dsimp only
  repeat' split
  all_goals first
    | exact ext_same _ _ _ rfl
    | exact ext_then_emit _ _ _ _ (ext_same _ _ _ rfl) rfl
    | exact ext_then_emit _ _ _ _ (ext_then_emit _ _ _ _ (ext_same _ _ _ rfl) rfl) rfl

theorem log_preparatory (e : Event) (h : e.isLog = true) : e.isPreparatory = true := by
  cases e <;> simp_all [Event.isLog, Event.isPreparatory]

/-- The calls made by a run of the `__try` block up to line 784 are log entries. -/
theorem createUpToAcquire_ext (env : Env) (o : CreateOracle) (irpSp : IO_STACK_LOCATION)
    (w : World) : Ext Event.isLog w (createUpToAcquire env o irpSp w).1.w := by
  unfold createUpToAcquire createUpToReadOnly createUpToBuildName
  apply andThen_ext _ _ _ _ _ (createReadOnly_ext irpSp)
  apply andThen_ext _ _ _ _ _ (createBuildName_ext o)
  apply andThen_ext _ _ _ _ _ (createResolve_ext irpSp)
  apply andThen_ext _ _ _ _ _ (createNormalize_ext o)
  exact createEntry_ext env o irpSp w

/-- The calls made by a run of the `__try` block up to line 882 are log entries. -/
theorem createUpToEnvelope_ext (env : Env) (o : CreateOracle) (irpSp : IO_STACK_LOCATION)
    (w : World) : Ext Event.isLog w (createUpToEnvelope env o irpSp w).1.w := by
  unfold createUpToEnvelope createUpToInstance
  apply andThen_ext _ _ _ _ _ (createInstance_ext o irpSp)
  apply andThen_ext _ _ _ _ _ (createAcquire_ext env o irpSp)
  exact createUpToAcquire_ext env o irpSp w

/-- The calls made by a run of the `__try` block up to the share access check of
line 1115 are preparatory. -/
theorem createUpToShare_ext (env : Env) (o : CreateOracle) (irpSp : IO_STACK_LOCATION)
    (w : World) : Ext Event.isPreparatory w (createUpToShare env o irpSp w).1.w := by
  unfold createUpToShare
  apply andThen_ext _ _ _ _ _ (createEnvelope_ext env o irpSp)
  exact ext_mono _ _ _ _ log_preparatory (createUpToEnvelope_ext env o irpSp w)

theorem trace_freeFCB (w : World) (b : Nat) :
    Ext Event.isUnwind w (DokanFreeFCB w b).1 := by
  unfold DokanFreeFCB DokanLogError DokanScheduleFcbForGarbageCollection DokanDeleteFcb
  dsimp only
  repeat' split
  all_goals first
    | exact ext_same _ _ _ rfl
    | exact ext_emit _ _ _ rfl

theorem trace_backOut (w : World) (c : Nat) :
    Ext Event.isUnwind w (DokanMaybeBackOutAtomicOplockRequest w c) := by
  unfold DokanMaybeBackOutAtomicOplockRequest
  dsimp only
  split
  · exact ext_then_emit _ _ _ _ (ext_refl _ _) rfl
  · exact ext_refl _ _

theorem ext_withFileObject (P : Event → Bool) (a b : World) (x : Option FILE_OBJECT)
    (h : Ext P a b) : Ext P a { b with fileObject := x } :=
  ext_trans P a b _ h (ext_same _ _ _ rfl)

/-- The calls made by the `__finally` block are calls of the unwinding. -/
theorem createFinally_ext (fr : CreateFrame) : Ext Event.isUnwind fr.w (createFinally fr).w := by
  have hin : ∀ wa wb : World, Ext Event.isUnwind wa wb →
      Ext Event.isUnwind wa
        (match fr.fcb with
          | some f => (DokanFreeFCB
              (match fr.ccb with
                | some c => (DokanFreeCCB wb c).1
                | none => wb) f).1
          | none =>
              (match fr.ccb with
                | some c => (DokanFreeCCB wb c).1
                | none => wb)) := by
    intro wa wb h
    have h4 : Ext Event.isUnwind wa
        (match fr.ccb with
          | some c => (DokanFreeCCB wb c).1
          | none => wb) := by
      split
      · exact ext_trans _ _ _ _ h (ext_same _ _ _ (freeCCB_trace _ _))
      · exact h
    split
    · exact ext_trans _ _ _ _ h4 (trace_freeFCB _ _)
    · exact h4
  have h3 : Ext Event.isUnwind fr.w
      (if fr.EventContextConsumed = false ∧ fr.eventContext.isSome = true then
        (if fr.UnwindShareAccess = true then
          (match fr.ccb with
            | some c => DokanMaybeBackOutAtomicOplockRequest fr.w c
            | none => fr.w).emit (Event.IoRemoveShareAccess (fr.fcb.getD 0))
        else
          (match fr.ccb with
            | some c => DokanMaybeBackOutAtomicOplockRequest fr.w c
            | none => fr.w)).emit Event.FreeEventContext
      else
        (if fr.UnwindShareAccess = true then
          (match fr.ccb with
            | some c => DokanMaybeBackOutAtomicOplockRequest fr.w c
            | none => fr.w).emit (Event.IoRemoveShareAccess (fr.fcb.getD 0))
        else
          (match fr.ccb with
            | some c => DokanMaybeBackOutAtomicOplockRequest fr.w c
            | none => fr.w))) := by
    have h1 : Ext Event.isUnwind fr.w
        (match fr.ccb with
          | some c => DokanMaybeBackOutAtomicOplockRequest fr.w c
          | none => fr.w) := by
      split
      · exact trace_backOut _ _
      · exact ext_refl _ _
    have h2 : Ext Event.isUnwind fr.w
        (if fr.UnwindShareAccess = true then
          (match fr.ccb with
            | some c => DokanMaybeBackOutAtomicOplockRequest fr.w c
            | none => fr.w).emit (Event.IoRemoveShareAccess (fr.fcb.getD 0))
        else
          (match fr.ccb with
            | some c => DokanMaybeBackOutAtomicOplockRequest fr.w c
            | none => fr.w)) := by
      split
      · exact ext_then_emit _ _ _ _ h1 rfl
      · exact h1
    split
    · exact ext_then_emit _ _ _ _ h2 rfl
    · exact h2
  have h5 := hin _ _ h3
  unfold createFinally
  dsimp only
  split
  · split
    · exact ext_then_emit _ _ _ _ (ext_withFileObject _ _ _ _ h5) rfl
    · exact ext_then_emit _ _ _ _ h5 rfl
  · exact ext_emit _ _ _ rfl

/-! ## Lemmas on the `__finally` block of `DokanDispatchCreate` -/

/-- The `__finally` block on a failure status, by the memory that `unwindBlocks`
leaves. -/
theorem createFinally_failure (fr : CreateFrame) (hs : NT_SUCCESS fr.status = false) :
    createFinally fr
      = match fr.fileObject, (unwindBlocks fr).fileObject with
        | true, some fo =>
          { fr with
            w := ({ unwindBlocks fr with
                    fileObject := some { fo with FsContext := none, FsContext2 := none } }
              : World).emit (Event.CompleteIrpRequest fr.status fr.info) }
        | _, _ =>
          { fr with
            w := (unwindBlocks fr).emit (Event.CompleteIrpRequest fr.status fr.info)
            fault := true } := by
  unfold createFinally unwindBlocks unwindCalls
  rw [if_pos hs]

theorem unwindCalls_fcb (fr : CreateFrame) (x : Nat) : (unwindCalls fr).fcb x = fr.w.fcb x := by
  unfold unwindCalls
  dsimp only
  repeat' split
  all_goals first
    | rfl
    | exact backOut_fcb _ _ _

theorem unwindCalls_vcb (fr : CreateFrame) : (unwindCalls fr).vcb = fr.w.vcb := by
  unfold unwindCalls
  dsimp only
  repeat' split
  all_goals first
    | rfl
    | exact backOut_vcb _ _

theorem unwindCalls_fileObject (fr : CreateFrame) :
    (unwindCalls fr).fileObject = fr.w.fileObject := by
  unfold unwindCalls
  dsimp only
  repeat' split
  all_goals first
    | rfl
    | exact backOut_fileObject _ _

theorem unwindCalls_ccbs_none (fr : CreateFrame) (h : fr.ccb = none) :
    (unwindCalls fr).ccbs = fr.w.ccbs := by
  unfold unwindCalls
  rw [h]
  dsimp only
  repeat' split
  all_goals rfl

theorem unwindCalls_ccb_field {α : Type} (g : DokanCCB → α)
    (hg : ∀ c0 : DokanCCB, g { c0 with AtomicOplockRequestPending := false } = g c0)
    (fr : CreateFrame) (x : Nat) : g ((unwindCalls fr).ccb x) = g (fr.w.ccb x) := by
  unfold unwindCalls
  dsimp only
  repeat' split
  all_goals first
    | rfl
    | exact backOut_ccb_field g hg _ _ _

theorem backOut_clears (w : World) (c : Nat) :
    ((DokanMaybeBackOutAtomicOplockRequest w c).ccb c).AtomicOplockRequestPending = false := by
  unfold DokanMaybeBackOutAtomicOplockRequest
  by_cases h : (w.ccb c).AtomicOplockRequestPending = true
  · rw [if_pos h]
    dsimp only
    have hlt : c < w.ccbs.length := by
      by_contra hlt
      have hd : w.ccb c = default := by
        unfold World.ccb
        rw [List.getD_eq_getElem?_getD, List.getElem?_eq_none (by omega)]
        rfl
      rw [hd] at h
      exact absurd h (by decide)
    have hlt2 : c < (w.emit (Event.BackOutAtomicOplock ((w.ccb c).Fcb.getD 0))).ccbs.length :=
      hlt
    rw [ccb_setCcb_same _ _ _ hlt2]
  · rw [if_neg h]
    simpa using h

theorem unwindCalls_clears (fr : CreateFrame) (c : Nat) (h : fr.ccb = some c) :
    ((unwindCalls fr).ccb c).AtomicOplockRequestPending = false := by
  unfold unwindCalls
  rw [h]
  dsimp only
  repeat' split
  all_goals exact backOut_clears _ _

theorem shareCalls_refl (a : World) : ShareCalls a a 0 0 := ⟨[], by simp, rfl, rfl⟩

theorem shareCalls_same (a b : World) (h : b.trace = a.trace) : ShareCalls a b 0 0 :=
  ⟨[], by simp [h], rfl, rfl⟩

theorem shareCalls_trans (a b c : World) (g1 r1 g2 r2 : Nat) (h1 : ShareCalls a b g1 r1)
    (h2 : ShareCalls b c g2 r2) : ShareCalls a c (g1 + g2) (r1 + r2) := by
  obtain ⟨t1, e1, p1, q1⟩ := h1
  obtain ⟨t2, e2, p2, q2⟩ := h2
  refine ⟨t1 ++ t2, by rw [e2, e1, List.append_assoc], ?_, ?_⟩
  · rw [List.countP_append, p1, p2]
  · rw [List.countP_append, q1, q2]

theorem shareCalls_emit (a : World) (e : Event) :
    ShareCalls a (a.emit e) (if e.isShareGrant = true then 1 else 0)
      (if e.isShareRemoval = true then 1 else 0) :=
  ⟨[e], rfl, by simp [List.countP_cons], by simp [List.countP_cons]⟩

/-- Calls that neither record nor remove a share access leave the counts. -/
theorem shareCalls_of_ext (P : Event → Bool) (a b : World)
    (hP : ∀ e, P e = true → e.isShareGrant = false ∧ e.isShareRemoval = false)
    (h : Ext P a b) : ShareCalls a b 0 0 := by
  obtain ⟨t, e1, p1⟩ := h
  refine ⟨t, e1, ?_, ?_⟩
  · rw [List.countP_eq_zero]
    intro e he
    rw [(hP e (p1 e he)).1]
    exact Bool.noConfusion
  · rw [List.countP_eq_zero]
    intro e he
    rw [(hP e (p1 e he)).2]
    exact Bool.noConfusion

theorem shareCalls_callsSince (a b : World) (g r : Nat) (h : ShareCalls a b g r) :
    (callsSince a b).countP Event.isShareGrant = g
      ∧ (callsSince a b).countP Event.isShareRemoval = r
      ∧ b.trace = a.trace ++ callsSince a b := by
  obtain ⟨t, e1, p1, q1⟩ := h
  have e : callsSince a b = t := by
    unfold callsSince
    rw [e1, List.drop_left]
  rw [e]
  exact ⟨p1, q1, e1⟩

theorem freeCCB_vcb_tag (w : World) (c : Nat) :
    (DokanFreeCCB w c).1.vcb.IdentifierType = w.vcb.IdentifierType := by
  unfold DokanFreeCCB
  split
  · rfl
  · split <;> rfl

theorem freeCCB_ccbs_length (w : World) (c : Nat) :
    (DokanFreeCCB w c).1.ccbs.length = w.ccbs.length := by
  unfold DokanFreeCCB
  split
  · rfl
  · split
    · rfl
    · dsimp only
      show ((w.setFcb _ _).setCcb c _).ccbs.length = _
      rw [ccbs_length_setCcb]
      rfl

/-- The release of a linked CCB takes it off the list of its FCB. -/
theorem freeCCB_unlinks (w : World) (c b : Nat) (hF : (w.ccb c).Fcb = some b)
    (hL : (w.ccb c).Linked = true) (hlt : b < w.fcbs.length) :
    ((DokanFreeCCB w c).1.fcb b).NextCCB = (w.fcb b).NextCCB.erase c := by
  unfold DokanFreeCCB
  rw [hF]
  dsimp only
  rw [if_neg (by rw [hL]; exact Bool.noConfusion)]
  show ((w.setFcb b { w.fcb b with NextCCB := (w.fcb b).NextCCB.erase c }).fcb b).NextCCB = _
  rw [fcb_setFcb_same _ _ _ hlt]

/-- The release of an FCB leaves the list of CCBs of a block or empties it. -/
theorem freeFCB_nextCCB (w : World) (b x : Nat) :
    ((DokanFreeFCB w b).1.fcb x).NextCCB = (w.fcb x).NextCCB
      ∨ ((DokanFreeFCB w b).1.fcb x).NextCCB = [] := by
  have hset : ((w.setFcb b { w.fcb b with FileCount := (w.fcb b).FileCount - 1 }).fcb x).NextCCB
      = (w.fcb x).NextCCB := field_setFcb (fun f => f.NextCCB) _ _ _ _ rfl
  unfold DokanFreeFCB DokanLogError
  split
  · exact Or.inl rfl
  · split
    · exact Or.inl rfl
    · dsimp only
      split
      · split
        · by_cases hx : b = x
          · subst hx
            by_cases hlt : b < w.fcbs.length
            · right
              rw [fcb_DokanDeleteFcb_same _ _ (by rw [fcbs_schedule, fcbs_length_setFcb]; exact hlt)]
            · left
              unfold DokanDeleteFcb
              dsimp only
              show ((World.setFcb _ b _).fcb b).NextCCB = _
              unfold World.setFcb World.fcb
              dsimp only
              rw [List.set_eq_of_length_le (by rw [fcbs_schedule]; simp; omega)]
              rw [fcbs_schedule]
              simp only [List.set_eq_of_length_le (Nat.le_of_not_lt hlt)]
          · left
            unfold DokanDeleteFcb
            dsimp only
            show ((World.setFcb _ b _).fcb x).NextCCB = _
            rw [fcb_setFcb_ne _ _ _ _ hx, fcb_schedule]
            exact hset
        · left
          rw [fcb_schedule]
          exact hset
      · exact Or.inl hset

/-- The release of a valid FCB makes no call that the trace records. -/
theorem freeFCB_trace_valid (w : World) (b : Nat)
    (hvcb : w.vcb.IdentifierType = FSD_IDENTIFIER_TYPE.VCB)
    (hfcb : (w.fcb b).IdentifierType = FSD_IDENTIFIER_TYPE.FCB) :
    (DokanFreeFCB w b).1.trace = w.trace := by
  unfold DokanFreeFCB
  rw [if_neg (by simp [hvcb]), if_neg (by simp [hfcb])]
  unfold DokanScheduleFcbForGarbageCollection DokanDeleteFcb
  dsimp only
  repeat' split
  all_goals rfl

theorem backOut_trace (w : World) (c : Nat) :
    (DokanMaybeBackOutAtomicOplockRequest w c).trace
      = w.trace ++ (if (w.ccb c).AtomicOplockRequestPending = true then
          [Event.BackOutAtomicOplock ((w.ccb c).Fcb.getD 0)] else []) := by
  unfold DokanMaybeBackOutAtomicOplockRequest
  split
  · rfl
  · simp

/-- The calls of lines 1353 to 1372, in order. -/
theorem unwindCalls_trace (fr : CreateFrame) :
    (unwindCalls fr).trace
      = fr.w.trace
        ++ ((match fr.ccb with
              | some c =>
                if (fr.w.ccb c).AtomicOplockRequestPending = true then
                  [Event.BackOutAtomicOplock ((fr.w.ccb c).Fcb.getD 0)] else []
              | none => [])
            ++ ((if fr.UnwindShareAccess = true then
                  [Event.IoRemoveShareAccess (fr.fcb.getD 0)] else [])
              ++ (if fr.EventContextConsumed = false ∧ fr.eventContext.isSome = true then
                  [Event.FreeEventContext] else []))) := by
  unfold unwindCalls
  dsimp only
  cases fr.ccb with
  | none =>
    dsimp only
    split <;> split <;> simp [World.emit]
  | some c =>
    dsimp only
    split <;> split <;> simp [World.emit, backOut_trace]

theorem unwindCalls_share (fr : CreateFrame) :
    ShareCalls fr.w (unwindCalls fr) 0 (if fr.UnwindShareAccess = true then 1 else 0) := by
  refine ⟨_, unwindCalls_trace fr, ?_, ?_⟩
  · cases fr.ccb with
    | none =>
      dsimp only
      split <;> split <;> simp [List.countP_cons, Event.isShareGrant]
    | some c =>
      dsimp only
      split <;> split <;> split <;> simp [List.countP_cons, Event.isShareGrant]
  · cases fr.ccb with
    | none =>
      dsimp only
      split <;> split <;> simp [List.countP_cons, Event.isShareRemoval]
    | some c =>
      dsimp only
      split <;> split <;> split <;> simp [List.countP_cons, Event.isShareRemoval]

theorem unwindCalls_backOut (fr : CreateFrame) (c b : Nat) (hc : fr.ccb = some c)
    (hF : (fr.w.ccb c).Fcb = some b) (hp : (fr.w.ccb c).AtomicOplockRequestPending = true) :
    Event.BackOutAtomicOplock b ∈ callsSince fr.w (unwindCalls fr) := by
  unfold callsSince
  rw [unwindCalls_trace, List.drop_left, hc]
  dsimp only
  rw [if_pos hp, hF]
  simp
theorem ccb_of_ccbs (w1 w2 : World) (h : w1.ccbs = w2.ccbs) (x : Nat) : w1.ccb x = w2.ccb x := by
  unfold World.ccb
  rw [h]

/-- What lines 1353 to 1378 of the `__finally` block leave of a frame that holds a valid
block `b`: one reference less on `b`, the calls of `unwindCalls`, the file object of the
frame; the CCB of the frame has its pending flag cleared and is off the list of `b`. -/
theorem unwindBlocks_released (fr : CreateFrame) (b : Nat) (hf : fr.fcb = some b)
    (hvcb : fr.w.vcb.IdentifierType = FSD_IDENTIFIER_TYPE.VCB)
    (htag : (fr.w.fcb b).IdentifierType = FSD_IDENTIFIER_TYPE.FCB) :
    ((unwindBlocks fr).fcb b).FileCount = (fr.w.fcb b).FileCount - 1
      ∧ (unwindBlocks fr).fileObject = fr.w.fileObject
      ∧ (unwindBlocks fr).trace = (unwindCalls fr).trace
      ∧ (fr.ccb = none → (unwindBlocks fr).ccbs = fr.w.ccbs)
      ∧ (∀ c, fr.ccb = some c →
          ((unwindBlocks fr).ccb c).AtomicOplockRequestPending = false)
      ∧ (∀ c, fr.ccb = some c → (fr.w.ccb c).Fcb = some b → (fr.w.ccb c).Linked = true →
          ((unwindBlocks fr).fcb b).NextCCB = (fr.w.fcb b).NextCCB.erase c
            ∨ ((unwindBlocks fr).fcb b).NextCCB = []) := by
  have key : ∀ w4 : World, w4.vcb.IdentifierType = FSD_IDENTIFIER_TYPE.VCB →
      (w4.fcb b).IdentifierType = FSD_IDENTIFIER_TYPE.FCB →
      (w4.fcb b).FileCount = (fr.w.fcb b).FileCount →
      w4.fileObject = fr.w.fileObject → w4.trace = (unwindCalls fr).trace →
      ((DokanFreeFCB w4 b).1.fcb b).FileCount = (fr.w.fcb b).FileCount - 1
        ∧ (DokanFreeFCB w4 b).1.fileObject = fr.w.fileObject
        ∧ (DokanFreeFCB w4 b).1.trace = (unwindCalls fr).trace := by
    intro w4 k1 k2 k3 k4 k5
    refine ⟨?_, ?_, ?_⟩
    · rw [(DokanFreeFCB_step w4 b k1 k2).2, k3]
    · rw [freeFCB_fileObject, k4]
    · rw [freeFCB_trace_valid w4 b k1 k2, k5]
  have u1 : (unwindCalls fr).vcb.IdentifierType = FSD_IDENTIFIER_TYPE.VCB := by
    rw [unwindCalls_vcb]
    exact hvcb
  have u2 : ((unwindCalls fr).fcb b).IdentifierType = FSD_IDENTIFIER_TYPE.FCB := by
    rw [unwindCalls_fcb]
    exact htag
  cases hc : fr.ccb with
  | none =>
    have e : unwindBlocks fr = (DokanFreeFCB (unwindCalls fr) b).1 := by
      unfold unwindBlocks
      rw [hf, hc]
    rw [e]
    obtain ⟨r1, r2, r3⟩ := key (unwindCalls fr) u1 u2 (by rw [unwindCalls_fcb])
      (unwindCalls_fileObject fr) rfl
    refine ⟨r1, r2, r3, ?_, ?_, ?_⟩
    · intro _
      rw [freeFCB_ccbs]
      exact unwindCalls_ccbs_none fr hc
    · intro c h
      exact Option.noConfusion h
    · intro c h
      exact Option.noConfusion h
  | some c =>
    have e : unwindBlocks fr = (DokanFreeFCB (DokanFreeCCB (unwindCalls fr) c).1 b).1 := by
      unfold unwindBlocks
      rw [hf, hc]
    rw [e]
    have v1 : (DokanFreeCCB (unwindCalls fr) c).1.vcb.IdentifierType
        = FSD_IDENTIFIER_TYPE.VCB := by
      rw [freeCCB_vcb_tag]
      exact u1
    have v2 : ((DokanFreeCCB (unwindCalls fr) c).1.fcb b).IdentifierType
        = FSD_IDENTIFIER_TYPE.FCB := by
      rw [freeCCB_fcb_field (fun f => f.IdentifierType) (fun _ _ => rfl)]
      exact u2
    have v3 : ((DokanFreeCCB (unwindCalls fr) c).1.fcb b).FileCount = (fr.w.fcb b).FileCount := by
      rw [freeCCB_fcb_field (fun f => f.FileCount) (fun _ _ => rfl), unwindCalls_fcb]
    obtain ⟨r1, r2, r3⟩ := key _ v1 v2 v3
      (by rw [freeCCB_fileObject]; exact unwindCalls_fileObject fr) (freeCCB_trace _ _)
    refine ⟨r1, r2, r3, ?_, ?_, ?_⟩
    · intro h
      exact Option.noConfusion h
    · intro c1 h
      have ec : c = c1 := Option.some.inj h
      subst ec
      rw [ccb_of_ccbs _ _ (freeFCB_ccbs _ _),
        freeCCB_ccb_field (fun x => x.AtomicOplockRequestPending) (fun _ => rfl)]
      exact unwindCalls_clears fr c hc
    · intro c1 h hF hL
      have ec : c = c1 := Option.some.inj h
      subst ec
      have hF2 : ((unwindCalls fr).ccb c).Fcb = some b := by
        rw [unwindCalls_ccb_field (fun x => x.Fcb) (fun _ => rfl)]
        exact hF
      have hL2 : ((unwindCalls fr).ccb c).Linked = true := by
        rw [unwindCalls_ccb_field (fun x => x.Linked) (fun _ => rfl)]
        exact hL
      have hun := freeCCB_unlinks (unwindCalls fr) c b hF2 hL2 (fcb_valid_lt _ b u2)
      rw [unwindCalls_fcb] at hun
      rcases freeFCB_nextCCB (DokanFreeCCB (unwindCalls fr) c).1 b b with h1 | h1
      · left
        rw [h1, hun]
      · right
        exact h1

/-- The `__finally` block on a failure status with a file object: the memory on return
is the one of `unwindBlocks` with both contexts of the file object cleared, and the
completion of the request is the last call. -/
theorem createFinally_unwound (fr : CreateFrame) (fo : FILE_OBJECT)
    (hs : NT_SUCCESS fr.status = false) (hfo : fr.fileObject = true)
    (hfo2 : (unwindBlocks fr).fileObject = some fo) :
    (createFinally fr).w
      = ({ unwindBlocks fr with
            fileObject := some { fo with FsContext := none, FsContext2 := none } }
          : World).emit (Event.CompleteIrpRequest fr.status fr.info) := by
  rw [createFinally_failure fr hs, hfo, hfo2]

/-! ## Lemmas on the frame that holds a block in `DokanDispatchCreate` -/

theorem preparatory_neutral (e : Event) (h : e.isPreparatory = true) :
    e.isShareGrant = false ∧ e.isShareRemoval = false := by
  cases e <;> simp_all [Event.isPreparatory, Event.isShareGrant, Event.isShareRemoval]

theorem log_neutral (e : Event) (h : e.isLog = true) :
    e.isShareGrant = false ∧ e.isShareRemoval = false :=
  preparatory_neutral e (log_preparatory e h)

/-- The tests of lines 813 to 830 on a block that `DokanGetFCB` returned for an early
frame: the frame holds the block. -/
theorem createAcquired_held (env : Env) (o : PoolOracle) (w : World) (fr2 : CreateFrame)
    (nm : List Nat) (L : Nat) (cs : Bool) (b : Nat)
    (h1 : fr2.w.vcb = w.vcb) (h2 : fr2.w.fcbs = w.fcbs) (h3 : fr2.w.ccbs = w.ccbs)
    (h4 : fr2.ccb = none) (h5 : fr2.eventContext = none) (h6 : fr2.EventContextConsumed = false)
    (h7 : fr2.UnwindShareAccess = false) (h8 : fr2.allocateCcb = true)
    (h9 : fr2.fileObject = true) (h10 : fr2.w.fileObject ≠ none)
    (h11 : w.vcb.IdentifierType = FSD_IDENTIFIER_TYPE.VCB) (ht : w.cacheTagged)
    (hx : Ext Event.isLog w fr2.w)
    (hb : (createAcquired fr2 (DokanGetFCB env o fr2.w nm L cs)).1.fcb = some b) :
    FreshHeld w b (createAcquired fr2 (DokanGetFCB env o fr2.w nm L cs)).1 := by
  have hfcb : ∀ x, fr2.w.fcb x = w.fcb x := fun x => by unfold World.fcb; rw [h2]
  have ht2 : fr2.w.cacheTagged := by
    intro x hx2
    rw [h1] at hx2
    rw [hfcb]
    exact ht x hx2
  cases hg : (DokanGetFCB env o fr2.w nm L cs).2 with
  | none =>
    unfold createAcquired at hb
    rw [hg] at hb
    exact Option.noConfusion hb
  | some b1 =>
    obtain ⟨g1, g2, g3, g4, g5, g6, g7, g8, g9⟩ :=
      DokanGetFCB_acquired env o fr2.w nm L cs b1 ht2 hg
    generalize DokanGetFCB env o fr2.w nm L cs = g at hb hg g1 g2 g3 g4 g5 g6 g7 g8 g9 ⊢
    obtain ⟨W, ob⟩ := g
    dsimp only at hg g1 g2 g3 g4 g5 g6 g7 g8 g9
    subst hg
    have key : ∀ (W3 : World) (st : NTSTATUS), (∀ x, W3.fcb x = W.fcb x) → W3.ccbs = W.ccbs →
        W3.fileObject = W.fileObject → W3.vcb = W.vcb → Ext Event.isLog W W3 →
        b1 = b →
        FreshHeld w b { fr2 with w := W3, fcb := some b1, status := st } := by
      intro W3 st k1 k2 k3 k4 k5 k6
      subst k6
      have hx3 : Ext Event.isLog w W3 :=
        ext_trans _ _ _ _ (ext_trans _ _ _ _ hx (ext_same _ _ _ g7)) k5
      have hh : HeldFrame w b1 1 { fr2 with w := W3, fcb := some b1, status := st } := by
        refine ⟨rfl, h9, ?_, ?_, ?_, ?_, Or.inl h4, ?_⟩
        · show W3.fileObject ≠ none
          rw [k3, g6]
          exact h10
        · show W3.vcb.IdentifierType = _
          rw [k4, g9, h1]
          exact h11
        · show (W3.fcb b1).IdentifierType = _
          rw [k1]
          exact g2
        · show (W3.fcb b1).FileCount = _
          rw [k1, g3, hfcb]
        · show ShareCalls w W3 (if fr2.UnwindShareAccess = true then 1 else 0) 0
          rw [h7]
          exact shareCalls_of_ext _ _ _ log_neutral hx3
      refine ⟨hh, h4, ?_, ?_, h8, h5, h7, h6, hx3⟩
      · show W3.ccbs = _
        rw [k2, g5]
        exact h3
      · show (W3.fcb b1).NextCCB = _
        rw [k1, g4, hfcb]
    generalize hr : createAcquired fr2 (W, some b1) = r at hb ⊢
    unfold createAcquired at hr
    dsimp only at hr
    repeat' split at hr
    all_goals subst hr
    all_goals first
      | exact key _ _ (fun _ => rfl) rfl rfl rfl (ext_emit _ _ _ rfl) (Option.some.inj hb)
      | exact key _ fr2.status (fun _ => rfl) rfl rfl rfl (ext_emit _ _ _ rfl)
          (Option.some.inj hb)
      | exact key _ _ (fun _ => rfl) rfl rfl rfl (ext_refl _ _) (Option.some.inj hb)

theorem andThen_inv (I : CreateFrame → Prop) (r : CreateFrame × Bool)
    (step : CreateFrame → CreateFrame × Bool) (h : I r.1) (hs : ∀ fr, I fr → I (step fr).1) :
    I (andThen r step).1 := by
  unfold andThen
  split
  · exact h
  · exact hs _ h

/-- No block is held before line 784. -/
theorem createUpToAcquire_nofcb (env : Env) (o : CreateOracle) (irpSp : IO_STACK_LOCATION)
    (w : World) : (createUpToAcquire env o irpSp w).1.fcb = none := by
  unfold createUpToAcquire createUpToReadOnly createUpToBuildName
  apply andThen_inv (fun fr => fr.fcb = none)
  apply andThen_inv (fun fr => fr.fcb = none)
  apply andThen_inv (fun fr => fr.fcb = none)
  apply andThen_inv (fun fr => fr.fcb = none)
  · unfold createEntry
    dsimp only
    repeat' split
    all_goals rfl
  · intro fr h
    unfold createNormalize
    dsimp only
    repeat' split
    all_goals exact h
  · intro fr h
    unfold createResolve
    dsimp only
    repeat' split
    all_goals exact h
  · intro fr h
    unfold createBuildName
    repeat' split
    all_goals exact h
  · intro fr h
    unfold createReadOnly
    split
    all_goals exact h

/-- The acquisition of the FCB by a first dispatch, entered with an early frame: a
frame that holds a block afterwards holds it freshly. -/
theorem createAcquire_held (env : Env) (o : CreateOracle) (irpSp : IO_STACK_LOCATION)
    (w : World) (fr : CreateFrame) (b : Nat) (he : EarlyFrame w fr)
    (ha : ArrivedFrame w irpSp fr)
    (hnr : (w.fileObject.bind (fun fo => fo.FsContext2)) = none) (ht : w.cacheTagged)
    (hx : Ext Event.isLog w fr.w)
    (hb : (createAcquire env o irpSp fr).1.fcb = some b) :
    FreshHeld w b (createAcquire env o irpSp fr).1 := by
  obtain ⟨_, e2, e3, e4, e5, e6, e7, e8, e9, _, _, e12, _⟩ := he
  obtain ⟨a1, a2, a3, _, _, a6, _⟩ := ha
  have hnr2 := a3 hnr
  generalize hr : createAcquire env o irpSp fr = r at hb ⊢
  unfold createAcquire at hr
  simp only [hnr2] at hr
  by_cases hf : FlagOn irpSp.Flags SL_OPEN_TARGET_DIRECTORY = true
  · simp only [hf, if_true, Bool.false_eq_true, if_false] at hr
    cases hg : DokanGetParentDir (fr.fileName.getD []) o.parentDirAlloc with
    | none =>
      rw [hg] at hr
      subst hr
      exact absurd (e5.symm.trans hb) (by simp)
    | some r0 =>
      rw [hg] at hr
      dsimp only at hr
      by_cases hst : r0.status ≠ STATUS_SUCCESS
      · rw [if_pos hst] at hr
        subst hr
        exact absurd (e5.symm.trans hb) (by simp)
      · rw [if_neg hst] at hr
        subst hr
        exact createAcquired_held env o.pool w _ _ _ _ b e2 e3 e4 e6 e7 e8 e9 e12 a1 a2 a6 ht
          hx hb
  · simp only [hf, Bool.false_eq_true, if_false] at hr
    subst hr
    exact createAcquired_held env o.pool w _ _ _ _ b e2 e3 e4 e6 e7 e8 e9 e12 a1 a2 a6 ht
      hx hb

/-- A first dispatch that holds a block at line 832, or left before with a block, holds
it freshly. -/
theorem createUpToInstance_held (env : Env) (o : CreateOracle) (irpSp : IO_STACK_LOCATION)
    (w : World) (b : Nat)
    (hnr : (w.fileObject.bind (fun fo => fo.FsContext2)) = none) (ht : w.cacheTagged)
    (hb : (createUpToInstance env o irpSp w).1.fcb = some b) :
    FreshHeld w b (createUpToInstance env o irpSp w).1 := by
  have hx := createUpToAcquire_ext env o irpSp w
  unfold createUpToInstance at hb ⊢
  by_cases hl : (createUpToAcquire env o irpSp w).2 = true
  · rw [andThen_left _ _ hl] at hb
    rw [createUpToAcquire_nofcb] at hb
    exact Option.noConfusion hb
  · have hl2 : (createUpToAcquire env o irpSp w).2 = false := by simpa using hl
    obtain ⟨he, ha⟩ := createUpToAcquire_frame env o irpSp w hl2
    rw [andThen_next _ _ hl2] at hb ⊢
    exact createAcquire_held env o irpSp w _ b he ha hnr ht hx hb

theorem createAcquire_disposition (env : Env) (o : CreateOracle) (irpSp : IO_STACK_LOCATION)
    (fr : CreateFrame) : (createAcquire env o irpSp fr).1.disposition = fr.disposition := by
  unfold createAcquire createAcquired
  dsimp only
  repeat' split
  all_goals rfl

/-- A first dispatch that goes on after the acquisition holds a block. -/
theorem createAcquire_continues (env : Env) (o : CreateOracle) (irpSp : IO_STACK_LOCATION)
    (fr : CreateFrame) (hnr : (fr.w.fileObject.bind (fun fo => fo.FsContext2)) = none)
    (hl : (createAcquire env o irpSp fr).2 = false) :
    ∃ b, (createAcquire env o irpSp fr).1.fcb = some b := by
  generalize hr : createAcquire env o irpSp fr = r at hl ⊢
  unfold createAcquire createAcquired at hr
  simp only [hnr] at hr
  repeat' split at hr
  all_goals subst hr
  all_goals first
    | exact Bool.noConfusion hl
    | exact Bool.noConfusion ‹false = true›
    | exact ⟨_, rfl⟩

/-- A `__leave` before line 882 ends the `__try` block with the frame of the leave. -/
theorem try_of_left_at_envelope (env : Env) (o : CreateOracle) (irpSp : IO_STACK_LOCATION)
    (w : World) (fr : CreateFrame) (h : createUpToEnvelope env o irpSp w = (fr, true)) :
    DokanDispatchCreateTry env o irpSp w = fr := by
  unfold DokanDispatchCreateTry createUpToShare
  rw [h, andThen_left _ _ rfl, andThen_left _ _ rfl, andThen_left _ _ rfl, andThen_left _ _ rfl]

/-- The `__finally` block on a failure status, entered with a frame that holds a block
freshly: the reference is given back, the CCBs are those at entry, both contexts of the
file object are cleared, and the only call is the completion of the request. -/
theorem createFinally_fresh (w : World) (b : Nat) (fr : CreateFrame) (h : FreshHeld w b fr)
    (hs : NT_SUCCESS fr.status = false) :
    ((createFinally fr).w.fcb b).FileCount = (w.fcb b).FileCount
      ∧ (createFinally fr).w.ccbs = w.ccbs
      ∧ ((createFinally fr).w.fileObject.bind (fun fo => fo.FsContext)) = none
      ∧ ((createFinally fr).w.fileObject.bind (fun fo => fo.FsContext2)) = none
      ∧ (createFinally fr).w.trace
          = fr.w.trace ++ [Event.CompleteIrpRequest fr.status fr.info] := by
  obtain ⟨⟨h1, h2, h3, h4, h5, h6, _, _⟩, f1, f2, f3, _, f5, f6, f7, _⟩ := h
  obtain ⟨r1, r2, r3, r4, _, _⟩ := unwindBlocks_released fr b h1 h4 h5
  cases hfo : fr.w.fileObject with
  | none => exact absurd hfo h3
  | some fo =>
    rw [createFinally_unwound fr fo hs h2 (r2.trans hfo)]
    refine ⟨?_, ?_, rfl, rfl, ?_⟩
    · show ((unwindBlocks fr).fcb b).FileCount = _
      rw [r1, h6]
      omega
    · show (unwindBlocks fr).ccbs = _
      rw [r4 f1, f2]
    · show (unwindBlocks fr).trace ++ _ = _
      rw [r3, unwindCalls_trace, f1, f6, f5, f7]
      simp

/-! ## Lemmas on the share access check of `DokanDispatchCreate` -/

/-- A `__leave` in the share access check ends the `__try` block with the frame of the
leave. -/
theorem try_of_left_at_share (env : Env) (o : CreateOracle) (irpSp : IO_STACK_LOCATION)
    (w : World) (fr fr2 : CreateFrame) (h : createUpToShare env o irpSp w = (fr, false))
    (h2 : createShare o irpSp fr = (fr2, true)) :
    DokanDispatchCreateTry env o irpSp w = fr2 := by
  unfold DokanDispatchCreateTry
  rw [h, andThen_next (fr, false) _ rfl, h2, andThen_left (fr2, true) _ rfl,
    andThen_left (fr2, true) _ rfl]

/-- The share access check on a block with another open, when `DokanCheckShareAccess`
fails with a status that is not a sharing violation, or with a sharing violation while
the request carries `FILE_COMPLETE_IF_OPLOCKED`: the step leaves with that status and
makes no call. -/
theorem createShare_terminal (o : CreateOracle) (irpSp : IO_STACK_LOCATION) (fr : CreateFrame)
    (b : Nat) (ec : EVENT_CONTEXT) (S : NTSTATUS) (hf : fr.fcb = some b)
    (he : fr.eventContext = some ec) (hc : (fr.w.fcb b).FileCount > 1)
    (hS : DokanCheckShareAccess (fr.w.fcb b) ec.DesiredAccess ec.ShareAccess
      o.userWritableReferences o.ioCheckShareAccess1 = S)
    (hns : NT_SUCCESS S = false)
    (hterm : S ≠ STATUS_SHARING_VIOLATION
      ∨ FlagOn irpSp.Options FILE_COMPLETE_IF_OPLOCKED = true) :
    createShare o irpSp fr = ({ fr with status := S }, true) := by
  unfold createShare
  rw [hf, he]
  dsimp only
  rw [if_pos hc, hS, if_pos hns, if_neg]
  intro h
  rcases hterm with h1 | h1
  · exact h1 h.1
  · rw [h1] at h
    exact Bool.noConfusion h.2

/-- A call that is preparatory or belongs to the unwinding is no request of an oplock
break, records no share access and registers nothing. -/
theorem terminal_calls (e : Event) (h : e.isPreparatory = true ∨ e.isUnwind = true) :
    e.isOplockBreak = false ∧ e.isShareGrant = false ∧ e ≠ Event.RegisterPendingIrp := by
  cases e <;>
    simp_all [Event.isPreparatory, Event.isUnwind, Event.isOplockBreak, Event.isShareGrant]

/-- A dispatch that leaves in the share access check without a call: the status of the
leave is returned, and every call made is preparatory or belongs to the unwinding. -/
theorem dispatch_terminal_share (env : Env) (o : CreateOracle) (irpSp : IO_STACK_LOCATION)
    (w : World) (fr : CreateFrame) (S : NTSTATUS)
    (hreach : createUpToShare env o irpSp w = (fr, false))
    (hshare : createShare o irpSp fr = ({ fr with status := S }, true)) :
    (DokanDispatchCreate env o irpSp w).status = S
      ∧ (DokanDispatchCreate env o irpSp w).EventContextConsumed = fr.EventContextConsumed
      ∧ ∀ e ∈ callsSince w (DokanDispatchCreate env o irpSp w).w,
          e.isOplockBreak = false ∧ e.isShareGrant = false
            ∧ e ≠ Event.RegisterPendingIrp := by
  have htry := try_of_left_at_share env o irpSp w fr _ hreach hshare
  have hx1 : Ext Event.isPreparatory w fr.w := by
    have h := createUpToShare_ext env o irpSp w
    rw [hreach] at h
    exact h
  have hx2 := createFinally_ext { fr with status := S }
  have hx : Ext (fun e => e.isPreparatory || e.isUnwind) w
      (createFinally { fr with status := S }).w :=
    ext_trans _ _ _ _
      (ext_mono _ _ _ _ (fun e h => by simp [h]) hx1)
      (ext_mono _ _ _ _ (fun e h => by simp [h]) hx2)
  obtain ⟨s1, _, _, _, _, s6, _⟩ := createFinally_fields { fr with status := S }
  unfold DokanDispatchCreate
  rw [htry]
  refine ⟨s1, s6, ?_⟩
  intro e he
  have hp := (callsSince_ext _ _ _ hx).2 e he
  apply terminal_calls
  simpa using hp

/-! ## Lemmas on the steps of `DokanDispatchCreate` that follow the acquisition -/

theorem ccb_append_new (w : World) (c : DokanCCB) :
    (({ w with ccbs := w.ccbs ++ [c] } : World).ccb w.ccbs.length) = c := by
  unfold World.ccb
  simp [List.getD_eq_getElem?_getD]

/-- A CCB that `DokanAllocateCCB` returns for a valid block `b`: it is at the first
unused address, belongs to `b`, is linked at the tail of the list of `b`, and has no
atomic oplock request pending. -/
theorem DokanAllocateCCB_linked (w : World) (b : Nat) (hlt : b < w.fcbs.length) :
    (DokanAllocateCCB true w b).2 = some w.ccbs.length
      ∧ ((DokanAllocateCCB true w b).1.ccb w.ccbs.length).Fcb = some b
      ∧ ((DokanAllocateCCB true w b).1.ccb w.ccbs.length).Linked = true
      ∧ ((DokanAllocateCCB true w b).1.ccb w.ccbs.length).AtomicOplockRequestPending = false
      ∧ (DokanAllocateCCB true w b).1.fcb b
          = { w.fcb b with NextCCB := (w.fcb b).NextCCB ++ [w.ccbs.length] }
      ∧ (DokanAllocateCCB true w b).1.vcb.IdentifierType = w.vcb.IdentifierType
      ∧ (DokanAllocateCCB true w b).1.fileObject = w.fileObject
      ∧ (DokanAllocateCCB true w b).1.trace = w.trace := by
  unfold DokanAllocateCCB
  simp only [Bool.true_eq_false, if_false]
  refine ⟨trivial, ?_, ?_, ?_, ?_, rfl, rfl, rfl⟩
  · show (({ w with ccbs := w.ccbs ++ [_] } : World).ccb w.ccbs.length).Fcb = _
    rw [ccb_append_new]
  · show (({ w with ccbs := w.ccbs ++ [_] } : World).ccb w.ccbs.length).Linked = _
    rw [ccb_append_new]
  · show (({ w with ccbs := w.ccbs ++ [_] } : World).ccb w.ccbs.length
      ).AtomicOplockRequestPending = _
    rw [ccb_append_new]
  · show (World.setFcb { w with ccbs := w.ccbs ++ [_] } b _).fcb b = _
    refine (fcb_setFcb_same _ b _ hlt).trans ?_
    rfl

/-- Lines 832 to 879 on a frame that holds a block freshly: the frame still holds the
block, and when the step goes on it has a CCB. -/
theorem createInstance_held (o : CreateOracle) (irpSp : IO_STACK_LOCATION) (w : World)
    (b : Nat) (fr : CreateFrame) (h : FreshHeld w b fr)
    (hwf : ∀ c ∈ (w.fcb b).NextCCB, c < w.ccbs.length) :
    HeldFrame w b 1 (createInstance o irpSp fr).1
      ∧ ((createInstance o irpSp fr).2 = false → ReadyFrame (createInstance o irpSp fr).1) := by
  obtain ⟨hh, f1, f2, f3, f4, _, f6, _, _⟩ := h
  obtain ⟨h1, h2, h3, h4, h5, h6, _, h8⟩ := hh
  have hlt := fcb_valid_lt fr.w b h5
  have keyNone : ∀ fr2 : CreateFrame, fr2.w = fr.w → fr2.fcb = some b → fr2.ccb = none →
      fr2.fileObject = fr.fileObject → fr2.UnwindShareAccess = fr.UnwindShareAccess →
      HeldFrame w b 1 fr2 := by
    intro fr2 k1 k2 k3 k4 k5
    refine ⟨k2, k4.trans h2, ?_, ?_, ?_, ?_, Or.inl k3, ?_⟩
    · rw [k1]; exact h3
    · rw [k1]; exact h4
    · rw [k1]; exact h5
    · rw [k1]; exact h6
    · rw [k1, k5]; exact h8
  obtain ⟨a1, a2, a3, _, a5, a6, a7, a8⟩ := DokanAllocateCCB_linked fr.w b hlt
  have keySome : ∀ fr2 : CreateFrame,
      (∀ x, fr2.w.fcb x = (DokanAllocateCCB true fr.w b).1.fcb x) →
      (∀ x, fr2.w.ccb x = (DokanAllocateCCB true fr.w b).1.ccb x) →
      fr2.w.vcb = (DokanAllocateCCB true fr.w b).1.vcb → fr2.w.fileObject ≠ none →
      Ext Event.isLog (DokanAllocateCCB true fr.w b).1 fr2.w →
      fr2.fcb = some b → fr2.ccb = some fr.w.ccbs.length → fr2.fileObject = true →
      fr2.UnwindShareAccess = false → HeldFrame w b 1 fr2 ∧ ReadyFrame fr2 := by
    intro fr2 k1 k2 k3 k4 k5 k6 k7 k8 k9
    have hs : ShareCalls w fr2.w (0 + (0 + 0)) (0 + (0 + 0)) := by
      rw [f6] at h8
      exact shareCalls_trans _ _ _ _ _ _ _ h8
        (shareCalls_trans _ _ _ _ _ _ _ (shareCalls_same _ _ a8)
          (shareCalls_of_ext _ _ _ log_neutral k5))
    have hnot : fr.w.ccbs.length ∉ (w.fcb b).NextCCB := fun hm =>
      absurd (hwf _ hm) (by rw [f2]; exact Nat.lt_irrefl _)
    refine ⟨⟨k6, k8, k4, ?_, ?_, ?_, Or.inr ⟨_, k7, ?_, ?_, ?_⟩, ?_⟩, k9, ?_⟩
    · rw [k3, a6]; exact h4
    · rw [k1, a5]; exact h5
    · rw [k1, a5]; exact h6
    · rw [k2]; exact a2
    · rw [k2]; exact a3
    · rw [k1, a5]
      show fr.w.ccbs.length ∉ ((fr.w.fcb b).NextCCB ++ [fr.w.ccbs.length]).erase _
      rw [f3, List.erase_append_right _ hnot]
      simpa using hnot
    · rw [k9]
      exact hs
    · rw [k7]
      exact Option.noConfusion
  have weaken : ∀ {p q c : Prop}, p ∧ q → p ∧ (c → q) := fun h => ⟨h.1, fun _ => h.2⟩
  have hfo : ∀ g : FILE_OBJECT → FILE_OBJECT,
      ((DokanAllocateCCB true fr.w b).1.fileObject.map g) ≠ none := by
    intro g
    rw [a7]
    cases hf : fr.w.fileObject with
    | none => exact absurd hf h3
    | some fo => simp
  generalize hr : createInstance o irpSp fr = r
  unfold createInstance at hr
  simp only [h1, f4, if_true] at hr
  cases hca : o.ccbAlloc with
  | false =>
    have e0 : DokanAllocateCCB false fr.w b = (fr.w, none) := rfl
    rw [hca, e0] at hr
    dsimp only at hr
    repeat' split at hr
    all_goals subst hr
    all_goals first
      | exact ⟨keyNone _ rfl rfl f1 rfl rfl, fun h => Bool.noConfusion h⟩
      | exact ⟨keyNone _ rfl rfl rfl rfl rfl, fun h => Bool.noConfusion h⟩
  | true =>
    rw [hca] at hr
    simp only [a1] at hr
    repeat' split at hr
    all_goals subst hr
    all_goals first
      | exact ⟨keyNone _ rfl rfl f1 rfl rfl, fun h => Bool.noConfusion h⟩
      | exact weaken (keySome _ (fun _ => rfl) (fun _ => rfl) rfl (hfo _) (ext_same _ _ _ rfl)
          rfl rfl h2 f6)
      | exact weaken (keySome _ (fun _ => rfl) (fun _ => rfl) rfl (hfo _)
          (ext_then_emit _ _ _ _ (ext_same _ _ _ rfl) rfl) rfl rfl h2 f6)

theorem steadyStep_refl (fr : CreateFrame) : SteadyStep fr fr :=
  ⟨rfl, rfl, rfl, rfl, rfl, rfl, fun _ => ⟨rfl, rfl⟩⟩

theorem steadyStep_trans (a b c : CreateFrame) (h1 : SteadyStep a b) (h2 : SteadyStep b c) :
    SteadyStep a c := by
  obtain ⟨a1, a2, a3, a4, a5, a6, a7⟩ := h1
  obtain ⟨b1, b2, b3, b4, b5, b6, b7⟩ := h2
  exact ⟨b1.trans a1, b2.trans a2, b3.trans a3, b4.trans a4, b5.trans a5, b6.trans a6,
    fun x => ⟨(b7 x).1.trans (a7 x).1, (b7 x).2.trans (a7 x).2⟩⟩

/-- A step that keeps the blocks keeps the frame held, given the count of the calls
that record a share access. -/
theorem steady_held (w : World) (b : Nat) (k : Int) (fr fr2 : CreateFrame)
    (h : HeldFrame w b k fr) (hs : SteadyStep fr fr2)
    (hc : ShareCalls w fr2.w (if fr2.UnwindShareAccess = true then 1 else 0) 0) :
    HeldFrame w b k fr2 := by
  obtain ⟨h1, h2, h3, h4, h5, h6, h7, _⟩ := h
  obtain ⟨s1, s2, s3, s4, s5, s6, s7⟩ := hs
  have hfcb : ∀ x, fr2.w.fcb x = fr.w.fcb x := fun x => by unfold World.fcb; rw [s4]
  refine ⟨s1.trans h1, s3.trans h2, ?_, ?_, ?_, ?_, ?_, hc⟩
  · rw [s6]; exact h3
  · rw [s5]; exact h4
  · rw [hfcb]; exact h5
  · rw [hfcb]; exact h6
  · rcases h7 with k1 | ⟨c, k1, k2, k3, k4⟩
    · exact Or.inl (s2.trans k1)
    · exact Or.inr ⟨c, s2.trans k1, (s7 _).1.trans k2, (s7 _).2.trans k3,
        by rw [hfcb]; exact k4⟩

theorem shareCalls_emit_neutral (a : World) (e : Event) (h1 : e.isShareGrant = false)
    (h2 : e.isShareRemoval = false) : ShareCalls a (a.emit e) 0 0 :=
  ⟨[e], rfl, by simp [List.countP_cons, h1], by simp [List.countP_cons, h2]⟩

theorem shareCalls_emit_grant (a : World) (e : Event) (h1 : e.isShareGrant = true)
    (h2 : e.isShareRemoval = false) : ShareCalls a (a.emit e) 1 0 :=
  ⟨[e], rfl, by simp [List.countP_cons, h1], by simp [List.countP_cons, h2]⟩

theorem ext_setCcb (P : Event → Bool) (a b : World) (x : Nat) (c : DokanCCB)
    (h : Ext P a b) : Ext P a (b.setCcb x c) :=
  ext_trans P a b _ h (ext_same _ _ _ rfl)

theorem createEnvelope_steady (env : Env) (o : CreateOracle) (irpSp : IO_STACK_LOCATION)
    (fr : CreateFrame) :
    SteadyStep fr (createEnvelope env o irpSp fr).1
      ∧ (createEnvelope env o irpSp fr).1.UnwindShareAccess = fr.UnwindShareAccess := by
  unfold createEnvelope
  dsimp only
  repeat' split
  all_goals exact ⟨⟨rfl, rfl, rfl, rfl, rfl, rfl, fun _ => ⟨rfl, rfl⟩⟩, rfl⟩

/-- The share access check keeps the blocks and `UnwindShareAccess`; it records one
share access when it goes on and none when it leaves. -/
theorem createShare_steady (o : CreateOracle) (irpSp : IO_STACK_LOCATION) (fr : CreateFrame) :
    SteadyStep fr (createShare o irpSp fr).1
      ∧ (createShare o irpSp fr).1.UnwindShareAccess = fr.UnwindShareAccess
      ∧ ShareCalls fr.w (createShare o irpSp fr).1.w
          (if (createShare o irpSp fr).2 = true then 0 else 1) 0 := by
  have st : ∀ fr2 : CreateFrame, fr2.fcb = fr.fcb → fr2.ccb = fr.ccb →
      fr2.fileObject = fr.fileObject → fr2.w.fcbs = fr.w.fcbs → fr2.w.vcb = fr.w.vcb →
      fr2.w.fileObject = fr.w.fileObject → fr2.w.ccbs = fr.w.ccbs → SteadyStep fr fr2 := by
    intro fr2 k1 k2 k3 k4 k5 k6 k7
    exact ⟨k1, k2, k3, k4, k5, k6, fun x => by rw [ccb_of_ccbs _ _ k7]; exact ⟨rfl, rfl⟩⟩
  generalize hr : createShare o irpSp fr = r
  unfold createShare at hr
  dsimp only at hr
  repeat' split at hr
  all_goals subst hr
  all_goals refine ⟨st _ rfl rfl rfl rfl rfl rfl rfl, rfl, ?_⟩
  all_goals first
    | exact shareCalls_refl _
    | exact ⟨[_], rfl, rfl, rfl⟩
    | exact shareCalls_trans _ _ _ 0 0 1 0 (shareCalls_emit_neutral _ _ (by rfl) (by rfl))
        (shareCalls_emit_grant _ _ (by rfl) (by rfl))

set_option maxHeartbeats 2000000 in
/-- The oplock checks keep the blocks and record no share access; entered with an FCB
and a CCB they set `UnwindShareAccess`. -/
theorem createOplock_steady (o : CreateOracle) (irpSp : IO_STACK_LOCATION) (fr : CreateFrame) :
    SteadyStep fr (createOplock o irpSp fr).1
      ∧ ShareCalls fr.w (createOplock o irpSp fr).1.w 0 0
      ∧ (fr.fcb ≠ none → fr.ccb ≠ none →
          (createOplock o irpSp fr).1.UnwindShareAccess = true) := by
  have st : ∀ fr2 : CreateFrame, fr2.fcb = fr.fcb → fr2.ccb = fr.ccb →
      fr2.fileObject = fr.fileObject → fr2.w.fcbs = fr.w.fcbs → fr2.w.vcb = fr.w.vcb →
      fr2.w.fileObject = fr.w.fileObject →
      (∀ x, (fr2.w.ccb x).Fcb = (fr.w.ccb x).Fcb ∧ (fr2.w.ccb x).Linked = (fr.w.ccb x).Linked) →
      Ext Event.isOplockCheck fr.w fr2.w →
      SteadyStep fr fr2 ∧ ShareCalls fr.w fr2.w 0 0 := by
    intro fr2 k1 k2 k3 k4 k5 k6 k7 k8
    refine ⟨⟨k1, k2, k3, k4, k5, k6, k7⟩, shareCalls_of_ext _ _ _ ?_ k8⟩
    intro e he
    cases e <;> simp_all [Event.isOplockCheck, Event.isShareGrant, Event.isShareRemoval]
  have glue : ∀ {p q r : Prop}, p ∧ q → r → p ∧ q ∧ r := fun h hr => ⟨h.1, h.2, hr⟩
  generalize hr : createOplock o irpSp fr = r
  unfold createOplock at hr
  dsimp only at hr
  repeat' split at hr
  all_goals subst hr
  all_goals first
    | exact glue (st _ rfl rfl rfl rfl rfl rfl (fun _ => ⟨rfl, rfl⟩) (ext_refl _ _))
        (fun _ _ => rfl)
    | exact glue (st _ rfl rfl rfl rfl rfl rfl (fun _ => ⟨rfl, rfl⟩)
        (ext_then_emit _ _ _ _ (ext_refl _ _) (by rfl))) (fun _ _ => rfl)
    | exact glue (st _ rfl rfl rfl rfl rfl rfl (fun _ => ⟨rfl, rfl⟩)
        (ext_then_emit _ _ _ _ (ext_then_emit _ _ _ _ (ext_refl _ _) (by rfl)) (by rfl)))
        (fun _ _ => rfl)
    | exact glue (st _ rfl rfl rfl rfl rfl rfl (fun _ => ⟨rfl, rfl⟩)
        (ext_then_emit _ _ _ _ (ext_then_emit _ _ _ _
          (ext_then_emit _ _ _ _ (ext_refl _ _) (by rfl)) (by rfl)) (by rfl)))
        (fun _ _ => rfl)
    | exact glue (st _ rfl rfl rfl rfl rfl rfl
        (fun _ => ⟨field_setCcb (fun c => c.Fcb) _ _ _ _ rfl,
          field_setCcb (fun c => c.Linked) _ _ _ _ rfl⟩)
        (ext_setCcb _ _ _ _ _ (ext_then_emit _ _ _ _ (ext_then_emit _ _ _ _ (ext_refl _ _)
          (by rfl)) (by rfl)))) (fun _ _ => rfl)
    | exact glue (st _ rfl rfl rfl rfl rfl rfl
        (fun _ => ⟨field_setCcb (fun c => c.Fcb) _ _ _ _ rfl,
          field_setCcb (fun c => c.Linked) _ _ _ _ rfl⟩)
        (ext_setCcb _ _ _ _ _ (ext_then_emit _ _ _ _ (ext_then_emit _ _ _ _
          (ext_then_emit _ _ _ _ (ext_refl _ _) (by rfl)) (by rfl)) (by rfl))))
        (fun _ _ => rfl)
    | exact glue (st _ rfl rfl rfl rfl rfl rfl (fun _ => ⟨rfl, rfl⟩) (ext_refl _ _))
        (fun h1 h2 => by
          cases hA : fr.fcb with
          | none => exact absurd hA h1
          | some a =>
            cases hB : fr.ccb with
            | none => exact absurd hB h2
            | some c =>
              exact absurd hB
                (‹∀ (fcb ccb : Nat), fr.fcb = some fcb → ¬fr.ccb = some ccb› a c hA))

theorem createRegister_steady (o : CreateOracle) (fr : CreateFrame) :
    SteadyStep fr (createRegister o fr).1
      ∧ (createRegister o fr).1.UnwindShareAccess = fr.UnwindShareAccess
      ∧ ShareCalls fr.w (createRegister o fr).1.w 0 0 :=
  ⟨⟨rfl, rfl, rfl, rfl, rfl, rfl, fun _ => ⟨rfl, rfl⟩⟩, rfl, ⟨[_], rfl, rfl, rfl⟩⟩

theorem createInstance_fcb (o : CreateOracle) (irpSp : IO_STACK_LOCATION) (fr : CreateFrame) :
    (createInstance o irpSp fr).1.fcb = fr.fcb := by
  unfold createInstance
  dsimp only
  repeat' split
  all_goals rfl

/-- The share access check followed by the oplock checks, on a held frame that is
ready: the frame stays held. -/
theorem shareOplock_held (o : CreateOracle) (irpSp : IO_STACK_LOCATION) (w : World) (b : Nat)
    (k : Int) (fr : CreateFrame) (h : HeldFrame w b k fr) (hr : ReadyFrame fr) :
    HeldFrame w b k (andThen (createShare o irpSp fr) (createOplock o irpSp)).1 := by
  obtain ⟨s1, s2, s3⟩ := createShare_steady o irpSp fr
  have h8 := h.2.2.2.2.2.2.2
  rw [hr.1] at h8
  by_cases hl : (createShare o irpSp fr).2 = true
  · rw [andThen_left _ _ hl]
    rw [if_pos hl] at s3
    apply steady_held w b k fr _ h s1
    rw [s2, hr.1]
    exact shareCalls_trans _ _ _ 0 0 0 0 h8 s3
  · have hl2 : (createShare o irpSp fr).2 = false := by simpa using hl
    rw [andThen_next _ _ hl2]
    rw [if_neg hl] at s3
    obtain ⟨t1, t2, t3⟩ := createOplock_steady o irpSp (createShare o irpSp fr).1
    apply steady_held w b k fr _ h (steadyStep_trans _ _ _ s1 t1)
    have hu : (createOplock o irpSp (createShare o irpSp fr).1).1.UnwindShareAccess = true := by
      apply t3
      · rw [s1.1, h.1]
        exact Option.noConfusion
      · rw [s1.2.1]
        exact hr.2
    rw [hu]
    exact shareCalls_trans _ _ _ 0 0 (1 + 0) (0 + 0) h8 (shareCalls_trans _ _ _ 1 0 0 0 s3 t2)

/-- The steps after line 832 keep the FCB of the frame. -/
theorem try_fcb (env : Env) (o : CreateOracle) (irpSp : IO_STACK_LOCATION) (w : World) :
    (DokanDispatchCreateTry env o irpSp w).fcb = (createUpToInstance env o irpSp w).1.fcb := by
  unfold DokanDispatchCreateTry createUpToShare createUpToEnvelope
  apply andThen_inv (fun fr => fr.fcb = (createUpToInstance env o irpSp w).1.fcb)
  apply andThen_inv (fun fr => fr.fcb = (createUpToInstance env o irpSp w).1.fcb)
  apply andThen_inv (fun fr => fr.fcb = (createUpToInstance env o irpSp w).1.fcb)
  apply andThen_inv (fun fr => fr.fcb = (createUpToInstance env o irpSp w).1.fcb)
  apply andThen_inv (fun fr => fr.fcb = (createUpToInstance env o irpSp w).1.fcb)
  · rfl
  · intro fr h
    exact (createInstance_fcb o irpSp fr).trans h
  · intro fr h
    exact (createEnvelope_steady env o irpSp fr).1.1.trans h
  · intro fr h
    exact (createShare_steady o irpSp fr).1.1.trans h
  · intro fr h
    exact (createOplock_steady o irpSp fr).1.1.trans h
  · intro fr h
    exact h

/-- The steps from line 882 on keep a frame held, when it is ready as it goes on. -/
theorem tail_held (env : Env) (o : CreateOracle) (irpSp : IO_STACK_LOCATION) (w : World)
    (b : Nat) (k : Int) (I : CreateFrame × Bool) (hI : HeldFrame w b k I.1)
    (hR : I.2 = false → ReadyFrame I.1) :
    HeldFrame w b k
      (andThen (andThen (andThen (andThen I (createEnvelope env o irpSp)) (createShare o irpSp))
        (createOplock o irpSp)) (createRegister o)).1 := by
  by_cases h2 : I.2 = true
  · rw [andThen_left I _ h2, andThen_left I _ h2, andThen_left I _ h2, andThen_left I _ h2]
    exact hI
  · have h2f : I.2 = false := by simpa using h2
    rw [andThen_next I _ h2f]
    have hR2 := hR h2f
    obtain ⟨e1, e2⟩ := createEnvelope_steady env o irpSp I.1
    have hx := createEnvelope_ext env o irpSp I.1
    have hE : HeldFrame w b k (createEnvelope env o irpSp I.1).1 := by
      apply steady_held w b k I.1 _ hI e1
      rw [e2, hR2.1]
      have h8 := hI.2.2.2.2.2.2.2
      rw [hR2.1] at h8
      exact shareCalls_trans _ _ _ 0 0 0 0 h8 (shareCalls_of_ext _ _ _ preparatory_neutral hx)
    have hRE : ReadyFrame (createEnvelope env o irpSp I.1).1 :=
      ⟨e2.trans hR2.1, by rw [e1.2.1]; exact hR2.2⟩
    generalize createEnvelope env o irpSp I.1 = E at hE hRE
    by_cases h3 : E.2 = true
    · rw [andThen_left E _ h3, andThen_left E _ h3, andThen_left E _ h3]
      exact hE
    · have h3f : E.2 = false := by simpa using h3
      rw [andThen_next E _ h3f]
      have hS := shareOplock_held o irpSp w b k E.1 hE hRE
      generalize andThen (createShare o irpSp E.1) (createOplock o irpSp) = S at hS
      by_cases h4 : S.2 = true
      · rw [andThen_left S _ h4]
        exact hS
      · have h4f : S.2 = false := by simpa using h4
        rw [andThen_next S _ h4f]
        obtain ⟨r1, r2, r3⟩ := createRegister_steady o S.1
        apply steady_held w b k S.1 _ hS r1
        rw [r2]
        have h8 := hS.2.2.2.2.2.2.2
        by_cases hu : S.1.UnwindShareAccess = true
        · rw [if_pos hu] at h8 ⊢
          exact shareCalls_trans _ _ _ 1 0 0 0 h8 r3
        · rw [if_neg hu] at h8 ⊢
          exact shareCalls_trans _ _ _ 0 0 0 0 h8 r3

/-- The frame with which a first dispatch enters the `__finally` block, when it holds a
block: the frame is held, with the reference that the dispatch acquired. -/
theorem try_held (env : Env) (o : CreateOracle) (irpSp : IO_STACK_LOCATION) (w : World)
    (b : Nat) (hnr : (w.fileObject.bind (fun fo => fo.FsContext2)) = none)
    (ht : w.cacheTagged) (hwf : ∀ c ∈ (w.fcb b).NextCCB, c < w.ccbs.length)
    (hb : (DokanDispatchCreateTry env o irpSp w).fcb = some b) :
    HeldFrame w b 1 (DokanDispatchCreateTry env o irpSp w) := by
  rw [try_fcb] at hb
  have hF := createUpToInstance_held env o irpSp w b hnr ht hb
  unfold DokanDispatchCreateTry createUpToShare createUpToEnvelope
  generalize createUpToInstance env o irpSp w = U at hF
  by_cases h1 : U.2 = true
  · rw [andThen_left U _ h1, andThen_left U _ h1, andThen_left U _ h1, andThen_left U _ h1,
      andThen_left U _ h1]
    exact hF.1
  · have h1f : U.2 = false := by simpa using h1
    rw [andThen_next U _ h1f]
    obtain ⟨hI, hR⟩ := createInstance_held o irpSp w b U.1 hF hwf
    exact tail_held env o irpSp w b 1 _ hI hR

/-- The file object keeps its `FsContext2` up to line 784. -/
theorem createUpToAcquire_context2 (env : Env) (o : CreateOracle) (irpSp : IO_STACK_LOCATION)
    (w : World) :
    ((createUpToAcquire env o irpSp w).1.w.fileObject.bind (fun fo => fo.FsContext2))
      = w.fileObject.bind (fun fo => fo.FsContext2) := by
  have hget : ∀ (x : Option FILE_OBJECT),
      (x.getD {}).FsContext2 = x.bind (fun fo => fo.FsContext2) := by
    intro x
    cases x <;> rfl
  unfold createUpToAcquire createUpToReadOnly createUpToBuildName
  apply andThen_inv (fun fr => (fr.w.fileObject.bind (fun fo => fo.FsContext2))
    = w.fileObject.bind (fun fo => fo.FsContext2))
  apply andThen_inv (fun fr => (fr.w.fileObject.bind (fun fo => fo.FsContext2))
    = w.fileObject.bind (fun fo => fo.FsContext2))
  apply andThen_inv (fun fr => (fr.w.fileObject.bind (fun fo => fo.FsContext2))
    = w.fileObject.bind (fun fo => fo.FsContext2))
  apply andThen_inv (fun fr => (fr.w.fileObject.bind (fun fo => fo.FsContext2))
    = w.fileObject.bind (fun fo => fo.FsContext2))
  · cases hfo : w.fileObject with
    | none =>
      unfold createEntry
      simp only [hfo]
    | some fo =>
      unfold createEntry
      simp only [hfo]
      repeat' split
      all_goals first
        | rfl
        | simp only [hfo]
  · intro fr h
    unfold createNormalize
    dsimp only
    repeat' split
    all_goals exact (hget _).trans h
  · intro fr h
    generalize hr : createResolve irpSp fr = r
    unfold createResolve at hr
    dsimp only at hr
    repeat' split at hr
    all_goals subst hr
    all_goals first
      | exact h
      | exact (hget _).trans h
  · intro fr h
    unfold createBuildName
    repeat' split
    all_goals exact h
  · intro fr h
    unfold createReadOnly
    split
    all_goals exact h

/-- The retry test of lines 786 to 796 on a CCB that carries `DOKAN_RETRY_CREATE`: the
step goes on with the CCB and its FCB, and acquires nothing. -/
theorem createAcquire_retry (env : Env) (o : CreateOracle) (irpSp : IO_STACK_LOCATION)
    (w : World) (fr : CreateFrame) (c : Nat) (he : EarlyFrame w fr)
    (ha : ArrivedFrame w irpSp fr)
    (hc2 : (fr.w.fileObject.bind (fun fo => fo.FsContext2)) = some c)
    (htag : (w.ccb c).IdentifierType = FSD_IDENTIFIER_TYPE.CCB)
    (hflag : (w.ccb c).Flags.RETRY_CREATE = true) :
    (createAcquire env o irpSp fr).2 = false
      ∧ (createAcquire env o irpSp fr).1.fcb = (w.ccb c).Fcb
      ∧ (createAcquire env o irpSp fr).1.ccb = some c
      ∧ (createAcquire env o irpSp fr).1.allocateCcb = false
      ∧ (createAcquire env o irpSp fr).1.UnwindShareAccess = false
      ∧ (createAcquire env o irpSp fr).1.fileObject = true
      ∧ (createAcquire env o irpSp fr).1.w
          = fr.w.setCcb c
              { fr.w.ccb c with Flags := { (fr.w.ccb c).Flags with RETRY_CREATE := false } } := by
  obtain ⟨_, _, _, e4, _, _, _, _, e9, _, _, _, _⟩ := he
  obtain ⟨a1, _, _, _, _, _, _⟩ := ha
  have hcc : fr.w.ccb c = w.ccb c := ccb_of_ccbs _ _ e4 c
  unfold createAcquire
  simp only [hc2, hcc, htag, hflag, decide_True, Bool.and_self, if_true]
  exact ⟨trivial, trivial, trivial, trivial, e9, a1, trivial⟩

/-- Lines 832 to 879 on a retry, where no CCB is allocated: the frame stays held, and
when the step goes on it is ready. -/
theorem createInstance_retry (o : CreateOracle) (irpSp : IO_STACK_LOCATION) (w : World)
    (b : Nat) (k : Int) (fr : CreateFrame) (h : HeldFrame w b k fr) (hc : fr.ccb ≠ none)
    (ha : fr.allocateCcb = false) (hu : fr.UnwindShareAccess = false) :
    HeldFrame w b k (createInstance o irpSp fr).1
      ∧ ((createInstance o irpSp fr).2 = false → ReadyFrame (createInstance o irpSp fr).1) := by
  obtain ⟨h1, h2, h3, h4, h5, h6, h7, h8⟩ := h
  have key : ∀ fr2 : CreateFrame, (∀ x, fr2.w.fcb x = fr.w.fcb x) →
      (∀ x, fr2.w.ccb x = fr.w.ccb x) → fr2.w.vcb = fr.w.vcb → fr2.w.fileObject ≠ none →
      Ext Event.isLog fr.w fr2.w → fr2.fcb = some b → fr2.ccb = fr.ccb →
      fr2.fileObject = fr.fileObject → fr2.UnwindShareAccess = fr.UnwindShareAccess →
      HeldFrame w b k fr2 ∧ ReadyFrame fr2 := by
    intro fr2 k1 k2 k3 k4 k5 k6 k7 k8 k9
    have hs : ShareCalls w fr2.w (0 + 0) (0 + 0) := by
      rw [hu] at h8
      exact shareCalls_trans _ _ _ _ _ _ _ h8 (shareCalls_of_ext _ _ _ log_neutral k5)
    refine ⟨⟨k6, k8.trans h2, k4, ?_, ?_, ?_, ?_, ?_⟩, k9.trans hu, ?_⟩
    · rw [k3]; exact h4
    · rw [k1]; exact h5
    · rw [k1]; exact h6
    · rcases h7 with j | ⟨c, j1, j2, j3, j4⟩
      · exact absurd j hc
      · exact Or.inr ⟨c, k7.trans j1, by rw [k2]; exact j2, by rw [k2]; exact j3,
          by rw [k1]; exact j4⟩
    · rw [k9, hu]
      exact hs
    · rw [k7]
      exact hc
  have weaken : ∀ {p q c : Prop}, p ∧ q → p ∧ (c → q) := fun h => ⟨h.1, fun _ => h.2⟩
  have hfo : ∀ g : FILE_OBJECT → FILE_OBJECT, (fr.w.fileObject.map g) ≠ none := by
    intro g
    cases hf : fr.w.fileObject with
    | none => exact absurd hf h3
    | some fo => simp
  cases hcc : fr.ccb with
  | none => exact absurd hcc hc
  | some c =>
    generalize hr : createInstance o irpSp fr = r
    unfold createInstance at hr
    simp only [h1, ha, hcc, Bool.false_eq_true, if_false] at hr
    repeat' split at hr
    all_goals subst hr
    all_goals first
      | exact weaken (key _ (fun _ => rfl) (fun _ => rfl) rfl h3 (ext_refl _ _) rfl hcc.symm rfl
          rfl)
      | exact weaken (key _ (fun _ => rfl) (fun _ => rfl) rfl (hfo _) (ext_same _ _ _ rfl) rfl
          hcc.symm rfl rfl)
      | exact weaken (key _ (fun _ => rfl) (fun _ => rfl) rfl (hfo _)
          (ext_then_emit _ _ _ _ (ext_same _ _ _ rfl) rfl) rfl hcc.symm rfl rfl)

/-- The frame with which a retry dispatch enters the `__finally` block, when it holds a
block: the frame is held, with no reference acquired by the dispatch. -/
theorem try_held_retry (env : Env) (o : CreateOracle) (irpSp : IO_STACK_LOCATION) (w : World)
    (b c : Nat) (hc2 : (w.fileObject.bind (fun fo => fo.FsContext2)) = some c)
    (htag : (w.ccb c).IdentifierType = FSD_IDENTIFIER_TYPE.CCB)
    (hflag : (w.ccb c).Flags.RETRY_CREATE = true) (hL : (w.ccb c).Linked = true)
    (hbt : (w.fcb b).IdentifierType = FSD_IDENTIFIER_TYPE.FCB)
    (hone : c ∉ (w.fcb b).NextCCB.erase c)
    (hb : (DokanDispatchCreateTry env o irpSp w).fcb = some b) :
    HeldFrame w b 0 (DokanDispatchCreateTry env o irpSp w) := by
  rw [try_fcb] at hb
  unfold DokanDispatchCreateTry createUpToShare createUpToEnvelope
  unfold createUpToInstance at hb ⊢
  by_cases hl : (createUpToAcquire env o irpSp w).2 = true
  · rw [andThen_left _ _ hl, createUpToAcquire_nofcb] at hb
    exact Option.noConfusion hb
  · have hl2 : (createUpToAcquire env o irpSp w).2 = false := by simpa using hl
    obtain ⟨he, ha⟩ := createUpToAcquire_frame env o irpSp w hl2
    have hx := createUpToAcquire_ext env o irpSp w
    have hc3 := (createUpToAcquire_context2 env o irpSp w).trans hc2
    rw [andThen_next _ _ hl2] at hb ⊢
    obtain ⟨q1, q2, q3, q4, q5, q6, q7⟩ :=
      createAcquire_retry env o irpSp w _ c he ha hc3 htag hflag
    obtain ⟨_, e2, e3, e4, _⟩ := he
    obtain ⟨_, a2, _, _, _, a6, _⟩ := ha
    have hF : (w.ccb c).Fcb = some b := q2.symm.trans hb
    have hcc : (createUpToAcquire env o irpSp w).1.w.ccb c = w.ccb c := ccb_of_ccbs _ _ e4 c
    have hfcb : ∀ x, (createAcquire env o irpSp (createUpToAcquire env o irpSp w).1).1.w.fcb x
        = w.fcb x := by
      intro x
      rw [q7, fcb_setCcb]
      unfold World.fcb
      rw [e3]
    have hH : HeldFrame w b 0 (createAcquire env o irpSp (createUpToAcquire env o irpSp w).1).1 := by
      refine ⟨hb, q6, ?_, ?_, ?_, ?_, Or.inr ⟨c, q3, ?_, ?_, ?_⟩, ?_⟩
      · rw [q7]
        exact a2
      · rw [q7]
        show (createUpToAcquire env o irpSp w).1.w.vcb.IdentifierType = _
        rw [e2]
        exact a6
      · rw [hfcb]
        exact hbt
      · rw [hfcb]
        omega
      · rw [q7]
        refine (field_setCcb (fun x => x.Fcb) _ _ _ _ (by rfl)).trans ?_
        rw [hcc]
        exact hF
      · rw [q7]
        refine (field_setCcb (fun x => x.Linked) _ _ _ _ (by rfl)).trans ?_
        rw [hcc]
        exact hL
      · rw [hfcb]
        exact hone
      · rw [q5, q7]
        exact shareCalls_of_ext _ _ _ log_neutral (ext_setCcb _ _ _ _ _ hx)
    rw [andThen_next _ _ q1]
    obtain ⟨hI, hR⟩ := createInstance_retry o irpSp w b 0 _ hH
      (by rw [q3]; exact Option.noConfusion) q4 q5
    exact tail_held env o irpSp w b 0 _ hI hR

theorem callsSince_mid (a b c d : World) (t1 t2 t3 : List Event)
    (hab : b.trace = a.trace ++ t1) (hbc : c.trace = b.trace ++ t2)
    (hcd : d.trace = c.trace ++ t3) (e : Event) (he : e ∈ callsSince b c) :
    e ∈ callsSince a d := by
  unfold callsSince at he ⊢
  rw [hbc, List.drop_left] at he
  rw [hcd, hbc, hab, List.append_assoc, List.append_assoc, List.drop_left]
  exact List.mem_append_right _ (List.mem_append_left _ he)

/-- The `__finally` block on a failure status, entered with a held frame: one reference
on the block is given back, the CCB of the frame is off the list of the block and has no
atomic oplock request pending, the share accesses recorded since entry are as many as
those removed, and both contexts of the file object are cleared. -/
theorem createFinally_held (w : World) (b : Nat) (k : Int) (fr : CreateFrame)
    (h : HeldFrame w b k fr) (hs : NT_SUCCESS fr.status = false) :
    ((createFinally fr).w.fcb b).FileCount = (w.fcb b).FileCount + k - 1
      ∧ (∀ c, fr.ccb = some c → c ∉ ((createFinally fr).w.fcb b).NextCCB)
      ∧ (callsSince w (createFinally fr).w).countP Event.isShareGrant
          = (callsSince w (createFinally fr).w).countP Event.isShareRemoval
      ∧ (∀ c, fr.ccb = some c →
          ((createFinally fr).w.ccb c).AtomicOplockRequestPending = false
            ∧ ((fr.w.ccb c).AtomicOplockRequestPending = true →
                Event.BackOutAtomicOplock b ∈ callsSince w (createFinally fr).w))
      ∧ ((createFinally fr).w.fileObject.bind (fun fo => fo.FsContext)) = none
      ∧ ((createFinally fr).w.fileObject.bind (fun fo => fo.FsContext2)) = none
      ∧ (createFinally fr).w.fileObject ≠ none := by
  obtain ⟨h1, h2, h3, h4, h5, h6, h7, h8⟩ := h
  obtain ⟨r1, r2, r3, _, r5, r6⟩ := unwindBlocks_released fr b h1 h4 h5
  cases hfo : fr.w.fileObject with
  | none => exact absurd hfo h3
  | some fo =>
    rw [createFinally_unwound fr fo hs h2 (r2.trans hfo)]
    have htr : (({ unwindBlocks fr with
          fileObject := some { fo with FsContext := none, FsContext2 := none } }
        : World).emit (Event.CompleteIrpRequest fr.status fr.info)).trace
        = (unwindCalls fr).trace ++ [Event.CompleteIrpRequest fr.status fr.info] := by
      show (unwindBlocks fr).trace ++ _ = _
      rw [r3]
    refine ⟨?_, ?_, ?_, ?_, rfl, rfl, fun hn => Option.noConfusion hn⟩
    · show ((unwindBlocks fr).fcb b).FileCount = _
      rw [r1, h6]
    · intro c hc
      show c ∉ ((unwindBlocks fr).fcb b).NextCCB
      rcases h7 with k1 | ⟨c0, k1, k2, k3, k4⟩
      · rw [k1] at hc
        exact Option.noConfusion hc
      · have ec : c0 = c := Option.some.inj (k1.symm.trans hc)
        subst ec
        rcases r6 _ hc k2 k3 with e | e
        · rw [e]
          exact k4
        · rw [e]
          exact List.not_mem_nil _
    · have s1 := unwindCalls_share fr
      have s2 : ShareCalls (unwindCalls fr)
          (({ unwindBlocks fr with
              fileObject := some { fo with FsContext := none, FsContext2 := none } }
            : World).emit (Event.CompleteIrpRequest fr.status fr.info)) 0 0 :=
        ⟨[_], htr, rfl, rfl⟩
      have s3 := shareCalls_trans _ _ _ _ _ _ _ h8 (shareCalls_trans _ _ _ _ _ _ _ s1 s2)
      obtain ⟨c1, c2, _⟩ := shareCalls_callsSince _ _ _ _ s3
      rw [c1, c2]
      omega
    · intro c hc
      refine ⟨r5 c hc, ?_⟩
      intro hp
      rcases h7 with k1 | ⟨c0, k1, k2, _, _⟩
      · rw [k1] at hc
        exact Option.noConfusion hc
      · have ec : c0 = c := Option.some.inj (k1.symm.trans hc)
        subst ec
        obtain ⟨t1, e1, _, _⟩ := h8
        exact callsSince_mid w fr.w (unwindCalls fr) _ t1 _ _ e1 (unwindCalls_trace fr) htr _
          (unwindCalls_backOut fr _ b hc k2 hp)

/-! ## Lemmas on the allocation of a block by `DokanGetFCB` -/

/-- A deletion leaves the number of blocks and the allocation counters of the volume,
and removes at most one entry of the cache list. -/
theorem DokanDeleteFcb_metrics (w : World) (Fcb : Nat) :
    (DokanDeleteFcb w Fcb).fcbs.length = w.fcbs.length
      ∧ (DokanDeleteFcb w Fcb).vcb.FcbAllocated = w.vcb.FcbAllocated
      ∧ (DokanDeleteFcb w Fcb).vcb.FcbAllocations = w.vcb.FcbAllocations
      ∧ List.Sublist (DokanDeleteFcb w Fcb).vcb.NextFCB w.vcb.NextFCB := by
  refine ⟨?_, rfl, rfl, ?_⟩
  · show (w.setFcb Fcb _).fcbs.length = _
    rw [fcbs_length_setFcb]
  · show List.Sublist (w.vcb.NextFCB.erase Fcb) w.vcb.NextFCB
    exact List.erase_sublist Fcb _

theorem foldl_delete_metrics (l : List Nat) :
    ∀ w : World, (l.foldl DokanDeleteFcb w).fcbs.length = w.fcbs.length
      ∧ (l.foldl DokanDeleteFcb w).vcb.FcbAllocated = w.vcb.FcbAllocated
      ∧ (l.foldl DokanDeleteFcb w).vcb.FcbAllocations = w.vcb.FcbAllocations
      ∧ List.Sublist (l.foldl DokanDeleteFcb w).vcb.NextFCB w.vcb.NextFCB := by
  induction l with
  | nil => intro w; exact ⟨rfl, rfl, rfl, List.Sublist.refl _⟩
  | cons a rest ih =>
    intro w
    rw [List.foldl_cons]
    obtain ⟨h1, h2, h3, h4⟩ := ih (DokanDeleteFcb w a)
    obtain ⟨k1, k2, k3, k4⟩ := DokanDeleteFcb_metrics w a
    exact ⟨h1.trans k1, h2.trans k2, h3.trans k3, h4.trans k4⟩

/-- The collection pass leaves the number of blocks and the allocation counters, and
only removes entries of the cache list; it changes nothing when it reports false. -/
theorem forceGC_metrics (w : World) :
    (DokanForceFcbGarbageCollection w).1.fcbs.length = w.fcbs.length
      ∧ (DokanForceFcbGarbageCollection w).1.vcb.FcbAllocated = w.vcb.FcbAllocated
      ∧ (DokanForceFcbGarbageCollection w).1.vcb.FcbAllocations = w.vcb.FcbAllocations
      ∧ List.Sublist (DokanForceFcbGarbageCollection w).1.vcb.NextFCB w.vcb.NextFCB
      ∧ ((DokanForceFcbGarbageCollection w).2 = false →
          (DokanForceFcbGarbageCollection w).1 = w) := by
  unfold DokanForceFcbGarbageCollection
  split
  · obtain ⟨h1, h2, h3, h4⟩ := foldl_delete_metrics w.vcb.FcbGarbageList w
    exact ⟨h1, h2, h3, h4, fun h => Bool.noConfusion h⟩
  · exact ⟨rfl, rfl, rfl, List.Sublist.refl _, fun _ => rfl⟩

/-- The block that `DokanGetFCB` allocates when the search fails and `DokanAllocateFCB`
allocated at the first unused address of `w1`. -/
theorem DokanGetFCB_fresh_fields (env : Env) (w1 : World) (f : DokanFCB) (v : DokanVCB)
    (hc : f.FileCount = 0) :
    let W1 : World := { w1 with fcbs := w1.fcbs ++ [f], vcb := v }
    let f1 : DokanFCB :=
      if RtlEqualUnicodeString env.upcase (W1.fcb w1.fcbs.length).FileName
          env.keepAliveFileName false then
        { W1.fcb w1.fcbs.length with IsKeepalive := true, BlockUserModeDispatch := true }
      else W1.fcb w1.fcbs.length
    let f2 : DokanFCB :=
      if RtlEqualUnicodeString env.upcase f1.FileName env.notificationFileName false then
        { f1 with BlockUserModeDispatch := true }
      else f1
    let W := incFileCount (W1.setFcb w1.fcbs.length f2) w1.fcbs.length
    (W.fcb w1.fcbs.length).AllocationSize = f.AllocationSize
      ∧ (W.fcb w1.fcbs.length).FileSize = f.FileSize
      ∧ (W.fcb w1.fcbs.length).IsFastIoPossible = f.IsFastIoPossible
      ∧ (W.fcb w1.fcbs.length).NextCCB = f.NextCCB
      ∧ (W.fcb w1.fcbs.length).FileCount = 1
      ∧ W.vcb = v := by
  intro W1 f1 f2 W
  have hlt : w1.fcbs.length < W1.fcbs.length := by
    show w1.fcbs.length < (w1.fcbs ++ [f]).length
    simp
  have hW : W.fcb w1.fcbs.length = { f2 with FileCount := f2.FileCount + 1 } := by
    show (incFileCount (W1.setFcb w1.fcbs.length f2) w1.fcbs.length).fcb w1.fcbs.length = _
    unfold incFileCount
    rw [fcb_setFcb_same _ _ _ (by rw [fcbs_length_setFcb]; exact hlt),
      fcb_setFcb_same _ _ _ hlt]
  have hf : W1.fcb w1.fcbs.length = f := fcb_append_new w1 f v
  rw [hW]
  refine ⟨?_, ?_, ?_, ?_, ?_, rfl⟩
  · show f2.AllocationSize = _
    simp only [f2, f1, hf]
    split <;> split <;> rfl
  · show f2.FileSize = _
    simp only [f2, f1, hf]
    split <;> split <;> rfl
  · show f2.IsFastIoPossible = _
    simp only [f2, f1, hf]
    split <;> split <;> rfl
  · show f2.NextCCB = _
    simp only [f2, f1, hf]
    split <;> split <;> rfl
  · show f2.FileCount + 1 = 1
    have : f2.FileCount = 0 := by
      simp only [f2, f1, hf]
      split <;> split <;> exact hc
    rw [this]
    rfl

/-! ## Lemmas on the separators of the request name -/

theorem chars_of_buffer (n : UNICODE_STRING) (b : List Nat) (h : n.Buffer = some b) :
    n.chars = b.take (n.Length / 2) := by
  unfold UNICODE_STRING.chars
  rw [h]
  rfl

theorem cell_of_buffer (n : UNICODE_STRING) (b : List Nat) (h : n.Buffer = some b) (i : Nat) :
    n.cell i = b.getD i 0 := by
  unfold UNICODE_STRING.cell
  rw [h]
  rfl

/-- The leading-separator step on a counted string whose `Length` is even and inside
its buffer: when the characters begin with two separators the first one is removed,
otherwise the string is unchanged. -/
theorem stripLeadingSeparator_chars (n : UNICODE_STRING) (he : n.Length % 2 = 0)
    (hb : n.Length / 2 ≤ (n.Buffer.getD []).length) :
    ([BACKSLASH, BACKSLASH] <+: n.chars →
        (stripLeadingSeparator n).chars = n.chars.tail
          ∧ (stripLeadingSeparator n).Length % 2 = 0
          ∧ (stripLeadingSeparator n).Length / 2
              ≤ ((stripLeadingSeparator n).Buffer.getD []).length)
      ∧ (¬ [BACKSLASH, BACKSLASH] <+: n.chars → stripLeadingSeparator n = n) := by
  cases hB : n.Buffer with
  | none =>
    have hc : n.chars = [] := by
      unfold UNICODE_STRING.chars
      rw [hB]
      simp
    have hl : ¬ n.Length > 2 := by
      rw [hB] at hb
      simp at hb
      omega
    rw [hc]
    refine ⟨fun h => ?_, fun _ => ?_⟩
    · simp at h
    · unfold stripLeadingSeparator
      rw [if_neg (fun h => hl h.1)]
  | some b =>
    rw [hB] at hb
    have hb2 : n.Length / 2 ≤ b.length := hb
    rw [chars_of_buffer n b hB]
    by_cases hc : n.Length > 2 ∧ n.cell 1 = BACKSLASH ∧ n.cell 0 = BACKSLASH
    · obtain ⟨h1, h2, h3⟩ := hc
      rw [cell_of_buffer n b hB] at h2 h3
      have hk : 2 ≤ n.Length / 2 := by omega
      refine ⟨fun _ => ?_, fun h => ?_⟩
      · have hs : stripLeadingSeparator n
            = { n with
                Length := n.Length - 2
                Buffer := n.Buffer.map (fun b =>
                  ((b.drop 1).take ((n.Length - 2) / 2)) ++ b.drop ((n.Length - 2) / 2)) } := by
          unfold stripLeadingSeparator
          rw [if_pos ⟨h1, by rw [cell_of_buffer n b hB]; exact h2,
            by rw [cell_of_buffer n b hB]; exact h3⟩]
        rw [hs]
        have e : (n.Length - 2) / 2 = n.Length / 2 - 1 := by omega
        have hlen : ((b.drop 1).take (n.Length / 2 - 1)).length = n.Length / 2 - 1 := by
          rw [List.length_take, List.length_drop]
          omega
        refine ⟨?_, ?_, ?_⟩
        · unfold UNICODE_STRING.chars
          simp only [hB, Option.map_some', Option.getD_some, e]
          rw [List.take_append_of_le_length (by omega), List.take_of_length_le (by omega)]
          cases b with
          | nil => simp at hb2; omega
          | cons x t =>
            have : n.Length / 2 = (n.Length / 2 - 1) + 1 := by omega
            rw [this, List.take_succ_cons]
            simp
        · show (n.Length - 2) % 2 = 0
          omega
        · show (n.Length - 2) / 2 ≤ _
          simp only [hB, Option.map_some', Option.getD_some, e, List.length_append, hlen]
          omega
      · exfalso
        apply h
        cases b with
        | nil => simp at hb2; omega
        | cons x t =>
          cases t with
          | nil => simp at hb2; omega
          | cons y t2 =>
            simp only [List.getD_cons_zero, List.getD_cons_succ] at h2 h3
            have : n.Length / 2 = (n.Length / 2 - 2) + 2 := by omega
            rw [this, h2, h3]
            simp [List.take_succ_cons]
    · refine ⟨fun h => ?_, fun _ => ?_⟩
      · exfalso
        apply hc
        obtain ⟨t, ht⟩ := h
        have hlen : 2 ≤ (b.take (n.Length / 2)).length := by
          rw [← ht]
          simp
        rw [List.length_take] at hlen
        have hk : 2 ≤ n.Length / 2 := by omega
        refine ⟨by omega, ?_, ?_⟩
        · rw [cell_of_buffer n b hB]
          have := congrArg (fun l => l.getD 1 0) ht
          simp only [List.cons_append, List.getD_cons_succ, List.getD_cons_zero] at this
          rw [this, List.getD_eq_getElem?_getD, List.getD_eq_getElem?_getD,
            List.getElem?_take_of_lt (by omega)]
        · rw [cell_of_buffer n b hB]
          have := congrArg (fun l => l.getD 0 0) ht
          simp only [List.cons_append, List.getD_cons_zero] at this
          rw [this, List.getD_eq_getElem?_getD, List.getD_eq_getElem?_getD,
            List.getElem?_take_of_lt (by omega)]
      · unfold stripLeadingSeparator
        rw [if_neg hc]

/-- The trailing-separator step on a counted string whose `Length` is even and inside
its buffer: when the string has two characters or more and ends with a separator, that
separator is removed, otherwise the string is unchanged. -/
theorem trimTrailingSeparator_chars (n : UNICODE_STRING) (he : n.Length % 2 = 0)
    (hb : n.Length / 2 ≤ (n.Buffer.getD []).length) :
    (2 ≤ n.chars.length ∧ n.chars.getLast? = some BACKSLASH →
        (trimTrailingSeparator n).chars = n.chars.dropLast)
      ∧ (¬ (2 ≤ n.chars.length ∧ n.chars.getLast? = some BACKSLASH) →
          trimTrailingSeparator n = n) := by
  have hlen : n.chars.length = n.Length / 2 := by
    unfold UNICODE_STRING.chars
    rw [List.length_take]
    omega
  have hlast : 1 ≤ n.Length / 2 →
      n.chars.getLast? = some (n.cell (n.Length / 2 - 1)) := by
    intro h1
    rw [List.getLast?_eq_getElem?, hlen]
    unfold UNICODE_STRING.chars UNICODE_STRING.cell
    rw [List.getElem?_take_of_lt (by omega), List.getD_eq_getElem?_getD]
    have hlt : n.Length / 2 - 1 < (n.Buffer.getD []).length := by omega
    rw [List.getElem?_eq_getElem hlt]
    rfl
  have hiff : (n.Length > 2 ∧ n.cell (n.Length / 2 - 1) = BACKSLASH)
      ↔ (2 ≤ n.chars.length ∧ n.chars.getLast? = some BACKSLASH) := by
    rw [hlen]
    constructor
    · intro ⟨h1, h2⟩
      refine ⟨by omega, ?_⟩
      rw [hlast (by omega), h2]
    · intro ⟨h1, h2⟩
      refine ⟨by omega, ?_⟩
      rw [hlast (by omega)] at h2
      exact Option.some.inj h2
  refine ⟨fun h => ?_, fun h => ?_⟩
  · have hs : trimTrailingSeparator n = { n with Length := n.Length - 2 } := by
      unfold trimTrailingSeparator
      rw [if_pos (hiff.mpr h)]
    rw [hs, List.dropLast_eq_take, hlen]
    unfold UNICODE_STRING.chars
    have e : (n.Length - 2) / 2 = n.Length / 2 - 1 := by omega
    simp only [e, List.take_take]
    congr 1
    omega
  · unfold trimTrailingSeparator
    rw [if_neg (fun hc => h (hiff.mp hc))]

/-! ## Lemmas on the output buffer of `DokanGetParentDir` -/

/-- The string at a buffer has `m` characters when the first `m` cells are not zero and
the cell `m` is the terminator. -/
theorem wcslen_eq_of (b : List Nat) :
    ∀ m : Nat, m < b.length → (∀ j, j < m → b.getD j 0 ≠ 0) → b.getD m 0 = 0 →
      wcslen b = m := by
  induction b with
  | nil =>
    intro m hm
    simp at hm
  | cons a t ih =>
    intro m hm hnz hz
    cases m with
    | zero =>
      have ha : a = 0 := hz
      unfold wcslen cstr
      rw [ha]
      simp
    | succ k =>
      have ha : a ≠ 0 := hnz 0 (by omega)
      have hk := ih k (by simpa using hm) (fun j hj => hnz (j + 1) (by omega)) hz
      unfold wcslen cstr at hk ⊢
      rw [List.takeWhile_cons]
      simp only [bne_iff_ne, ne_eq, ha, not_false_eq_true, decide_True, if_true,
        List.length_cons]
      omega

theorem getD_set_same (b : List Nat) (i v : Nat) (h : i < b.length) :
    (b.set i v).getD i 0 = v := by
  rw [List.getD_eq_getElem?_getD, List.getElem?_set_self h]
  rfl

theorem getD_set_ne (b : List Nat) (i j v : Nat) (h : i ≠ j) :
    (b.set i v).getD j 0 = b.getD j 0 := by
  rw [List.getD_eq_getElem?_getD, List.getD_eq_getElem?_getD, List.getElem?_set_ne h]

theorem bufWrite_eq (buf : List Nat) (i : Int) (v : Nat) (h0 : 0 ≤ i) (h1 : i < buf.length) :
    bufWrite buf i v = some (buf.set i.toNat v) := by
  unfold bufWrite
  rw [if_pos ⟨h0, h1⟩]

theorem bufRead_eq (buf : List Nat) (i : Int) (h0 : 0 ≤ i) (h1 : i < buf.length) :
    bufRead buf i = some (buf.getD i.toNat 0) := by
  unfold bufRead
  rw [if_pos ⟨h0, h1⟩, List.getD_eq_getElem?_getD]
  have hi : i.toNat < buf.length := by omega
  rw [List.getElem?_eq_getElem hi]
  rfl

/-- The characters of a C string are not the terminator. -/
theorem cstr_ne_zero (p : List Nat) : ∀ c ∈ cstr p, c ≠ 0 := by
  intro c hc
  unfold cstr at hc
  have := List.mem_takeWhile_imp hc
  simpa using this

/-- The copy of line 370 into the zero-filled buffer of `len + 1` characters: the
first `len - 1` cells hold characters, the last two hold terminators. -/
theorem RtlStringCchCopyW_cells (src : List Nat) (hpos : 0 < wcslen src) :
    ∃ b1, RtlStringCchCopyW (List.replicate (wcslen src + 1) 0) (wcslen src) src = some b1
      ∧ b1.length = wcslen src + 1
      ∧ (∀ j, j < wcslen src - 1 → b1.getD j 0 ≠ 0)
      ∧ b1.getD (wcslen src - 1) 0 = 0
      ∧ b1.getD (wcslen src) 0 = 0 := by
  have e3 : ((cstr src).take (wcslen src - 1)).length = wcslen src - 1 := by
    rw [List.length_take]
    unfold wcslen
    omega
  refine ⟨(cstr src).take (wcslen src - 1) ++ 0 :: [0], ?_, ?_, ?_, ?_, ?_⟩
  · unfold RtlStringCchCopyW
    rw [if_neg (by omega)]
    simp only [e3, List.length_replicate]
    rw [if_pos (by omega)]
    simp only [List.drop_replicate]
    have e7 : wcslen src + 1 - (wcslen src - 1 + 1) = 1 := by omega
    rw [e7]
    rfl
  · simp only [List.length_append, List.length_cons, List.length_nil, e3]
    omega
  · intro j hj
    rw [List.getD_eq_getElem?_getD, List.getElem?_append_left (by rw [e3]; exact hj)]
    have hlt : j < ((cstr src).take (wcslen src - 1)).length := by rw [e3]; exact hj
    rw [List.getElem?_eq_getElem hlt]
    exact cstr_ne_zero src _ (List.mem_of_mem_take (List.getElem_mem _))
  · rw [List.getD_eq_getElem?_getD, List.getElem?_append_right (by rw [e3])]
    simp [e3]
  · rw [List.getD_eq_getElem?_getD, List.getElem?_append_right (by rw [e3]; omega)]
    have : wcslen src - ((cstr src).take (wcslen src - 1)).length = 1 := by
      rw [e3]
      omega
    rw [this]
    rfl

/-- What the loop returns: the buffer is untouched when no separator stops it
(`i = -1`); otherwise the cell `i` held a separator and is the only one overwritten,
with a terminator. -/
theorem parentScan_spec (t : Bool) (len : Int) :
    ∀ (k : Nat) (buf : List Nat), k ≤ buf.length →
      ∃ i : Int, -1 ≤ i ∧ i < k
        ∧ parentScan t len k buf
            = some (if 0 ≤ i then buf.set i.toNat 0 else buf, i)
        ∧ (0 ≤ i → buf.getD i.toNat 0 = BACKSLASH) := by
  intro k
  induction k with
  | zero =>
    intro buf _
    refine ⟨-1, le_refl _, by decide, ?_, fun h => absurd h (by decide)⟩
    rw [parentScan]
    rfl
  | succ k ih =>
    intro buf hk
    obtain ⟨i, h1, h2, h3, h4⟩ := ih buf (by omega)
    rw [parentScan, bufRead_eq buf (k : Int) (by omega) (by omega)]
    simp only [Int.toNat_ofNat]
    by_cases hcb : buf.getD k 0 = BACKSLASH
    · by_cases hcont : (k : Int) = len - 1 ∧ t = true
      · simp only [if_pos hcb, if_pos hcont]
        exact ⟨i, h1, by omega, h3, h4⟩
      · simp only [if_pos hcb, if_neg hcont]
        rw [bufWrite_eq buf (k : Int) 0 (by omega) (by omega)]
        refine ⟨(k : Int), by omega, by omega, ?_, fun _ => ?_⟩
        · rw [if_pos (by omega)]
        · simpa using hcb
    · simp only [if_neg hcb]
      exact ⟨i, h1, by omega, h3, h4⟩

/-- The code after the loop, entered with a buffer of `L + 1` characters whose cells
below `i` hold characters and whose cell `i` (when `0 ≤ i`) holds a terminator, with
`i < L`: every write is inside the buffer, the string in the buffer has between 1 and
`L` characters, it is terminated inside the buffer, and the length returned is its
length in bytes. -/
theorem parentFinish_output (t : Bool) (b2 : List Nat) (i : Int) (L : Nat)
    (hL : 1 ≤ L) (hLb : L < 2 ^ 31 - 1) (hlen : b2.length = L + 1) (hi1 : i < L)
    (hnz : ∀ j : Nat, (j : Int) < i → b2.getD j 0 ≠ 0)
    (hz : 0 ≤ i → b2.getD i.toNat 0 = 0) :
    ∃ buf n, parentFinish t b2 i = some ⟨STATUS_SUCCESS, some buf, n⟩
      ∧ buf.length = L + 1 ∧ wcslen buf < buf.length ∧ n = 2 * wcslen buf
      ∧ 1 ≤ wcslen buf ∧ wcslen buf ≤ L := by
  unfold parentFinish
  by_cases h0 : i ≤ 0
  · have hw : wcslen ((b2.set 0 BACKSLASH).set 1 0) = 1 := by
      apply wcslen_eq_of
      · simp only [List.length_set]
        omega
      · intro j hj
        have hj0 : j = 0 := by omega
        subst hj0
        rw [getD_set_ne _ 1 0 0 (by decide), getD_set_same _ 0 _ (by omega)]
        decide
      · rw [getD_set_same _ 1 _ (by simp only [List.length_set]; omega)]
    simp only [if_pos h0]
    rw [bufWrite_eq b2 0 BACKSLASH (le_refl _) (by omega)]
    simp only [Int.toNat_zero]
    rw [bufWrite_eq (b2.set 0 BACKSLASH) 1 0 (by decide)
      (by simp only [List.length_set]; omega)]
    have hn : ¬ (t = true ∧ (1 : Int) < 1) := by omega
    simp only [if_neg hn]
    refine ⟨_, _, rfl, ?_, ?_, ?_, ?_, ?_⟩
    · simp only [List.length_set]
      exact hlen
    · show wcslen ((b2.set 0 BACKSLASH).set 1 0) < _
      rw [hw]
      simp only [List.length_set]
      omega
    · show toULONG ((1 : Int).toNat * 2) = 2 * wcslen ((b2.set 0 BACKSLASH).set 1 0)
      rw [hw]
      rfl
    · show 1 ≤ wcslen ((b2.set 0 BACKSLASH).set 1 0)
      rw [hw]
    · show wcslen ((b2.set 0 BACKSLASH).set 1 0) ≤ L
      rw [hw]
      exact hL
  · obtain ⟨m, hm⟩ := Int.eq_ofNat_of_zero_le (show 0 ≤ i by omega)
    subst hm
    have hm1 : 1 ≤ m := by omega
    have hmL : m < L := by omega
    have hzm : b2.getD m 0 = 0 := by
      have := hz (by omega)
      simpa using this
    have hnzm : ∀ j : Nat, j < m → b2.getD j 0 ≠ 0 := fun j hj => hnz j (by omega)
    simp only [if_neg h0]
    by_cases hc : t = true ∧ (1 : Int) < (m : Int)
    · have hw : wcslen ((b2.set m BACKSLASH).set (m + 1) 0) = m + 1 := by
        apply wcslen_eq_of
        · simp only [List.length_set]
          omega
        · intro j hj
          rw [getD_set_ne _ (m + 1) j 0 (by omega)]
          by_cases hjm : j = m
          · subst hjm
            rw [getD_set_same _ j _ (by omega)]
            decide
          · rw [getD_set_ne _ m j _ (fun h => hjm h.symm)]
            exact hnzm j (by omega)
        · rw [getD_set_same _ (m + 1) _ (by simp only [List.length_set]; omega)]
      simp only [if_pos hc]
      rw [bufWrite_eq b2 (m : Int) BACKSLASH (by omega) (by omega)]
      simp only [Int.toNat_ofNat]
      rw [bufWrite_eq (b2.set m BACKSLASH) ((m : Int) + 1) 0 (by omega)
        (by simp only [List.length_set]; omega)]
      have e : ((m : Int) + 1).toNat = m + 1 := by omega
      simp only [e]
      refine ⟨_, _, rfl, ?_, ?_, ?_, ?_, ?_⟩
      · simp only [List.length_set]
        exact hlen
      · show wcslen ((b2.set m BACKSLASH).set (m + 1) 0) < _
        rw [hw]
        simp only [List.length_set]
        omega
      · show toULONG (toULONG (m * 2) + 2) = 2 * wcslen ((b2.set m BACKSLASH).set (m + 1) 0)
        rw [hw, toULONG_small (m * 2) (by omega), toULONG_small (m * 2 + 2) (by omega)]
        omega
      · show 1 ≤ wcslen ((b2.set m BACKSLASH).set (m + 1) 0)
        rw [hw]
        omega
      · show wcslen ((b2.set m BACKSLASH).set (m + 1) 0) ≤ L
        rw [hw]
        omega
    · have hw : wcslen b2 = m := wcslen_eq_of b2 m (by omega) hnzm hzm
      simp only [if_neg hc, Int.toNat_ofNat]
      refine ⟨_, _, rfl, hlen, ?_, ?_, ?_, ?_⟩
      · rw [hw]
        omega
      · rw [hw, toULONG_small (m * 2) (by omega)]
        omega
      · rw [hw]
        exact hm1
      · rw [hw]
        omega

/-- Every run of `DokanGetParentDir` on a name other than the empty one and the root,
the allocation succeeding: the function stays inside its buffers and returns
`STATUS_SUCCESS`, a buffer of `len + 1` characters that holds a terminated string of
between 1 and `len` characters, and the length of that string in bytes. -/
theorem DokanGetParentDir_output (fileName : List Nat)
    (hb : wcslen fileName < 2 ^ 31 - 1) (h0 : cstr fileName ≠ [])
    (hr : cstr fileName ≠ [BACKSLASH]) :
    ∃ buf n, DokanGetParentDir fileName true = some ⟨STATUS_SUCCESS, some buf, n⟩
      ∧ buf.length = wcslen fileName + 1 ∧ wcslen buf < buf.length ∧ n = 2 * wcslen buf
      ∧ 1 ≤ wcslen buf ∧ wcslen buf ≤ wcslen fileName := by
  have hpos : 0 < wcslen fileName := by
    unfold wcslen
    exact List.length_pos.mpr h0
  have hL : toLONG (wcslen fileName) = ((wcslen fileName : Nat) : Int) :=
    toLONG_small _ (by omega)
  have hle : wcslen fileName ≤ fileName.length := cstr_length_le fileName
  obtain ⟨last, hlast⟩ := bufRead_some fileName (((wcslen fileName : Nat) : Int) - 1)
    (by omega) (by omega)
  obtain ⟨b1, hb1, hl1, c1, c2, c3⟩ := RtlStringCchCopyW_cells fileName hpos
  obtain ⟨i, hi0, hi1, hs, hsep⟩ :=
    parentScan_spec (decide (last = BACKSLASH)) ((wcslen fileName : Nat) : Int)
      (wcslen fileName) b1 (by omega)
  -- the loop cannot stop at the cell `len - 1`, which holds a terminator
  have hi2 : i + 1 < wcslen fileName := by
    by_cases hneg : 0 ≤ i
    · have hne : i.toNat ≠ wcslen fileName - 1 := by
        intro he
        have h1 := hsep hneg
        rw [he, c2] at h1
        exact absurd h1 (by decide)
      omega
    · omega
  have hfin := parentFinish_output (decide (last = BACKSLASH))
    (if 0 ≤ i then b1.set i.toNat 0 else b1) i (wcslen fileName) hpos hb
    (by
      split
      · rw [List.length_set]
        exact hl1
      · exact hl1) (by omega)
    (by
      intro j hj
      have hjn : j < wcslen fileName - 1 := by omega
      split
      · rw [getD_set_ne _ _ _ _ (by omega)]
        exact c1 j hjn
      · exact c1 j hjn)
    (by
      intro hneg
      rw [if_pos hneg]
      exact getD_set_same _ _ _ (by omega))
  obtain ⟨buf, n, hf, k1, k2, k3, k4, k5⟩ := hfin
  refine ⟨buf, n, ?_, k1, k2, k3, k4, k5⟩
  unfold DokanGetParentDir
  simp only [hL]
  rw [if_neg (by omega), if_neg hr, hlast]
  simp only []
  rw [if_neg (by push_cast; omega)]
  simp only [Bool.true_eq_false, if_false]
  have e1 : ((wcslen fileName : Nat) : Int).toNat = wcslen fileName := by omega
  have e2 : ((((wcslen fileName : Nat) : Int) + 1).toNat) = wcslen fileName + 1 := by omega
  rw [e1, e2, hb1]
  simp only []
  rw [hs]
  exact hf

/-! ## Lemmas on the oplock break of `DokanDispatchCreate` -/

set_option maxHeartbeats 2000000 in
/-- The calls made by the oplock checks of lines 1254 to 1330 are oplock checks. -/
theorem createOplock_ext (o : CreateOracle) (irpSp : IO_STACK_LOCATION) (fr : CreateFrame) :
    Ext Event.isOplockCheck fr.w (createOplock o irpSp fr).1.w := by
  generalize hr : createOplock o irpSp fr = r
  unfold createOplock at hr
  dsimp only at hr
  repeat' split at hr
  all_goals subst hr
  all_goals first
    | exact ext_refl _ _
    | exact ext_then_emit _ _ _ _ (ext_refl _ _) (by rfl)
    | exact ext_then_emit _ _ _ _ (ext_then_emit _ _ _ _ (ext_refl _ _) (by rfl)) (by rfl)
    | exact ext_then_emit _ _ _ _ (ext_then_emit _ _ _ _
        (ext_then_emit _ _ _ _ (ext_refl _ _) (by rfl)) (by rfl)) (by rfl)

/-- A call that is preparatory, an oplock check, a call of the unwinding or the
registration is neither a request of an oplock break nor the record of a share
access. -/
theorem later_calls (e : Event)
    (h : e.isPreparatory = true ∨ e.isOplockCheck = true ∨ e.isUnwind = true
      ∨ e = Event.RegisterPendingIrp) :
    (!(e.isOplockBreak || e.isShareGrant)) = true := by
  cases e <;>
    simp_all [Event.isPreparatory, Event.isOplockCheck, Event.isUnwind, Event.isOplockBreak,
      Event.isShareGrant]

/-- The calls of the oplock checks, of the registration and of the `__finally` block
contain no request of an oplock break and no record of a share access. -/
theorem afterShare_ext (o : CreateOracle) (irpSp : IO_STACK_LOCATION) (r : CreateFrame × Bool) :
    Ext (fun e => !(e.isOplockBreak || e.isShareGrant)) r.1.w
      (createFinally (andThen (andThen r (createOplock o irpSp)) (createRegister o)).1).w := by
  refine ext_trans _ _ _ _ ?_
    (ext_mono _ _ _ _ (fun e h => later_calls e (Or.inr (Or.inr (Or.inl h))))
      (createFinally_ext _))
  apply andThen_ext
  · apply andThen_ext
    · exact ext_refl _ _
    · intro fr
      exact ext_mono _ _ _ _ (fun e h => later_calls e (Or.inr (Or.inl h)))
        (createOplock_ext o irpSp fr)
  · intro fr
    exact ext_emit _ _ _ (by rfl)

/-- The count of the calls that satisfy `P` among the calls since `a`, when the trace
was extended by calls without `P`, then by the calls `mid`, then again by calls
without `P`. -/
theorem countP_mid (P Q : Event → Bool) (hQ : ∀ e, Q e = true → P e = false)
    (a b c d : World) (mid : List Event) (h1 : Ext Q a b) (h2 : c.trace = b.trace ++ mid)
    (h3 : Ext Q c d) :
    (callsSince a d).countP P = mid.countP P ∧ mid <+: callsSince b d := by
  obtain ⟨t1, e1, p1⟩ := h1
  obtain ⟨t3, e3, p3⟩ := h3
  have hz : ∀ t : List Event, (∀ e ∈ t, Q e = true) → t.countP P = 0 := by
    intro t ht
    rw [List.countP_eq_zero]
    intro e he
    rw [hQ e (ht e he)]
    exact Bool.noConfusion
  constructor
  · unfold callsSince
    rw [e3, h2, e1, List.append_assoc, List.append_assoc, List.drop_left,
      List.countP_append, List.countP_append, hz t1 p1, hz t3 p3]
    omega
  · unfold callsSince
    rw [e3, h2, List.append_assoc, List.drop_left]
    exact ⟨t3, rfl⟩

/-- The share access check on a block with another open, when `DokanCheckShareAccess`
returns `STATUS_SHARING_VIOLATION` and the request does not carry
`FILE_COMPLETE_IF_OPLOCKED`: `FsRtlOplockBreakH` is called, and the step leaves with
`STATUS_PENDING` or with the failure status of the break, or runs the check again and
leaves with its status or records the share access and goes on. -/
theorem createShare_break (o : CreateOracle) (irpSp : IO_STACK_LOCATION) (fr : CreateFrame)
    (b : Nat) (ec : EVENT_CONTEXT) (hf : fr.fcb = some b) (he : fr.eventContext = some ec)
    (hc : (fr.w.fcb b).FileCount > 1)
    (hsv : DokanCheckShareAccess (fr.w.fcb b) ec.DesiredAccess ec.ShareAccess
      o.userWritableReferences o.ioCheckShareAccess1 = STATUS_SHARING_VIOLATION)
    (hopt : FlagOn irpSp.Options FILE_COMPLETE_IF_OPLOCKED = false) :
    createShare o irpSp fr
      = (if o.oplockBreakH = STATUS_PENDING then
          ({ fr with w := fr.w.emit (Event.OplockBreakH b), status := STATUS_PENDING }, true)
        else if NT_SUCCESS o.oplockBreakH = false then
          ({ fr with w := fr.w.emit (Event.OplockBreakH b), status := o.oplockBreakH }, true)
        else if DokanCheckShareAccess (fr.w.fcb b) ec.DesiredAccess ec.ShareAccess
            o.userWritableReferences o.ioCheckShareAccess2 ≠ STATUS_SUCCESS then
          ({ fr with
              w := fr.w.emit (Event.OplockBreakH b)
              status := DokanCheckShareAccess (fr.w.fcb b) ec.DesiredAccess ec.ShareAccess
                o.userWritableReferences o.ioCheckShareAccess2 }, true)
        else
          ({ fr with
              w := (fr.w.emit (Event.OplockBreakH b)).emit (Event.IoUpdateShareAccess b)
              status := STATUS_SUCCESS }, false)) := by
  unfold createShare
  rw [hf, he]
  dsimp only
  rw [if_pos hc, hsv, if_pos (by decide), if_pos ⟨rfl, hopt⟩]
  have hfcb : (fr.w.emit (Event.OplockBreakH b)).fcb b = fr.w.fcb b := rfl
  rw [hfcb]
  split
  · rfl
  · split
    · rfl
    · split
      · rfl
      · rename_i h
        have h2 : DokanCheckShareAccess (fr.w.fcb b) ec.DesiredAccess ec.ShareAccess
            o.userWritableReferences o.ioCheckShareAccess2 = STATUS_SUCCESS := by
          simpa using h
        rw [h2]

/-! ## Lemmas on paths of 65536 bytes or more in `DokanGetFCB` -/

/-- A block whose stored length is `(USHORT)L` does not match a search for a path of
`L >= 65536` bytes: line 129 compares the stored length with the untruncated `L`. -/
theorem fcbMatches_long (env : Env) (f : DokanFCB) (FileName : List Nat) (L : Nat) (cs : Bool)
    (hL : 65536 ≤ L) (hf : f.FileName.Length = toUSHORT L) :
    fcbMatches env f FileName L cs = false := by
  have hlt : toUSHORT L < 65536 := by
    unfold toUSHORT
    exact Nat.mod_lt _ (by norm_num)
  have hne : ¬ f.FileName.Length = L := by
    rw [hf]
    omega
  unfold fcbMatches
  simp only [hne, decide_False, Bool.false_and]

/-- The first call for a path that is not in the cache leaves the blocks that were
allocated before as they are. -/
theorem DokanGetFCB_first_old (env : Env) (o : PoolOracle) (w : World) (FileName : List Nat)
    (L : Nat) (cs : Bool) (ho1 : o.fcbFirst = true) (ho2 : o.resource = true)
    (hnone : findFCB env w FileName L cs w.vcb.NextFCB = none) (b : Nat)
    (hb : b < w.fcbs.length) :
    (DokanGetFCB env o w FileName L cs).1.fcb b = w.fcb b := by
  unfold DokanGetFCB
  rw [hnone]
  unfold DokanAllocateFCB
  simp only [ho1, ho2, if_true, Bool.true_eq_false, if_false]
  unfold incFileCount
  have hne : w.fcbs.length ≠ b := by omega
  rw [fcb_setFcb_ne _ _ _ _ hne, fcb_setFcb_ne _ _ _ _ hne, fcb_append_old w _ _ b hb]

/-- A later call for the same path, of 65536 bytes or more, misses the block that the
first call allocated and allocates a second one. -/
theorem DokanGetFCB_long_again (env : Env) (o : PoolOracle) (w w1 : World)
    (FileName : List Nat) (L : Nat) (cs : Bool) (k : Int) (hv : w.cacheValid)
    (hL : 65536 ≤ L) (ho1 : o.fcbFirst = true) (ho2 : o.resource = true)
    (hS : AcquiredFrom w FileName L k w1)
    (hnone : findFCB env w FileName L cs w.vcb.NextFCB = none) :
    ∃ w2, DokanGetFCB env o w1 FileName L cs = (w2, some (w.fcbs.length + 1))
      ∧ AcquiredFrom w1 FileName L 1 w2
      ∧ ∀ b, b < w1.fcbs.length → w2.fcb b = w1.fcb b := by
  obtain ⟨h1, h2, h3, h4, _, _, _, _⟩ := hS
  have hold : findFCB env w1 FileName L cs w.vcb.NextFCB = none := by
    rw [findFCB_congr env w1 w FileName L cs _ (fun b hb => h3 b (hv b hb))]
    exact hnone
  have hmiss : fcbMatches env (w1.fcb w.fcbs.length) FileName L cs = false :=
    fcbMatches_long env _ FileName L cs hL (by rw [h4])
  have hfind : findFCB env w1 FileName L cs w1.vcb.NextFCB = none := by
    rw [h1, findFCB_append_none env w1 FileName L cs _ _ hold, findFCB, hmiss]
    rfl
  obtain ⟨w2, hw2, hS2⟩ := DokanGetFCB_first env o w1 FileName L cs ho1 ho2 hfind
  refine ⟨w2, by rw [hw2, h2], hS2, ?_⟩
  intro b hb
  have h := DokanGetFCB_first_old env o w1 FileName L cs ho1 ho2 hfind b hb
  rw [hw2] at h
  exact h


/-! ## Lemmas on the trace of a dispatch -/

/-- A dispatch only appends calls to the trace. -/
theorem dispatch_extends (env : Env) (o : CreateOracle) (irpSp : IO_STACK_LOCATION)
    (w : World) :
    (DokanDispatchCreate env o irpSp w).w.trace
      = w.trace ++ callsSince w (DokanDispatchCreate env o irpSp w).w := by
  have hx : Ext (fun _ => true) w (DokanDispatchCreate env o irpSp w).w := by
    unfold DokanDispatchCreate DokanDispatchCreateTry
    refine ext_trans _ _ _ _ ?_
      (ext_mono _ _ _ _ (fun _ _ => rfl)
        (afterShare_ext o irpSp (andThen (createUpToShare env o irpSp w) (createShare o irpSp))))
    apply andThen_ext
    · exact ext_mono _ _ _ _ (fun _ _ => rfl) (createUpToShare_ext env o irpSp w)
    · intro fr
      obtain ⟨t, ht, _, _⟩ := (createShare_steady o irpSp fr).2.2
      exact ⟨t, ht, fun _ _ => rfl⟩
  exact (callsSince_ext _ _ _ hx).1

/-! ## Lemmas on `DokanCompleteCreate` -/

theorem completeStatus_remap (ro : Bool) (Options : Nat) (EventInfo : EVENT_INFORMATION)
    (h1 : EventInfo.Information = FILE_DOES_NOT_EXIST) (h2 : ro = true)
    (h3 : dispositionOf Options = FILE_OPEN_IF) :
    completeStatus ro Options EventInfo = STATUS_MEDIA_WRITE_PROTECTED := by
  unfold completeStatus
  rw [if_pos ⟨h1, h2⟩, if_pos h3]

theorem completeStatus_verbatim (ro : Bool) (Options : Nat) (EventInfo : EVENT_INFORMATION)
    (h : ¬ (EventInfo.Information = FILE_DOES_NOT_EXIST ∧ ro = true
      ∧ dispositionOf Options = FILE_OPEN_IF)) :
    completeStatus ro Options EventInfo = EventInfo.Status := by
  unfold completeStatus
  by_cases h1 : EventInfo.Information = FILE_DOES_NOT_EXIST ∧ ro = true
  · rw [if_pos h1, if_neg (fun h3 => h ⟨h1.1, h1.2, h3⟩)]
  · rw [if_neg h1]

theorem vcb_setCcb (w : World) (a : Nat) (c : DokanCCB) : (w.setCcb a c).vcb = w.vcb := rfl

theorem completeFailure_detaches (ccb fcb : Nat) (w4 : World) :
    (((completeFailure ccb fcb w4).emit
      (Event.CompleteIrpRequest s i)).fileObject.bind (fun f => f.FsContext2)) = none := by
  unfold completeFailure
  show (Option.map _ (DokanFreeFCB _ fcb).1.fileObject).bind _ = none
  cases (DokanFreeFCB ((DokanFreeCCB (DokanMaybeBackOutAtomicOplockRequest w4 ccb) ccb).1.emit
    (Event.IoRemoveShareAccess fcb)) fcb).1.fileObject <;> rfl

/-- The status and the information that `DokanCompleteCreate` hands to
`DokanCompleteIrpRequest`, and the detachment of the CCB on a failure. -/
theorem DokanCompleteCreate_status (irpSp : IO_STACK_LOCATION) (EventInfo : EVENT_INFORMATION)
    (w : World) (fo : FILE_OBJECT) (ccb fcb : Nat) (hfo : w.fileObject = some fo)
    (hccb : fo.FsContext2 = some ccb) (hfcb : (w.ccb ccb).Fcb = some fcb) :
    (DokanCompleteCreate irpSp EventInfo w).fault = false
      ∧ (DokanCompleteCreate irpSp EventInfo w).status
          = completeStatus w.vcb.ReadOnly irpSp.Options EventInfo
      ∧ (DokanCompleteCreate irpSp EventInfo w).info = EventInfo.Information
      ∧ (∃ t, (DokanCompleteCreate irpSp EventInfo w).w.trace
          = t ++ [Event.CompleteIrpRequest
              (completeStatus w.vcb.ReadOnly irpSp.Options EventInfo) EventInfo.Information])
      ∧ (NT_SUCCESS (completeStatus w.vcb.ReadOnly irpSp.Options EventInfo) = false →
          ((DokanCompleteCreate irpSp EventInfo w).w.fileObject.bind
            (fun f => f.FsContext2)) = none) := by
  unfold DokanCompleteCreate
  simp only [hfo, hccb, hfcb, vcb_setCcb]
  cases hs : NT_SUCCESS (completeStatus w.vcb.ReadOnly irpSp.Options EventInfo) with
  | true =>
    simp only [if_true]
    refine ⟨trivial, trivial, trivial, ⟨_, rfl⟩, ?_⟩
    intro h
    exact absurd h (by decide)
  | false =>
    simp only [Bool.false_eq_true, if_false]
    refine ⟨trivial, trivial, trivial, ⟨_, rfl⟩, ?_⟩
    intro _
    exact completeFailure_detaches _ _ _

theorem trace_schedule (w : World) (Fcb : Nat) :
    (DokanScheduleFcbForGarbageCollection w Fcb).1.trace = w.trace := by
  unfold DokanScheduleFcbForGarbageCollection
  split
  · split <;> rfl
  · rfl

/-- A release keeps the calls already in the trace. -/
theorem trace_DokanFreeFCB (w : World) (Fcb : Nat) (e : Event) (h : e ∈ w.trace) :
    e ∈ (DokanFreeFCB w Fcb).1.trace := by
  unfold DokanFreeFCB DokanLogError
  dsimp only
  repeat' split
  all_goals first
    | exact h
    | (show e ∈ w.trace ++ [_]; exact List.mem_append_left _ h)
    | (show e ∈ (DokanScheduleFcbForGarbageCollection _ Fcb).1.trace
       rw [trace_schedule]; exact h)

theorem completeFailure_removes_share (ccb fcb : Nat) (w4 : World) (s : NTSTATUS) (i : Nat) :
    Event.IoRemoveShareAccess fcb
      ∈ ((completeFailure ccb fcb w4).emit (Event.CompleteIrpRequest s i)).trace := by
  unfold completeFailure
  show _ ∈ (DokanFreeFCB _ fcb).1.trace ++ [_]
  apply List.mem_append_left
  apply trace_DokanFreeFCB
  show _ ∈ _ ++ [Event.IoRemoveShareAccess fcb]
  simp

/-- On a failure status `DokanCompleteCreate` removes the share access. -/
theorem DokanCompleteCreate_unwinds (irpSp : IO_STACK_LOCATION) (EventInfo : EVENT_INFORMATION)
    (w : World) (fo : FILE_OBJECT) (ccb fcb : Nat) (hfo : w.fileObject = some fo)
    (hccb : fo.FsContext2 = some ccb) (hfcb : (w.ccb ccb).Fcb = some fcb)
    (hs : NT_SUCCESS (completeStatus w.vcb.ReadOnly irpSp.Options EventInfo) = false) :
    Event.IoRemoveShareAccess fcb ∈ (DokanCompleteCreate irpSp EventInfo w).w.trace := by
  unfold DokanCompleteCreate
  simp only [hfo, hccb, hfcb, vcb_setCcb, hs, Bool.false_eq_true, if_false]
  exact completeFailure_removes_share _ _ _ _ _

theorem completeFlags_failure (irpSp : IO_STACK_LOCATION) (EventInfo : EVENT_INFORMATION)
    (status : NTSTATUS) (ccb fcb : Nat) (w1 : World) (hs : NT_SUCCESS status = false) :
    completeFlags irpSp EventInfo status ccb fcb w1 = w1 := by
  unfold completeFlags
  simp only [hs, Bool.false_eq_true, false_and, if_false]

/-- The unwind of `DokanCompleteCreate` clears `FsContext2` of the file object and
nothing else in it. -/
theorem completeFailure_fileObject (ccb fcb : Nat) (w4 : World) :
    (completeFailure ccb fcb w4).fileObject
      = w4.fileObject.map (fun f => { f with FsContext2 := none }) := by
  unfold completeFailure
  dsimp only
  rw [freeFCB_fileObject]
  show Option.map _ (DokanFreeCCB _ ccb).1.fileObject = _
  rw [freeCCB_fileObject, backOut_fileObject]

/-- The unwind of `DokanCompleteCreate` sets no flag of an FCB or of a CCB. -/
theorem completeFailure_flags (ccb fcb : Nat) (w4 : World) (x : Nat) :
    ((completeFailure ccb fcb w4).fcb x).Flags = (w4.fcb x).Flags
      ∧ ((completeFailure ccb fcb w4).ccb x).Flags = (w4.ccb x).Flags := by
  unfold completeFailure
  dsimp only
  constructor
  · show ((DokanFreeFCB _ fcb).1.fcb x).Flags = _
    rw [freeFCB_fcb_field (fun f => f.Flags) (fun _ _ => rfl) (fun _ => rfl)]
    show ((DokanFreeCCB _ ccb).1.fcb x).Flags = _
    rw [freeCCB_fcb_field (fun f => f.Flags) (fun _ _ => rfl), backOut_fcb]
  · show (World.ccb (DokanFreeFCB _ fcb).1 x).Flags = _
    unfold World.ccb
    rw [freeFCB_ccbs]
    show ((DokanFreeCCB _ ccb).1.ccb x).Flags = _
    rw [freeCCB_ccb_field (fun c => c.Flags) (fun _ => rfl),
      backOut_ccb_field (fun c => c.Flags) (fun _ => rfl)]
    rfl

/-! ## Claims on `DokanDispatchCreate` and `DokanCompleteCreate` -/

/-- C4: a create request that reaches the read-only test of line 770 (mounted volume,
worker attached or reserved name, a file named, relative-name and stream-name tests
passed, path buffers allocated) on a read-only volume, with disposition Supersede,
Create, Overwrite or OverwriteIf, or with delete-on-close, makes `DokanDispatchCreate`
return `STATUS_MEDIA_WRITE_PROTECTED` with the volume, every FCB (so the cache and
every count) and every CCB unchanged, no block held and no event context built; with
disposition Open or OpenIf and no delete-on-close the test lets the request through
to the acquisition of the FCB. -/
theorem C4_read_only_policy (env : Env) (o : CreateOracle) (irpSp : IO_STACK_LOCATION)
    (w : World) (fr : CreateFrame)
    (hreach : createUpToReadOnly env o irpSp w = (fr, false))
    (hro : w.vcb.ReadOnly = true) :
    ((dispositionOf irpSp.Options = FILE_SUPERSEDE ∨ dispositionOf irpSp.Options = FILE_CREATE
        ∨ dispositionOf irpSp.Options = FILE_OVERWRITE
        ∨ dispositionOf irpSp.Options = FILE_OVERWRITE_IF
        ∨ FlagOn irpSp.Options FILE_DELETE_ON_CLOSE = true) →
      (DokanDispatchCreate env o irpSp w).status = STATUS_MEDIA_WRITE_PROTECTED
        ∧ (DokanDispatchCreate env o irpSp w).w.vcb = w.vcb
        ∧ (DokanDispatchCreate env o irpSp w).w.fcbs = w.fcbs
        ∧ (DokanDispatchCreate env o irpSp w).w.ccbs = w.ccbs
        ∧ (DokanDispatchCreate env o irpSp w).fcb = none
        ∧ (DokanDispatchCreate env o irpSp w).ccb = none
        ∧ (DokanDispatchCreate env o irpSp w).eventContext = none
        ∧ (DokanDispatchCreate env o irpSp w).fault = false
        ∧ (DokanDispatchCreate env o irpSp w).w.trace
            = fr.w.trace ++ [Event.CompleteIrpRequest STATUS_MEDIA_WRITE_PROTECTED fr.info])
      ∧ ((dispositionOf irpSp.Options = FILE_OPEN ∨ dispositionOf irpSp.Options = FILE_OPEN_IF) →
          FlagOn irpSp.Options FILE_DELETE_ON_CLOSE = false →
          createUpToAcquire env o irpSp w = (fr, false)) := by
  have hl : (createUpToReadOnly env o irpSp w).2 = false := by rw [hreach]
  obtain ⟨he, ha⟩ := createUpToReadOnly_frame env o irpSp w hl
  rw [hreach] at he ha
  have he' := he
  obtain ⟨_, hv, _⟩ := he'
  have hdisp : fr.disposition = dispositionOf irpSp.Options := ha.2.2.2.1
  have hfrro : fr.w.vcb.ReadOnly = true := by rw [hv]; exact hro
  constructor
  · intro hd
    have hrej : readOnlyRejects fr.w.vcb.ReadOnly fr.disposition irpSp.Options = true := by
      unfold readOnlyRejects
      rw [hfrro, hdisp]
      rcases hd with h | h | h | h | h <;> simp [h]
    have hq : createUpToAcquire env o irpSp w
        = ({ fr with status := STATUS_MEDIA_WRITE_PROTECTED }, true) := by
      unfold createUpToAcquire
      rw [hreach, andThen_next _ _ rfl]
      unfold createReadOnly
      rw [if_pos hrej]
    unfold DokanDispatchCreate
    rw [try_of_left_at_acquire env o irpSp w _ hq]
    have hns : NT_SUCCESS STATUS_MEDIA_WRITE_PROTECTED = false := by decide
    have hfin := createFinally_early w { fr with status := STATUS_MEDIA_WRITE_PROTECTED } he
      ha.1 ha.2.1 hns
    exact hfin
  · intro hd hdoc
    have hrej : readOnlyRejects fr.w.vcb.ReadOnly fr.disposition irpSp.Options = false := by
      unfold readOnlyRejects
      rw [hfrro, hdisp, hdoc]
      rcases hd with h | h <;> rw [h] <;> decide
    unfold createUpToAcquire
    rw [hreach, andThen_next _ _ rfl]
    unfold createReadOnly
    rw [if_neg (by simp [hrej])]

/-- C4, witness: a create of `\foo` with disposition `FILE_CREATE` on a read-only
volume. -/
theorem C4_read_only_policy_witness :
    (DokanDispatchCreate sampleEnv {} sampleCreateRequest sampleReadOnlyWorld).status
        = STATUS_MEDIA_WRITE_PROTECTED
      ∧ (DokanDispatchCreate sampleEnv {} sampleCreateRequest sampleReadOnlyWorld).w.fcbs
        = sampleReadOnlyWorld.fcbs
      ∧ (DokanDispatchCreate sampleEnv {} sampleCreateRequest sampleReadOnlyWorld).eventContext
        = none :=
  have h := (C4_read_only_policy sampleEnv {} sampleCreateRequest sampleReadOnlyWorld
    (createUpToReadOnly sampleEnv {} sampleCreateRequest sampleReadOnlyWorld).1
    (by decide) (by decide)).1 (Or.inr (Or.inl (by decide)))
  ⟨h.1, h.2.2.1, h.2.2.2.2.2.2.1⟩

/-- C6: the options word of every event context that `DokanDispatchCreate` builds.
On a read-only volume, when the disposition byte of the request is OpenIf, the word
has the disposition byte Open and the same low 24 bits as the request; when the volume
is not read-only or the disposition is not OpenIf, the word is the options word of the
request. -/
theorem C6_open_if_substitution (env : Env) (o : CreateOracle) (irpSp : IO_STACK_LOCATION)
    (w : World) (ec : EVENT_CONTEXT)
    (h : (DokanDispatchCreate env o irpSp w).eventContext = some ec)
    (hnf : (DokanDispatchCreate env o irpSp w).fault = false) :
    (w.vcb.ReadOnly = true → dispositionOf irpSp.Options = FILE_OPEN_IF →
        dispositionOf ec.CreateOptions = FILE_OPEN
          ∧ ec.CreateOptions % 2 ^ 24 = irpSp.Options % 2 ^ 24)
      ∧ (¬ (w.vcb.ReadOnly = true ∧ dispositionOf irpSp.Options = FILE_OPEN_IF) →
          ec.CreateOptions = irpSp.Options) := by
  obtain ⟨flags, nb, nl, hb⟩ := dispatch_envelope env o irpSp w ec h hnf
  have ho := buildEventContext_options env irpSp _ _ flags nb nl ec hb
  constructor
  · intro hro hd
    rw [ho, hro]
    exact envelopeCreateOptions_open_if irpSp.Options hd
  · intro hn
    rw [ho]
    unfold envelopeCreateOptions
    rw [if_neg hn]

/-- C6, witness: an OpenIf request with the option bit `0x20` for `\foo` on a
read-only volume reaches the worker as an Open request with the same option bit. -/
theorem C6_open_if_substitution_witness :
    ((DokanDispatchCreate sampleEnv sampleOracle sampleOpenIfRequest
        sampleReadOnlyWorld).eventContext.getD {}).CreateOptions = 0x01000020
      ∧ dispositionOf ((DokanDispatchCreate sampleEnv sampleOracle sampleOpenIfRequest
          sampleReadOnlyWorld).eventContext.getD {}).CreateOptions = FILE_OPEN :=
  have h := (C6_open_if_substitution sampleEnv sampleOracle sampleOpenIfRequest
    sampleReadOnlyWorld
    ((DokanDispatchCreate sampleEnv sampleOracle sampleOpenIfRequest
      sampleReadOnlyWorld).eventContext.getD {})
    (by decide) (by decide)).1 (by decide) (by decide)
  ⟨by decide, h.1⟩

/-- C5: in `DokanCompleteCreate` (file object, CCB and FCB of the pending request
in place), a reply with outcome `FILE_DOES_NOT_EXIST` on a read-only volume for a
request whose disposition is OpenIf is completed with `STATUS_MEDIA_WRITE_PROTECTED`,
whatever status the worker returned, and the failure unwind runs (share access removed,
CCB detached from the file object); in every other combination of outcome, volume mode
and disposition the request is completed with the status of the worker. -/
theorem C5_complete_status_remap (irpSp : IO_STACK_LOCATION) (EventInfo : EVENT_INFORMATION)
    (w : World) (fo : FILE_OBJECT) (ccb fcb : Nat) (hfo : w.fileObject = some fo)
    (hccb : fo.FsContext2 = some ccb) (hfcb : (w.ccb ccb).Fcb = some fcb) :
    (EventInfo.Information = FILE_DOES_NOT_EXIST → w.vcb.ReadOnly = true →
        dispositionOf irpSp.Options = FILE_OPEN_IF →
        (DokanCompleteCreate irpSp EventInfo w).status = STATUS_MEDIA_WRITE_PROTECTED
          ∧ (∃ t, (DokanCompleteCreate irpSp EventInfo w).w.trace
              = t ++ [Event.CompleteIrpRequest STATUS_MEDIA_WRITE_PROTECTED
                  EventInfo.Information])
          ∧ Event.IoRemoveShareAccess fcb ∈ (DokanCompleteCreate irpSp EventInfo w).w.trace
          ∧ ((DokanCompleteCreate irpSp EventInfo w).w.fileObject.bind
              (fun f => f.FsContext2)) = none
          ∧ (DokanCompleteCreate irpSp EventInfo w).fault = false)
      ∧ (¬ (EventInfo.Information = FILE_DOES_NOT_EXIST ∧ w.vcb.ReadOnly = true
            ∧ dispositionOf irpSp.Options = FILE_OPEN_IF) →
          (DokanCompleteCreate irpSp EventInfo w).status = EventInfo.Status
            ∧ (∃ t, (DokanCompleteCreate irpSp EventInfo w).w.trace
                = t ++ [Event.CompleteIrpRequest EventInfo.Status EventInfo.Information])
            ∧ (DokanCompleteCreate irpSp EventInfo w).fault = false) := by
  obtain ⟨h1, h2, _, h4, h5⟩ := DokanCompleteCreate_status irpSp EventInfo w fo ccb fcb hfo
    hccb hfcb
  constructor
  · intro hi hro hd
    have hst := completeStatus_remap w.vcb.ReadOnly irpSp.Options EventInfo hi hro hd
    have hns : NT_SUCCESS (completeStatus w.vcb.ReadOnly irpSp.Options EventInfo) = false := by
      rw [hst]; decide
    rw [hst] at h2 h4
    exact ⟨h2, h4, DokanCompleteCreate_unwinds irpSp EventInfo w fo ccb fcb hfo hccb hfcb hns,
      h5 hns, h1⟩
  · intro hn
    have hst := completeStatus_verbatim w.vcb.ReadOnly irpSp.Options EventInfo hn
    rw [hst] at h2 h4
    exact ⟨h2, h4, h1⟩

/-- C5, witness: the worker answers "not found" to the OpenIf request for `\foo`
that is pending on a read-only volume. -/
theorem C5_complete_status_remap_witness :
    (DokanCompleteCreate sampleOpenIfRequest sampleNotFoundReply samplePendingWorld).status
        = STATUS_MEDIA_WRITE_PROTECTED
      ∧ ((DokanCompleteCreate sampleOpenIfRequest sampleNotFoundReply
          samplePendingWorld).w.fileObject.bind (fun f => f.FsContext2)) = none :=
  have h := (C5_complete_status_remap sampleOpenIfRequest sampleNotFoundReply samplePendingWorld
    (samplePendingWorld.fileObject.getD {}) 0 0 (by decide) (by decide) (by decide)).1
    (by decide) (by decide) (by decide)
  ⟨h.1, h.2.2.2.1⟩

/-- C7: a create request that is not a retry (its file object carries no CCB in
`FsContext2`), has the disposition `FILE_CREATE` and reaches the acquisition of the FCB
(line 784), for the path that is passed to `DokanGetFCB`. If the cache holds a valid block for the path with at least one
reference, `DokanDispatchCreate` returns `STATUS_OBJECT_NAME_COLLISION`, allocates no
CCB, builds no event context, and on return the count of the block is its value before
the request. If the cache holds no block for the path, the acquisition step either
continues or leaves because the allocation failed (`STATUS_INSUFFICIENT_RESOURCES`, no
block); if it holds a block with count 0, the step continues with that block. -/
theorem C7_exclusive_create (env : Env) (o : CreateOracle) (irpSp : IO_STACK_LOCATION)
    (w : World) (fr : CreateFrame) (nm : List Nat) (L : Nat)
    (hreach : createUpToAcquire env o irpSp w = (fr, false))
    (hnr : (w.fileObject.bind (fun fo => fo.FsContext2)) = none)
    (hd : dispositionOf irpSp.Options = FILE_CREATE)
    (hp : acquiredName o irpSp fr = some (nm, L)) :
    (∀ b, findFCB env w nm L (FlagOn irpSp.Flags SL_CASE_SENSITIVE) w.vcb.NextFCB = some b →
        (w.fcb b).IdentifierType = FSD_IDENTIFIER_TYPE.FCB → (w.fcb b).FileCount ≥ 1 →
        (DokanDispatchCreate env o irpSp w).status = STATUS_OBJECT_NAME_COLLISION
          ∧ (DokanDispatchCreate env o irpSp w).w.ccbs = w.ccbs
          ∧ (DokanDispatchCreate env o irpSp w).ccb = none
          ∧ (DokanDispatchCreate env o irpSp w).eventContext = none
          ∧ ((DokanDispatchCreate env o irpSp w).w.fcb b).FileCount = (w.fcb b).FileCount
          ∧ (DokanDispatchCreate env o irpSp w).fault = false)
      ∧ (findFCB env w nm L (FlagOn irpSp.Flags SL_CASE_SENSITIVE) w.vcb.NextFCB = none →
          (createAcquire env o irpSp fr).2 = false
            ∨ ((createAcquire env o irpSp fr).1.status = STATUS_INSUFFICIENT_RESOURCES
                ∧ (createAcquire env o irpSp fr).1.fcb = none))
      ∧ (∀ b, findFCB env w nm L (FlagOn irpSp.Flags SL_CASE_SENSITIVE) w.vcb.NextFCB = some b →
          (w.fcb b).FileCount = 0 →
          (createAcquire env o irpSp fr).2 = false
            ∧ (createAcquire env o irpSp fr).1.fcb = some b) := by
  have hl : (createUpToAcquire env o irpSp w).2 = false := by rw [hreach]
  obtain ⟨he, ha⟩ := createUpToAcquire_frame env o irpSp w hl
  rw [hreach] at he ha
  obtain ⟨_, e2, e3, e4, _, e6, e7, _, e9, _, _, _, e13⟩ := he
  obtain ⟨a1, a2, a3, a4, _, a6, _⟩ := ha
  dsimp only at e2 e3 e4 e6 e7 e9 e13 a1 a2 a3 a4
  obtain ⟨fr2, hacq, f1, _, f3, f4, f5, f6, f7, f8⟩ :=
    createAcquire_fresh env o irpSp fr nm L (a3 hnr) hp
  have hfind : findFCB env fr.w nm L (FlagOn irpSp.Flags SL_CASE_SENSITIVE) fr.w.vcb.NextFCB
      = findFCB env w nm L (FlagOn irpSp.Flags SL_CASE_SENSITIVE) w.vcb.NextFCB := by
    rw [e2]
    exact findFCB_fcbs env fr.w w nm L _ e3 _
  have hfcb : ∀ b, fr.w.fcb b = w.fcb b := fun b => by unfold World.fcb; rw [e3]
  refine ⟨?_, ?_, ?_⟩
  · intro b hb htag hcnt
    rw [DokanGetFCB_found env o.pool fr.w nm L _ b (hfind.trans hb)] at hacq
    have hlt : b < fr.w.fcbs.length := by rw [e3]; exact fcb_valid_lt w b htag
    have hWb : (incFileCount (DokanCancelFcbGarbageCollection fr.w b) b).fcb b
        = { w.fcb b with FileCount := (w.fcb b).FileCount + 1 } := by
      have hlt2 : b < (DokanCancelFcbGarbageCollection fr.w b).fcbs.length := hlt
      unfold incFileCount
      rw [fcb_setFcb_same _ _ _ hlt2]
      show ({ fr.w.fcb b with FileCount := (fr.w.fcb b).FileCount + 1 } : DokanFCB) = _
      rw [hfcb]
    obtain ⟨W3, hco, g1, g2, g3, g4⟩ := createAcquired_collision fr2
      (incFileCount (DokanCancelFcbGarbageCollection fr.w b) b) b
      (by rw [f8, a4, hd]) (by rw [hWb]; show (w.fcb b).FileCount + 1 > 1; omega)
    have hW3b : W3.fcb b = { w.fcb b with FileCount := (w.fcb b).FileCount + 1 } := by
      rw [← hWb]
      unfold World.fcb
      rw [g1]
    have hinst : createUpToInstance env o irpSp w
        = ({ fr2 with w := W3, fcb := some b, status := STATUS_OBJECT_NAME_COLLISION },
            true) := by
      unfold createUpToInstance
      rw [hreach, andThen_next _ _ rfl, hacq, hco]
    have hns : NT_SUCCESS STATUS_OBJECT_NAME_COLLISION = false := by decide
    have hvcb : W3.vcb.IdentifierType = FSD_IDENTIFIER_TYPE.VCB := by
      rw [g2]
      show fr.w.vcb.IdentifierType = _
      rw [e2]
      exact a6
    have hfo2 : W3.fileObject ≠ none := by
      rw [g4]
      exact a2
    obtain ⟨r1, r2, r3, r4, r5, _, r7⟩ := createFinally_release
      { fr2 with w := W3, fcb := some b, status := STATUS_OBJECT_NAME_COLLISION } b hns rfl
      (f3.trans e6) (f5.trans e9) (f4.trans e7) (f6.trans a1) hfo2 (f7.trans e13) hvcb
      (by rw [hW3b]; exact htag) (by rw [hW3b]; show (w.fcb b).FileCount + 1 ≠ 1; omega)
    unfold DokanDispatchCreate
    rw [try_of_left_at_instance env o irpSp w _ hinst]
    refine ⟨r1, ?_, r4, r3, ?_, r7⟩
    · rw [r2]
      show W3.ccbs = w.ccbs
      rw [g3]
      exact e4
    · rw [r5]
      show (W3.fcb b).FileCount - 1 = _
      rw [hW3b]
      show (w.fcb b).FileCount + 1 - 1 = _
      omega
  · intro hn
    rw [hacq]
    cases hg : (DokanGetFCB env o.pool fr.w nm L (FlagOn irpSp.Flags SL_CASE_SENSITIVE)).2 with
    | none =>
      right
      have hpair : DokanGetFCB env o.pool fr.w nm L (FlagOn irpSp.Flags SL_CASE_SENSITIVE)
          = ((DokanGetFCB env o.pool fr.w nm L (FlagOn irpSp.Flags SL_CASE_SENSITIVE)).1,
              none) := by
        rw [← hg]
      rw [hpair]
      exact ⟨rfl, rfl⟩
    | some a =>
      left
      have hpair : DokanGetFCB env o.pool fr.w nm L (FlagOn irpSp.Flags SL_CASE_SENSITIVE)
          = ((DokanGetFCB env o.pool fr.w nm L (FlagOn irpSp.Flags SL_CASE_SENSITIVE)).1,
              some a) := by
        rw [← hg]
      rw [hpair]
      exact (createAcquired_passes fr2 _ a
        (DokanGetFCB_new_count env o.pool fr.w nm L _ (hfind.trans hn) a hg)).1
  · intro b hb h0
    rw [hacq, DokanGetFCB_found env o.pool fr.w nm L _ b (hfind.trans hb)]
    apply createAcquired_passes
    refine le_trans (count_incFileCount_le _ _) ?_
    show (fr.w.fcb b).FileCount + 1 ≤ 1
    rw [hfcb, h0]
    decide

/-- C7, witness: a create of `\foo` with disposition `FILE_CREATE` while `\foo` is
open once. -/
theorem C7_exclusive_create_witness :
    (DokanDispatchCreate sampleEnv {} sampleCreateRequest sampleOpenWorld).status
        = STATUS_OBJECT_NAME_COLLISION
      ∧ ((DokanDispatchCreate sampleEnv {} sampleCreateRequest sampleOpenWorld).w.fcb 0).FileCount
        = 1 :=
  have h := (C7_exclusive_create sampleEnv {} sampleCreateRequest sampleOpenWorld
    (createUpToAcquire sampleEnv {} sampleCreateRequest sampleOpenWorld).1
    [92, 102, 111, 111, 0] 8 (by decide) (by decide) (by decide) (by decide)).1 0
    (by decide) (by decide) (by decide)
  ⟨h.1, h.2.2.2.2.1⟩

/-- C8: for every event context that `DokanDispatchCreate` builds, with an assigned
security descriptor `d` of `D > 0` bytes and an access state whose object name has `L`
bytes, a reader of the flat buffer that uses only the offsets recorded in the header
(relative to the access-state sub-structure) finds, in the context as it is when the
function returns, hence after the stores of the object-type record and of the path:
the `D` bytes of `d` at `SecurityDescriptorOffset`; at `UnicodeStringObjectNameOffset`
the two bytes of the 16-bit `Length = L`, at the inline buffer the `L` name bytes, and
after them a zero wide character. The layout places the access-state sub-structure
inside `EVENT_CONTEXT` and the pointer size is positive. -/
theorem C8_envelope_round_trip (env : Env) (o : CreateOracle) (irpSp : IO_STACK_LOCATION)
    (w : World) (ec : EVENT_CONTEXT) (a : ACCESS_STATE) (d : List Nat)
    (h : (DokanDispatchCreate env o irpSp w).eventContext = some ec)
    (hnf : (DokanDispatchCreate env o irpSp w).fault = false)
    (hp : 0 < env.sizeofPVOID) (hoff : env.offsetAccessState ≤ env.sizeofEventContext)
    (ha : irpSp.AccessState = some a)
    (hsd : assignedSecurityDescriptor o irpSp = some d) (hd : d ≠ [])
    (hb : a.ObjectName.Length ≤ a.ObjectName.Buffer.length) :
    ecLoad env ec (env.offsetAccessState + ec.SecurityDescriptorOffset) d.length = some d
      ∧ ecLoad env ec (env.offsetAccessState + ec.UnicodeStringObjectNameOffset) 2
        = some (u16le a.ObjectName.Length)
      ∧ ecLoad env ec
          (env.offsetAccessState + ec.UnicodeStringObjectNameOffset + intermediateBuffer)
          a.ObjectName.Length = some (a.ObjectName.Buffer.take a.ObjectName.Length)
      ∧ ecLoad env ec
          (env.offsetAccessState + ec.UnicodeStringObjectNameOffset + intermediateBuffer
            + a.ObjectName.Length) 2 = some [0, 0] := by
  obtain ⟨flags, nb, nl, hbuild⟩ := dispatch_envelope env o irpSp w ec h hnf
  rw [hsd] at hbuild
  exact buildEventContext_round_trip env irpSp _ d flags nb nl a ec hbuild ha hp hoff hd hb

/-- C8, witness: the OpenIf request for `\foo` with a descriptor of five bytes and the
object name `AB` (four bytes). -/
theorem C8_envelope_round_trip_witness :
    ecLoad sampleEnv
        ((DokanDispatchCreate sampleEnv sampleOracle sampleOpenIfRequest
          sampleReadOnlyWorld).eventContext.getD {})
        (48 + ((DokanDispatchCreate sampleEnv sampleOracle sampleOpenIfRequest
          sampleReadOnlyWorld).eventContext.getD {}).SecurityDescriptorOffset) 5
        = some [1, 2, 3, 4, 5]
      ∧ ecLoad sampleEnv
        ((DokanDispatchCreate sampleEnv sampleOracle sampleOpenIfRequest
          sampleReadOnlyWorld).eventContext.getD {})
        (48 + ((DokanDispatchCreate sampleEnv sampleOracle sampleOpenIfRequest
          sampleReadOnlyWorld).eventContext.getD {}).UnicodeStringObjectNameOffset + 4) 4
        = some [65, 0, 66, 0] :=
  have h := C8_envelope_round_trip sampleEnv sampleOracle sampleOpenIfRequest
    sampleReadOnlyWorld
    ((DokanDispatchCreate sampleEnv sampleOracle sampleOpenIfRequest
      sampleReadOnlyWorld).eventContext.getD {})
    { SecurityDescriptor := true, ObjectName := { Length := 4, Buffer := [65, 0, 66, 0] } }
    [1, 2, 3, 4, 5] (by decide) (by decide) (by decide) (by decide) rfl (by decide)
    (by decide) (by decide)
  ⟨h.1, h.2.2.1⟩

/-- In a cache whose list holds addresses of blocks and no two entries with the same
path (same byte length and same characters), the same holds after `DokanGetFCB` for
every path of less than 65536 bytes, every result of the pool and either case policy,
after `DokanFreeFCB` on any block and after `DokanDeleteFcb` on any block. -/
theorem cacheUnique_short_path (env : Env) (o : PoolOracle) (w : World) (FileName : List Nat)
    (L : Nat) (cs : Bool) (Fcb : Nat) (hv : w.cacheValid) (hu : w.cacheUnique) :
    (L < 65536 →
        (DokanGetFCB env o w FileName L cs).1.cacheValid
          ∧ (DokanGetFCB env o w FileName L cs).1.cacheUnique)
      ∧ ((DokanFreeFCB w Fcb).1.cacheValid ∧ (DokanFreeFCB w Fcb).1.cacheUnique)
      ∧ ((DokanDeleteFcb w Fcb).cacheValid ∧ (DokanDeleteFcb w Fcb).cacheUnique) := by
  refine ⟨fun hL => DokanGetFCB_unique env o w FileName L cs hv hu hL, ?_, ?_⟩
  · have hs := DokanFreeFCB_shrinks w Fcb hu
    exact ⟨shrinks_valid _ _ hv hs, shrinks_unique _ _ hu hs⟩
  · have hs := DokanDeleteFcb_shrinks w Fcb (cacheUnique_nodup w hu)
    exact ⟨shrinks_valid _ _ hv hs, shrinks_unique _ _ hu hs⟩

/-- Example: the cache that holds `\a`; a call for `\b` adds a second path, and the
release of `\a` keeps the paths distinct. -/
theorem cacheUnique_short_path_example :
    (DokanGetFCB sampleEnv {} sampleWorld [92, 98, 0] 4 true).1.cachedPaths
        = [(4, [92, 97]), (4, [92, 98])]
      ∧ (DokanGetFCB sampleEnv {} sampleWorld [92, 98, 0] 4 true).1.cacheUnique
      ∧ (DokanFreeFCB sampleWorld 0).1.cacheUnique :=
  have h := cacheUnique_short_path sampleEnv {} sampleWorld [92, 98, 0] 4 true 0
    (by decide) (by decide)
  ⟨by decide, (h.1 (by decide)).2, h.2.1.2⟩

/-- C13, the code at a failing reply: the worker answers "not found" to the OpenIf
request for `\foo` pending on a read-only volume. The final status is a failure, the
unwind of `DokanCompleteCreate` clears `FsContext2`, the last reference is dropped and
the FCB is deleted, but `FsContext` of the file object still points to that FCB. -/
theorem C13_complete_failure_keeps_FsContext :
    NT_SUCCESS
        (DokanCompleteCreate sampleOpenIfRequest sampleNotFoundReply samplePendingWorld).status
        = false
      ∧ ((DokanCompleteCreate sampleOpenIfRequest sampleNotFoundReply
          samplePendingWorld).w.fileObject.bind (fun f => f.FsContext2)) = none
      ∧ ((DokanCompleteCreate sampleOpenIfRequest sampleNotFoundReply
          samplePendingWorld).w.fileObject.bind (fun f => f.FsContext))
          = some (FsContextRef.FcbHeader 0)
      ∧ ((DokanCompleteCreate sampleOpenIfRequest sampleNotFoundReply
          samplePendingWorld).w.fcb 0).IdentifierType = FSD_IDENTIFIER_TYPE.FREED_FCB := by
  refine ⟨?_, ?_, ?_, ?_⟩ <;> decide

/-- C14: in `DokanCompleteCreate` (file object, CCB and FCB of the pending request in
place, at addresses of blocks). When the final status is a success, afterwards: the
directory flag of the FCB is set exactly when the request carried `FILE_DIRECTORY_FILE`,
the reply carried the directory flag, or it was set before; the CCB is flagged opened;
delete-on-close is set on the FCB and on the CCB exactly when the request carried
`FILE_DELETE_ON_CLOSE` or it was set before; the pending flag of the atomic oplock
request is clear; the CCB keeps its FCB, its link and is not freed, the count and the
CCB list of the FCB and the file object are as before. When the final status is a
failure, the flags of the FCB and of the CCB are as before. -/
theorem C14_complete_success_flags (irpSp : IO_STACK_LOCATION)
    (EventInfo : EVENT_INFORMATION) (w : World) (fo : FILE_OBJECT) (ccb fcb : Nat)
    (hfo : w.fileObject = some fo) (hccb : fo.FsContext2 = some ccb)
    (hfcb : (w.ccb ccb).Fcb = some fcb) (hc : ccb < w.ccbs.length)
    (hf : fcb < w.fcbs.length) :
    (NT_SUCCESS (DokanCompleteCreate irpSp EventInfo w).status = true →
        (((DokanCompleteCreate irpSp EventInfo w).w.fcb fcb).Flags.FILE_DIRECTORY = true ↔
            (FlagOn irpSp.Options FILE_DIRECTORY_FILE = true ∨ EventInfo.IsDirectory = true
              ∨ (w.fcb fcb).Flags.FILE_DIRECTORY = true))
          ∧ ((DokanCompleteCreate irpSp EventInfo w).w.ccb ccb).Flags.FILE_OPENED = true
          ∧ (((DokanCompleteCreate irpSp EventInfo w).w.fcb fcb).Flags.DELETE_ON_CLOSE = true ↔
              (FlagOn irpSp.Options FILE_DELETE_ON_CLOSE = true
                ∨ (w.fcb fcb).Flags.DELETE_ON_CLOSE = true))
          ∧ (((DokanCompleteCreate irpSp EventInfo w).w.ccb ccb).Flags.DELETE_ON_CLOSE = true ↔
              (FlagOn irpSp.Options FILE_DELETE_ON_CLOSE = true
                ∨ (w.ccb ccb).Flags.DELETE_ON_CLOSE = true))
          ∧ ((DokanCompleteCreate irpSp EventInfo w).w.ccb ccb).AtomicOplockRequestPending
              = false
          ∧ ((DokanCompleteCreate irpSp EventInfo w).w.ccb ccb).Fcb = some fcb
          ∧ ((DokanCompleteCreate irpSp EventInfo w).w.ccb ccb).Linked = (w.ccb ccb).Linked
          ∧ ((DokanCompleteCreate irpSp EventInfo w).w.ccb ccb).Freed = (w.ccb ccb).Freed
          ∧ ((DokanCompleteCreate irpSp EventInfo w).w.fcb fcb).FileCount
              = (w.fcb fcb).FileCount
          ∧ ((DokanCompleteCreate irpSp EventInfo w).w.fcb fcb).NextCCB = (w.fcb fcb).NextCCB
          ∧ (DokanCompleteCreate irpSp EventInfo w).w.fileObject = w.fileObject)
      ∧ (NT_SUCCESS (DokanCompleteCreate irpSp EventInfo w).status = false →
          ((DokanCompleteCreate irpSp EventInfo w).w.fcb fcb).Flags = (w.fcb fcb).Flags
            ∧ ((DokanCompleteCreate irpSp EventInfo w).w.ccb ccb).Flags
                = (w.ccb ccb).Flags) := by
  have hst := (DokanCompleteCreate_status irpSp EventInfo w fo ccb fcb hfo hccb hfcb).2.1
  rw [hst]
  unfold DokanCompleteCreate
  simp only [hfo, hccb, hfcb, vcb_setCcb]
  constructor
  · intro hs
    simp only [hs, if_true]
    unfold completeSuccess completeFlags
    simp only [hs, true_and, if_true]
    by_cases hd : FlagOn irpSp.Options FILE_DIRECTORY_FILE = true ∨ EventInfo.IsDirectory = true
    <;> by_cases hdc : FlagOn irpSp.Options FILE_DELETE_ON_CLOSE = true
    <;> by_cases hi : EventInfo.Information = FILE_CREATED
    <;> (simp [hd, hdc, hi, World.fcb, World.ccb, World.setFcb, World.setCcb, World.emit, hc, hf,
      hfo, List.getD_eq_getElem?_getD]; tauto)
  · intro hs
    simp only [hs, Bool.false_eq_true, if_false]
    rw [completeFlags_failure irpSp EventInfo _ ccb fcb _ hs]
    constructor
    · show ((completeFailure ccb fcb _).fcb fcb).Flags = _
      rw [(completeFailure_flags ccb fcb _ fcb).1]
      rfl
    · show ((completeFailure ccb fcb _).ccb ccb).Flags = _
      rw [(completeFailure_flags ccb fcb _ ccb).2, ccb_setCcb_same _ _ _ hc]

/-- C14, witness: the worker answers "opened, a directory" to the request for `\foo`
that is pending. -/
theorem C14_complete_success_flags_witness :
    ((DokanCompleteCreate sampleOpenIfRequest { Information := FILE_OPENED, IsDirectory := true }
        samplePendingWorld).w.fcb 0).Flags.FILE_DIRECTORY = true
      ∧ ((DokanCompleteCreate sampleOpenIfRequest
          { Information := FILE_OPENED, IsDirectory := true }
          samplePendingWorld).w.ccb 0).Flags.FILE_OPENED = true :=
  have h := (C14_complete_success_flags sampleOpenIfRequest
    { Information := FILE_OPENED, IsDirectory := true } samplePendingWorld
    (samplePendingWorld.fileObject.getD {}) 0 0 (by decide) (by decide) (by decide)
    (by decide) (by decide)).1 (by decide)
  ⟨h.1.mpr (Or.inr (Or.inl rfl)), h.2.1⟩

/-- C18: a create request that reaches line 683 (mounted volume, worker attached, names
of the related object copied) and is not an open of the volume with an empty name. If
alternate streams are disabled and the normalised request name contains a colon,
`DokanDispatchCreate` returns `STATUS_INVALID_PARAMETER` with information 0, and on
return there is no path buffer, FCB, CCB or event context and the volume, the FCBs, the
CCBs and the cache are as at entry. If alternate streams are enabled, the step leaves
only for a relative name that begins with a separator: the stream test rejects
nothing. -/
theorem C18_stream_name_rejection (env : Env) (o : CreateOracle) (irpSp : IO_STACK_LOCATION)
    (w : World) (fr : CreateFrame)
    (hreach : createUpToResolve env o irpSp w = (fr, false))
    (hvol : ¬ (fr.relatedFileName = none ∧ (fr.w.fileObject.getD {}).FileName.Length = 0)) :
    (w.vcb.UseAltStream = false →
        COLON ∈ (trimTrailingSeparator (fr.w.fileObject.getD {}).FileName).chars →
        (DokanDispatchCreate env o irpSp w).status = STATUS_INVALID_PARAMETER
          ∧ (DokanDispatchCreate env o irpSp w).info = 0
          ∧ (DokanDispatchCreate env o irpSp w).fileName = none
          ∧ (DokanDispatchCreate env o irpSp w).w.vcb = w.vcb
          ∧ (DokanDispatchCreate env o irpSp w).w.fcbs = w.fcbs
          ∧ (DokanDispatchCreate env o irpSp w).w.ccbs = w.ccbs
          ∧ (DokanDispatchCreate env o irpSp w).fcb = none
          ∧ (DokanDispatchCreate env o irpSp w).ccb = none
          ∧ (DokanDispatchCreate env o irpSp w).eventContext = none
          ∧ (DokanDispatchCreate env o irpSp w).fault = false)
      ∧ (w.vcb.UseAltStream = true →
          ¬ (fr.relatedFileName ≠ none
            ∧ (trimTrailingSeparator (fr.w.fileObject.getD {}).FileName).Length > 0
            ∧ (trimTrailingSeparator (fr.w.fileObject.getD {}).FileName).cell 0 = BACKSLASH) →
          (createResolve irpSp fr).2 = false) := by
  have hl : (createUpToResolve env o irpSp w).2 = false := by rw [hreach]
  obtain ⟨he, ha, hinfo, hfn⟩ := createUpToResolve_frame env o irpSp w hl
  rw [hreach] at he ha hinfo hfn
  dsimp only at hinfo hfn
  have hvcb : fr.w.vcb = w.vcb := he.2.1
  constructor
  · intro hua hcolon
    obtain ⟨r1, r2, r3, r4⟩ := createResolve_stream irpSp fr hvol (by rw [hvcb]; exact hua)
      (DokanStringChar_of_mem _ COLON hcolon)
    have he2 := createResolve_early irpSp w fr he
    have ha2 := createResolve_arrived w irpSp fr ha
    have hleft : createUpToBuildName env o irpSp w = ((createResolve irpSp fr).1, true) := by
      rw [createUpToBuildName_eq, hreach, andThen_next _ _ rfl, ← r1]
    have hns : NT_SUCCESS (createResolve irpSp fr).1.status = false := by
      rw [r2]
      decide
    obtain ⟨f1, f2, f3, f4, f5, f6, f7, f8, _⟩ := createFinally_early w _ he2 ha2.1 ha2.2.1 hns
    obtain ⟨g1, g2, g3, _⟩ := createFinally_fields (createResolve irpSp fr).1
    unfold DokanDispatchCreate
    rw [try_of_left_at_buildName env o irpSp w _ hleft]
    refine ⟨f1.trans r2, ?_, ?_, f2, f3, f4, f5, f6, f7, f8⟩
    · rw [g2]
      rcases r3 with h | h
      · exact h
      · rw [h, hinfo]
    · rw [g3, r4, hfn]
  · intro hua hrelname
    exact createResolve_streams_enabled irpSp fr hvol (by rw [hvcb]; exact hua) hrelname

/-- C18, witness: a create of `\a:b` on a volume with alternate streams disabled. -/
theorem C18_stream_name_rejection_witness :
    (DokanDispatchCreate sampleEnv {} sampleCreateRequest sampleStreamWorld).status
        = STATUS_INVALID_PARAMETER
      ∧ (DokanDispatchCreate sampleEnv {} sampleCreateRequest sampleStreamWorld).info = 0
      ∧ (DokanDispatchCreate sampleEnv {} sampleCreateRequest sampleStreamWorld).fileName
        = none :=
  have h := (C18_stream_name_rejection sampleEnv {} sampleCreateRequest sampleStreamWorld
    (createUpToResolve sampleEnv {} sampleCreateRequest sampleStreamWorld).1
    (by decide) (by decide)).1 (by decide) (by decide)
  ⟨h.1, h.2.1, h.2.2.1⟩

/-- C17: a create request relative to a related file object whose FCB caches the path
`R` (not empty, within its buffer), in a run that builds the path buffer (reaches line
770). `N` is the request name as normalised by lines 637 to 702, which the file object
holds afterwards. Except when `R` is the root and `N` begins with a colon, the path
buffer holds `R`, `N` and a terminator, with one separator between them exactly when `N`
is not empty, `R` does not end in a separator and `N` does not begin with a colon; the
length `fileNameLength` is the byte length of that path, and `N` does not begin with a
separator. -/
theorem C17_relative_path_concatenation (env : Env) (o : CreateOracle)
    (irpSp : IO_STACK_LOCATION) (w : World) (fr : CreateFrame) (fo : FILE_OBJECT)
    (rfo : RELATED_FILE_OBJECT) (rc rf : Nat) (R N : List Nat)
    (hreach : createUpToReadOnly env o irpSp w = (fr, false))
    (hfo : w.fileObject = some fo) (hrfo : fo.RelatedFileObject = some rfo)
    (hrc : rfo.FsContext2 = some rc) (hrf : (w.ccb rc).Fcb = some rf)
    (hR : (w.fcb rf).FileName.chars = R) (hRl : (w.fcb rf).FileName.Length = 2 * R.length)
    (hRm : (w.fcb rf).FileName.Length ≤ (w.fcb rf).FileName.MaximumLength) (hR0 : R ≠ [])
    (hN : (fr.w.fileObject.getD {}).FileName.chars = N)
    (hNl : (fr.w.fileObject.getD {}).FileName.Length = 2 * N.length)
    (hex : ¬ (R = [BACKSLASH] ∧ N.head? = some COLON)) :
    fr.fileName = some (specResolvedPath R N ++ [0])
      ∧ fr.fileNameLength = 2 * (specResolvedPath R N).length
      ∧ N.head? ≠ some BACKSLASH := by
  have hRpos : 0 < R.length := List.length_pos.mpr hR0
  have hbuf : (w.fcb rf).FileName.Buffer ≠ none := by
    intro hb
    unfold UNICODE_STRING.chars at hR
    rw [hb] at hR
    simp at hR
    exact hR0 hR
  have hl : (createUpToReadOnly env o irpSp w).2 = false := by rw [hreach]
  unfold createUpToReadOnly at hl hreach
  obtain ⟨hlB, eB⟩ := andThen_continues _ _ hl
  rw [createUpToBuildName_eq] at hlB eB hreach hl
  obtain ⟨hlR, eR⟩ := andThen_continues _ _ hlB
  have h0 : createUpToResolve env o irpSp w
      = ((createUpToResolve env o irpSp w).1, false) := Prod.ext rfl hlR
  obtain ⟨q1, q2, q3⟩ := createUpToResolve_related env o irpSp w _ fo rfo rc rf h0 hfo hrfo
    hrc hrf (by omega) hbuf
  rw [eR] at hlB eB hreach hl
  obtain ⟨c1, c2, c3⟩ := RtlUnicodeStringCopy_fits _ _ hRm
  rw [hRl] at c1
  rw [hR] at c2 c3
  obtain ⟨p1, p2, p3, p4, p5, p6⟩ := createResolve_related irpSp _ _ q1 q2 q3 hlB
  have hlbn : (createBuildName o (createResolve irpSp (createUpToResolve env o irpSp w).1).1).2
      = false := by
    rw [← eB]
    exact hl
  obtain ⟨fileName, hb, hfr⟩ := createBuildName_continues o _ hlbn
  have efr : fr = (createBuildName o
      (createResolve irpSp (createUpToResolve env o irpSp w).1).1).1 := by
    rw [eB] at hreach
    exact (congrArg Prod.fst hreach).symm
  rw [hfr] at efr
  subst efr
  dsimp only at hN hNl ⊢
  rw [p2, Option.getD_some] at hN hNl hb
  dsimp only at hN hNl hb
  rw [p1] at hb
  rw [c1, c3, hNl] at p3 p4
  rw [c1, hNl] at p5
  have hdivR : 2 * R.length / 2 = R.length := by omega
  rw [hdivR] at p3 p4
  have hNhead : N ≠ [] →
      N.head? = some ((trimTrailingSeparator
        ((createUpToResolve env o irpSp w).1.w.fileObject.getD {}).FileName).cell 0) := by
    intro hne
    rw [← hN] at hne ⊢
    exact chars_head _ hne
  have hNpos : 2 * N.length > 0 ↔ N ≠ [] := by
    constructor
    · intro h hn
      rw [hn] at h
      simp at h
    · intro h
      have := List.length_pos.mpr h
      omega
  have hads : (createResolve irpSp
      (createUpToResolve env o irpSp w).1).1.alternateDataStreamOfRootDir = false := by
    cases hv : (createResolve irpSp
      (createUpToResolve env o irpSp w).1).1.alternateDataStreamOfRootDir with
    | false => rfl
    | true =>
      exfalso
      obtain ⟨a1, a2, a3, a4⟩ := p4.mp hv
      apply hex
      constructor
      · match R, a1, a3 with
        | [x], _, a3 =>
          have : x = BACKSLASH := a3
          rw [this]
      · rw [hNhead (hNpos.mp a2), a4]
  have hneed : (createResolve irpSp
      (createUpToResolve env o irpSp w).1).1.needBackSlashAfterRelatedFile = true ↔
      (N ≠ [] ∧ R.getLast? ≠ some BACKSLASH ∧ N.head? ≠ some COLON) := by
    rw [p3, getLast_getD R hR0]
    constructor
    · rintro ⟨_, a2, a3, a4⟩
      have hne := hNpos.mp a2
      refine ⟨hne, fun h => a3 (Option.some.inj h), ?_⟩
      rw [hNhead hne]
      exact fun h => a4 (Option.some.inj h)
    · rintro ⟨b1, b2, b3⟩
      refine ⟨by omega, hNpos.mpr b1, fun h => b2 (by rw [h]), ?_⟩
      intro h
      apply b3
      rw [hNhead b1, h]
  have hback : N.head? ≠ some BACKSLASH := by
    intro h
    have hne : N ≠ [] := by
      intro hn
      rw [hn] at h
      exact Option.noConfusion h
    apply p6
    rw [hNl]
    refine ⟨hNpos.mpr hne, ?_⟩
    have e := hNhead hne
    rw [h] at e
    exact (Option.some.inj e).symm
  rw [hads] at hb
  generalize (createResolve irpSp
    (createUpToResolve env o irpSp w).1).1.needBackSlashAfterRelatedFile = need at p5 hneed hb
  have hspec : specResolvedPath R N
      = R ++ (if need = true then [BACKSLASH] else []) ++ N := by
    unfold specResolvedPath
    by_cases hn : need = true
    · rw [if_pos (hneed.mp hn), if_pos hn]
    · rw [if_neg (fun h => hn (hneed.mpr h)), if_neg hn]
      simp
  have hcount : ((createResolve irpSp (createUpToResolve env o irpSp w).1).1.fileNameLength + 2)
      / 2 = R.length + (if need = true then 1 else 0) + N.length + 1 := by
    rw [p5]
    split <;> omega
  rw [hcount, buildFileName_concat R N _ _ need c2 c1 hN] at hb
  refine ⟨?_, ?_, hback⟩
  · rw [hspec]
    exact hb.symm
  · rw [p5, hspec]
    split
    · simp
      omega
    · simp
      omega

/-- C17, witness: the name `foo` relative to the open directory `\dir` resolves to
`\dir\foo`, of 16 bytes. -/
theorem C17_relative_path_concatenation_witness :
    (createUpToReadOnly sampleEnv {} sampleCreateRequest sampleRelativeWorld).1.fileName
        = some [92, 100, 105, 114, 92, 102, 111, 111, 0]
      ∧ (createUpToReadOnly sampleEnv {} sampleCreateRequest
          sampleRelativeWorld).1.fileNameLength = 16 :=
  have h := C17_relative_path_concatenation sampleEnv {} sampleCreateRequest
    sampleRelativeWorld
    (createUpToReadOnly sampleEnv {} sampleCreateRequest sampleRelativeWorld).1
    (sampleRelativeWorld.fileObject.getD {}) { FsContext2 := some 0 } 0 0
    [92, 100, 105, 114] [102, 111, 111]
    (by decide) (by decide) (by decide) (by decide) (by decide) (by decide) (by decide)
    (by decide) (by decide) (by decide) (by decide) (by decide)
  ⟨h.1, h.2.1⟩

/-- C19, counterexample: a request with the disposition `FILE_OPEN` that carries both
`FILE_DIRECTORY_FILE` and `FILE_ATTRIBUTE_TEMPORARY`, for the open file `\foo`, reaches
the test of line 832 and is not rejected: `DokanDispatchCreate` registers it and
returns `STATUS_PENDING`. -/
theorem C19_directory_temporary_counterexample :
    FlagOn sampleOpenDirectoryRequest.Options FILE_DIRECTORY_FILE = true
      ∧ FlagOn sampleOpenDirectoryRequest.FileAttributes FILE_ATTRIBUTE_TEMPORARY = true
      ∧ (createUpToInstance sampleEnv sampleOracle sampleOpenDirectoryRequest
          sampleOpenWorld).2 = false
      ∧ (DokanDispatchCreate sampleEnv sampleOracle sampleOpenDirectoryRequest
          sampleOpenWorld).status = STATUS_PENDING
      ∧ (DokanDispatchCreate sampleEnv sampleOracle sampleOpenDirectoryRequest
          sampleOpenWorld).status ≠ STATUS_INVALID_PARAMETER := by
  decide

/-- C19, amended: a first dispatch (the file object carries no CCB) on a cache of
tagged blocks that reaches the test of line 832 with both `FILE_DIRECTORY_FILE` and
`FILE_ATTRIBUTE_TEMPORARY`, and whose disposition is `FILE_CREATE` or `FILE_OPEN_IF`, is
rejected by `DokanDispatchCreate` with `STATUS_INVALID_PARAMETER`. On return the block
acquired for the request has the count it had at entry, the frame holds no CCB and no
event context, the CCBs are those at entry, and the calls made are log entries and the
completion of the request. -/
theorem C19_directory_temporary (env : Env) (o : CreateOracle) (irpSp : IO_STACK_LOCATION)
    (w : World) (fr : CreateFrame)
    (hreach : createUpToInstance env o irpSp w = (fr, false))
    (hnr : (w.fileObject.bind (fun fo => fo.FsContext2)) = none) (ht : w.cacheTagged)
    (hdir : FlagOn irpSp.Options FILE_DIRECTORY_FILE = true)
    (htmp : FlagOn irpSp.FileAttributes FILE_ATTRIBUTE_TEMPORARY = true)
    (hd : dispositionOf irpSp.Options = FILE_CREATE
      ∨ dispositionOf irpSp.Options = FILE_OPEN_IF) :
    (DokanDispatchCreate env o irpSp w).status = STATUS_INVALID_PARAMETER
      ∧ ∃ b, (DokanDispatchCreate env o irpSp w).fcb = some b
        ∧ ((DokanDispatchCreate env o irpSp w).w.fcb b).FileCount = (w.fcb b).FileCount
        ∧ (DokanDispatchCreate env o irpSp w).ccb = none
        ∧ (DokanDispatchCreate env o irpSp w).w.ccbs = w.ccbs
        ∧ (DokanDispatchCreate env o irpSp w).eventContext = none
        ∧ ∀ e ∈ callsSince w (DokanDispatchCreate env o irpSp w).w,
            e.isLog = true
              ∨ e = Event.CompleteIrpRequest STATUS_INVALID_PARAMETER
                  (DokanDispatchCreate env o irpSp w).info := by
  have hl : (createUpToInstance env o irpSp w).2 = false := by rw [hreach]
  have hl0 : (createUpToAcquire env o irpSp w).2 = false := by
    unfold createUpToInstance at hl
    exact (andThen_continues _ _ hl).1
  obtain ⟨_, ha⟩ := createUpToAcquire_frame env o irpSp w hl0
  obtain ⟨_, _, a3, a4, _, _, _⟩ := ha
  have hdisp : fr.disposition = dispositionOf irpSp.Options := by
    have e : fr = (createUpToInstance env o irpSp w).1 := by rw [hreach]
    rw [e]
    unfold createUpToInstance
    rw [andThen_next _ _ hl0, createAcquire_disposition]
    exact a4
  obtain ⟨b, hb⟩ : ∃ b, fr.fcb = some b := by
    have e : fr = (createUpToInstance env o irpSp w).1 := by rw [hreach]
    rw [e]
    unfold createUpToInstance at hl ⊢
    rw [andThen_next _ _ hl0] at hl ⊢
    exact createAcquire_continues env o irpSp _ (a3 hnr) hl
  have hheld : FreshHeld w b fr := by
    have h := createUpToInstance_held env o irpSp w b hnr ht (by rw [hreach]; exact hb)
    rw [hreach] at h
    exact h
  have hinst : createInstance o irpSp fr
      = ({ fr with status := STATUS_INVALID_PARAMETER }, true) := by
    unfold createInstance
    rw [if_pos]
    refine ⟨hdir, htmp, ?_⟩
    rw [hdisp]
    rcases hd with h | h
    · exact Or.inl h.symm
    · exact Or.inr h.symm
  have htry : DokanDispatchCreateTry env o irpSp w
      = { fr with status := STATUS_INVALID_PARAMETER } := by
    apply try_of_left_at_envelope
    unfold createUpToEnvelope
    rw [hreach, andThen_next _ _ rfl, hinst]
  have hheld2 : FreshHeld w b { fr with status := STATUS_INVALID_PARAMETER } := hheld
  obtain ⟨r1, r2, _, _, r5⟩ := createFinally_fresh w b _ hheld2
    (show NT_SUCCESS STATUS_INVALID_PARAMETER = false by decide)
  obtain ⟨s1, s2, _, s4, s5, s6, s7⟩ :=
    createFinally_fields { fr with status := STATUS_INVALID_PARAMETER }
  obtain ⟨_, f1, _, _, _, f5, _, _, fx⟩ := hheld
  unfold DokanDispatchCreate
  rw [htry]
  refine ⟨s1, b, s4.trans hb, r1, s5.trans f1, r2, s7.trans f5, ?_⟩
  obtain ⟨t, et, pt⟩ := fx
  intro e he
  unfold callsSince at he
  rw [r5] at he
  have et2 : fr.w.trace ++ [Event.CompleteIrpRequest STATUS_INVALID_PARAMETER fr.info]
      = w.trace ++ (t ++ [Event.CompleteIrpRequest STATUS_INVALID_PARAMETER fr.info]) := by
    rw [et, List.append_assoc]
  have he2 : e ∈ t ++ [Event.CompleteIrpRequest STATUS_INVALID_PARAMETER fr.info] := by
    have h := he
    change e ∈ List.drop w.trace.length
      (fr.w.trace ++ [Event.CompleteIrpRequest STATUS_INVALID_PARAMETER fr.info]) at h
    rw [et2, List.drop_left] at h
    exact h
  rcases List.mem_append.mp he2 with h | h
  · exact Or.inl (pt e h)
  · right
    rw [s2]
    simpa using h

/-- C19, witness: a request with the disposition `FILE_OPEN_IF` that carries both
`FILE_DIRECTORY_FILE` and `FILE_ATTRIBUTE_TEMPORARY`, for the open file `\foo`. -/
theorem C19_directory_temporary_witness :
    (DokanDispatchCreate sampleEnv sampleOracle sampleOpenIfDirectoryRequest
        sampleOpenWorld).status = STATUS_INVALID_PARAMETER
      ∧ ((DokanDispatchCreate sampleEnv sampleOracle sampleOpenIfDirectoryRequest
          sampleOpenWorld).w.fcb 0).FileCount = 1 :=
  have h := C19_directory_temporary sampleEnv sampleOracle sampleOpenIfDirectoryRequest
    sampleOpenWorld
    (createUpToInstance sampleEnv sampleOracle sampleOpenIfDirectoryRequest sampleOpenWorld).1
    (by decide) (by decide) (by decide) (by decide) (by decide) (by decide)
  ⟨h.1, by decide⟩

/-- C15: a create that reaches the share access check of line 1123 on a block that
holds more than one reference after the acquisition, for which `DokanCheckShareAccess`
returns `STATUS_SHARING_VIOLATION` while the request carries
`FILE_COMPLETE_IF_OPLOCKED`: `DokanDispatchCreate` returns `STATUS_SHARING_VIOLATION`, a
failure status, and among the calls of the dispatch there is no request of an oplock
break, no `IoUpdateShareAccess` or `IoSetShareAccess`, and no `DokanRegisterPendingIrp`;
the event context is not consumed by a registration. -/
theorem C15_complete_if_oplocked (env : Env) (o : CreateOracle) (irpSp : IO_STACK_LOCATION)
    (w : World) (fr : CreateFrame) (b : Nat) (ec : EVENT_CONTEXT)
    (hreach : createUpToShare env o irpSp w = (fr, false))
    (hfcb : fr.fcb = some b) (hec : fr.eventContext = some ec)
    (hcount : (fr.w.fcb b).FileCount > 1)
    (hsv : DokanCheckShareAccess (fr.w.fcb b) ec.DesiredAccess ec.ShareAccess
      o.userWritableReferences o.ioCheckShareAccess1 = STATUS_SHARING_VIOLATION)
    (hopt : FlagOn irpSp.Options FILE_COMPLETE_IF_OPLOCKED = true) :
    (DokanDispatchCreate env o irpSp w).status = STATUS_SHARING_VIOLATION
      ∧ NT_SUCCESS (DokanDispatchCreate env o irpSp w).status = false
      ∧ (∀ e ∈ callsSince w (DokanDispatchCreate env o irpSp w).w,
          e.isOplockBreak = false ∧ e.isShareGrant = false
            ∧ e ≠ Event.RegisterPendingIrp) := by
  have hshare := createShare_terminal o irpSp fr b ec STATUS_SHARING_VIOLATION hfcb hec hcount
    hsv (by decide) (Or.inr hopt)
  obtain ⟨r1, _, r3⟩ := dispatch_terminal_share env o irpSp w fr _ hreach hshare
  refine ⟨r1, ?_, r3⟩
  rw [r1]
  decide

/-- C15, witness: an open of `\foo` with `FILE_COMPLETE_IF_OPLOCKED` while `\foo` is
open once and `IoCheckShareAccess` reports a sharing violation. -/
theorem C15_complete_if_oplocked_witness :
    (DokanDispatchCreate sampleEnv sampleViolationOracle sampleCompleteIfOplockedRequest
        sampleOpenWorld).status = STATUS_SHARING_VIOLATION
      ∧ ∀ e ∈ callsSince sampleOpenWorld
          (DokanDispatchCreate sampleEnv sampleViolationOracle sampleCompleteIfOplockedRequest
            sampleOpenWorld).w,
          e.isOplockBreak = false ∧ e.isShareGrant = false
            ∧ e ≠ Event.RegisterPendingIrp :=
  have h := C15_complete_if_oplocked sampleEnv sampleViolationOracle
    sampleCompleteIfOplockedRequest sampleOpenWorld
    (createUpToShare sampleEnv sampleViolationOracle sampleCompleteIfOplockedRequest
      sampleOpenWorld).1 0
    ((createUpToShare sampleEnv sampleViolationOracle sampleCompleteIfOplockedRequest
      sampleOpenWorld).1.eventContext.getD {})
    (by decide) (by decide) (by decide) (by decide) (by decide) (by decide)
  ⟨h.1, h.2.2⟩

/-- C16, counterexample: for a block with the FCB tag and the delete-on-close flag and
a request without `FILE_SHARE_DELETE`, `DokanCheckShareAccess` returns
`STATUS_DELETE_PENDING`, which is not `STATUS_ACCESS_DENIED`. -/
theorem C16_delete_pending_counterexample :
    DokanCheckShareAccess
        { IdentifierType := FSD_IDENTIFIER_TYPE.FCB, Flags := { DELETE_ON_CLOSE := true } }
        FILE_READ_DATA (FILE_SHARE_READ ||| FILE_SHARE_WRITE) false STATUS_SUCCESS
      = STATUS_DELETE_PENDING
    ∧ DokanCheckShareAccess
        { IdentifierType := FSD_IDENTIFIER_TYPE.FCB, Flags := { DELETE_ON_CLOSE := true } }
        FILE_READ_DATA (FILE_SHARE_READ ||| FILE_SHARE_WRITE) false STATUS_SUCCESS
      ≠ STATUS_ACCESS_DENIED := by
  decide

/-- C16, amended: for every block with the FCB tag whose delete-on-close flag is set
and every request without `FILE_SHARE_DELETE`, `DokanCheckShareAccess` returns
`STATUS_DELETE_PENDING`, whatever the desired access, the writable-mapping state and
the result of `IoCheckShareAccess`. A create that reaches the share access check of
line 1123 on such a block, which holds more than one reference after the acquisition,
is failed by `DokanDispatchCreate` with `STATUS_DELETE_PENDING`, and among the calls of
the dispatch there is no request of an oplock break. -/
theorem C16_delete_pending_share_rule (env : Env) (o : CreateOracle)
    (irpSp : IO_STACK_LOCATION) (w : World) (fr : CreateFrame) (b : Nat) (ec : EVENT_CONTEXT)
    (hreach : createUpToShare env o irpSp w = (fr, false))
    (hfcb : fr.fcb = some b) (hec : fr.eventContext = some ec)
    (hcount : (fr.w.fcb b).FileCount > 1)
    (htag : (fr.w.fcb b).IdentifierType = FSD_IDENTIFIER_TYPE.FCB)
    (hdoc : (fr.w.fcb b).Flags.DELETE_ON_CLOSE = true)
    (hsd : FlagOn ec.ShareAccess FILE_SHARE_DELETE = false) :
    (∀ (F : DokanFCB) (DesiredAccess ShareAccess : Nat) (userWritableReferences : Bool)
        (ioCheck : NTSTATUS), F.IdentifierType = FSD_IDENTIFIER_TYPE.FCB →
        F.Flags.DELETE_ON_CLOSE = true → FlagOn ShareAccess FILE_SHARE_DELETE = false →
        DokanCheckShareAccess F DesiredAccess ShareAccess userWritableReferences ioCheck
          = STATUS_DELETE_PENDING)
      ∧ (DokanDispatchCreate env o irpSp w).status = STATUS_DELETE_PENDING
      ∧ NT_SUCCESS (DokanDispatchCreate env o irpSp w).status = false
      ∧ (∀ e ∈ callsSince w (DokanDispatchCreate env o irpSp w).w,
          e.isOplockBreak = false) := by
  have hrule : ∀ (F : DokanFCB) (DesiredAccess ShareAccess : Nat)
      (userWritableReferences : Bool) (ioCheck : NTSTATUS),
      F.IdentifierType = FSD_IDENTIFIER_TYPE.FCB →
      F.Flags.DELETE_ON_CLOSE = true → FlagOn ShareAccess FILE_SHARE_DELETE = false →
      DokanCheckShareAccess F DesiredAccess ShareAccess userWritableReferences ioCheck
        = STATUS_DELETE_PENDING := by
    intro F DA SA u io h1 h2 h3
    unfold DokanCheckShareAccess
    rw [if_pos ⟨h1, h3, h2⟩]
  have hshare := createShare_terminal o irpSp fr b ec STATUS_DELETE_PENDING hfcb hec hcount
    (hrule _ _ _ _ _ htag hdoc hsd) (by decide) (Or.inl (by decide))
  obtain ⟨r1, _, r3⟩ := dispatch_terminal_share env o irpSp w fr _ hreach hshare
  refine ⟨hrule, r1, ?_, fun e he => (r3 e he).1⟩
  rw [r1]
  decide

/-- C16, witness: an open of `\foo` without `FILE_SHARE_DELETE` while `\foo` is open
once and marked delete-on-close. -/
theorem C16_delete_pending_share_rule_witness :
    (DokanDispatchCreate sampleEnv sampleOracle sampleOpenRequest
        sampleDeletePendingWorld).status = STATUS_DELETE_PENDING :=
  (C16_delete_pending_share_rule sampleEnv sampleOracle sampleOpenRequest
    sampleDeletePendingWorld
    (createUpToShare sampleEnv sampleOracle sampleOpenRequest sampleDeletePendingWorld).1 0
    ((createUpToShare sampleEnv sampleOracle sampleOpenRequest
      sampleDeletePendingWorld).1.eventContext.getD {})
    (by decide) (by decide) (by decide) (by decide) (by decide) (by decide) (by decide)).2.1

/-- C20, failing input: an open of `\foo` while `\foo` is open once. When
`IoCheckShareAccess` reports a sharing violation and `FsRtlOplockBreakH` returns
`STATUS_PENDING` (line 1174), and likewise when `FsRtlCheckOplock` returns
`STATUS_PENDING` (line 1274), `DokanDispatchCreate` returns `STATUS_PENDING` with an
event context that was allocated once and has no consumer: it is neither handed to
`DokanRegisterPendingIrp` nor freed. -/
theorem C20_pending_exit_leaks_envelope :
    ((DokanDispatchCreate sampleEnv samplePendingBreakOracle sampleOpenRequest
          sampleOpenWorld).status = STATUS_PENDING
      ∧ (DokanDispatchCreate sampleEnv samplePendingBreakOracle sampleOpenRequest
          sampleOpenWorld).eventContext.isSome = true
      ∧ (DokanDispatchCreate sampleEnv samplePendingBreakOracle sampleOpenRequest
          sampleOpenWorld).EventContextConsumed = false
      ∧ (callsSince sampleOpenWorld
          (DokanDispatchCreate sampleEnv samplePendingBreakOracle sampleOpenRequest
            sampleOpenWorld).w).countP Event.isEnvelopeAllocation = 1
      ∧ (callsSince sampleOpenWorld
          (DokanDispatchCreate sampleEnv samplePendingBreakOracle sampleOpenRequest
            sampleOpenWorld).w).countP Event.isEnvelopeConsumer = 0)
    ∧ ((DokanDispatchCreate sampleEnv samplePendingCheckOracle sampleOpenRequest
          sampleOpenWorld).status = STATUS_PENDING
      ∧ (DokanDispatchCreate sampleEnv samplePendingCheckOracle sampleOpenRequest
          sampleOpenWorld).eventContext.isSome = true
      ∧ (DokanDispatchCreate sampleEnv samplePendingCheckOracle sampleOpenRequest
          sampleOpenWorld).EventContextConsumed = false
      ∧ (callsSince sampleOpenWorld
          (DokanDispatchCreate sampleEnv samplePendingCheckOracle sampleOpenRequest
            sampleOpenWorld).w).countP Event.isEnvelopeAllocation = 1
      ∧ (callsSince sampleOpenWorld
          (DokanDispatchCreate sampleEnv samplePendingCheckOracle sampleOpenRequest
            sampleOpenWorld).w).countP Event.isEnvelopeConsumer = 0) := by
  decide

/-- A dispatch in which `DokanDispatchCreate` holds the block `b` and returns a failure
status. The dispatch is either a first dispatch (`FsContext2` of the file object is null
at entry), on a cache of tagged blocks where the CCBs listed in `b` are allocated
blocks, or a retry (`FsContext2` is a linked CCB with the CCB tag and
`DOKAN_RETRY_CREATE`, listed once in the valid block `b`). On return the count of `b`
is the count at entry on a first dispatch and one less on a retry, whose reference
was taken by the first dispatch; the CCB of the request is not in the list of CCBs of
`b`; among the calls of the dispatch, those that record a share access
(`IoSetShareAccess`, `IoUpdateShareAccess`) are as many as the calls of
`IoRemoveShareAccess`; the CCB of the request has no atomic oplock request pending,
and if one was pending at the end of the `__try` block the oplock was backed out;
`FsContext` and `FsContext2` of the file object are null. -/
theorem dispatch_failure_unwind (env : Env) (o : CreateOracle) (irpSp : IO_STACK_LOCATION)
    (w : World) (b : Nat)
    (hfirst : (w.fileObject.bind (fun fo => fo.FsContext2)) = none →
      w.cacheTagged ∧ ∀ c ∈ (w.fcb b).NextCCB, c < w.ccbs.length)
    (hretry : ∀ c, (w.fileObject.bind (fun fo => fo.FsContext2)) = some c →
      (w.ccb c).IdentifierType = FSD_IDENTIFIER_TYPE.CCB
        ∧ (w.ccb c).Flags.RETRY_CREATE = true ∧ (w.ccb c).Linked = true
        ∧ (w.fcb b).IdentifierType = FSD_IDENTIFIER_TYPE.FCB
        ∧ c ∉ (w.fcb b).NextCCB.erase c)
    (hb : (DokanDispatchCreate env o irpSp w).fcb = some b)
    (hfail : NT_SUCCESS (DokanDispatchCreate env o irpSp w).status = false) :
    ((DokanDispatchCreate env o irpSp w).w.fcb b).FileCount
        = (w.fcb b).FileCount
          - (if (w.fileObject.bind (fun fo => fo.FsContext2)) = none then 0 else 1)
      ∧ (∀ c, (DokanDispatchCreate env o irpSp w).ccb = some c →
          c ∉ ((DokanDispatchCreate env o irpSp w).w.fcb b).NextCCB)
      ∧ (callsSince w (DokanDispatchCreate env o irpSp w).w).countP Event.isShareGrant
          = (callsSince w (DokanDispatchCreate env o irpSp w).w).countP Event.isShareRemoval
      ∧ (∀ c, (DokanDispatchCreate env o irpSp w).ccb = some c →
          ((DokanDispatchCreate env o irpSp w).w.ccb c).AtomicOplockRequestPending = false
            ∧ (((DokanDispatchCreateTry env o irpSp w).w.ccb c).AtomicOplockRequestPending
                  = true →
                Event.BackOutAtomicOplock b
                  ∈ callsSince w (DokanDispatchCreate env o irpSp w).w))
      ∧ ((DokanDispatchCreate env o irpSp w).w.fileObject.bind (fun fo => fo.FsContext))
          = none
      ∧ ((DokanDispatchCreate env o irpSp w).w.fileObject.bind (fun fo => fo.FsContext2))
          = none
      ∧ (DokanDispatchCreate env o irpSp w).w.fileObject ≠ none := by
  unfold DokanDispatchCreate at hb hfail ⊢
  obtain ⟨s1, _, _, s4, s5, _, _⟩ := createFinally_fields (DokanDispatchCreateTry env o irpSp w)
  rw [s4] at hb
  rw [s1] at hfail
  rw [s5]
  cases hc2 : w.fileObject.bind (fun fo => fo.FsContext2) with
  | none =>
    obtain ⟨ht, hwf⟩ := hfirst hc2
    obtain ⟨r1, r2⟩ := createFinally_held w b 1 _ (try_held env o irpSp w b hc2 ht hwf hb) hfail
    refine ⟨?_, r2⟩
    rw [r1, if_pos rfl]
    omega
  | some c =>
    obtain ⟨g1, g2, g3, g4, g5⟩ := hretry c hc2
    obtain ⟨r1, r2⟩ := createFinally_held w b 0 _
      (try_held_retry env o irpSp w b c hc2 g1 g2 g3 g4 g5 hb) hfail
    refine ⟨?_, r2⟩
    rw [r1, if_neg (fun hn => Option.noConfusion hn)]
    omega

/-- Example: an open of `\foo` with `FILE_OPEN_REQUIRING_OPLOCK` while `\foo` is open
once; the share access is recorded and the atomic oplock granted, then
`DokanRegisterPendingIrp` fails. First as a first dispatch, then as the retry of a
create whose first dispatch took the second reference of `\foo`. -/
theorem dispatch_failure_unwind_example :
    (NT_SUCCESS (DokanDispatchCreate sampleEnv sampleRegisterFailureOracle sampleOplockRequest
        sampleOpenWorld).status = false
      ∧ ((DokanDispatchCreate sampleEnv sampleRegisterFailureOracle sampleOplockRequest
          sampleOpenWorld).w.fcb 0).FileCount = 1
      ∧ (callsSince sampleOpenWorld
          (DokanDispatchCreate sampleEnv sampleRegisterFailureOracle sampleOplockRequest
            sampleOpenWorld).w).countP Event.isShareGrant = 1
      ∧ (callsSince sampleOpenWorld
          (DokanDispatchCreate sampleEnv sampleRegisterFailureOracle sampleOplockRequest
            sampleOpenWorld).w).countP Event.isShareGrant
        = (callsSince sampleOpenWorld
          (DokanDispatchCreate sampleEnv sampleRegisterFailureOracle sampleOplockRequest
            sampleOpenWorld).w).countP Event.isShareRemoval
      ∧ Event.BackOutAtomicOplock 0
          ∈ callsSince sampleOpenWorld
            (DokanDispatchCreate sampleEnv sampleRegisterFailureOracle sampleOplockRequest
              sampleOpenWorld).w)
    ∧ (NT_SUCCESS (DokanDispatchCreate sampleEnv sampleRegisterFailureOracle
        sampleOplockRequest sampleRetryWorld).status = false
      ∧ (sampleRetryWorld.fcb 0).FileCount = 2
      ∧ ((DokanDispatchCreate sampleEnv sampleRegisterFailureOracle sampleOplockRequest
          sampleRetryWorld).w.fcb 0).FileCount = 1
      ∧ 0 ∉ ((DokanDispatchCreate sampleEnv sampleRegisterFailureOracle sampleOplockRequest
          sampleRetryWorld).w.fcb 0).NextCCB) :=
  have h := dispatch_failure_unwind sampleEnv sampleRegisterFailureOracle sampleOplockRequest
    sampleOpenWorld 0 (fun _ => ⟨by decide, by decide⟩)
    (fun c hc => Option.noConfusion (show (none : Option Nat) = some c from hc))
    (by decide) (by decide)
  have h2 := dispatch_failure_unwind sampleEnv sampleRegisterFailureOracle sampleOplockRequest
    sampleRetryWorld 0
    (fun hn => Option.noConfusion (show (some 0 : Option Nat) = none from hn))
    (fun c hc =>
      have e : 0 = c := Option.some.inj (show (some 0 : Option Nat) = some c from hc)
      e ▸ ⟨by decide, by decide, by decide, by decide, by decide⟩)
    (by decide) (by decide)
  ⟨⟨by decide, h.1, by decide, h.2.2.1, (h.2.2.2.1 0 (by decide)).2 (by decide)⟩,
    by decide, by decide, h2.1, h2.2.1 0 (by decide)⟩

/-! ## Claims on the release and the allocation of a block, the request name, the parent
directory and the oplock break -/

/-- C21, as stated, fails on the status: the release of a block that is already
deleted (tag `FREED_FCB`), and the release on a volume whose tag is not `VCB`, return
`STATUS_INVALID_PARAMETER`. It is the status that `create.c` returns for a malformed
input (here `DokanGetParentDir` on the empty name), not a status of its own for an
invalid state. -/
theorem C21_release_identity_status_counterexample :
    ((DokanFreeFCB sampleOpenWorld 0).1.fcb 0).IdentifierType = FSD_IDENTIFIER_TYPE.FREED_FCB
      ∧ (DokanFreeFCB (DokanFreeFCB sampleOpenWorld 0).1 0).2 = STATUS_INVALID_PARAMETER
      ∧ (DokanFreeFCB
          { sampleOpenWorld with
            vcb := { sampleOpenWorld.vcb with IdentifierType := FSD_IDENTIFIER_TYPE.DCB } }
          0).2 = STATUS_INVALID_PARAMETER
      ∧ (DokanGetParentDir [0] true).map (fun r => r.status)
          = some (DokanFreeFCB (DokanFreeFCB sampleOpenWorld 0).1 0).2 := by
  decide

/-- C21, amended: `DokanFreeFCB` called with a block whose tag is not `FCB`, or with a
volume whose tag is not `VCB`, returns the failure status `STATUS_INVALID_PARAMETER`
after one call of `DokanLogError` and touches nothing else: the count of the block, the
blocks, the volume (cache list and metrics), the CCBs and the file object are
unchanged. A block that `DokanDeleteFcb` deleted carries the tag `FREED_FCB`, so its
release is such a call: it deletes nothing a second time. -/
theorem C21_release_identity_check (w : World) (Fcb : Nat) :
    (w.vcb.IdentifierType ≠ FSD_IDENTIFIER_TYPE.VCB
        ∨ (w.fcb Fcb).IdentifierType ≠ FSD_IDENTIFIER_TYPE.FCB →
      (DokanFreeFCB w Fcb).2 = STATUS_INVALID_PARAMETER
        ∧ NT_SUCCESS (DokanFreeFCB w Fcb).2 = false
        ∧ ((DokanFreeFCB w Fcb).1.fcb Fcb).FileCount = (w.fcb Fcb).FileCount
        ∧ (DokanFreeFCB w Fcb).1.fcbs = w.fcbs
        ∧ (DokanFreeFCB w Fcb).1.vcb = w.vcb
        ∧ (DokanFreeFCB w Fcb).1.ccbs = w.ccbs
        ∧ (DokanFreeFCB w Fcb).1.fileObject = w.fileObject
        ∧ (DokanFreeFCB w Fcb).1.trace = w.trace ++ [Event.LogError STATUS_INVALID_PARAMETER])
      ∧ (Fcb < w.fcbs.length →
          ((DokanDeleteFcb w Fcb).fcb Fcb).IdentifierType = FSD_IDENTIFIER_TYPE.FREED_FCB
            ∧ (DokanFreeFCB (DokanDeleteFcb w Fcb) Fcb).2 = STATUS_INVALID_PARAMETER
            ∧ (DokanFreeFCB (DokanDeleteFcb w Fcb) Fcb).1.fcbs = (DokanDeleteFcb w Fcb).fcbs
            ∧ (DokanFreeFCB (DokanDeleteFcb w Fcb) Fcb).1.vcb = (DokanDeleteFcb w Fcb).vcb) := by
  have key : ∀ (v : World) (b : Nat),
      (v.vcb.IdentifierType ≠ FSD_IDENTIFIER_TYPE.VCB
        ∨ (v.fcb b).IdentifierType ≠ FSD_IDENTIFIER_TYPE.FCB) →
      DokanFreeFCB v b = (v.emit (Event.LogError STATUS_INVALID_PARAMETER),
        STATUS_INVALID_PARAMETER) := by
    intro v b h
    unfold DokanFreeFCB DokanLogError
    by_cases hv : v.vcb.IdentifierType ≠ FSD_IDENTIFIER_TYPE.VCB
    · rw [if_pos hv]
    · rw [if_neg hv]
      rcases h with h | h
      · exact absurd h hv
      · rw [if_pos h]
  have htag : Fcb < w.fcbs.length →
      ((DokanDeleteFcb w Fcb).fcb Fcb).IdentifierType = FSD_IDENTIFIER_TYPE.FREED_FCB := by
    intro hlt
    rw [fcb_DokanDeleteFcb_same w Fcb hlt]
  refine ⟨?_, ?_⟩
  · intro h
    rw [key w Fcb h]
    exact ⟨rfl, (show NT_SUCCESS STATUS_INVALID_PARAMETER = false by decide), rfl, rfl, rfl, rfl,
      rfl, rfl⟩
  · intro hlt
    have h2 : (DokanDeleteFcb w Fcb).vcb.IdentifierType ≠ FSD_IDENTIFIER_TYPE.VCB
        ∨ ((DokanDeleteFcb w Fcb).fcb Fcb).IdentifierType ≠ FSD_IDENTIFIER_TYPE.FCB := by
      right
      rw [htag hlt]
      decide
    rw [key _ Fcb h2]
    exact ⟨htag hlt, rfl, rfl, rfl⟩

/-- C21, witness: the block of `\foo` after its only reference was released with
deferred collection disabled, which deleted it. -/
theorem C21_release_identity_check_witness :
    (((DokanFreeFCB sampleOpenWorld 0).1.vcb.IdentifierType ≠ FSD_IDENTIFIER_TYPE.VCB
        ∨ ((DokanFreeFCB sampleOpenWorld 0).1.fcb 0).IdentifierType ≠ FSD_IDENTIFIER_TYPE.FCB)
      ∧ 0 < sampleOpenWorld.fcbs.length)
      ∧ (DokanFreeFCB (DokanFreeFCB sampleOpenWorld 0).1 0).2 = STATUS_INVALID_PARAMETER
      ∧ (DokanFreeFCB (DokanFreeFCB sampleOpenWorld 0).1 0).1.vcb
          = (DokanFreeFCB sampleOpenWorld 0).1.vcb
      ∧ (DokanFreeFCB (DokanDeleteFcb sampleOpenWorld 0) 0).2 = STATUS_INVALID_PARAMETER :=
  have h := C21_release_identity_check (DokanFreeFCB sampleOpenWorld 0).1 0
  have h1 := h.1 (by decide)
  have h0 := (C21_release_identity_check sampleOpenWorld 0).2 (by decide)
  ⟨⟨by decide, by decide⟩, h1.1, h1.2.2.2.2.1, h0.2.1⟩

/-- C26, as stated, fails on the size fields: the block that `DokanGetFCB` allocates
for the path `\b`, which is not in the cache, is returned with allocation size 4096 and
file size 4096 (lines 85 and 86), not 0. -/
theorem C26_new_block_defaults_counterexample :
    findFCB sampleEnv sampleWorld [92, 98, 0] 4 true sampleWorld.vcb.NextFCB = none
      ∧ (DokanGetFCB sampleEnv {} sampleWorld [92, 98, 0] 4 true).2 = some 1
      ∧ ((DokanGetFCB sampleEnv {} sampleWorld [92, 98, 0] 4 true).1.fcb 1).AllocationSize
          = 4096
      ∧ ((DokanGetFCB sampleEnv {} sampleWorld [92, 98, 0] 4 true).1.fcb 1).FileSize = 4096
      ∧ ((DokanGetFCB sampleEnv {} sampleWorld [92, 98, 0] 4 true).1.fcb 1).AllocationSize
          ≠ 0
      ∧ ((DokanGetFCB sampleEnv {} sampleWorld [92, 98, 0] 4 true).1.fcb 1).FileSize ≠ 0 := by
  decide

/-- C26, amended: for a path that is not in the cache, `DokanGetFCB` returns no block
exactly when a pool allocation fails (the first allocation of the block fails and the
collection pass reports false or the retry fails, or the allocation of the resource
fails). A block that it returns is at the first unused address, with allocation size
4096 and file size 4096, marked not-fast-io-capable, with an empty CCB list and count
1, and linked at the tail of the cache list. When it returns no block the allocation
counters of the volume are unchanged and the cache list has lost at most entries (those
of the blocks deleted by the collection pass that follows a failed first allocation);
the memory is unchanged when the first allocation succeeded or the pass reported
false. -/
theorem C26_new_block_defaults (env : Env) (o : PoolOracle) (w : World)
    (FileName : List Nat) (L : Nat) (cs : Bool)
    (hnone : findFCB env w FileName L cs w.vcb.NextFCB = none) :
    ((DokanGetFCB env o w FileName L cs).2 = none ↔
        ((o.fcbFirst = false
            ∧ ((DokanForceFcbGarbageCollection w).2 = false ∨ o.fcbRetry = false))
          ∨ o.resource = false))
      ∧ (∀ a, (DokanGetFCB env o w FileName L cs).2 = some a →
          a = w.fcbs.length
            ∧ ((DokanGetFCB env o w FileName L cs).1.fcb a).AllocationSize = 4096
            ∧ ((DokanGetFCB env o w FileName L cs).1.fcb a).FileSize = 4096
            ∧ ((DokanGetFCB env o w FileName L cs).1.fcb a).IsFastIoPossible
                = FAST_IO_POSSIBLE.FastIoIsNotPossible
            ∧ ((DokanGetFCB env o w FileName L cs).1.fcb a).NextCCB = []
            ∧ ((DokanGetFCB env o w FileName L cs).1.fcb a).FileCount = 1
            ∧ (∃ l, (DokanGetFCB env o w FileName L cs).1.vcb.NextFCB = l ++ [a]
                ∧ List.Sublist l w.vcb.NextFCB
                ∧ (o.fcbFirst = true → l = w.vcb.NextFCB)))
      ∧ ((DokanGetFCB env o w FileName L cs).2 = none →
          (DokanGetFCB env o w FileName L cs).1.vcb.FcbAllocated = w.vcb.FcbAllocated
            ∧ (DokanGetFCB env o w FileName L cs).1.vcb.FcbAllocations
                = w.vcb.FcbAllocations
            ∧ List.Sublist (DokanGetFCB env o w FileName L cs).1.vcb.NextFCB w.vcb.NextFCB
            ∧ (o.fcbFirst = true ∨ (DokanForceFcbGarbageCollection w).2 = false →
                (DokanGetFCB env o w FileName L cs).1 = w)) := by
  obtain ⟨g1, g2, g3, g4, g5⟩ := forceGC_metrics w
  have hget : DokanGetFCB env o w FileName L cs
      = (match DokanAllocateFCB o w FileName L with
        | (w1, none) => (w1, none)
        | (w1, some a) =>
          let f := w1.fcb a
          let f1 : DokanFCB :=
            if RtlEqualUnicodeString env.upcase f.FileName env.keepAliveFileName false then
              { f with IsKeepalive := true, BlockUserModeDispatch := true }
            else f
          let f2 : DokanFCB :=
            if RtlEqualUnicodeString env.upcase f1.FileName env.notificationFileName false then
              { f1 with BlockUserModeDispatch := true }
            else f1
          (incFileCount (w1.setFcb a f2) a, some a)) := by
    unfold DokanGetFCB
    rw [hnone]
  -- the two outcomes, from a memory `w1` that is `w` or `w` after the collection pass
  have hcases :
      (∃ w1 : World, DokanGetFCB env o w FileName L cs = (w1, none)
        ∧ w1.vcb.FcbAllocated = w.vcb.FcbAllocated
        ∧ w1.vcb.FcbAllocations = w.vcb.FcbAllocations
        ∧ List.Sublist w1.vcb.NextFCB w.vcb.NextFCB
        ∧ (o.fcbFirst = true ∨ (DokanForceFcbGarbageCollection w).2 = false → w1 = w)
        ∧ ((o.fcbFirst = false
              ∧ ((DokanForceFcbGarbageCollection w).2 = false ∨ o.fcbRetry = false))
            ∨ o.resource = false))
      ∨ (∃ (w1 W : World), DokanGetFCB env o w FileName L cs = (W, some w1.fcbs.length)
        ∧ w1.fcbs.length = w.fcbs.length
        ∧ ((W.fcb w1.fcbs.length).AllocationSize = 4096
          ∧ (W.fcb w1.fcbs.length).FileSize = 4096
          ∧ (W.fcb w1.fcbs.length).IsFastIoPossible = FAST_IO_POSSIBLE.FastIoIsNotPossible
          ∧ (W.fcb w1.fcbs.length).NextCCB = []
          ∧ (W.fcb w1.fcbs.length).FileCount = 1)
        ∧ W.vcb.NextFCB = w1.vcb.NextFCB ++ [w1.fcbs.length]
        ∧ List.Sublist w1.vcb.NextFCB w.vcb.NextFCB
        ∧ (o.fcbFirst = true → w1.vcb.NextFCB = w.vcb.NextFCB)
        ∧ ¬ ((o.fcbFirst = false
              ∧ ((DokanForceFcbGarbageCollection w).2 = false ∨ o.fcbRetry = false))
            ∨ o.resource = false)) := by
    by_cases h1 : o.fcbFirst = true
    · by_cases h3 : o.resource = false
      · have hA : DokanAllocateFCB o w FileName L = (w, none) := by
          unfold DokanAllocateFCB
          simp only [h1, h3, if_true, Bool.true_eq_false, if_false]
        refine Or.inl ⟨w, ?_, rfl, rfl, List.Sublist.refl _, fun _ => rfl, Or.inr h3⟩
        rw [hget, hA]
      · have h3r : o.resource = true := by simpa using h3
        have hA : ∃ (f : DokanFCB) (v : DokanVCB), DokanAllocateFCB o w FileName L
              = ({ w with fcbs := w.fcbs ++ [f], vcb := v }, some w.fcbs.length)
            ∧ f.AllocationSize = 4096 ∧ f.FileSize = 4096
            ∧ f.IsFastIoPossible = FAST_IO_POSSIBLE.FastIoIsNotPossible
            ∧ f.NextCCB = [] ∧ f.FileCount = 0
            ∧ v.NextFCB = w.vcb.NextFCB ++ [w.fcbs.length] := by
          unfold DokanAllocateFCB
          simp only [h1, h3r, if_true, Bool.true_eq_false, if_false]
          exact ⟨_, _, rfl, rfl, rfl, rfl, rfl, rfl, rfl⟩
        obtain ⟨f, v, hA, a1, a2, a3, a4, a5, a6⟩ := hA
        have hf := DokanGetFCB_fresh_fields env w f v a5
        refine Or.inr ⟨w, _, ?_, rfl,
          ⟨hf.1.trans a1, hf.2.1.trans a2, hf.2.2.1.trans a3, hf.2.2.2.1.trans a4,
            hf.2.2.2.2.1⟩, ?_, List.Sublist.refl _, fun _ => rfl, ?_⟩
        · rw [hget, hA]
        · rw [hf.2.2.2.2.2, a6]
        · intro hc
          rcases hc with hc | hc
          · rw [h1] at hc
            exact Bool.noConfusion hc.1
          · exact h3 hc
    · have h1r : o.fcbFirst = false := by simpa using h1
      have hno : o.fcbFirst = true → (DokanForceFcbGarbageCollection w).1.vcb.NextFCB
          = w.vcb.NextFCB := fun h => absurd h h1
      by_cases h2 : (DokanForceFcbGarbageCollection w).2 = true
      · by_cases h4 : o.fcbRetry = true
        · by_cases h3 : o.resource = false
          · have hA : DokanAllocateFCB o w FileName L
                = ((DokanForceFcbGarbageCollection w).1, none) := by
              unfold DokanAllocateFCB
              simp only [h1r, h2, h3, h4, if_true, Bool.true_eq_false, Bool.false_eq_true,
                if_false]
            refine Or.inl ⟨_, ?_, g2, g3, g4, ?_, Or.inr h3⟩
            · rw [hget, hA]
            · intro hc
              rcases hc with hc | hc
              · exact absurd hc h1
              · rw [h2] at hc
                exact Bool.noConfusion hc
          · have h3r : o.resource = true := by simpa using h3
            have hA : ∃ (f : DokanFCB) (v : DokanVCB), DokanAllocateFCB o w FileName L
                  = ({ (DokanForceFcbGarbageCollection w).1 with
                        fcbs := (DokanForceFcbGarbageCollection w).1.fcbs ++ [f], vcb := v },
                      some (DokanForceFcbGarbageCollection w).1.fcbs.length)
                ∧ f.AllocationSize = 4096 ∧ f.FileSize = 4096
                ∧ f.IsFastIoPossible = FAST_IO_POSSIBLE.FastIoIsNotPossible
                ∧ f.NextCCB = [] ∧ f.FileCount = 0
                ∧ v.NextFCB = (DokanForceFcbGarbageCollection w).1.vcb.NextFCB
                    ++ [(DokanForceFcbGarbageCollection w).1.fcbs.length] := by
              unfold DokanAllocateFCB
              simp only [h1r, h2, h4, h3r, if_true, Bool.true_eq_false, Bool.false_eq_true,
                if_false]
              exact ⟨_, _, rfl, rfl, rfl, rfl, rfl, rfl, rfl⟩
            obtain ⟨f, v, hA, a1, a2, a3, a4, a5, a6⟩ := hA
            have hf := DokanGetFCB_fresh_fields env (DokanForceFcbGarbageCollection w).1 f v a5
            refine Or.inr ⟨(DokanForceFcbGarbageCollection w).1, _, ?_, g1,
              ⟨hf.1.trans a1, hf.2.1.trans a2, hf.2.2.1.trans a3, hf.2.2.2.1.trans a4,
                hf.2.2.2.2.1⟩, ?_, g4, hno, ?_⟩
            · rw [hget, hA]
            · rw [hf.2.2.2.2.2, a6]
            · intro hc
              rcases hc with ⟨_, hc | hc⟩ | hc
              · rw [h2] at hc
                exact Bool.noConfusion hc
              · rw [h4] at hc
                exact Bool.noConfusion hc
              · exact h3 hc
        · have h4r : o.fcbRetry = false := by simpa using h4
          have hA : DokanAllocateFCB o w FileName L
              = ((DokanForceFcbGarbageCollection w).1, none) := by
            unfold DokanAllocateFCB
            simp only [h1r, h2, h4r, if_true, Bool.true_eq_false, Bool.false_eq_true,
              if_false]
          refine Or.inl ⟨_, ?_, g2, g3, g4, ?_, Or.inl ⟨h1r, Or.inr h4r⟩⟩
          · rw [hget, hA]
          · intro hc
            rcases hc with hc | hc
            · exact absurd hc h1
            · rw [h2] at hc
              exact Bool.noConfusion hc
      · have h2r : (DokanForceFcbGarbageCollection w).2 = false := by simpa using h2
        have hA : DokanAllocateFCB o w FileName L
            = ((DokanForceFcbGarbageCollection w).1, none) := by
          unfold DokanAllocateFCB
          simp only [h1r, h2r, if_true, Bool.true_eq_false, Bool.false_eq_true, if_false]
        refine Or.inl ⟨_, ?_, g2, g3, g4, fun _ => g5 h2r, Or.inl ⟨h1r, Or.inl h2r⟩⟩
        rw [hget, hA]
  rcases hcases with ⟨w1, he, k1, k2, k3, k4, hc⟩ | ⟨w1, W, he, k1, k2, k3, k4, k5, hc⟩
  · rw [he]
    refine ⟨⟨fun _ => hc, fun _ => rfl⟩, ?_, ?_⟩
    · intro a ha
      exact Option.noConfusion ha
    · intro _
      exact ⟨k1, k2, k3, k4⟩
  · rw [he]
    refine ⟨⟨fun h => Option.noConfusion h, fun h => absurd h hc⟩, ?_, ?_⟩
    · intro a ha
      have ea : w1.fcbs.length = a := Option.some.inj ha
      subst ea
      obtain ⟨q1, q2, q3, q4, q5⟩ := k2
      exact ⟨k1, q1, q2, q3, q4, q5, w1.vcb.NextFCB, k3, k4, k5⟩
    · intro h
      exact Option.noConfusion h

/-- C26, witness: the path `\b` in the cache that holds `\a`. With every pool
allocation succeeding, the block 1 is allocated with allocation size 4096. With the
block of `\a` parked for deletion and both allocations of the block failing, no block
is returned, the allocation counters are unchanged, and the cache list `[0]` has lost
the entry that the collection pass deleted. -/
theorem C26_new_block_defaults_witness :
    (findFCB sampleEnv sampleWorld [92, 98, 0] 4 true sampleWorld.vcb.NextFCB = none
        ∧ findFCB sampleEnv (DokanFreeFCB sampleWorld 0).1 [92, 98, 0] 4 true
            (DokanFreeFCB sampleWorld 0).1.vcb.NextFCB = none)
      ∧ (∀ a, (DokanGetFCB sampleEnv {} sampleWorld [92, 98, 0] 4 true).2 = some a →
          a = sampleWorld.fcbs.length
            ∧ ((DokanGetFCB sampleEnv {} sampleWorld [92, 98, 0] 4 true).1.fcb a).AllocationSize
                = 4096)
      ∧ (DokanGetFCB sampleEnv {} sampleWorld [92, 98, 0] 4 true).2 = some 1
      ∧ ((DokanGetFCB sampleEnv { fcbFirst := false, fcbRetry := false }
            (DokanFreeFCB sampleWorld 0).1 [92, 98, 0] 4 true).2 = none
        ∧ (DokanGetFCB sampleEnv { fcbFirst := false, fcbRetry := false }
            (DokanFreeFCB sampleWorld 0).1 [92, 98, 0] 4 true).1.vcb.FcbAllocations
            = (DokanFreeFCB sampleWorld 0).1.vcb.FcbAllocations
        ∧ (DokanFreeFCB sampleWorld 0).1.vcb.NextFCB = [0]
        ∧ (DokanGetFCB sampleEnv { fcbFirst := false, fcbRetry := false }
            (DokanFreeFCB sampleWorld 0).1 [92, 98, 0] 4 true).1.vcb.NextFCB = []) :=
  have h := C26_new_block_defaults sampleEnv {} sampleWorld [92, 98, 0] 4 true (by decide)
  have h2 := C26_new_block_defaults sampleEnv { fcbFirst := false, fcbRetry := false }
    (DokanFreeFCB sampleWorld 0).1 [92, 98, 0] 4 true (by decide)
  ⟨⟨by decide, by decide⟩, fun a ha => ⟨(h.2.1 a ha).1, (h.2.1 a ha).2.1⟩, by decide,
    by decide, (h2.2.2 (by decide)).2.1, by decide, by decide⟩

/-- C27, the code on every request without a file object: the `__try` block leaves at
line 554 with `STATUS_INVALID_PARAMETER` and the local `fileObject` still null; no block,
CCB, event context or share access is held, so the memory is the one at entry followed
by the completion of the IRP. But the status is a failure, and the `__finally` block
executes `fileObject->FsContext = NULL` (line 1387) through that null local: the run
ends in a fault. -/
theorem C27_missing_file_object_unwind_faults (env : Env) (o : CreateOracle)
    (irpSp : IO_STACK_LOCATION) (w : World) (h : w.fileObject = none) :
    (DokanDispatchCreate env o irpSp w).status = STATUS_INVALID_PARAMETER
      ∧ (DokanDispatchCreate env o irpSp w).fileObject = false
      ∧ (DokanDispatchCreate env o irpSp w).w
          = w.emit (Event.CompleteIrpRequest STATUS_INVALID_PARAMETER 0)
      ∧ (DokanDispatchCreate env o irpSp w).fault = true := by
  have he : createEntry env o irpSp w
      = ({ ({ w := w } : CreateFrame) with status := STATUS_INVALID_PARAMETER }, true) := by
    unfold createEntry
    simp only [h]
  have ht : DokanDispatchCreateTry env o irpSp w
      = { ({ w := w } : CreateFrame) with status := STATUS_INVALID_PARAMETER } := by
    unfold DokanDispatchCreateTry createUpToShare createUpToEnvelope createUpToInstance
      createUpToAcquire createUpToReadOnly createUpToBuildName
    rw [he]
    simp only [andThen, if_true]
  have hf : ∀ fr : CreateFrame, NT_SUCCESS fr.status = false → fr.fileObject = false →
      fr.ccb = none → fr.fcb = none → fr.UnwindShareAccess = false →
      fr.eventContext = none →
      createFinally fr
        = { fr with w := fr.w.emit (Event.CompleteIrpRequest fr.status fr.info), fault := true } := by
    intro fr h1 h2 h3 h4 h5 h6
    unfold createFinally
    simp only [h1, h2, h3, h4, h5, h6, if_true, Bool.false_eq_true, if_false, Option.isSome_none,
      and_false]
  unfold DokanDispatchCreate
  rw [ht, hf _ (show NT_SUCCESS STATUS_INVALID_PARAMETER = false by decide) rfl rfl rfl rfl rfl]
  exact ⟨rfl, rfl, rfl, rfl⟩

/-- C27, failing input: a create request on the empty memory, which has no file
object. -/
theorem C27_missing_file_object_unwind_faults_witness :
    ({} : World).fileObject = none
      ∧ (DokanDispatchCreate sampleEnv sampleOracle sampleOpenRequest {}).status
          = STATUS_INVALID_PARAMETER
      ∧ (DokanDispatchCreate sampleEnv sampleOracle sampleOpenRequest {}).fault = true :=
  have h := C27_missing_file_object_unwind_faults sampleEnv sampleOracle sampleOpenRequest {} rfl
  ⟨rfl, h.1, h.2.2.2⟩

/-- C25, as stated, fails: each step removes one separator only. The name `\\\a`
(three leading separators) is normalised to `\\a`, which begins with two separators;
the name `\a\\` (two trailing separators) is normalised to `\a\`, which is not the root
and ends with a separator. -/
theorem C25_name_normal_form_counterexample :
    (trimTrailingSeparator (stripLeadingSeparator
        { Length := 8, MaximumLength := 10, Buffer := some [92, 92, 92, 97, 0] })).chars
        = [92, 92, 97]
      ∧ [BACKSLASH, BACKSLASH] <+: (trimTrailingSeparator (stripLeadingSeparator
          { Length := 8, MaximumLength := 10, Buffer := some [92, 92, 92, 97, 0] })).chars
      ∧ (trimTrailingSeparator (stripLeadingSeparator
          { Length := 8, MaximumLength := 10, Buffer := some [92, 97, 92, 92, 0] })).chars
          = [92, 97, 92]
      ∧ (trimTrailingSeparator (stripLeadingSeparator
          { Length := 8, MaximumLength := 10, Buffer := some [92, 97, 92, 92, 0] })).chars
          ≠ [BACKSLASH]
      ∧ (trimTrailingSeparator (stripLeadingSeparator
          { Length := 8, MaximumLength := 10,
            Buffer := some [92, 97, 92, 92, 0] })).chars.getLast? = some BACKSLASH := by
  decide

/-- C25, amended: on a request name whose `Length` is even and inside its buffer, the
leading-separator step (lines 637 to 646) followed by the trailing-separator step
(lines 697 to 702) removes at most one leading and one trailing separator. If the name
does not begin with three separators, the result does not begin with two; if the name
after the leading step does not end with two separators, the result is the
one-character root `\` or does not end with a separator; a name that does not begin
with two separators and is the root or does not end with a separator is left
unchanged. -/
theorem C25_name_normal_form (n : UNICODE_STRING) (he : n.Length % 2 = 0)
    (hb : n.Length / 2 ≤ (n.Buffer.getD []).length) :
    (¬ [BACKSLASH, BACKSLASH, BACKSLASH] <+: n.chars →
        ¬ [BACKSLASH, BACKSLASH]
            <+: (trimTrailingSeparator (stripLeadingSeparator n)).chars)
      ∧ (¬ [BACKSLASH, BACKSLASH] <:+ (stripLeadingSeparator n).chars →
          (trimTrailingSeparator (stripLeadingSeparator n)).chars = [BACKSLASH]
            ∨ (trimTrailingSeparator (stripLeadingSeparator n)).chars.getLast?
                ≠ some BACKSLASH)
      ∧ (¬ [BACKSLASH, BACKSLASH] <+: n.chars →
          n.chars = [BACKSLASH] ∨ n.chars.getLast? ≠ some BACKSLASH →
          trimTrailingSeparator (stripLeadingSeparator n) = n) := by
  obtain ⟨s1, s2⟩ := stripLeadingSeparator_chars n he hb
  -- the name after the leading step is again a counted string inside its buffer
  have hwf : (stripLeadingSeparator n).Length % 2 = 0
      ∧ (stripLeadingSeparator n).Length / 2
          ≤ ((stripLeadingSeparator n).Buffer.getD []).length := by
    by_cases hp : [BACKSLASH, BACKSLASH] <+: n.chars
    · exact (s1 hp).2
    · rw [s2 hp]
      exact ⟨he, hb⟩
  obtain ⟨t1, t2⟩ := trimTrailingSeparator_chars (stripLeadingSeparator n) hwf.1 hwf.2
  -- the result is a prefix of the name after the leading step
  have hpre : (trimTrailingSeparator (stripLeadingSeparator n)).chars
      <+: (stripLeadingSeparator n).chars := by
    by_cases hc : 2 ≤ (stripLeadingSeparator n).chars.length
        ∧ (stripLeadingSeparator n).chars.getLast? = some BACKSLASH
    · rw [t1 hc]
      exact List.dropLast_prefix _
    · rw [t2 hc]
  refine ⟨?_, ?_, ?_⟩
  · intro h3 h2
    have h2s : [BACKSLASH, BACKSLASH] <+: (stripLeadingSeparator n).chars := h2.trans hpre
    by_cases hp : [BACKSLASH, BACKSLASH] <+: n.chars
    · rw [(s1 hp).1] at h2s
      obtain ⟨t, ht⟩ := hp
      rw [← ht] at h2s h3
      obtain ⟨u, hu⟩ := h2s
      simp only [List.cons_append, List.nil_append, List.tail_cons] at hu h3
      apply h3
      rw [← hu]
      exact ⟨u, rfl⟩
    · rw [s2 hp] at h2s
      exact hp h2s
  · intro hs
    by_cases hc : 2 ≤ (stripLeadingSeparator n).chars.length
        ∧ (stripLeadingSeparator n).chars.getLast? = some BACKSLASH
    · right
      rw [t1 hc]
      intro hl
      apply hs
      rcases List.eq_nil_or_concat (stripLeadingSeparator n).chars with e | ⟨l, z, e⟩
      · rw [e] at hc
        simp at hc
      · rw [List.concat_eq_append] at e
        rw [e] at hc hl ⊢
        rw [List.dropLast_concat] at hl
        have hz : z = BACKSLASH := by
          have := hc.2
          rw [List.getLast?_append, List.getLast?_singleton] at this
          exact Option.some.inj this
        rcases List.eq_nil_or_concat l with e2 | ⟨l2, y, e2⟩
        · rw [e2] at hl
          simp at hl
        · rw [List.concat_eq_append] at e2
          rw [e2] at hl ⊢
          have hy : y = BACKSLASH := by
            rw [List.getLast?_append, List.getLast?_singleton] at hl
            exact Option.some.inj hl
          rw [hy, hz]
          exact ⟨l2, by simp⟩
    · rw [t2 hc]
      by_cases hl : (stripLeadingSeparator n).chars.getLast? = some BACKSLASH
      · left
        have hlen : ¬ 2 ≤ (stripLeadingSeparator n).chars.length := fun h => hc ⟨h, hl⟩
        generalize (stripLeadingSeparator n).chars = c at hl hlen
        match c, hl, hlen with
        | [], hl, _ => simp at hl
        | [x], hl, _ =>
          simp only [List.getLast?_singleton] at hl
          rw [Option.some.inj hl]
        | _ :: _ :: _, _, hlen => simp at hlen
      · right
        exact hl
  · intro hp hn
    rw [s2 hp]
    obtain ⟨u1, u2⟩ := trimTrailingSeparator_chars n he hb
    apply u2
    intro ⟨c1, c2⟩
    rcases hn with hn | hn
    · rw [hn] at c1
      simp at c1
    · exact hn c2

/-- C25, witness: the name `\\a\` is normalised to `\a`. -/
theorem C25_name_normal_form_witness :
    ¬ [BACKSLASH, BACKSLASH, BACKSLASH]
        <+: ({ Length := 8, MaximumLength := 10,
               Buffer := some [92, 92, 97, 92, 0] } : UNICODE_STRING).chars
      ∧ ¬ [BACKSLASH, BACKSLASH]
          <+: (trimTrailingSeparator (stripLeadingSeparator
            { Length := 8, MaximumLength := 10, Buffer := some [92, 92, 97, 92, 0] })).chars
      ∧ (trimTrailingSeparator (stripLeadingSeparator
            { Length := 8, MaximumLength := 10, Buffer := some [92, 92, 97, 92, 0] })).chars
          = [92, 97] :=
  ⟨by decide,
    (C25_name_normal_form
      { Length := 8, MaximumLength := 10, Buffer := some [92, 92, 97, 92, 0] }
      (by decide) (by decide)).1 (by decide),
    by decide⟩

/-- C24, the code on every alternate stream of the root: a create request relative to a
related file object whose FCB caches the path `\`, with a request name `N` (as
normalised by lines 637 to 702) that begins with a colon, in a run that builds the path
buffer (reaches line 770). The flag `alternateDataStreamOfRootDir` is set and the path
buffer holds the characters of `N` alone, followed by two terminators; but
`fileNameLength`, to which line 706 added the length of the related name before the
flag was computed, is `2 * |N| + 2` bytes: the length passed to `DokanGetFCB` (line
810) counts one character more than `N` has. -/
theorem C24_root_stream_length (env : Env) (o : CreateOracle)
    (irpSp : IO_STACK_LOCATION) (w : World) (fr : CreateFrame) (fo : FILE_OBJECT)
    (rfo : RELATED_FILE_OBJECT) (rc rf : Nat) (N : List Nat)
    (hreach : createUpToReadOnly env o irpSp w = (fr, false))
    (hfo : w.fileObject = some fo) (hrfo : fo.RelatedFileObject = some rfo)
    (hrc : rfo.FsContext2 = some rc) (hrf : (w.ccb rc).Fcb = some rf)
    (hR : (w.fcb rf).FileName.chars = [BACKSLASH]) (hRl : (w.fcb rf).FileName.Length = 2)
    (hRm : (w.fcb rf).FileName.Length ≤ (w.fcb rf).FileName.MaximumLength)
    (hN : (fr.w.fileObject.getD {}).FileName.chars = N)
    (hNl : (fr.w.fileObject.getD {}).FileName.Length = 2 * N.length)
    (hcolon : N.head? = some COLON)
    (htd : FlagOn irpSp.Flags SL_OPEN_TARGET_DIRECTORY = false) :
    fr.alternateDataStreamOfRootDir = true
      ∧ fr.needBackSlashAfterRelatedFile = false
      ∧ fr.fileName = some (N ++ [0, 0])
      ∧ fr.fileNameLength = 2 * N.length + 2
      ∧ acquiredName o irpSp fr = some (N ++ [0, 0], 2 * N.length + 2) := by
  have hN0 : N ≠ [] := by
    intro h
    rw [h] at hcolon
    exact Option.noConfusion hcolon
  have hNlen : 0 < N.length := List.length_pos.mpr hN0
  have hbuf : (w.fcb rf).FileName.Buffer ≠ none := by
    intro hb
    unfold UNICODE_STRING.chars at hR
    rw [hb] at hR
    simp at hR
  have hl : (createUpToReadOnly env o irpSp w).2 = false := by rw [hreach]
  unfold createUpToReadOnly at hl hreach
  obtain ⟨hlB, eB⟩ := andThen_continues _ _ hl
  rw [createUpToBuildName_eq] at hlB eB hreach hl
  obtain ⟨hlR, eR⟩ := andThen_continues _ _ hlB
  have h0 : createUpToResolve env o irpSp w
      = ((createUpToResolve env o irpSp w).1, false) := Prod.ext rfl hlR
  obtain ⟨q1, q2, q3⟩ := createUpToResolve_related env o irpSp w _ fo rfo rc rf h0 hfo hrfo
    hrc hrf (by omega) hbuf
  rw [eR] at hlB eB hreach hl
  obtain ⟨c1, c2, c3⟩ := RtlUnicodeStringCopy_fits _ _ hRm
  rw [hRl] at c1
  rw [hR] at c2 c3
  obtain ⟨p1, p2, p3, p4, p5, p6⟩ := createResolve_related irpSp _ _ q1 q2 q3 hlB
  have hlbn : (createBuildName o (createResolve irpSp (createUpToResolve env o irpSp w).1).1).2
      = false := by
    rw [← eB]
    exact hl
  obtain ⟨fileName, hb, hfr⟩ := createBuildName_continues o _ hlbn
  have efr : fr = (createBuildName o
      (createResolve irpSp (createUpToResolve env o irpSp w).1).1).1 := by
    rw [eB] at hreach
    exact (congrArg Prod.fst hreach).symm
  rw [hfr] at efr
  subst efr
  dsimp only at hN hNl ⊢
  rw [p2, Option.getD_some] at hN hNl hb
  dsimp only at hN hNl hb
  rw [p1] at hb
  rw [c1, c3, hNl] at p3 p4
  rw [c1, hNl] at p5
  have hhead : (trimTrailingSeparator
      ((createUpToResolve env o irpSp w).1.w.fileObject.getD {}).FileName).cell 0 = COLON := by
    have e := chars_head _ (by rw [hN]; exact hN0)
    rw [hN, hcolon] at e
    exact (Option.some.inj e).symm
  have hads : (createResolve irpSp
      (createUpToResolve env o irpSp w).1).1.alternateDataStreamOfRootDir = true :=
    p4.mpr ⟨by decide, by omega, by decide, hhead⟩
  have hneed : (createResolve irpSp
      (createUpToResolve env o irpSp w).1).1.needBackSlashAfterRelatedFile = false := by
    cases hv : (createResolve irpSp
      (createUpToResolve env o irpSp w).1).1.needBackSlashAfterRelatedFile with
    | false => rfl
    | true => exact absurd hhead (p3.mp hv).2.2.2
  rw [hneed] at p5
  simp only [Bool.false_eq_true, if_false, Nat.add_zero] at p5
  have hcount : ((createResolve irpSp (createUpToResolve env o irpSp w).1).1.fileNameLength + 2)
      / 2 = N.length + 2 := by
    rw [p5]
    omega
  rw [hads, hcount] at hb
  have hstore : fileName = N ++ [0, 0] := by
    unfold buildFileName at hb
    simp only [Bool.true_eq_false, if_false, hN] at hb
    have h1 := cellsStore_zeros [] N 2
    rw [List.nil_append, List.length_nil, List.nil_append] at h1
    rw [h1] at hb
    exact (Option.some.inj hb).symm
  refine ⟨hads, hneed, ?_, p5, ?_⟩
  · rw [hstore]
  · unfold acquiredName
    rw [if_neg (by rw [htd]; exact Bool.noConfusion)]
    dsimp only
    rw [hstore, p5]
    rfl

/-- C24, failing input: the name `:s` (4 bytes) relative to the open root directory
`\`. The path buffer holds `:s` and two terminators, the length passed to `DokanGetFCB`
is 6, and the block that the request creates stores a name of 6 bytes: `:s` and a
terminator counted as a character. -/
theorem C24_root_stream_length_witness :
    (createUpToReadOnly sampleEnv sampleOracle sampleOpenRequest
        sampleRootStreamWorld).1.fileName = some [58, 115, 0, 0]
      ∧ acquiredName sampleOracle sampleOpenRequest
          (createUpToReadOnly sampleEnv sampleOracle sampleOpenRequest
            sampleRootStreamWorld).1 = some ([58, 115, 0, 0], 6)
      ∧ (sampleRootStreamWorld.fileObject.getD {}).FileName.Length = 4
      ∧ (DokanDispatchCreate sampleEnv sampleOracle sampleOpenRequest
          sampleRootStreamWorld).fcb = some 1
      ∧ ((DokanDispatchCreate sampleEnv sampleOracle sampleOpenRequest
          sampleRootStreamWorld).w.fcb 1).FileName.Length = 6
      ∧ ((DokanDispatchCreate sampleEnv sampleOracle sampleOpenRequest
          sampleRootStreamWorld).w.fcb 1).FileName.chars = [58, 115, 0] :=
  have h := C24_root_stream_length sampleEnv sampleOracle sampleOpenRequest
    sampleRootStreamWorld
    (createUpToReadOnly sampleEnv sampleOracle sampleOpenRequest sampleRootStreamWorld).1
    (sampleRootStreamWorld.fileObject.getD {}) { FsContext2 := some 0 } 0 0 [58, 115]
    (by decide) (by decide) (by decide) (by decide) (by decide) (by decide) (by decide)
    (by decide) (by decide) (by decide) (by decide) (by decide)
  ⟨h.2.2.1, h.2.2.2.2, by decide, by decide, by decide, by decide⟩

/-- C22: every call of `DokanGetParentDir` on a name shorter than `2^31 - 1` characters
returns without reading or writing outside a buffer (the buffer it allocates has
`len + 1` characters), and whenever it returns `STATUS_SUCCESS` the output buffer holds
a string that is terminated inside the buffer, the returned length is twice the number
of characters before the first terminator, and that number is at least 1 and at most
the number of characters of the input. It returns `STATUS_SUCCESS` for every name other
than the empty one and the root `\` when the allocation succeeds. -/
theorem C22_parent_output_consistency (fileName : List Nat) (allocOk : Bool)
    (hb : wcslen fileName < 2 ^ 31 - 1) :
    ∃ r, DokanGetParentDir fileName allocOk = some r
      ∧ (r.status = STATUS_SUCCESS →
          ∃ buf, r.parentDir = some buf
            ∧ buf.length = wcslen fileName + 1
            ∧ wcslen buf < buf.length
            ∧ r.parentDirLength = 2 * wcslen buf
            ∧ 1 ≤ wcslen buf
            ∧ wcslen buf ≤ wcslen fileName)
      ∧ (allocOk = true → cstr fileName ≠ [] → cstr fileName ≠ [BACKSLASH] →
          r.status = STATUS_SUCCESS) := by
  by_cases h0 : cstr fileName = []
  · refine ⟨⟨STATUS_INVALID_PARAMETER, none, 0⟩, ?_, ?_, ?_⟩
    · unfold DokanGetParentDir wcslen
      rw [h0]
      rfl
    · intro h
      exact absurd h (by decide)
    · intro _ h
      exact absurd h0 h
  · by_cases hr : cstr fileName = [BACKSLASH]
    · refine ⟨⟨STATUS_ACCESS_DENIED, none, 0⟩, ?_, ?_, ?_⟩
      · unfold DokanGetParentDir wcslen
        rw [hr]
        rfl
      · intro h
        exact absurd h (by decide)
      · intro _ _ h
        exact absurd hr h
    · cases allocOk with
      | false =>
        refine ⟨_, DokanGetParentDir_alloc_fail fileName hb h0 hr, ?_, ?_⟩
        · intro h
          exact absurd h (by decide)
        · intro h
          exact Bool.noConfusion h
      | true =>
        obtain ⟨buf, n, hrun, k1, k2, k3, k4, k5⟩ := DokanGetParentDir_output fileName hb h0 hr
        exact ⟨_, hrun, fun _ => ⟨buf, rfl, k1, k2, k3, k4, k5⟩, fun _ _ _ => rfl⟩

/-- C22, witness: the name `ab\c\\`, with two trailing separators, gives `ab\c\`: a
buffer of 7 characters, a string of 5 characters and the length 10. -/
theorem C22_parent_output_consistency_witness :
    wcslen [97, 98, 92, 99, 92, 92, 0] < 2 ^ 31 - 1
      ∧ DokanGetParentDir [97, 98, 92, 99, 92, 92, 0] true
          = some ⟨STATUS_SUCCESS, some [97, 98, 92, 99, 92, 0, 0], 10⟩
      ∧ ∃ r, DokanGetParentDir [97, 98, 92, 99, 92, 92, 0] true = some r
          ∧ (r.status = STATUS_SUCCESS →
              ∃ buf, r.parentDir = some buf
                ∧ buf.length = wcslen [97, 98, 92, 99, 92, 92, 0] + 1
                ∧ wcslen buf < buf.length
                ∧ r.parentDirLength = 2 * wcslen buf
                ∧ 1 ≤ wcslen buf
                ∧ wcslen buf ≤ wcslen [97, 98, 92, 99, 92, 92, 0])
          ∧ (true = true → cstr [97, 98, 92, 99, 92, 92, 0] ≠ [] →
              cstr [97, 98, 92, 99, 92, 92, 0] ≠ [BACKSLASH] → r.status = STATUS_SUCCESS) :=
  ⟨by decide, by decide,
    C22_parent_output_consistency [97, 98, 92, 99, 92, 92, 0] true (by decide)⟩

/-- C23: a create that reaches the share access check of line 1123 on a block that
holds more than one reference after the acquisition, for which `DokanCheckShareAccess`
returns `STATUS_SHARING_VIOLATION` while the request does not carry
`FILE_COMPLETE_IF_OPLOCKED`. Among the calls of the dispatch exactly one is a request of
an oplock break (`FsRtlOplockBreakH`), and it is the first call after the check.
(a) When the break returns `STATUS_PENDING`, `DokanDispatchCreate` returns
`STATUS_PENDING`, records no share access, and the memory is the one of the share
check followed by the break and the completion of the IRP: no block is released, and
the frame keeps its FCB and its CCB. (b) When the break fails, its status is returned
and no share access is recorded. (c) Otherwise the check is evaluated once more, with
the second result of `IoCheckShareAccess`: a result other than `STATUS_SUCCESS` is
returned and no share access is recorded; on `STATUS_SUCCESS` the step goes on, and
`IoUpdateShareAccess` follows the break as the one share access that the dispatch
records. -/
theorem C23_oplock_break_retry (env : Env) (o : CreateOracle) (irpSp : IO_STACK_LOCATION)
    (w : World) (fr : CreateFrame) (b : Nat) (ec : EVENT_CONTEXT)
    (hreach : createUpToShare env o irpSp w = (fr, false))
    (hfcb : fr.fcb = some b) (hec : fr.eventContext = some ec)
    (hcount : (fr.w.fcb b).FileCount > 1)
    (hsv : DokanCheckShareAccess (fr.w.fcb b) ec.DesiredAccess ec.ShareAccess
      o.userWritableReferences o.ioCheckShareAccess1 = STATUS_SHARING_VIOLATION)
    (hopt : FlagOn irpSp.Options FILE_COMPLETE_IF_OPLOCKED = false) :
    ((callsSince w (DokanDispatchCreate env o irpSp w).w).countP Event.isOplockBreak = 1
        ∧ [Event.OplockBreakH b] <+: callsSince fr.w (DokanDispatchCreate env o irpSp w).w)
      ∧ (o.oplockBreakH = STATUS_PENDING →
          (DokanDispatchCreate env o irpSp w).status = STATUS_PENDING
            ∧ (callsSince w (DokanDispatchCreate env o irpSp w).w).countP Event.isShareGrant
                = 0
            ∧ (DokanDispatchCreate env o irpSp w).w
                = (fr.w.emit (Event.OplockBreakH b)).emit
                    (Event.CompleteIrpRequest STATUS_PENDING fr.info)
            ∧ (DokanDispatchCreate env o irpSp w).fcb = some b
            ∧ (DokanDispatchCreate env o irpSp w).ccb = fr.ccb)
      ∧ (o.oplockBreakH ≠ STATUS_PENDING → NT_SUCCESS o.oplockBreakH = false →
          (DokanDispatchCreate env o irpSp w).status = o.oplockBreakH
            ∧ (callsSince w (DokanDispatchCreate env o irpSp w).w).countP Event.isShareGrant
                = 0)
      ∧ (o.oplockBreakH ≠ STATUS_PENDING → NT_SUCCESS o.oplockBreakH = true →
          (DokanCheckShareAccess (fr.w.fcb b) ec.DesiredAccess ec.ShareAccess
              o.userWritableReferences o.ioCheckShareAccess2 ≠ STATUS_SUCCESS →
            (DokanDispatchCreate env o irpSp w).status
                = DokanCheckShareAccess (fr.w.fcb b) ec.DesiredAccess ec.ShareAccess
                    o.userWritableReferences o.ioCheckShareAccess2
              ∧ (callsSince w (DokanDispatchCreate env o irpSp w).w).countP
                  Event.isShareGrant = 0)
          ∧ (DokanCheckShareAccess (fr.w.fcb b) ec.DesiredAccess ec.ShareAccess
              o.userWritableReferences o.ioCheckShareAccess2 = STATUS_SUCCESS →
            (createShare o irpSp fr).2 = false
              ∧ (callsSince w (DokanDispatchCreate env o irpSp w).w).countP
                  Event.isShareGrant = 1
              ∧ [Event.OplockBreakH b, Event.IoUpdateShareAccess b]
                  <+: callsSince fr.w (DokanDispatchCreate env o irpSp w).w)) := by
  have hD : DokanDispatchCreate env o irpSp w
      = createFinally (andThen (andThen (createShare o irpSp fr) (createOplock o irpSp))
          (createRegister o)).1 := by
    unfold DokanDispatchCreate DokanDispatchCreateTry
    rw [hreach, andThen_next (fr, false) _ rfl]
  have hx1 : Ext (fun e => !(e.isOplockBreak || e.isShareGrant)) w fr.w := by
    have h := createUpToShare_ext env o irpSp w
    rw [hreach] at h
    exact ext_mono _ _ _ _ (fun e he => later_calls e (Or.inl he)) h
  have hx3 := afterShare_ext o irpSp (createShare o irpSp fr)
  rw [← hD] at hx3
  have hQb : ∀ e : Event, (!(e.isOplockBreak || e.isShareGrant)) = true →
      e.isOplockBreak = false := by
    intro e he
    cases hv : e.isOplockBreak with
    | false => rfl
    | true =>
      rw [hv] at he
      exact Bool.noConfusion he
  have hQg : ∀ e : Event, (!(e.isOplockBreak || e.isShareGrant)) = true →
      e.isShareGrant = false := by
    intro e he
    cases hv : e.isShareGrant with
    | false => rfl
    | true =>
      rw [hv, Bool.or_true] at he
      exact Bool.noConfusion he
  -- the calls of the dispatch, from the calls `mid` of the share access check
  have hcnt : ∀ mid : List Event, (createShare o irpSp fr).1.w.trace = fr.w.trace ++ mid →
      (callsSince w (DokanDispatchCreate env o irpSp w).w).countP Event.isOplockBreak
          = mid.countP Event.isOplockBreak
        ∧ (callsSince w (DokanDispatchCreate env o irpSp w).w).countP Event.isShareGrant
            = mid.countP Event.isShareGrant
        ∧ mid <+: callsSince fr.w (DokanDispatchCreate env o irpSp w).w := by
    intro mid hmid
    obtain ⟨c1, c2⟩ := countP_mid Event.isOplockBreak _ hQb w fr.w _ _ mid hx1 hmid hx3
    obtain ⟨c3, _⟩ := countP_mid Event.isShareGrant _ hQg w fr.w _ _ mid hx1 hmid hx3
    exact ⟨c1, c3, c2⟩
  -- the frame returned when the share access check leaves
  have hleft : ∀ fr2 : CreateFrame, createShare o irpSp fr = (fr2, true) →
      DokanDispatchCreate env o irpSp w = createFinally fr2 := by
    intro fr2 h2
    rw [hD, h2, andThen_left (fr2, true) _ rfl, andThen_left (fr2, true) _ rfl]
  have hsh := createShare_break o irpSp fr b ec hfcb hec hcount hsv hopt
  by_cases hp : o.oplockBreakH = STATUS_PENDING
  · rw [if_pos hp] at hsh
    obtain ⟨c1, c2, c3⟩ := hcnt [Event.OplockBreakH b] (by rw [hsh]; rfl)
    have hDf := hleft _ hsh
    refine ⟨⟨c1, c3⟩, fun _ => ?_, fun h => absurd hp h, fun h => absurd hp h⟩
    refine ⟨?_, c2, ?_, ?_, ?_⟩
    · rw [hDf, (createFinally_fields _).1]
    · rw [hDf]
      unfold createFinally
      rw [if_neg (show ¬ (NT_SUCCESS STATUS_PENDING = false) by decide)]
    · rw [hDf, (createFinally_fields _).2.2.2.1]
      exact hfcb
    · rw [hDf, (createFinally_fields _).2.2.2.2.1]
  · rw [if_neg hp] at hsh
    by_cases hn : NT_SUCCESS o.oplockBreakH = false
    · rw [if_pos hn] at hsh
      obtain ⟨c1, c2, c3⟩ := hcnt [Event.OplockBreakH b] (by rw [hsh]; rfl)
      have hDf := hleft _ hsh
      refine ⟨⟨c1, c3⟩, fun h => absurd h hp, fun _ _ => ⟨?_, c2⟩, fun _ h => ?_⟩
      · rw [hDf, (createFinally_fields _).1]
      · rw [hn] at h
        exact Bool.noConfusion h
    · rw [if_neg hn] at hsh
      by_cases h2 : DokanCheckShareAccess (fr.w.fcb b) ec.DesiredAccess ec.ShareAccess
          o.userWritableReferences o.ioCheckShareAccess2 ≠ STATUS_SUCCESS
      · rw [if_pos h2] at hsh
        obtain ⟨c1, c2, c3⟩ := hcnt [Event.OplockBreakH b] (by rw [hsh]; rfl)
        have hDf := hleft _ hsh
        refine ⟨⟨c1, c3⟩, fun h => absurd h hp, fun _ h => absurd h hn, fun _ _ => ⟨?_, ?_⟩⟩
        · intro _
          refine ⟨?_, c2⟩
          rw [hDf, (createFinally_fields _).1]
        · intro h
          exact absurd h h2
      · rw [if_neg h2] at hsh
        obtain ⟨c1, c2, c3⟩ := hcnt [Event.OplockBreakH b, Event.IoUpdateShareAccess b]
          (by rw [hsh]; simp [World.emit])
        refine ⟨⟨c1, ?_⟩, fun h => absurd h hp, fun _ h => absurd h hn, fun _ _ => ⟨?_, ?_⟩⟩
        · obtain ⟨t, ht⟩ := c3
          exact ⟨Event.IoUpdateShareAccess b :: t, by rw [← ht]; rfl⟩
        · intro h
          exact absurd h h2
        · intro _
          refine ⟨by rw [hsh], c2, c3⟩

/-- C23, witness: an open of `\foo` while `\foo` is open once and `IoCheckShareAccess`
reports a sharing violation. When `FsRtlOplockBreakH` returns `STATUS_PENDING` the
dispatch returns `STATUS_PENDING` after one break and records no share access; when it
succeeds and the second check succeeds, the dispatch makes one break and records one
share access. -/
theorem C23_oplock_break_retry_witness :
    ((callsSince sampleOpenWorld
          (DokanDispatchCreate sampleEnv samplePendingBreakOracle sampleOpenRequest
            sampleOpenWorld).w).countP Event.isOplockBreak = 1
        ∧ (DokanDispatchCreate sampleEnv samplePendingBreakOracle sampleOpenRequest
            sampleOpenWorld).status = STATUS_PENDING
        ∧ (callsSince sampleOpenWorld
            (DokanDispatchCreate sampleEnv samplePendingBreakOracle sampleOpenRequest
              sampleOpenWorld).w).countP Event.isShareGrant = 0)
      ∧ ((callsSince sampleOpenWorld
          (DokanDispatchCreate sampleEnv sampleViolationOracle sampleOpenRequest
            sampleOpenWorld).w).countP Event.isOplockBreak = 1
        ∧ (callsSince sampleOpenWorld
            (DokanDispatchCreate sampleEnv sampleViolationOracle sampleOpenRequest
              sampleOpenWorld).w).countP Event.isShareGrant = 1) :=
  have h1 := C23_oplock_break_retry sampleEnv samplePendingBreakOracle sampleOpenRequest
    sampleOpenWorld
    (createUpToShare sampleEnv samplePendingBreakOracle sampleOpenRequest sampleOpenWorld).1 0
    ((createUpToShare sampleEnv samplePendingBreakOracle sampleOpenRequest
      sampleOpenWorld).1.eventContext.getD {})
    (by decide) (by decide) (by decide) (by decide) (by decide) (by decide)
  have h2 := C23_oplock_break_retry sampleEnv sampleViolationOracle sampleOpenRequest
    sampleOpenWorld
    (createUpToShare sampleEnv sampleViolationOracle sampleOpenRequest sampleOpenWorld).1 0
    ((createUpToShare sampleEnv sampleViolationOracle sampleOpenRequest
      sampleOpenWorld).1.eventContext.getD {})
    (by decide) (by decide) (by decide) (by decide) (by decide) (by decide)
  ⟨⟨h1.1.1, (h1.2.1 (by decide)).1, (h1.2.1 (by decide)).2.1⟩,
    ⟨h2.1.1, ((h2.2.2.2 (by decide) (by decide)).2 (by decide)).2.1⟩⟩

/-! ## Claims on paths of 65536 bytes or more and on the unwind of a retry -/

/-- C9, the code on every path of 65536 bytes or more: on a cache whose list holds
addresses of blocks and does not hold the path, two successive calls of `DokanGetFCB`
with pool allocation succeeding and no release in between return two different
blocks. Both calls allocate, both blocks are linked at the tail of the cache with the
same stored name, whose length is `(USHORT)FileNameLength` (lines 92 and 93), and each
holds one reference: the second call does not find the block of the first, because
line 129 compares the stored length with the untruncated `FileNameLength`. -/
theorem C9_long_path_acquired_twice (env : Env) (w : World) (FileName : List Nat) (L : Nat)
    (c1 c2 : PoolOracle × Bool) (hv : w.cacheValid) (hL : 65536 ≤ L)
    (hpool : ∀ c ∈ [c1, c2], c.1.fcbFirst = true ∧ c.1.resource = true)
    (hnone : ∀ c ∈ [c1, c2], findFCB env w FileName L c.2 w.vcb.NextFCB = none) :
    (DokanGetFCB_calls env FileName L [c1, c2] w).2
        = [some w.fcbs.length, some (w.fcbs.length + 1)]
      ∧ (DokanGetFCB_calls env FileName L [c1, c2] w).1.vcb.NextFCB
          = w.vcb.NextFCB ++ [w.fcbs.length, w.fcbs.length + 1]
      ∧ (DokanGetFCB_calls env FileName L [c1, c2] w).1.fcbs.length = w.fcbs.length + 2
      ∧ (DokanGetFCB_calls env FileName L [c1, c2] w).1.vcb.FcbAllocations
          = w.vcb.FcbAllocations + 2
      ∧ ((DokanGetFCB_calls env FileName L [c1, c2] w).1.fcb w.fcbs.length).FileName
          = { Length := toUSHORT L, MaximumLength := toUSHORT L, Buffer := some FileName }
      ∧ ((DokanGetFCB_calls env FileName L [c1, c2] w).1.fcb (w.fcbs.length + 1)).FileName
          = { Length := toUSHORT L, MaximumLength := toUSHORT L, Buffer := some FileName }
      ∧ ((DokanGetFCB_calls env FileName L [c1, c2] w).1.fcb w.fcbs.length).FileCount = 1
      ∧ ((DokanGetFCB_calls env FileName L [c1, c2] w).1.fcb (w.fcbs.length + 1)).FileCount
          = 1 := by
  obtain ⟨w1, hw1, hS1⟩ := DokanGetFCB_first env c1.1 w FileName L c1.2
    (hpool c1 (by simp)).1 (hpool c1 (by simp)).2 (hnone c1 (by simp))
  obtain ⟨w2, hw2, hS2, hkeep⟩ := DokanGetFCB_long_again env c2.1 w w1 FileName L c2.2 1 hv hL
    (hpool c2 (by simp)).1 (hpool c2 (by simp)).2 hS1 (hnone c2 (by simp))
  have hrun : DokanGetFCB_calls env FileName L [c1, c2] w
      = (w2, [some w.fcbs.length, some (w.fcbs.length + 1)]) := by
    rw [DokanGetFCB_calls]
    simp only [hw1]
    rw [DokanGetFCB_calls]
    simp only [hw2]
    rw [DokanGetFCB_calls]
  rw [hrun]
  obtain ⟨a1, a2, _, a4, a5, _, a7, _⟩ := hS1
  obtain ⟨b1, b2, b3, b4, b5, _, b7, _⟩ := hS2
  have hlt : w.fcbs.length < w1.fcbs.length := by omega
  have hcount : (w2.fcb w.fcbs.length).FileCount = 1 := by
    rw [hkeep _ hlt, a5]
  refine ⟨rfl, ?_, ?_, ?_, ?_, ?_, hcount, ?_⟩
  · show w2.vcb.NextFCB = _
    rw [b1, a1, a2, List.append_assoc]
    rfl
  · show w2.fcbs.length = _
    omega
  · show w2.vcb.FcbAllocations = _
    omega
  · show (w2.fcb w.fcbs.length).FileName = _
    rw [b3 _ hlt, a4]
  · show (w2.fcb (w.fcbs.length + 1)).FileName = _
    rw [← a2, b4]
  · show (w2.fcb (w.fcbs.length + 1)).FileCount = 1
    rw [← a2, b5]

/-- C9, failing input: a path of 32768 characters (`FileNameLength` 65536) on the empty
cache. Two calls return the blocks 0 and 1, the cache list is `[0, 1]`, two blocks
were allocated, each holds one reference, and both store the length
`(USHORT)65536 = 0`. -/
theorem C9_long_path_acquired_twice_witness :
    findFCB sampleEnv {}
        (List.replicate 32768 97 ++ [0]) 65536 true ({} : World).vcb.NextFCB = none
      ∧ (DokanGetFCB_calls sampleEnv
          (List.replicate 32768 97 ++ [0]) 65536 [({}, true), ({}, true)] {}).2
          = [some 0, some 1]
      ∧ (DokanGetFCB_calls sampleEnv
          (List.replicate 32768 97 ++ [0]) 65536 [({}, true), ({}, true)] {}).1.vcb.NextFCB
          = [0, 1]
      ∧ (DokanGetFCB_calls sampleEnv
          (List.replicate 32768 97 ++ [0]) 65536
          [({}, true), ({}, true)] {}).1.vcb.FcbAllocations = 2
      ∧ ((DokanGetFCB_calls sampleEnv
          (List.replicate 32768 97 ++ [0]) 65536 [({}, true), ({}, true)] {}).1.fcb 0).FileCount
          = 1
      ∧ ((DokanGetFCB_calls sampleEnv
          (List.replicate 32768 97 ++ [0]) 65536 [({}, true), ({}, true)] {}).1.fcb 1).FileCount
          = 1
      ∧ ((DokanGetFCB_calls sampleEnv
          (List.replicate 32768 97 ++ [0]) 65536
          [({}, true), ({}, true)] {}).1.fcb 0).FileName.Length = 0 :=
  have h := C9_long_path_acquired_twice sampleEnv {} (List.replicate 32768 97 ++ [0]) 65536
    ({}, true) ({}, true) (by intro b hb; cases hb) (by decide) (by decide)
    (by intro c _; rfl)
  ⟨rfl, h.1, h.2.1, h.2.2.2.1, h.2.2.2.2.2.2.1, h.2.2.2.2.2.2.2,
    (congrArg UNICODE_STRING.Length h.2.2.2.2.1).trans (by decide)⟩

/-- C11, the code on every path of 65536 bytes or more: on a cache whose list holds
addresses of blocks and does not hold the path, after two successive calls of
`DokanGetFCB` with pool allocation succeeding the cache list ends with two blocks that
store the same path (the same byte length `(USHORT)FileNameLength` and the same
characters), so the cache no longer has distinct paths: one of the two calls broke
the invariant. -/
theorem C11_long_path_breaks_uniqueness (env : Env) (w : World) (FileName : List Nat)
    (L : Nat) (o1 o2 : PoolOracle) (cs1 cs2 : Bool) (hv : w.cacheValid) (hL : 65536 ≤ L)
    (hp1 : o1.fcbFirst = true ∧ o1.resource = true)
    (hp2 : o2.fcbFirst = true ∧ o2.resource = true)
    (hn1 : findFCB env w FileName L cs1 w.vcb.NextFCB = none)
    (hn2 : findFCB env w FileName L cs2 w.vcb.NextFCB = none) :
    (DokanGetFCB env o2 (DokanGetFCB env o1 w FileName L cs1).1 FileName L cs2).1.vcb.NextFCB
        = w.vcb.NextFCB ++ [w.fcbs.length, w.fcbs.length + 1]
      ∧ ((DokanGetFCB env o2 (DokanGetFCB env o1 w FileName L cs1).1 FileName L cs2).1.fcb
          w.fcbs.length).FileName
        = ((DokanGetFCB env o2 (DokanGetFCB env o1 w FileName L cs1).1 FileName L cs2).1.fcb
          (w.fcbs.length + 1)).FileName
      ∧ ¬ (DokanGetFCB env o2 (DokanGetFCB env o1 w FileName L cs1).1 FileName L
          cs2).1.cacheUnique := by
  obtain ⟨w1, hw1, hS1⟩ := DokanGetFCB_first env o1 w FileName L cs1 hp1.1 hp1.2 hn1
  obtain ⟨w2, hw2, hS2, _⟩ := DokanGetFCB_long_again env o2 w w1 FileName L cs2 1 hv hL
    hp2.1 hp2.2 hS1 hn2
  rw [hw1]
  dsimp only
  rw [hw2]
  dsimp only
  obtain ⟨a1, a2, _, a4, _, _, _, _⟩ := hS1
  obtain ⟨b1, _, b3, b4, _, _, _, _⟩ := hS2
  have hlt : w.fcbs.length < w1.fcbs.length := by omega
  have hlist : w2.vcb.NextFCB = w.vcb.NextFCB ++ [w.fcbs.length, w.fcbs.length + 1] := by
    rw [b1, a1, a2, List.append_assoc]
    rfl
  have hname : (w2.fcb w.fcbs.length).FileName = (w2.fcb (w.fcbs.length + 1)).FileName := by
    rw [b3 _ hlt, a4, ← a2, b4]
  refine ⟨hlist, hname, ?_⟩
  intro hu
  unfold World.cacheUnique World.cachedPaths at hu
  rw [hlist, List.map_append] at hu
  have h2 := (List.nodup_append.mp hu).2.1
  simp only [List.map_cons, List.map_nil, hname] at h2
  simp at h2

/-- C11, failing input: a path of 32768 characters (`FileNameLength` 65536) on the
empty cache. After one call the cache is well formed with distinct paths; the second
call does not find the block, whose stored length is `(USHORT)65536 = 0`, and links a
second block with the same stored path. -/
theorem C11_long_path_breaks_uniqueness_witness :
    (DokanGetFCB sampleEnv {} {} (List.replicate 32768 97 ++ [0]) 65536 true).1.cacheValid
      ∧ (DokanGetFCB sampleEnv {} {} (List.replicate 32768 97 ++ [0]) 65536 true).1.cacheUnique
      ∧ (DokanGetFCB sampleEnv {}
            (DokanGetFCB sampleEnv {} {} (List.replicate 32768 97 ++ [0]) 65536 true).1
            (List.replicate 32768 97 ++ [0]) 65536 true).1.vcb.NextFCB = [0, 1]
      ∧ ¬ (DokanGetFCB sampleEnv {}
            (DokanGetFCB sampleEnv {} {} (List.replicate 32768 97 ++ [0]) 65536 true).1
            (List.replicate 32768 97 ++ [0]) 65536 true).1.cacheUnique :=
  have h := C11_long_path_breaks_uniqueness sampleEnv {} (List.replicate 32768 97 ++ [0])
    65536 {} {} true true (by intro b hb; cases hb) (by decide) (by decide) (by decide) rfl rfl
  ⟨by decide, by decide, h.1, h.2.2⟩

/-- C12, the code: the failure unwind of `DokanDispatchCreate` is per dispatch. A
dispatch that holds the block `b` and returns a failure status (a first dispatch or a
retry, as in `dispatch_failure_unwind`) gives back one reference of `b`, takes the CCB
of the request off the list of `b`, backs out the atomic oplock, clears both contexts
of the file object, and calls `IoRemoveShareAccess` as often as this dispatch recorded
a share access: `UnwindShareAccess` is a local that starts `FALSE` (line 538). So for
every earlier memory `w0` of the same request, from which the calls `t0` led to the
memory `w` at entry, the calls since `w0` hold the share accesses recorded in `t0`
plus those of this dispatch, and the removals of `t0` plus as many as this dispatch
recorded: a share access that an earlier dispatch of the request recorded and did not
remove is still recorded when the retry has failed. -/
theorem C12_failure_unwind_per_dispatch (env : Env) (o : CreateOracle)
    (irpSp : IO_STACK_LOCATION) (w : World) (b : Nat)
    (hfirst : (w.fileObject.bind (fun fo => fo.FsContext2)) = none →
      w.cacheTagged ∧ ∀ c ∈ (w.fcb b).NextCCB, c < w.ccbs.length)
    (hretry : ∀ c, (w.fileObject.bind (fun fo => fo.FsContext2)) = some c →
      (w.ccb c).IdentifierType = FSD_IDENTIFIER_TYPE.CCB
        ∧ (w.ccb c).Flags.RETRY_CREATE = true ∧ (w.ccb c).Linked = true
        ∧ (w.fcb b).IdentifierType = FSD_IDENTIFIER_TYPE.FCB
        ∧ c ∉ (w.fcb b).NextCCB.erase c)
    (hb : (DokanDispatchCreate env o irpSp w).fcb = some b)
    (hfail : NT_SUCCESS (DokanDispatchCreate env o irpSp w).status = false) :
    ((DokanDispatchCreate env o irpSp w).w.fcb b).FileCount
        = (w.fcb b).FileCount
          - (if (w.fileObject.bind (fun fo => fo.FsContext2)) = none then 0 else 1)
      ∧ (∀ c, (DokanDispatchCreate env o irpSp w).ccb = some c →
          c ∉ ((DokanDispatchCreate env o irpSp w).w.fcb b).NextCCB)
      ∧ (callsSince w (DokanDispatchCreate env o irpSp w).w).countP Event.isShareGrant
          = (callsSince w (DokanDispatchCreate env o irpSp w).w).countP Event.isShareRemoval
      ∧ (∀ (w0 : World) (t0 : List Event), w.trace = w0.trace ++ t0 →
          (callsSince w0 (DokanDispatchCreate env o irpSp w).w).countP Event.isShareGrant
              = t0.countP Event.isShareGrant
                + (callsSince w (DokanDispatchCreate env o irpSp w).w).countP
                    Event.isShareGrant
            ∧ (callsSince w0 (DokanDispatchCreate env o irpSp w).w).countP
                Event.isShareRemoval
              = t0.countP Event.isShareRemoval
                + (callsSince w (DokanDispatchCreate env o irpSp w).w).countP
                    Event.isShareGrant)
      ∧ (∀ c, (DokanDispatchCreate env o irpSp w).ccb = some c →
          ((DokanDispatchCreate env o irpSp w).w.ccb c).AtomicOplockRequestPending = false
            ∧ (((DokanDispatchCreateTry env o irpSp w).w.ccb c).AtomicOplockRequestPending
                  = true →
                Event.BackOutAtomicOplock b
                  ∈ callsSince w (DokanDispatchCreate env o irpSp w).w))
      ∧ ((DokanDispatchCreate env o irpSp w).w.fileObject.bind (fun fo => fo.FsContext))
          = none
      ∧ ((DokanDispatchCreate env o irpSp w).w.fileObject.bind (fun fo => fo.FsContext2))
          = none
      ∧ (DokanDispatchCreate env o irpSp w).w.fileObject ≠ none := by
  obtain ⟨h1, h2, h3, h4, h5, h6, h7⟩ :=
    dispatch_failure_unwind env o irpSp w b hfirst hretry hb hfail
  refine ⟨h1, h2, h3, ?_, h4, h5, h6, h7⟩
  intro w0 t0 ht0
  have hD := dispatch_extends env o irpSp w
  generalize callsSince w (DokanDispatchCreate env o irpSp w).w = tD at hD h3 ⊢
  have hsince : callsSince w0 (DokanDispatchCreate env o irpSp w).w = t0 ++ tD := by
    unfold callsSince
    rw [hD, ht0, List.append_assoc, List.drop_left]
  rw [hsince, List.countP_append, List.countP_append, h3]
  exact ⟨rfl, rfl⟩

/-- C12, failing input: an open of `\foo` while `\foo` is open once. The first dispatch
records the share access (line 1246) and returns `STATUS_PENDING` from
`FsRtlCheckOplock` (line 1274), a success status, so nothing is unwound. The create is
dispatched again with its CCB flagged `DOKAN_RETRY_CREATE`; the retry records the
share access a second time, `DokanRegisterPendingIrp` fails, and the unwind removes
one share access. Over the request two share accesses were recorded and one was
removed; the count of the block, the list of CCBs and the contexts are restored. -/
theorem C12_failure_unwind_per_dispatch_witness :
    ((DokanDispatchCreate sampleEnv samplePendingCheckOracle sampleOpenRequest
          sampleOpenWorld).status = STATUS_PENDING
        ∧ callsSince sampleOpenWorld sampleRetryAfterPendingWorld
            = [Event.AllocateEventContext 186, Event.IoUpdateShareAccess 0,
                Event.CheckOplock 0, Event.CompleteIrpRequest STATUS_PENDING 0]
        ∧ NT_SUCCESS (DokanDispatchCreate sampleEnv sampleRegisterFailureOracle
            sampleOpenRequest sampleRetryAfterPendingWorld).status = false)
      ∧ ((callsSince sampleOpenWorld
            (DokanDispatchCreate sampleEnv sampleRegisterFailureOracle sampleOpenRequest
              sampleRetryAfterPendingWorld).w).countP Event.isShareGrant = 2
        ∧ (callsSince sampleOpenWorld
            (DokanDispatchCreate sampleEnv sampleRegisterFailureOracle sampleOpenRequest
              sampleRetryAfterPendingWorld).w).countP Event.isShareRemoval = 1)
      ∧ ((sampleOpenWorld.fcb 0).FileCount = 1
        ∧ ((DokanDispatchCreate sampleEnv sampleRegisterFailureOracle sampleOpenRequest
            sampleRetryAfterPendingWorld).w.fcb 0).FileCount = 1
        ∧ ((DokanDispatchCreate sampleEnv sampleRegisterFailureOracle sampleOpenRequest
            sampleRetryAfterPendingWorld).w.fcb 0).NextCCB = []) :=
  have h := C12_failure_unwind_per_dispatch sampleEnv sampleRegisterFailureOracle
    sampleOpenRequest sampleRetryAfterPendingWorld 0
    (fun hn => Option.noConfusion (show (some 0 : Option Nat) = none from hn))
    (fun c hc =>
      have e : 0 = c := Option.some.inj (show (some 0 : Option Nat) = some c from hc)
      e ▸ ⟨by decide, by decide, by decide, by decide, by decide⟩)
    (by decide) (by decide)
  have h4 := h.2.2.2.1 sampleOpenWorld
    [Event.AllocateEventContext 186, Event.IoUpdateShareAccess 0, Event.CheckOplock 0,
      Event.CompleteIrpRequest STATUS_PENDING 0] (by decide)
  ⟨⟨by decide, by decide, by decide⟩,
    ⟨h4.1.trans (by decide), h4.2.trans (by decide)⟩,
    ⟨by decide, h.1.trans (by decide), by decide⟩⟩

end Dokan
